import Mathlib

/-! lightning-objects: object persistence on an ordered key/value store.

A shallow embedding of `src/kvstore.h`, `src/kvstore.cpp` and `src/kvtraits.h`.

Conventions of the embedding

* C++ pointers to mutable records (`CollectionInfo *`, `AbstractClassInfo *`) become values
  that are passed in and handed back.
* Exceptions, and operations whose C++ behaviour is undefined, become `Except Err`.
* Machine integers are `Nat`. The counters (object ids, collection ids, element counts and
  start indexes: 64 bit; chunk ids: 16 bit) carry an explicit modulus at every increment.
  Byte counts of values held in memory are bounded by the address space and carry none.
* `kvbuf.h` (byte codec, `ReadBuf`, `WriteBuf`, size constants) and the LMDB backend are not
  part of the sources; they are modelled from the specification and marked as such.
-/

namespace flexis

/-! ## Errors -/

/-- Errors raised by the engine. `undefined_behaviour` stands for an operation whose C++
behaviour is undefined (`back()` on an empty vector, a write outside a buffer, a null
dereference). -/
inductive Err where
  | persistence_error (msg : String)
  | incompatible_schema_error (detail : String)
  | buffer_full
  | corrupt_data
  | undefined_behaviour (what : String)
  deriving DecidableEq, Repr

/-! ## Identifier types and constants -/

/-- A single byte. -/
abbrev byte_t := Fin 256

/-- Wrap-around of a 64 bit unsigned integer (`size_t`, `ObjectId`). -/
def wrap64 (n : Nat) : Nat := n % 2 ^ 64

/-- Wrap-around of a 16 bit unsigned integer (`PropertyId`). -/
def wrap16 (n : Nat) : Nat := n % 2 ^ 16

/-- `COLLECTION_CLSID` of kvstore.h. -/
def COLLECTION_CLSID : Nat := 1

/-- `COLLINFO_CLSID` of kvstore.h. -/
def COLLINFO_CLSID : Nat := 2

/-- `CHUNKSIZE` of kvstore.h: the default chunk size. -/
def CHUNKSIZE : Nat := 1024 * 2

/-- Modelled from the spec: `ClassId_sz` of the missing kvbuf.h, "ClassId (4 LE)". -/
def ClassId_sz : Nat := 4

/-- Modelled from the spec: `ObjectId_sz` of the missing kvbuf.h, "ObjectId (8 LE)". -/
def ObjectId_sz : Nat := 8

/-- Modelled from the spec: `ObjectHeader_sz` of the missing kvbuf.h, the size of the layout
"ObjectHeader = ClassId (4 LE) | ObjectId (8 LE) | size_hint (u32 LE)": the bytes that
`writeObjectHeader` and `readObjectHeader` of kvstore.cpp write and read. -/
def ObjectHeader_sz : Nat := ClassId_sz + ObjectId_sz + 4

/-- Modelled from the spec: `ChunkHeader_sz` of the missing kvbuf.h, "ChunkHeader = 12 bytes". -/
def ChunkHeader_sz : Nat := 12

/-- The composite key `(ClassId, ObjectId, PropertyId)`. -/
structure StorageKey where
  classId : Nat
  objectId : Nat
  propertyId : Nat
  deriving DecidableEq, Repr

/-- Lexicographic order of composite keys (class-major, object-minor). -/
def StorageKey.lt (a b : StorageKey) : Bool :=
  a.classId < b.classId ||
    (a.classId == b.classId &&
      (a.objectId < b.objectId || (a.objectId == b.objectId && a.propertyId < b.propertyId)))

/-! ## Byte codec (kvbuf.h) -/

/-- Modelled from the spec: `write_integer` of the missing kvbuf.h, "little-endian,
zero-extended for narrower widths". The value is an `Int`, so that signed values are written
in two's complement. -/
def write_integer (v : Int) : Nat → List byte_t
  | 0 => []
  | w + 1 => Fin.ofNat (v % 256).toNat :: write_integer (v / 256) w

/-- Modelled from the spec: `read_integer` of the missing kvbuf.h: the unsigned little-endian
value of the first `width` bytes. -/
def read_integer : List byte_t → Nat → Nat
  | _, 0 => 0
  | [], _ + 1 => 0
  | b :: bs, w + 1 => b.val + 256 * read_integer bs w

/-- Reinterpretation of an unsigned `width`-byte value as a signed one. -/
def to_signed (width : Nat) (n : Nat) : Int :=
  if n < 2 ^ (8 * width - 1) then (n : Int) else (n : Int) - 2 ^ (8 * width)

/-- Overwrite the bytes of `region` from offset `off` on with `bytes`. -/
def pokeAt (region : List byte_t) (off : Nat) (bytes : List byte_t) : List byte_t :=
  region.take off ++ bytes ++ region.drop (off + bytes.length)

/-- Modelled from the spec: `ReadBuf` of the missing kvbuf.h, "a ReadCursor carries a pointer
and a remaining length". -/
structure ReadBuf where
  data : List byte_t
  pos : Nat := 0
  deriving DecidableEq, Repr

namespace ReadBuf

/-- Modelled from the spec: `ReadBuf::read(n)`, failing "if insufficient bytes remain". -/
def read (b : ReadBuf) (n : Nat) : Except Err (List byte_t × ReadBuf) :=
  if b.pos + n ≤ b.data.length then
    .ok ((b.data.drop b.pos).take n, { b with pos := b.pos + n })
  else .error .corrupt_data

/-- Modelled from the spec: `ReadBuf::readInteger<T>(width)`. -/
def readInteger (b : ReadBuf) (width : Nat) : Except Err (Nat × ReadBuf) :=
  match b.read width with
  | .ok (bytes, b') => .ok (read_integer bytes width, b')
  | .error e => .error e

/-- Modelled from the spec: `ReadBuf::atEnd()`. -/
def atEnd (b : ReadBuf) : Bool := b.data.length ≤ b.pos

end ReadBuf

/-- Modelled from the spec: `WriteBuf` of the missing kvbuf.h, "a WriteCursor tracks
(start, pos, end)". `data` is the region `[start, end)`, `pos` the filled length, and `key`
names the store entry the region lies in when the buffer was started on memory handed out by
`allocData`. -/
structure WriteBuf where
  data : List byte_t := []
  pos : Nat := 0
  key : Option StorageKey := none
  deriving DecidableEq, Repr

namespace WriteBuf

/-- Modelled from the spec: `WriteBuf::size()`, the filled length. -/
def size (b : WriteBuf) : Nat := b.pos

/-- Modelled from the spec: `WriteBuf::avail()`, the bytes left before the end. -/
def avail (b : WriteBuf) : Nat := b.data.length - b.pos

/-- Modelled from the spec: `WriteBuf::start(size)`, a fresh private buffer. -/
def start (size : Nat) : WriteBuf := { data := List.replicate size 0, pos := 0, key := none }

/-- Modelled from the spec: `WriteBuf::start(data, size)`, a buffer over store memory. -/
def startOn (key : StorageKey) (region : List byte_t) (pos : Nat) : WriteBuf :=
  { data := region, pos := pos, key := some key }

/-- Modelled from the spec: `WriteBuf::allocate(n)`, "failing with BufferFull if
pos + n > end". Returns the offset of the slice. -/
def allocate (b : WriteBuf) (n : Nat) : Except Err (Nat × WriteBuf) :=
  if b.pos + n ≤ b.data.length then .ok (b.pos, { b with pos := b.pos + n })
  else .error .buffer_full

/-- The filled part of the buffer, which is what `putData` stores. -/
def filled (b : WriteBuf) : List byte_t := b.data.take b.pos

end WriteBuf

/-! ## The ordered key/value backend -/

/-- Modelled from the spec: the ordered KV engine behind `getData`, `putData`, `allocData` and
the chunk cursors (the LMDB backend is not part of the sources). Entries are kept in key
order; `full` is the backend's out-of-space condition, under which `put` and `allocate`
fail. -/
structure Store where
  entries : List (StorageKey × List byte_t) := []
  full : Bool := false
  deriving DecidableEq, Repr

namespace Store

/-- Ordered insertion that replaces the value of an existing key. -/
def insertEntry (k : StorageKey) (v : List byte_t) :
    List (StorageKey × List byte_t) → List (StorageKey × List byte_t)
  | [] => [(k, v)]
  | (k', v') :: rest =>
    if k = k' then (k, v) :: rest
    else if k.lt k' then (k, v) :: (k', v') :: rest
    else (k', v') :: insertEntry k v rest

/-- Store `v` under `k`, whatever the space condition (used for writes into a region that
was allocated before). -/
def set (s : Store) (k : StorageKey) (v : List byte_t) : Store :=
  { s with entries := insertEntry k v s.entries }

/-- Modelled from the spec: `get(classId, objectId, propertyId) -> Option<ReadView>`. -/
def get (s : Store) (k : StorageKey) : Option (List byte_t) :=
  (s.entries.find? (fun e => e.1 = k)).map (fun e => e.2)

/-- Modelled from the spec: `put(classId, objectId, propertyId, bytes) -> Result`. -/
def put (s : Store) (k : StorageKey) (v : List byte_t) : Option Store :=
  if s.full then none else some (s.set k v)

/-- Modelled from the spec: `allocate(classId, objectId, propertyId, size)`, which "reserves an
uninitialized region for in-place writing"; the region is zero-filled here. -/
def allocate (s : Store) (k : StorageKey) (size : Nat) : Option (List byte_t × Store) :=
  if s.full then none else some (List.replicate size 0, s.set k (List.replicate size 0))

/-- The chunks of a collection, `(chunkId, bytes)` in ascending chunk id order. -/
def chunks (s : Store) (classId objectId : Nat) : List (Nat × List byte_t) :=
  (s.entries.filter (fun e => e.1.classId == classId && e.1.objectId == objectId)).map
    (fun e => (e.1.propertyId, e.2))

end Store

/-! ## Schema metadata (kvtraits.h, kvstore.h) -/

/-- `StoreLayout` of kvtraits.h. -/
inductive StoreLayout where
  | all_embedded
  | embedded_key
  | property
  | none
  deriving DecidableEq, Repr

/-- `StoreMode` of kvtraits.h. -/
inductive StoreMode where
  | force_none
  | force_all
  | force_buffer
  | force_property
  deriving DecidableEq, Repr

/-- `PropertyType` of kvtraits.h; a null `className` is `none`. -/
structure PropertyType where
  id : Nat
  isVector : Bool := false
  byteSize : Nat
  className : Option String := none
  deriving DecidableEq, Repr

/-- `KeyValueStoreBase::PropertyMetaInfo` of kvstore.h: the property info stored in the
database. -/
structure PropertyMetaInfo where
  name : String
  id : Nat
  typeId : Nat
  isVector : Bool
  byteSize : Nat
  className : String
  deriving DecidableEq, Repr

/-- The storage strategies of kvstore.h that are embedded here, each with the accessor
(`ClassTraits<T>::put`) that fetches the property value from an object of type `O`.

* `base`: `BasePropertyStorage<T, V>` for a fixed-size integral `V` of `byteSize` bytes,
* `string`: `BasePropertyStorage<T, std::string>`,
* `objectId`: `ObjectIdStorage<T>`,
* `valueVector`: `ValueVectorPropertyStorage<T, V>` for a fixed-size integral `V`. -/
inductive StoreAccess (O : Type) where
  | base (byteSize : Nat) (get : O → Int)
  | string (get : O → List byte_t)
  | objectId
  | valueVector (byteSize : Nat) (get : O → List Int)

/-- The `layout` a storage strategy is constructed with. -/
def StoreAccess.layout {O : Type} : StoreAccess O → StoreLayout
  | .base _ _ => .all_embedded
  | .string _ => .all_embedded
  | .objectId => .all_embedded
  | .valueVector _ _ => .property

/-- `PropertyAccessBase` of kvtraits.h. -/
structure PropertyAccessBase (O : Type) where
  name : String
  enabled : Bool := true
  classId : Nat := 0
  id : Nat := 0
  storage : StoreAccess O
  type : PropertyType

/-- Accessor pair of the `ObjectId`-typed key property (`PropertyAccess<O, ObjectId>`). -/
structure KeyAccess (O : Type) where
  get : O → Nat
  set : O → Nat → O

/-- `Properties` of kvtraits.h: the declared properties of a class, chained to those of its
mapped superclass through `superIter`. -/
inductive Properties (O : Type) where
  | mk (decl_props : List (PropertyAccessBase O)) (superIter : Option (Properties O))
      (startPos : Nat) (keyProperty : Option (KeyAccess O)) (fixedSize : Nat)

namespace Properties

variable {O : Type}

/-- Field `decl_props`. -/
def decl_props : Properties O → List (PropertyAccessBase O)
  | .mk d _ _ _ _ => d

/-- Field `superIter`. -/
def superIter : Properties O → Option (Properties O)
  | .mk _ s _ _ _ => s

/-- Field `startPos`. -/
def startPos : Properties O → Nat
  | .mk _ _ p _ _ => p

/-- Field `keyProperty`. -/
def keyProperty : Properties O → Option (KeyAccess O)
  | .mk _ _ _ k _ => k

/-- Field `numProps`, the length of `decl_props`. -/
def numProps (p : Properties O) : Nat := p.decl_props.length

/-- `Properties::full_size`. -/
def full_size : Properties O → Nat
  | .mk d none _ _ _ => d.length
  | .mk d (some s) _ _ _ => full_size s + d.length

/-- `Properties::get`; an index outside the array, or a null `superIter`, is undefined
behaviour. -/
def get : Properties O → Nat → Except Err (PropertyAccessBase O)
  | .mk d none startPos _ _, index =>
    if index ≥ startPos then
      match d.get? (index - startPos) with
      | some pa => .ok pa
      | none => .error (.undefined_behaviour "decl_props index out of range")
    else .error (.undefined_behaviour "superIter is null")
  | .mk d (some s) startPos _ _, index =>
    if index ≥ startPos then
      match d.get? (index - startPos) with
      | some pa => .ok pa
      | none => .error (.undefined_behaviour "decl_props index out of range")
    else get s index

/-- `Properties::objectIdAccess`. -/
def objectIdAccess : Properties O → Option (KeyAccess O)
  | .mk _ none _ k _ => k
  | .mk _ (some s) _ k _ =>
    match k with
    | some a => some a
    | none => objectIdAccess s

end Properties

/-- `AbstractClassInfo` of kvtraits.h, with the `subs` pointers unfolded into a tree. -/
inductive AbstractClassInfo where
  | mk (name : String) (classId : Nat) (maxObjectId : Nat) (subs : List AbstractClassInfo)
  deriving Repr

namespace AbstractClassInfo

/-- Field `name`. -/
def name : AbstractClassInfo → String
  | .mk n _ _ _ => n

/-- Field `classId`. -/
def classId : AbstractClassInfo → Nat
  | .mk _ c _ _ => c

/-- Field `maxObjectId`. -/
def maxObjectId : AbstractClassInfo → Nat
  | .mk _ _ m _ => m

/-- Field `subs`. -/
def subs : AbstractClassInfo → List AbstractClassInfo
  | .mk _ _ _ s => s

/-- Assignment to the field `maxObjectId`. -/
def setMaxObjectId : AbstractClassInfo → Nat → AbstractClassInfo
  | .mk n c _ s, m => .mk n c m s

/-- `AbstractClassInfo::isPoly`. -/
def isPoly (c : AbstractClassInfo) : Bool := !c.subs.isEmpty

mutual
/-- `AbstractClassInfo::isInstance`. -/
def isInstance : AbstractClassInfo → Nat → Bool
  | .mk _ classId _ subs, _classId =>
    if classId == _classId then true else isInstanceSubs subs _classId
/-- The loop `for(auto s : subs) if(s->isInstance(_classId)) return true; return false;`. -/
def isInstanceSubs : List AbstractClassInfo → Nat → Bool
  | [], _ => false
  | s :: rest, _classId => if isInstance s _classId then true else isInstanceSubs rest _classId
end

mutual
/-- `AbstractClassInfo::resolve(ClassId)`; `none` is the null pointer. -/
def resolve : AbstractClassInfo → Nat → Option AbstractClassInfo
  | .mk n classId m subs, otherClassId =>
    if otherClassId == classId then some (.mk n classId m subs) else resolveSubs subs otherClassId
/-- The loop `for(auto res : subs) { r = res->resolve(otherClassId); if(r) return r; }`. -/
def resolveSubs : List AbstractClassInfo → Nat → Option AbstractClassInfo
  | [], _ => none
  | res :: rest, otherClassId =>
    match resolve res otherClassId with
    | some r => some r
    | none => resolveSubs rest otherClassId
end

/-- `AbstractClassInfo::doresolve(ClassId)`. -/
def doresolve (c : AbstractClassInfo) (otherClassId : Nat) : Except Err AbstractClassInfo :=
  match c.resolve otherClassId with
  | some r => .ok r
  | none => .error (.persistence_error "unknow classId. Class missing from registry")

/-- The nodes reachable from a class info by following `subs` transitively, the node itself
included. This is the specification side of `isInstance`, not a translation of code. -/
inductive Reaches : AbstractClassInfo → AbstractClassInfo → Prop
  | self (n : AbstractClassInfo) : Reaches n n
  | sub (n s m : AbstractClassInfo) : s ∈ n.subs → Reaches s m → Reaches n m

end AbstractClassInfo

/-- The static members of `ClassTraits<T>` that the transactions use: `info`, `properties`,
and the class ids of the chain of mapped superclasses (the `SUP` template parameter). -/
structure ClassTraits (O : Type) where
  info : AbstractClassInfo
  properties : Properties O
  sups : List Nat := []

/-! ## Schema compatibility (kvstore.cpp) -/

/-- Helper `streq` of kvstore.cpp. -/
def streq (s1 : String) (s2 : Option String) : Bool :=
  match s2 with
  | none => s1.isEmpty
  | some s => s1 == s

/-- The condition under which `updateClassSchema` throws for a persisted property `pi` and a
live property `pa` of the same name. -/
def typeChanged {O : Type} (pa : PropertyAccessBase O) (pi : PropertyMetaInfo) : Bool :=
  pa.type.id != pi.typeId
    || pa.type.byteSize != pi.byteSize || !streq pi.className pa.type.className
    || pi.isVector != pa.type.isVector

/-- The inner loop of `updateClassSchema` over the live properties, for one persisted `pi`. -/
def checkProperty {O : Type} (className : String) (pi : PropertyMetaInfo) :
    List (PropertyAccessBase O) → Except Err Unit
  | [] => .ok ()
  | pa :: rest =>
    if pi.name == pa.name && typeChanged pa pi then
      .error (.incompatible_schema_error
        ("class " ++ className ++ ": data type for property '" ++ pi.name ++ "' has changed"))
    else checkProperty className pi rest

/-- The outer loop of `updateClassSchema` over the persisted properties; returns `piNames`. -/
def checkInfos {O : Type} (className : String) (properties : List (PropertyAccessBase O)) :
    List PropertyMetaInfo → List String → Except Err (List String)
  | [], piNames => .ok piNames
  | pi :: rest, piNames =>
    match checkProperty className pi properties with
    | .error e => .error e
    | .ok () => checkInfos className properties rest (pi.name :: piNames)

/-- The second loop of `updateClassSchema`: disable what the database does not have. -/
def disableMissing {O : Type} (piNames : List String) :
    List (PropertyAccessBase O) → List (PropertyAccessBase O)
  | [] => []
  | pa :: rest =>
    (if !piNames.contains pa.name then { pa with enabled := false } else pa)
      :: disableMissing piNames rest

/-- `KeyValueStoreBase::updateClassSchema`. `propertyInfos` is what the pure virtual
`loadSaveClassMeta` hands back: the persisted properties, empty if the class was newly
declared. The result is the array `properties` after the call. -/
def updateClassSchema {O : Type} (className : String) (properties : List (PropertyAccessBase O))
    (propertyInfos : List PropertyMetaInfo) : Except Err (List (PropertyAccessBase O)) :=
  if !propertyInfos.isEmpty then
    match checkInfos className properties propertyInfos [] with
    | .error e => .error e
    | .ok piNames => .ok (disableMissing piNames properties)
  else .ok properties

/-! ## Transactions (kvstore.h, kvstore.cpp) -/

/-- `ChunkInfo` of kvstore.h. -/
structure ChunkInfo where
  chunkId : Nat := 0
  startIndex : Nat := 0
  elementCount : Nat := 0
  dataSize : Nat := 0
  deriving DecidableEq, Repr

/-- `CollectionInfo` of kvstore.h. -/
structure CollectionInfo where
  collectionId : Nat := 0
  chunkInfos : List ChunkInfo := []
  nextChunkId : Nat := 1
  nextStartIndex : Nat := 0
  deriving DecidableEq, Repr

/-- A call into the backend that changes or ends the transaction: a `putData` call (logged
whether or not the backend accepts it), a chunk allocation that `allocData` granted, the
final `doCommit`, and a `remove` call (logged whether or not the key exists). -/
inductive BackendOp where
  | put (key : StorageKey)
  | allocate (key : StorageKey) (size : Nat)
  | commit
  | remove (key : StorageKey)
  deriving DecidableEq, Repr

/-- The state of a `WriteTransaction` (which is also a `ReadTransaction`): the backend, the
current write buffer `*curBuf` with the chain of pushed buffers, the cache
`m_collectionInfos`, and the members `m_maxCollectionId` of the store and `reuseChunkspace()`
that the transaction reads. `log` records the backend calls in the order they were made; no
code reads it. -/
structure WriteTransaction where
  store : Store := {}
  writeBuf : WriteBuf := {}
  bufStack : List WriteBuf := []
  m_collectionInfos : List (Nat × CollectionInfo) := []
  m_maxCollectionId : Nat := 0
  reuseChunkspace : Bool := true
  log : List BackendOp := []
  deriving DecidableEq, Repr

namespace WriteBuf

/-- Modelled from the spec: `WriteBuf::append(data, n)`: allocate, then copy. -/
def append (b : WriteBuf) (bytes : List byte_t) : Except Err WriteBuf :=
  match b.allocate bytes.length with
  | .ok (off, b') => .ok { b' with data := pokeAt b'.data off bytes }
  | .error e => .error e

end WriteBuf

namespace WriteTransaction

/-- Replace the current write buffer. When the buffer lies in store memory (`allocData`),
its bytes are the bytes of the store entry. -/
def setBuf (tr : WriteTransaction) (b : WriteBuf) : WriteTransaction :=
  { tr with
    writeBuf := b
    store := match b.key with
      | some k => tr.store.set k b.data
      | none => tr.store }

/-- Append `bytes` to the current write buffer (`writeBuf().allocate` followed by the write
into the slice). -/
def append (tr : WriteTransaction) (bytes : List byte_t) : Except Err WriteTransaction :=
  match tr.writeBuf.append bytes with
  | .ok b => .ok (tr.setBuf b)
  | .error e => .error e

/-- The pure virtual `ReadTransaction::getData`; `none` is the null buffer. -/
def getData (tr : WriteTransaction) (classId objectId propertyId : Nat) : Option (List byte_t) :=
  tr.store.get ⟨classId, objectId, propertyId⟩

/-- The pure virtual `WriteTransaction::putData`: stores the filled part of `buf`. -/
def putData (tr : WriteTransaction) (classId objectId propertyId : Nat) (buf : WriteBuf) :
    Bool × WriteTransaction :=
  match tr.store.put ⟨classId, objectId, propertyId⟩ buf.filled with
  | some s =>
    (true, { tr with store := s, log := tr.log ++ [.put ⟨classId, objectId, propertyId⟩] })
  | none => (false, { tr with log := tr.log ++ [.put ⟨classId, objectId, propertyId⟩] })

/-- The pure virtual `WriteTransaction::allocData`; on success the region is handed back. -/
def allocData (tr : WriteTransaction) (classId objectId propertyId size : Nat) :
    Option (List byte_t × WriteTransaction) :=
  match tr.store.allocate ⟨classId, objectId, propertyId⟩ size with
  | some (region, s) =>
    some (region, { tr with
      store := s
      log := tr.log ++ [.allocate ⟨classId, objectId, propertyId⟩ size] })
  | none => none

/-- `WriteTransaction::pushWriteBuf`. -/
def pushWriteBuf (tr : WriteTransaction) : WriteTransaction :=
  { tr with writeBuf := {}, bufStack := tr.writeBuf :: tr.bufStack }

/-- `WriteTransaction::popWriteBuf`. -/
def popWriteBuf (tr : WriteTransaction) : Except Err WriteTransaction :=
  match tr.bufStack with
  | b :: rest => .ok { tr with writeBuf := b, bufStack := rest }
  | [] => .error (.undefined_behaviour "pop of the first write buffer")

end WriteTransaction

/-- `ValueTraits<T>::size` for a fixed-size `T`: `TypeTraits<T>::byteSize`. -/
def ValueTraits.size (byteSize : Nat) (_val : Int) : Nat := byteSize

/-- `ValueTraits<T>::putBytes` for a fixed-size integral `T`, on a buffer of its own. -/
def ValueTraits.putBytesBuf (buf : WriteBuf) (byteSize : Nat) (val : Int) : Except Err WriteBuf :=
  buf.append (write_integer val byteSize)

/-- `ValueTraits<T>::putBytes` for a fixed-size integral `T`, on the transaction's buffer. -/
def ValueTraits.putBytes (tr : WriteTransaction) (byteSize : Nat) (val : Int) :
    Except Err WriteTransaction :=
  tr.append (write_integer val byteSize)

/-- `ValueTraits<T>::getBytes` for a fixed-size integral `T`; the value is handed back as the
unsigned integer that `read_integer` yields. -/
def ValueTraits.getBytes (buf : ReadBuf) (byteSize : Nat) : Except Err (Nat × ReadBuf) :=
  match buf.read byteSize with
  | .ok (data, buf') => .ok (read_integer data byteSize, buf')
  | .error e => .error e

namespace StoreAccess

variable {O : Type}

/-- `StoreAccessBase::size(void *obj, const PropertyAccessBase *pa)` of the strategies. -/
def size (s : StoreAccess O) (obj : O) : Nat :=
  match s with
  | .base byteSize _ => byteSize
  | .string get => (get obj).length + 1
  | .objectId => 0
  | .valueVector _ _ => 0

/-- The loop `for(auto v : val) ValueTraits<V>::putBytes(propBuf, v)`. -/
def putAll (byteSize : Nat) : List Int → WriteBuf → Except Err WriteBuf
  | [], buf => .ok buf
  | v :: rest, buf =>
    match ValueTraits.putBytesBuf buf byteSize v with
    | .ok buf' => putAll byteSize rest buf'
    | .error e => .error e

/-- `StoreAccessBase::save` of the strategies. -/
def save (s : StoreAccess O) (tr : WriteTransaction) (classId objectId : Nat) (obj : O)
    (pa : PropertyAccessBase O) (_mode : StoreMode) : Except Err WriteTransaction :=
  match s with
  | .base byteSize get => ValueTraits.putBytes tr byteSize (get obj)
  | .string get => tr.append (get obj ++ [0])
  | .objectId => .ok tr
  | .valueVector byteSize get =>
    let val := get obj
    let psz := (val.map (ValueTraits.size byteSize)).sum
    if psz != 0 then
      match putAll byteSize val (WriteBuf.start psz) with
      | .error e => .error e
      | .ok propBuf =>
        match tr.putData classId objectId pa.id propBuf with
        | (true, tr') => .ok tr'
        | (false, _) => .error (.persistence_error "data was not saved")
    else .ok tr

end StoreAccess

namespace ClassTraits

variable {O : Type}

/-- `ClassTraitsBase::addSize` (called `ClassTraits<T>::add` in `calculateBuffer`): the storage
is asked when the property belongs to the class itself, to a mapped superclass (`UP`), or to
a class of the subtree (`DN`, through `RESOLVE_SUB`, which throws for an unknown id). -/
def add (t : ClassTraits O) (obj : O) (pa : PropertyAccessBase O) (size : Nat) :
    Except Err (Bool × Nat) :=
  if pa.classId == t.info.classId then .ok (true, size + pa.storage.size obj)
  else if pa.classId != 0 then
    if t.sups.contains pa.classId then .ok (true, size + pa.storage.size obj)
    else
      match t.info.doresolve pa.classId with
      | .ok _ => .ok (true, size + pa.storage.size obj)
      | .error e => .error e
  else .ok (false, size)

/-- `ClassTraitsBase::save`, with the same dispatch as `add`. -/
def save (t : ClassTraits O) (tr : WriteTransaction) (classId objectId : Nat) (obj : O)
    (pa : PropertyAccessBase O) (mode : StoreMode) : Except Err (Bool × WriteTransaction) :=
  if pa.classId == t.info.classId then
    (pa.storage.save tr classId objectId obj pa mode).map (fun tr' => (true, tr'))
  else if pa.classId != 0 then
    if t.sups.contains pa.classId then
      (pa.storage.save tr classId objectId obj pa mode).map (fun tr' => (true, tr'))
    else
      match t.info.doresolve pa.classId with
      | .ok _ => (pa.storage.save tr classId objectId obj pa mode).map (fun tr' => (true, tr'))
      | .error e => .error e
  else .ok (false, tr)

end ClassTraits

/-- Loop body of `calculateBuffer`, for the property indexes `px, px+1, ..` (`n` of them). -/
def calculateBufferLoop {O : Type} (t : ClassTraits O) (obj : O) (properties : Properties O) :
    Nat → Nat → Nat → Except Err Nat
  | 0, _, size => .ok size
  | n + 1, px, size =>
    match properties.get px with
    | .error e => .error e
    | .ok info =>
      if !info.enabled then calculateBufferLoop t obj properties n (px + 1) size
      else
        match t.add obj info size with
        | .error e => .error e
        | .ok (_, size') => calculateBufferLoop t obj properties n (px + 1) size'

/-- `calculateBuffer` of kvstore.h: the shallow byte size of an object. -/
def calculateBuffer {O : Type} (t : ClassTraits O) (obj : O) (properties : Properties O) :
    Except Err Nat :=
  calculateBufferLoop t obj properties properties.full_size 0 0

namespace WriteTransaction

variable {O : Type}

/-- Loop body of `writeObject`, for the property indexes `px, px+1, ..` (`n` of them). -/
def writeObjectLoop (t : ClassTraits O) (classId objectId : Nat) (obj : O)
    (properties : Properties O) (shallow : Bool) :
    Nat → Nat → WriteTransaction → Except Err WriteTransaction
  | 0, _, tr => .ok tr
  | n + 1, px, tr =>
    match properties.get px with
    | .error e => .error e
    | .ok pa =>
      if !pa.enabled then writeObjectLoop t classId objectId obj properties shallow n (px + 1) tr
      else
        match t.save tr classId objectId obj pa
            (if shallow then StoreMode.force_buffer else StoreMode.force_none) with
        | .error e => .error e
        | .ok (_, tr') =>
          writeObjectLoop t classId objectId obj properties shallow n (px + 1) tr'

/-- `WriteTransaction::writeObject`: serialize the object to the write buffer. -/
def writeObject (tr : WriteTransaction) (t : ClassTraits O) (classId objectId : Nat) (obj : O)
    (properties : Properties O) (shallow : Bool) : Except Err WriteTransaction :=
  writeObjectLoop t classId objectId obj properties shallow properties.full_size 0 tr

/-- `WriteTransaction::writeObjectHeader`. -/
def writeObjectHeader (tr : WriteTransaction) (classId objectId size : Nat) :
    Except Err WriteTransaction :=
  match tr.writeBuf.allocate ObjectHeader_sz with
  | .error e => .error e
  | .ok (hdr, b) =>
    if b.data.length < hdr + ClassId_sz + ObjectId_sz + 4 then
      .error (.undefined_behaviour "write past the end of the header slice")
    else
      .ok (tr.setBuf { b with
        data := pokeAt (pokeAt (pokeAt b.data hdr (write_integer classId ClassId_sz))
          (hdr + ClassId_sz) (write_integer objectId ObjectId_sz))
          (hdr + ClassId_sz + ObjectId_sz) (write_integer size 4) })

/-- The result of `saveObject`: the object id, the object (whose key property is set for a
new object), the class info (whose `maxObjectId` is advanced for a new object) and the
transaction. -/
structure Saved (O : Type) where
  objectId : Nat
  obj : O
  info : AbstractClassInfo
  tr : WriteTransaction

/-- `WriteTransaction::saveObject` (non-polymorphic save). `pa` is the optional changed
property. -/
def saveObject (tr : WriteTransaction) (t : ClassTraits O) (id : Nat) (obj : O)
    (newObject : Bool) (pa : Option (PropertyAccessBase O)) (shallow : Bool) :
    Except Err (Saved O) :=
  let classInfo := t.info
  let classId := classInfo.classId
  let classInfo' :=
    if newObject then classInfo.setMaxObjectId (wrap64 (classInfo.maxObjectId + 1)) else classInfo
  let objectId := if newObject then classInfo'.maxObjectId else id
  match calculateBuffer t obj t.properties with
  | .error e => .error e
  | .ok size =>
    let tr1 := tr.setBuf (WriteBuf.start size)
    match tr1.writeObject t classId objectId obj t.properties shallow with
    | .error e => .error e
    | .ok tr2 =>
      let r3 : Except Err WriteTransaction :=
        match pa with
        | some p =>
          if shallow then (t.save tr2 classId id obj p StoreMode.force_property).map (fun r => r.2)
          else .ok tr2
        | none => .ok tr2
      match r3 with
      | .error e => .error e
      | .ok tr3 =>
        match tr3.putData classId objectId 0 tr3.writeBuf with
        | (false, _) => .error (.persistence_error "data was not saved")
        | (true, tr4) =>
          let tr5 := tr4.setBuf { tr4.writeBuf with pos := 0 }
          let obj' :=
            if newObject then
              match t.properties.objectIdAccess with
              | some ida => ida.set obj objectId
              | none => obj
            else obj
          .ok { objectId := objectId, obj := obj', info := classInfo', tr := tr5 }

/-- `WriteTransaction::putObject(T &obj)`. -/
def putObject (tr : WriteTransaction) (t : ClassTraits O) (obj : O) : Except Err (Saved O) :=
  tr.saveObject t 0 obj true none false

/-- `WriteTransaction::updateObject`. -/
def updateObject (tr : WriteTransaction) (t : ClassTraits O) (objectId : Nat) (obj : O) :
    Except Err (Saved O) :=
  tr.saveObject t objectId obj false none false

end WriteTransaction

/-! ## Chunked collections (kvstore.h, kvstore.cpp) -/

/-- `readChunkHeader(ReadBuf &, ..)` of kvstore.cpp: `(dataSize, startIndex, elementCount)`. -/
def readChunkHeader (buf : ReadBuf) : Except Err ((Nat × Nat × Nat) × ReadBuf) :=
  match buf.readInteger 4 with
  | .error e => .error e
  | .ok (dataSize, b1) =>
    match b1.readInteger 4 with
    | .error e => .error e
    | .ok (startIndex, b2) =>
      match b2.readInteger 4 with
      | .error e => .error e
      | .ok (elementCount, b3) => .ok ((dataSize, startIndex, elementCount), b3)

/-- `readObjectHeader` of kvstore.cpp: `(classId, objectId, size)`. -/
def readObjectHeader (buf : ReadBuf) : Except Err ((Nat × Nat × Nat) × ReadBuf) :=
  match buf.readInteger ClassId_sz with
  | .error e => .error e
  | .ok (cid, b1) =>
    match b1.readInteger ObjectId_sz with
    | .error e => .error e
    | .ok (oid, b2) =>
      match b2.readInteger 4 with
      | .error e => .error e
      | .ok (sz, b3) => .ok ((cid, oid, sz), b3)

/-- The assignment through `chunkInfos.back()`; `none` when the vector is empty, where
`back()` is undefined. -/
def updateBack (f : ChunkInfo → ChunkInfo) : List ChunkInfo → Option (List ChunkInfo)
  | [] => none
  | [c] => some [f c]
  | c :: d :: rest => (updateBack f (d :: rest)).map (fun l => c :: l)

/-- Modelled from the spec: the pure virtual `ChunkCursor`, "ordered by chunkId ascending (or
descending if at_end)". `rest` holds the chunk under the cursor followed by those ahead. -/
structure ChunkCursor where
  rest : List (Nat × List byte_t)
  m_atEnd : Bool
  deriving DecidableEq, Repr

namespace ChunkCursor

/-- `ChunkCursor::atEnd`. -/
def atEnd (c : ChunkCursor) : Bool := c.m_atEnd

/-- Modelled from the spec: `ChunkCursor::next`, true when there is a further chunk. -/
def next (c : ChunkCursor) : Bool × ChunkCursor :=
  match c.rest with
  | _ :: d :: rest => (true, { rest := d :: rest, m_atEnd := false })
  | _ => (false, { rest := [], m_atEnd := true })

/-- Modelled from the spec: `ChunkCursor::get`, the bytes of the chunk under the cursor. -/
def get (c : ChunkCursor) : Except Err ReadBuf :=
  match c.rest with
  | (_, bytes) :: _ => .ok { data := bytes, pos := 0 }
  | [] => .error (.undefined_behaviour "get on a chunk cursor at its end")

/-- Modelled from the spec: `ChunkCursor::chunkId`. -/
def chunkId (c : ChunkCursor) : Nat :=
  match c.rest with
  | (id, _) :: _ => id
  | [] => 0

end ChunkCursor

namespace WriteTransaction

/-- Modelled from the spec: the pure virtual `_openChunkCursor(classId, objectId, atEnd)`. -/
def _openChunkCursor (tr : WriteTransaction) (classId objectId : Nat) (atEnd : Bool) :
    ChunkCursor :=
  let cs := tr.store.chunks classId objectId
  if atEnd then { rest := cs.reverse, m_atEnd := cs.isEmpty }
  else { rest := cs, m_atEnd := cs.isEmpty }

/-- `WriteTransaction::writeChunkHeader`: written to the start of the current buffer. -/
def writeChunkHeader (tr : WriteTransaction) (startIndex elementCount : Nat) :
    Except Err WriteTransaction :=
  let b := tr.writeBuf
  if b.data.length < 12 then
    .error (.undefined_behaviour "chunk header written outside the buffer")
  else
    .ok (tr.setBuf { b with
      data := pokeAt (pokeAt (pokeAt b.data 0 (write_integer b.size 4))
        4 (write_integer startIndex 4)) 8 (write_integer elementCount 4) })

/-- `WriteTransaction::putCollectionInfo`. -/
def putCollectionInfo (tr : WriteTransaction) (info : CollectionInfo) (elementCount : Nat) :
    Except Err CollectionInfo :=
  match updateBack (fun ci => { ci with
      startIndex := info.nextStartIndex
      elementCount := elementCount
      dataSize := tr.writeBuf.size }) info.chunkInfos with
  | none => .error (.undefined_behaviour "chunkInfos.back() on an empty vector")
  | some cis =>
    .ok { info with chunkInfos := cis, nextStartIndex := wrap64 (info.nextStartIndex + elementCount) }

/-- `WriteTransaction::startChunk` of kvstore.cpp. -/
def startChunk (tr : WriteTransaction) (collectionInfo : CollectionInfo)
    (chunkSize elementCount : Nat) : Except Err (Bool × CollectionInfo × WriteTransaction) :=
  let r1 : Except Err (CollectionInfo × WriteTransaction) :=
    if elementCount > 0 then
      match updateBack (fun ci => { ci with
          startIndex := collectionInfo.nextStartIndex
          elementCount := elementCount
          dataSize := tr.writeBuf.size }) collectionInfo.chunkInfos with
      | none => .error (.undefined_behaviour "chunkInfos.back() on an empty vector")
      | some cis =>
        match tr.writeChunkHeader collectionInfo.nextStartIndex elementCount with
        | .error e => .error e
        | .ok tr' => .ok ({ collectionInfo with chunkInfos := cis }, tr')
    else .ok (collectionInfo, tr)
  match r1 with
  | .error e => .error e
  | .ok (ci, tr1) =>
    -- allocate a new chunk
    match tr1.allocData COLLECTION_CLSID ci.collectionId ci.nextChunkId chunkSize with
    | some (data, tr2) =>
      let ci2 : CollectionInfo :=
        { ci with chunkInfos := ci.chunkInfos ++ [({ chunkId := ci.nextChunkId } : ChunkInfo)] }
      let tr3 := tr2.setBuf
        (WriteBuf.startOn ⟨COLLECTION_CLSID, ci.collectionId, ci.nextChunkId⟩ data 0)
      match tr3.writeBuf.allocate ChunkHeader_sz with
      | .error e => .error e
      | .ok (_, b) =>
        .ok (true, { ci2 with nextChunkId := wrap16 (ci2.nextChunkId + 1) }, tr3.setBuf b)
    | none => .ok (false, ci, tr1)

/-- `m_collectionInfos[id] = ci`. -/
def cacheCollectionInfo (tr : WriteTransaction) (ci : CollectionInfo) : WriteTransaction :=
  { tr with m_collectionInfos :=
      (ci.collectionId, ci) :: tr.m_collectionInfos.filter (fun e => e.1 != ci.collectionId) }

/-- The loop `for(..) ValueTraits<T>::putBytes(writeBuf(), vect[i])` of the value
`saveChunk`. -/
def putAllValues (byteSize : Nat) : List Int → WriteTransaction → Except Err WriteTransaction
  | [], tr => .ok tr
  | v :: rest, tr =>
    match ValueTraits.putBytes tr byteSize v with
    | .ok tr' => putAllValues byteSize rest tr'
    | .error e => .error e

/-- `WriteTransaction::saveChunk(const std::vector<T> &vect, CollectionInfo *ci)`: save a value
collection chunk; `byteSize` is `TypeTraits<T>::byteSize`. -/
def saveChunkValues (tr : WriteTransaction) (byteSize : Nat) (vect : List Int)
    (ci : CollectionInfo) : Except Err (CollectionInfo × WriteTransaction) :=
  if vect.isEmpty then .ok (ci, tr)
  else
    let chunkSize := (vect.map (ValueTraits.size byteSize)).sum
    match tr.startChunk ci chunkSize vect.length with
    | .error e => .error e
    | .ok (_, ci', tr') =>
      match putAllValues byteSize vect tr' with
      | .error e => .error e
      | .ok tr'' => .ok (ci', tr'')

/-- `WriteTransaction::putValueCollection`: the collection id and the transaction, whose cache
holds the new `CollectionInfo`. -/
def putValueCollection (tr : WriteTransaction) (byteSize : Nat) (vect : List Int) :
    Except Err (Nat × WriteTransaction) :=
  let id := wrap64 (tr.m_maxCollectionId + 1)
  let ci : CollectionInfo := { collectionId := id }
  let tr1 := ({ tr with m_maxCollectionId := id } : WriteTransaction).cacheCollectionInfo ci
  match tr1.saveChunkValues byteSize vect ci with
  | .error e => .error e
  | .ok (ci', tr2) => .ok (ci'.collectionId, tr2.cacheCollectionInfo ci')

/-- The inner loop of `getValueCollection`: read `n` values from the chunk. `signed` tells
whether `T` is a signed type. -/
def getValues (byteSize : Nat) (signed : Bool) :
    Nat → ReadBuf → List Int → Except Err (List Int)
  | 0, _, result => .ok result
  | n + 1, buf, result =>
    match ValueTraits.getBytes buf byteSize with
    | .error e => .error e
    | .ok (val, buf') =>
      getValues byteSize signed n buf'
        (result ++ [if signed then to_signed byteSize val else (val : Int)])

/-- The outer loop of `getValueCollection`,
`for(cc = _openChunkCursor(..); !cc->atEnd(); cc->next())`, over the chunks ahead of the
cursor. -/
def getValueChunks (byteSize : Nat) (signed : Bool) :
    List (Nat × List byte_t) → List Int → Except Err (List Int)
  | [], result => .ok result
  | (_, bytes) :: rest, result =>
    match readChunkHeader { data := bytes, pos := 0 } with
    | .error e => .error e
    | .ok ((_, _, elementCount), buf) =>
      match getValues byteSize signed elementCount buf result with
      | .error e => .error e
      | .ok result' => getValueChunks byteSize signed rest result'

/-- `ReadTransaction::getValueCollection`. -/
def getValueCollection (tr : WriteTransaction) (byteSize : Nat) (signed : Bool)
    (collectionId : Nat) : Except Err (List Int) :=
  let cc := tr._openChunkCursor COLLECTION_CLSID collectionId false
  if cc.atEnd then .ok [] else getValueChunks byteSize signed cc.rest []

end WriteTransaction

/-- `CollectionCursorBase` of kvstore.h: top-level collection cursor. -/
structure CollectionCursorBase where
  m_chunkCursor : ChunkCursor
  m_readBuf : ReadBuf := { data := [], pos := 0 }
  m_elementCount : Nat := 0
  m_curElement : Nat := 0
  deriving DecidableEq, Repr

namespace CollectionCursorBase

/-- The constructor `CollectionCursorBase::CollectionCursorBase` of kvstore.cpp. -/
def new (chunkCursor : ChunkCursor) : Except Err CollectionCursorBase :=
  if !chunkCursor.atEnd then
    match chunkCursor.get with
    | .error e => .error e
    | .ok buf =>
      match readChunkHeader buf with
      | .error e => .error e
      | .ok ((_, _, elementCount), buf') =>
        .ok { m_chunkCursor := chunkCursor, m_readBuf := buf', m_elementCount := elementCount }
  else .ok { m_chunkCursor := chunkCursor }

/-- `CollectionCursorBase::atEnd`. -/
def atEnd (c : CollectionCursorBase) : Bool := c.m_curElement ≥ c.m_elementCount

/-- `CollectionCursorBase::next`. -/
def next (c : CollectionCursorBase) : Except Err (Bool × CollectionCursorBase) :=
  let c1 := { c with m_curElement := wrap64 (c.m_curElement + 1) }
  if c1.m_curElement == c1.m_elementCount then
    match c1.m_chunkCursor.next with
    | (true, cc) =>
      match cc.get with
      | .error e => .error e
      | .ok buf =>
        match readChunkHeader buf with
        | .error e => .error e
        | .ok ((_, _, elementCount), buf') =>
          let c2 : CollectionCursorBase :=
            { m_chunkCursor := cc, m_readBuf := buf', m_elementCount := elementCount,
              m_curElement := 0 }
          .ok (decide (c2.m_curElement < c2.m_elementCount), c2)
    | (false, cc) =>
      let c2 := { c1 with m_chunkCursor := cc }
      .ok (decide (c2.m_curElement < c2.m_elementCount), c2)
  else .ok (decide (c1.m_curElement < c1.m_elementCount), c1)

/-- The driver loop `while(!cursor.atEnd()) cursor.next()`, run for at most `fuel` rounds.
It hands back the positions `(chunkId, m_curElement)` the cursor stood on at the start of the
rounds, and the cursor it ends with. -/
def drive : Nat → CollectionCursorBase → Except Err (List (Nat × Nat) × CollectionCursorBase)
  | 0, c => .ok ([], c)
  | fuel + 1, c =>
    if c.atEnd then .ok ([], c)
    else
      match c.next with
      | .error e => .error e
      | .ok (_, c') =>
        match drive fuel c' with
        | .error e => .error e
        | .ok (ps, c'') => .ok ((c.m_chunkCursor.chunkId, c.m_curElement) :: ps, c'')

end CollectionCursorBase

/-- `CollectionAppenderBase` of kvstore.cpp. `m_collectionInfo` is the `CollectionInfo` the
pointer refers to; `close` puts it back into the cache of the transaction. -/
structure CollectionAppenderBase where
  m_chunkCursor : ChunkCursor
  m_chunkSize : Nat
  m_collectionInfo : CollectionInfo
  m_elementCount : Nat
  deriving DecidableEq, Repr

namespace WriteTransaction

/-- `ReadTransaction::getCollectionInfo`. The decoding of a stored record (`readObject` for
the class `CollectionInfo`, followed by `info->init()`) is passed in as `decode`. -/
def getCollectionInfo (tr : WriteTransaction)
    (decode : Nat → List byte_t → WriteTransaction → Except Err CollectionInfo)
    (collectionId : Nat) : Except Err (Option CollectionInfo × WriteTransaction) :=
  match tr.m_collectionInfos.find? (fun e => e.1 == collectionId) with
  | none =>
    match tr.getData COLLINFO_CLSID collectionId 0 with
    | none => .ok (none, tr)
    | some bytes =>
      if !bytes.isEmpty then
        match decode collectionId bytes tr with
        | .error e => .error e
        | .ok info => .ok (some info, tr.cacheCollectionInfo info)
      else .ok (none, tr)
  | some (_, info) => .ok (some info, tr)

end WriteTransaction

namespace CollectionAppenderBase

/-- The constructor `CollectionAppenderBase::CollectionAppenderBase` of kvstore.cpp. -/
def new (chunkCursor : ChunkCursor) (wtxn : WriteTransaction)
    (decode : Nat → List byte_t → WriteTransaction → Except Err CollectionInfo)
    (collectionId chunkSize : Nat) : Except Err (CollectionAppenderBase × WriteTransaction) :=
  match wtxn.getCollectionInfo decode collectionId with
  | .error e => .error e
  | .ok (none, _) => .error (.undefined_behaviour "m_collectionInfo is null")
  | .ok (some info, tr) =>
    let r : Except Err (Bool × Nat × WriteTransaction) :=
      if !chunkCursor.atEnd then
        match chunkCursor.get with
        | .error e => .error e
        | .ok rb =>
          match readChunkHeader rb with
          | .error e => .error e
          | .ok ((dataSize, _, elementCount), _) =>
            if tr.reuseChunkspace && dataSize < rb.data.length then
              -- there is more room: use that first
              .ok (false, elementCount, tr.setBuf
                (WriteBuf.startOn ⟨COLLECTION_CLSID, collectionId, chunkCursor.chunkId⟩
                  rb.data dataSize))
            else .ok (true, elementCount, tr)
      else .ok (true, 0, tr)
    match r with
    | .error e => .error e
    | .ok (needAlloc, elementCount, tr1) =>
      if needAlloc then
        match tr1.startChunk info chunkSize 0 with
        | .error e => .error e
        | .ok (_, info', tr2) =>
          .ok ({ m_chunkCursor := chunkCursor, m_chunkSize := chunkSize,
                 m_collectionInfo := info', m_elementCount := 0 }, tr2)
      else
        .ok ({ m_chunkCursor := chunkCursor, m_chunkSize := chunkSize,
               m_collectionInfo := info, m_elementCount := elementCount }, tr1)

/-- `CollectionAppenderBase::preparePut`. -/
def preparePut (a : CollectionAppenderBase) (wtxn : WriteTransaction) (size : Nat) :
    Except Err (CollectionAppenderBase × WriteTransaction) :=
  if wtxn.writeBuf.avail < size then
    let info1 := { a.m_collectionInfo with
      nextStartIndex := wrap64 (a.m_collectionInfo.nextStartIndex + a.m_elementCount) }
    match wtxn.startChunk info1 a.m_chunkSize a.m_elementCount with
    | .error e => .error e
    | .ok (_, info2, tr) =>
      .ok ({ a with m_collectionInfo := info2, m_elementCount := wrap64 (0 + 1) }, tr)
  else .ok ({ a with m_elementCount := wrap64 (a.m_elementCount + 1) }, wtxn)

/-- One element appended through the appender: `preparePut(size)`, then the `size` bytes of
the element are written to the write buffer. -/
def put (a : CollectionAppenderBase) (wtxn : WriteTransaction) (bytes : List byte_t) :
    Except Err (CollectionAppenderBase × WriteTransaction) :=
  match a.preparePut wtxn bytes.length with
  | .error e => .error e
  | .ok (a', tr) =>
    match tr.append bytes with
    | .error e => .error e
    | .ok tr' => .ok (a', tr')

/-- A sequence of elements appended one after the other. -/
def putAll : List (List byte_t) → CollectionAppenderBase → WriteTransaction →
    Except Err (CollectionAppenderBase × WriteTransaction)
  | [], a, tr => .ok (a, tr)
  | e :: rest, a, tr =>
    match a.put tr e with
    | .error err => .error err
    | .ok (a', tr') => putAll rest a' tr'

/-- `CollectionAppenderBase::close`; the `CollectionInfo` behind the pointer is the one in the
cache of the transaction. -/
def close (a : CollectionAppenderBase) (wtxn : WriteTransaction) :
    Except Err (CollectionInfo × WriteTransaction) :=
  let r : Except Err WriteTransaction :=
    if a.m_elementCount != 0 then
      wtxn.writeChunkHeader a.m_collectionInfo.nextStartIndex a.m_elementCount
    else .ok wtxn
  match r with
  | .error e => .error e
  | .ok tr =>
    match tr.putCollectionInfo a.m_collectionInfo a.m_elementCount with
    | .error e => .error e
    | .ok info => .ok (info, tr.cacheCollectionInfo info)

end CollectionAppenderBase

/-- The maps `objectProperties` and `objectClassInfos` of `KeyValueStore`: the backward
mapping from a class id, used during polymorphic operations. -/
structure KeyValueStore (O : Type) where
  objectProperties : List (Nat × Properties O) := []
  objectClassInfos : List (Nat × AbstractClassInfo) := []

/-- `WriteTransaction::chunk_helper`. -/
structure chunk_helper (O : Type) where
  classId : Nat
  objectId : Nat
  size : Nat
  properties : Properties O

/-- What the object `saveChunk` leaves behind: the collection info, the class info of `T`
and the maps of the store (whose `maxObjectId` counters have advanced), and the transaction. -/
structure ChunkSaved (O : Type) where
  ci : CollectionInfo
  info : AbstractClassInfo
  kv : KeyValueStore O
  tr : WriteTransaction

namespace WriteTransaction

variable {O : Type}

/-- `WriteTransaction::prepare_collection`. An element of the vector is paired with the class
id that `getClassId(typeid(*vect[i]))` yields for it. -/
def prepare_collection (t : ClassTraits O) :
    List (Nat × O) → KeyValueStore O → Nat → List (chunk_helper O) →
      Except Err (List (chunk_helper O) × Nat × KeyValueStore O)
  | [], kv, chunkSize, helpers => .ok (helpers, chunkSize, kv)
  | (classId, obj) :: rest, kv, chunkSize, helpers =>
    match kv.objectProperties.find? (fun e => e.1 == classId),
          kv.objectClassInfos.find? (fun e => e.1 == classId) with
    | some (_, properties), some (_, classInfo) =>
      let objectId := wrap64 (classInfo.maxObjectId + 1)
      let kv' : KeyValueStore O := { kv with
        objectClassInfos := kv.objectClassInfos.map (fun e =>
          if e.1 == classId then (e.1, e.2.setMaxObjectId objectId) else e) }
      match calculateBuffer t obj properties with
      | .error e => .error e
      | .ok n =>
        let sz := n + ObjectHeader_sz
        prepare_collection t rest kv' (chunkSize + sz)
          (helpers ++ [{ classId := classId, objectId := objectId, size := sz,
                         properties := properties }])
    | _, _ => .error (.undefined_behaviour "class id missing from the maps of the store")

/-- The second loop of the polymorphic branch of the object `saveChunk`. -/
def writeHelped (t : ClassTraits O) :
    List (chunk_helper O × O) → WriteTransaction → Except Err WriteTransaction
  | [], tr => .ok tr
  | (helper, obj) :: rest, tr =>
    match tr.writeObjectHeader helper.classId helper.objectId helper.size with
    | .error e => .error e
    | .ok tr1 =>
      match tr1.writeObject t helper.classId helper.objectId obj helper.properties true with
      | .error e => .error e
      | .ok tr2 => writeHelped t rest tr2

/-- The first loop of the non-polymorphic branch of the object `saveChunk`: the sizes and
their sum. -/
def chunkSizes (t : ClassTraits O) :
    List O → List Nat → Nat → Except Err (List Nat × Nat)
  | [], sizes, chunkSize => .ok (sizes, chunkSize)
  | obj :: rest, sizes, chunkSize =>
    match calculateBuffer t obj t.properties with
    | .error e => .error e
    | .ok n =>
      let sz := n + ObjectHeader_sz
      chunkSizes t rest (sizes ++ [sz]) (chunkSize + sz)

/-- The second loop of the non-polymorphic branch of the object `saveChunk`. -/
def writeSized (t : ClassTraits O) :
    List (Nat × O) → AbstractClassInfo → WriteTransaction →
      Except Err (AbstractClassInfo × WriteTransaction)
  | [], classInfo, tr => .ok (classInfo, tr)
  | (size, obj) :: rest, classInfo, tr =>
    let classId := classInfo.classId
    let objectId := wrap64 (classInfo.maxObjectId + 1)
    let classInfo' := classInfo.setMaxObjectId objectId
    match tr.writeObjectHeader classId objectId size with
    | .error e => .error e
    | .ok tr1 =>
      match tr1.writeObject t classId objectId obj t.properties true with
      | .error e => .error e
      | .ok tr2 => writeSized t rest classInfo' tr2

/-- `WriteTransaction::saveChunk(const std::vector<Ptr<T>> &vect, CollectionInfo *, bool poly)`:
save an object collection chunk. -/
def saveChunk (tr : WriteTransaction) (t : ClassTraits O) (kv : KeyValueStore O)
    (vect : List (Nat × O)) (collectionInfo : CollectionInfo) (poly : Bool) :
    Except Err (ChunkSaved O) :=
  if vect.isEmpty then .ok { ci := collectionInfo, info := t.info, kv := kv, tr := tr }
  else if poly then
    match prepare_collection t vect kv 0 [] with
    | .error e => .error e
    | .ok (helpers, chunkSize, kv') =>
      match tr.startChunk collectionInfo chunkSize vect.length with
      | .error e => .error e
      | .ok (_, ci, tr1) =>
        match writeHelped t (helpers.zip (vect.map (fun e => e.2))) tr1 with
        | .error e => .error e
        | .ok tr2 => .ok { ci := ci, info := t.info, kv := kv', tr := tr2 }
  else
    match chunkSizes t (vect.map (fun e => e.2)) [] 0 with
    | .error e => .error e
    | .ok (sizes, chunkSize) =>
      match tr.startChunk collectionInfo chunkSize vect.length with
      | .error e => .error e
      | .ok (_, ci, tr1) =>
        match writeSized t (sizes.zip (vect.map (fun e => e.2))) t.info tr1 with
        | .error e => .error e
        | .ok (info, tr2) => .ok { ci := ci, info := info, kv := kv, tr := tr2 }

/-- `WriteTransaction::putCollection(const std::vector<Ptr<T>> &vect)`: save a top-level
(chunked) object collection. Hands back the collection id with what `saveChunk` left. -/
def putCollection (tr : WriteTransaction) (t : ClassTraits O) (kv : KeyValueStore O)
    (vect : List (Nat × O)) : Except Err (Nat × ChunkSaved O) :=
  let id := wrap64 (tr.m_maxCollectionId + 1)
  let ci : CollectionInfo := { collectionId := id }
  let tr1 := ({ tr with m_maxCollectionId := id } : WriteTransaction).cacheCollectionInfo ci
  match tr1.saveChunk t kv vect ci t.info.isPoly with
  | .error e => .error e
  | .ok r => .ok (r.ci.collectionId, { r with tr := r.tr.cacheCollectionInfo r.ci })

/-- The inner loop of `loadChunkedCollection` over the `n` elements of a chunk. The template
function `readObject<T>` is passed in; it hands back `none` for a null object pointer. The
`deleted` flag, which `readObjectHeader` of kvstore.cpp does not produce, is taken as
false. -/
def loadElements {T : Type} (info : AbstractClassInfo)
    (readObject : ReadBuf → Nat → Nat → Except Err (Option T × ReadBuf)) :
    Nat → ReadBuf → List T → Except Err (List T)
  | 0, _, result => .ok result
  | n + 1, buf, result =>
    match readObjectHeader buf with
    | .error e => .error e
    | .ok ((cid, oid, _), buf1) =>
      if info.isInstance cid then
        match readObject buf1 cid oid with
        | .error e => .error e
        | .ok (some obj, buf2) => loadElements info readObject n buf2 (result ++ [obj])
        | .ok (none, _) => .error (.persistence_error "collection object not found")
      else loadElements info readObject n buf1 result

/-- The outer loop of `loadChunkedCollection` over the chunks ahead of the cursor. -/
def loadChunks {T : Type} (info : AbstractClassInfo)
    (readObject : ReadBuf → Nat → Nat → Except Err (Option T × ReadBuf)) :
    List (Nat × List byte_t) → List T → Except Err (List T)
  | [], result => .ok result
  | (_, bytes) :: rest, result =>
    match readChunkHeader { data := bytes, pos := 0 } with
    | .error e => .error e
    | .ok ((_, _, elementCount), buf) =>
      match loadElements info readObject elementCount buf result with
      | .error e => .error e
      | .ok result' => loadChunks info readObject rest result'

/-- `ReadTransaction::loadChunkedCollection`: completely load the contents of a chunked
collection. A null `ci` is dereferenced. -/
def loadChunkedCollection {T : Type} (tr : WriteTransaction) (info : AbstractClassInfo)
    (readObject : ReadBuf → Nat → Nat → Except Err (Option T × ReadBuf))
    (ci : Option CollectionInfo) : Except Err (List T) :=
  match ci with
  | none => .error (.undefined_behaviour "ci is null")
  | some ci =>
    let cc := tr._openChunkCursor COLLECTION_CLSID ci.collectionId false
    if cc.atEnd then .ok [] else loadChunks info readObject cc.rest []

/-- `ReadTransaction::getCollection(ObjectId collectionId)`: load a top-level (chunked) object
collection. -/
def getCollection {T : Type} (tr : WriteTransaction) (info : AbstractClassInfo)
    (readObject : ReadBuf → Nat → Nat → Except Err (Option T × ReadBuf))
    (decode : Nat → List byte_t → WriteTransaction → Except Err CollectionInfo)
    (collectionId : Nat) : Except Err (List T × WriteTransaction) :=
  match tr.getCollectionInfo decode collectionId with
  | .error e => .error e
  | .ok (ci, tr1) =>
    match tr1.loadChunkedCollection info readObject ci with
    | .error e => .error e
    | .ok result => .ok (result, tr1)

end WriteTransaction

/-! ## Specification-side notions

The definitions below are not translations of code. They spell out the words the
specification uses, and the scenarios it names, so that the theorems can be stated. -/

namespace Properties

variable {O : Type}

/-- All properties of a class, those of the mapped superclasses first, in declared order. -/
def all : Properties O → List (PropertyAccessBase O)
  | .mk d none _ _ _ => d
  | .mk d (some s) _ _ _ => all s ++ d

/-- What `PropertiesImpl::init` establishes: `startPos` is the `full_size` of the superclass
properties (0 without a mapped superclass). -/
def Initialized : Properties O → Prop
  | .mk _ none startPos _ _ => startPos = 0
  | .mk _ (some s) startPos _ _ => startPos = full_size s ∧ Initialized s

end Properties

/-- The bytes a property contributes to the record of its object. -/
def StoreAccess.payload {O : Type} (s : StoreAccess O) (obj : O) : List byte_t :=
  match s with
  | .base byteSize get => write_integer (get obj) byteSize
  | .string get => get obj ++ [0]
  | .objectId => []
  | .valueVector _ _ => []

/-- The payloads of the enabled properties of an object, in declared order. -/
def payloads {O : Type} (properties : Properties O) (obj : O) : List byte_t :=
  ((properties.all.filter (fun pa => pa.enabled)).map (fun pa => pa.storage.payload obj)).flatten

/-- A property of a registered class: `registerType` has set its `classId` to the id of the
declaring class, which is the class itself or one of its mapped superclasses. -/
def Registered {O : Type} (t : ClassTraits O) (pa : PropertyAccessBase O) : Prop :=
  pa.classId = t.info.classId ∨ (pa.classId ≠ 0 ∧ pa.classId ∈ t.sups)

instance {O : Type} (t : ClassTraits O) (pa : PropertyAccessBase O) :
    Decidable (Registered t pa) := by
  unfold Registered
  infer_instance

/-- The words of the specification for a changed type: the persisted `pi` and the live `pa`
disagree on the type id, the byte size, the vector flag or the class name, a null live class
name counting as the empty string. -/
def TypeDiffers {O : Type} (pa : PropertyAccessBase O) (pi : PropertyMetaInfo) : Prop :=
  pa.type.id ≠ pi.typeId ∨ pa.type.byteSize ≠ pi.byteSize ∨ pa.type.isVector ≠ pi.isVector
    ∨ pa.type.className.getD "" ≠ pi.className

instance {O : Type} (pa : PropertyAccessBase O) (pi : PropertyMetaInfo) :
    Decidable (TypeDiffers pa pi) := by
  unfold TypeDiffers
  infer_instance

/-- A class `Point` with two `int` members, as in the scenarios of the specification. -/
structure Point where
  x : Int
  y : Int
  deriving DecidableEq, Repr

/-- The declared properties of `Point`: `x` and `y`, both `int` (type id 3, 4 bytes), with
the class id and the property ids that registration assigns. -/
def Point.decl_props (classId : Nat) : List (PropertyAccessBase Point) :=
  [ { name := "x", classId := classId, id := 2, storage := .base 4 (fun p => p.x),
      type := { id := 3, byteSize := 4 } },
    { name := "y", classId := classId, id := 3, storage := .base 4 (fun p => p.y),
      type := { id := 3, byteSize := 4 } } ]

/-- The `ClassTraits<Point>` of a `Point` registered under `classId`, with no object stored
so far. -/
def Point.traits (classId : Nat) : ClassTraits Point :=
  { info := .mk "Point" classId 0 []
    properties := .mk (Point.decl_props classId) none 0 none 0 }

/-- The element count a chunk carries in its header: the little-endian value of the bytes
8 to 11. -/
def chunkElementCount (bytes : List byte_t) : Nat := read_integer ((bytes.drop 8).take 4) 4

/-- The positions `(chunkId, element index)` of all elements of a chunk sequence: the
elements of a chunk in index order, chunk after chunk. -/
def cursorPositions : List (Nat × List byte_t) → List (Nat × Nat)
  | [] => []
  | (id, bytes) :: rest =>
    (List.range' 0 (chunkElementCount bytes)).map (fun j => (id, j)) ++ cursorPositions rest

/-- The state of a collection cursor that stands on element `j` of the chunk `(id, bytes)`,
with the chunks `rest` ahead. -/
def cursorAt (id : Nat) (bytes : List byte_t) (rest : List (Nat × List byte_t)) (j : Nat) :
    CollectionCursorBase :=
  { m_chunkCursor := { rest := (id, bytes) :: rest, m_atEnd := false }
    m_readBuf := { data := bytes, pos := 12 }
    m_elementCount := chunkElementCount bytes
    m_curElement := j }

/-- A decoder of stored `CollectionInfo` records for runs in which every collection info is
in the cache of the transaction, so that none is decoded. -/
def noDecode : Nat → List byte_t → WriteTransaction → Except Err CollectionInfo :=
  fun _ _ _ => .error .corrupt_data

/-- A run of an appender on a new, empty collection: the collection is created by
`putValueCollection` of an empty vector, an appender with chunk size `chunkSize` is opened on
it, the elements are put one after the other, and the appender is closed. Hands back the
`CollectionInfo` of the collection. -/
def appendRun (chunkSize : Nat) (elements : List (List byte_t)) : Except Err CollectionInfo :=
  match WriteTransaction.putValueCollection {} 4 [] with
  | .error e => .error e
  | .ok (id, tr) =>
    match CollectionAppenderBase.new (tr._openChunkCursor COLLECTION_CLSID id true) tr noDecode
        id chunkSize with
    | .error e => .error e
    | .ok (a, tr1) =>
      match CollectionAppenderBase.putAll elements a tr1 with
      | .error e => .error e
      | .ok (a2, tr2) =>
        match a2.close tr2 with
        | .error e => .error e
        | .ok (info, _) => .ok info

/-- A transaction over a store that holds the collection 7 in two chunks: chunk 1 with the
header `(20, 0, 2)` and two 4-byte elements, chunk 2 with the header `(16, 2, 1)` and one. -/
def twoChunkTransaction : WriteTransaction :=
  { store := { entries :=
      [ (⟨COLLECTION_CLSID, 7, 1⟩,
          [20, 0, 0, 0, 0, 0, 0, 0, 2, 0, 0, 0, 10, 0, 0, 0, 20, 0, 0, 0]),
        (⟨COLLECTION_CLSID, 7, 2⟩,
          [16, 0, 0, 0, 2, 0, 0, 0, 1, 0, 0, 0, 30, 0, 0, 0]) ] } }

/-! ## Class registry (kvtraits.h, kvstore.h) -/

namespace AbstractClassInfo

/-- `AbstractClassInfo::addSub`. -/
def addSub : AbstractClassInfo → AbstractClassInfo → AbstractClassInfo
  | .mk n c m subs, rsub => .mk n c m (subs ++ [rsub])

mutual
/-- `AbstractClassInfo::hasClassId`. -/
def hasClassId : AbstractClassInfo → Nat → Bool
  | .mk _ classId _ subs, cid => if classId == cid then true else hasClassIdSubs subs cid
/-- The loop `for(auto &sub : subs) if(sub->hasClassId(cid)) return true; return false;`. -/
def hasClassIdSubs : List AbstractClassInfo → Nat → Bool
  | [], _ => false
  | sub :: rest, cid => if hasClassId sub cid then true else hasClassIdSubs rest cid
end

mutual
/-- `AbstractClassInfo::addClassIds`; the vector `ids` is handed in and back. -/
def addClassIds : AbstractClassInfo → List Nat → List Nat
  | .mk _ classId _ subs, ids => addClassIdsSubs subs (ids ++ [classId])
/-- The loop `for(auto &sub : subs) sub->addClassIds(ids);`. -/
def addClassIdsSubs : List AbstractClassInfo → List Nat → List Nat
  | [], ids => ids
  | sub :: rest, ids => addClassIdsSubs rest (addClassIds sub ids)
end

/-- `AbstractClassInfo::allClassIds`. -/
def allClassIds (c : AbstractClassInfo) : List Nat := addClassIds c []

end AbstractClassInfo

namespace sub

/-- `sub::resolve_impl<T, S>::publish`: adds `res` as subtype to `S`, whose class info is
`sInfo`; always true. -/
def resolve_impl.publish (sInfo res : AbstractClassInfo) : Bool × AbstractClassInfo :=
  (true, sInfo.addSub res)

/-- `sub::resolve<T, Sargs...>::publish` together with `resolve_helper`: the class infos of
the classes of `Sargs...` are handed in and back. -/
def resolve.publish (res : AbstractClassInfo) :
    List AbstractClassInfo → Bool × List AbstractClassInfo
  | [] => (false, [])
  | s :: sargs =>
    match resolve_impl.publish s res with
    | (true, s') => (true, s' :: sargs)
    | (false, s') =>
      let r := resolve.publish res sargs
      (r.1, s' :: r.2)

end sub

/-- `ClassInfo<T, Sup...>::publish`: make the class info known to the superclasses. `sups`
holds the class infos `ClassTraits<S>::traits_info` of the classes of `Sup...`, in order. -/
def ClassInfo.publish (info : AbstractClassInfo) (sups : List AbstractClassInfo) :
    List AbstractClassInfo :=
  (sub.resolve.publish info sups).2

/-- Modelled from the spec: `ObjectKey_sz` of the missing kvbuf.h, the "embedded 14-byte
cross-reference". -/
def ObjectKey_sz : Nat := 14

namespace Properties

variable {O : Type}

/-- Field `fixedSize`. -/
def fixedSize : Properties O → Nat
  | .mk _ _ _ _ f => f

/-- The assignment `const_cast<PropertyAccessBase *>(p->get(index))->id = id`. -/
def setId : Properties O → Nat → Nat → Except Err (Properties O)
  | .mk d none startPos k f, index, id =>
    if index ≥ startPos then
      match d.get? (index - startPos) with
      | some pa => .ok (.mk (d.set (index - startPos) { pa with id := id }) none startPos k f)
      | none => .error (.undefined_behaviour "decl_props index out of range")
    else .error (.undefined_behaviour "superIter is null")
  | .mk d (some s) startPos k f, index, id =>
    if index ≥ startPos then
      match d.get? (index - startPos) with
      | some pa => .ok (.mk (d.set (index - startPos) { pa with id := id }) (some s) startPos k f)
      | none => .error (.undefined_behaviour "decl_props index out of range")
    else
      match setId s index id with
      | .ok s' => .ok (.mk d (some s') startPos k f)
      | .error e => .error e

/-- The array `decl_props` replaced (the property table holds pointers into the array). -/
def setDeclProps : Properties O → List (PropertyAccessBase O) → Properties O
  | .mk _ s startPos k f, d => .mk d s startPos k f

end Properties

/-- The member `fixedSize` of the strategies of `StoreAccess`: their classes are constructed
by `StoreAccessBase()` or `StoreAccessPropertyKey()`, which leave it 0. -/
def StoreAccess.fixedSize {O : Type} (_s : StoreAccess O) : Nat := 0

/-- `StoreAccessBase::initFixedSize`: `virtual size_t initFixedSize() {return fixedSize;}`,
which no storage class of kvstore.h overrides. -/
def StoreAccess.initFixedSize {O : Type} (s : StoreAccess O) : Nat := s.fixedSize

namespace PropertiesImpl

variable {O : Type}

/-- The loop of `PropertiesImpl::mk`: `for(unsigned i=..; i<p->full_size(); i++)` with `n`
rounds left. -/
def assignIds : Nat → Nat → Properties O → Except Err (Properties O)
  | 0, _, p => .ok p
  | n + 1, i, p =>
    match p.setId i (wrap16 (i + 2)) with
    | .ok p' => assignIds n (i + 1) p'
    | .error e => .error e

/-- `PropertiesImpl<S>::mk<T>`: the property table over `ClassTraits<T>::decl_props`, with
consecutive ids assigned, starting at 2. The constructor leaves `superIter` null and
`startPos` 0. -/
def mk (decl_props : List (PropertyAccessBase O)) (keyProperty : Option (KeyAccess O)) :
    Except Err (Properties O) :=
  let p : Properties O := .mk decl_props none 0 keyProperty 0
  assignIds p.full_size 0 p

/-- The loop of `PropertiesImpl::init` that sees whether the class is of fixed size. -/
def fixedSizeLoop : List (PropertyAccessBase O) → Nat → Nat
  | [], fixedSize => fixedSize
  | pa :: rest, fixedSize =>
    if pa.enabled then
      match pa.storage.layout with
      | .all_embedded =>
        if pa.storage.initFixedSize == 0 then 0
        else fixedSizeLoop rest (fixedSize + pa.storage.fixedSize)
      | .embedded_key => fixedSizeLoop rest (fixedSize + ObjectKey_sz)
      | .property => fixedSizeLoop rest fixedSize
      | .none => fixedSizeLoop rest fixedSize
    else fixedSizeLoop rest fixedSize

/-- `PropertiesImpl<S>::init`: determine superclass and property start position, and the
fixed size. `traits_properties` is `ClassTraits<S>::traits_properties` of the superclass
`S`, null for `EmptyClass`. -/
def init (p : Properties O) (traits_properties : Option (Properties O)) : Properties O :=
  let startPos := match traits_properties with
    | some s => s.full_size
    | none => 0
  match traits_properties with
  | some s =>
    if s.fixedSize == 0 then .mk p.decl_props (some s) startPos p.keyProperty 0
    else .mk p.decl_props (some s) startPos p.keyProperty
      (fixedSizeLoop p.decl_props s.fixedSize)
  | none =>
    .mk p.decl_props none startPos p.keyProperty (fixedSizeLoop p.decl_props 0)

end PropertiesImpl

/-- What `registerType<T>` works on: the maps of the store with `typeInfos` (keyed by the
name of the type), the static members of `ClassTraits<T>` (the array `decl_props` is the one
of `traits.properties`), and the class infos of the declared superclasses `Sup...`. -/
structure Registry (O : Type) where
  kv : KeyValueStore O := {}
  typeInfos : List (String × Nat) := []
  traits : ClassTraits O
  supers : List AbstractClassInfo := []

/-- The assignment `map[key] = value` of an `unordered_map`. -/
def assignKey {K V : Type} [BEq K] (m : List (K × V)) (key : K) (value : V) : List (K × V) :=
  if m.any (fun e => e.1 == key) then m.map (fun e => if e.1 == key then (key, value) else e)
  else m ++ [(key, value)]

/-- `KeyValueStore::registerType<T>`. The pure virtual `loadSaveClassMeta`, which
`updateClassSchema` calls first, is passed in: it hands back the class info with the fields
the store sets (the class id) and the persisted properties. `typeName` is `typeid(T)`. -/
def registerType {O : Type}
    (loadSaveClassMeta :
      AbstractClassInfo → List (PropertyAccessBase O) → AbstractClassInfo × List PropertyMetaInfo)
    (typeName : String) (r : Registry O) : Except Err (Registry O) :=
  let (info, propertyInfos) := loadSaveClassMeta r.traits.info r.traits.properties.decl_props
  match updateClassSchema info.name r.traits.properties.decl_props propertyInfos with
  | .error e => .error e
  | .ok decl_props =>
    -- establish inheritance chain
    let supers := ClassInfo.publish info r.supers
    -- make sure all propertyaccessors have correct classId
    let decl_props' := decl_props.map (fun pa => { pa with classId := info.classId })
    let properties := r.traits.properties.setDeclProps decl_props'
    .ok { kv :=
            { objectProperties := assignKey r.kv.objectProperties info.classId properties
              objectClassInfos := assignKey r.kv.objectClassInfos info.classId info }
          typeInfos := assignKey r.typeInfos typeName info.classId
          traits := { r.traits with info := info, properties := properties }
          supers := supers }

/-! ## Headers and commit (kvstore.cpp) -/

/-- `readChunkHeader(const byte_t *data, ..)` of kvstore.cpp:
`(dataSize, startIndex, elementCount)` read at `data`, `data + 4` and `data + 8`. -/
def readChunkHeaderData (data : List byte_t) : Nat × Nat × Nat :=
  (read_integer data 4, read_integer (data.drop 4) 4, read_integer (data.drop 8) 4)

namespace WriteTransaction

/-- The pure virtual `WriteTransaction::doCommit`. -/
def doCommit (tr : WriteTransaction) : WriteTransaction :=
  { tr with log := tr.log ++ [.commit] }

end WriteTransaction

/-! ## Specification-side notions, continued -/

namespace AbstractClassInfo

mutual
/-- The nodes of the subtree of a class info in depth-first pre-order: the node itself, then
the subtrees of its `subs` from first to last. -/
def preorder : AbstractClassInfo → List AbstractClassInfo
  | .mk n c m subs => .mk n c m subs :: preorderSubs subs
/-- The pre-order of a list of subtrees, one after the other. -/
def preorderSubs : List AbstractClassInfo → List AbstractClassInfo
  | [] => []
  | s :: rest => preorder s ++ preorderSubs rest
end

mutual
/-- The number of nodes of the subtree of a class info. -/
def numNodes : AbstractClassInfo → Nat
  | .mk _ _ _ subs => 1 + numNodesSubs subs
/-- The number of nodes of a list of subtrees. -/
def numNodesSubs : List AbstractClassInfo → Nat
  | [] => 0
  | s :: rest => numNodes s + numNodesSubs rest
end

end AbstractClassInfo

/-- A mapped class `A` with one `int` member `a`, and its subclass `B` with one more `int`
member `b`; an object of `B` is a `Point` with `x` for `a` and `y` for `b`. The property table
of `A`, after `mk` and `init`. -/
def classA.properties : Except Err (Properties Point) :=
  match PropertiesImpl.mk
      [ { name := "a", storage := .base 4 (fun p => p.x), type := { id := 3, byteSize := 4 } } ]
      none with
  | .ok p => .ok (PropertiesImpl.init p none)
  | .error e => .error e

/-- The property table of the subclass `B` of `A`, after `mk` and `init`. -/
def classB.properties : Except Err (Properties Point) :=
  match classA.properties, PropertiesImpl.mk
      [ { name := "b", storage := .base 4 (fun p => p.y), type := { id := 3, byteSize := 4 } } ]
      none with
  | .ok a, .ok p => .ok (PropertiesImpl.init p (some a))
  | .error e, _ => .error e
  | _, .error e => .error e

/-- The names and ids of the properties that `Properties::get(0 .. full_size()-1)`
enumerates. -/
def enumeratedIds {O : Type} (p : Properties O) : List (Option (String × Nat)) :=
  (List.range' 0 p.full_size).map (fun i =>
    match p.get i with
    | .ok pa => some (pa.name, pa.id)
    | .error _ => none)

/-- The registration of `Point` as a class with the declared superclass `A` (class id 10),
done twice: the store knows nothing of the class at the first call and hands back its two
properties at the second. -/
def registerTwice : Except Err (Registry Point) :=
  match registerType (fun info _ => (info, [])) "Point"
      { traits := Point.traits 11, supers := [.mk "A" 10 0 []] } with
  | .error e => .error e
  | .ok r =>
    registerType (fun info _ => (info, [⟨"x", 2, 3, false, 4, ""⟩, ⟨"y", 3, 3, false, 4, ""⟩]))
      "Point" r

/-- Two runs of an appender on one collection in one transaction: the collection is created
empty, a first appender puts the elements `first` and is closed, a second appender is opened
at the end of the collection, puts the elements `second` and is closed. Hands back the
`CollectionInfo` after the first and after the second close. -/
def appendTwice (chunkSize : Nat) (first second : List (List byte_t)) :
    Except Err (CollectionInfo × CollectionInfo) :=
  match WriteTransaction.putValueCollection {} 4 [] with
  | .error e => .error e
  | .ok (id, tr) =>
    match CollectionAppenderBase.new (tr._openChunkCursor COLLECTION_CLSID id true) tr noDecode
        id chunkSize with
    | .error e => .error e
    | .ok (a, tr1) =>
      match CollectionAppenderBase.putAll first a tr1 with
      | .error e => .error e
      | .ok (a2, tr2) =>
        match a2.close tr2 with
        | .error e => .error e
        | .ok (info1, tr3) =>
          match CollectionAppenderBase.new (tr3._openChunkCursor COLLECTION_CLSID id true) tr3
              noDecode id chunkSize with
          | .error e => .error e
          | .ok (b, tr4) =>
            match CollectionAppenderBase.putAll second b tr4 with
            | .error e => .error e
            | .ok (b2, tr5) =>
              match b2.close tr5 with
              | .error e => .error e
              | .ok (info2, _) => .ok (info1, info2)

/-- A 32-byte chunk with the header `(20, 0, 2)`, two 4-byte elements and 12 bytes of
slack. -/
def slackChunk : List byte_t :=
  [20, 0, 0, 0, 0, 0, 0, 0, 2, 0, 0, 0, 10, 0, 0, 0, 20, 0, 0, 0,
   0, 0, 0, 0, 0, 0, 0, 0, 0, 0, 0, 0]

/-- The collection info of the collection 1 that consists of `slackChunk`. -/
def slackInfo : CollectionInfo :=
  { collectionId := 1
    chunkInfos := [{ chunkId := 1, startIndex := 0, elementCount := 2, dataSize := 20 }]
    nextChunkId := 2
    nextStartIndex := 2 }

/-- A transaction over a store that holds the collection 1 in the one chunk `slackChunk`, with
the collection info in its cache. -/
def slackTransaction : WriteTransaction :=
  { store := { entries := [(⟨COLLECTION_CLSID, 1, 1⟩, slackChunk)] }
    m_collectionInfos := [(1, slackInfo)] }

/-! ## Keys in buffers (kvbuf.h) -/

/-- Modelled from the spec: `PropertyId_sz` of the missing kvbuf.h, "PropertyId (16-bit
unsigned)". -/
def PropertyId_sz : Nat := 2

namespace StorageKey

/-- Modelled from the spec: `StorageKey::byteSize`, "StorageKey = 14 bytes". -/
def byteSize : Nat := ClassId_sz + ObjectId_sz + PropertyId_sz

/-- Modelled from the spec: the bytes of a key in a buffer, "a triple (ClassId, ObjectId,
PropertyId) serialized as fixed-width little-endian". -/
def bytes (k : StorageKey) : List byte_t :=
  write_integer k.classId ClassId_sz ++ write_integer k.objectId ObjectId_sz
    ++ write_integer k.propertyId PropertyId_sz

end StorageKey

namespace ReadBuf

/-- Modelled from the spec: `ReadBuf::read(StorageKey &)`, the key at the cursor. -/
def readKey (b : ReadBuf) : Except Err (StorageKey × ReadBuf) :=
  match b.readInteger ClassId_sz with
  | .error e => .error e
  | .ok (classId, b1) =>
    match b1.readInteger ObjectId_sz with
    | .error e => .error e
    | .ok (objectId, b2) =>
      match b2.readInteger PropertyId_sz with
      | .error e => .error e
      | .ok (propertyId, b3) => .ok (⟨classId, objectId, propertyId⟩, b3)

end ReadBuf

namespace WriteTransaction

/-- Modelled from the spec: `writeBuf().append(classId, objectId, propertyId)`, a key appended
to the current write buffer. -/
def appendKey (tr : WriteTransaction) (classId objectId propertyId : Nat) :
    Except Err WriteTransaction :=
  tr.append (StorageKey.bytes ⟨classId, objectId, propertyId⟩)

/-- Modelled from the spec: `writeBuf().append(const byte_t *data, size_t n)` for the `n`
bytes at offset `off` of the region `src`: the slice is allocated first, then the bytes are
copied; a copy that leaves the region is undefined. -/
def appendFrom (tr : WriteTransaction) (src : List byte_t) (off n : Nat) :
    Except Err WriteTransaction :=
  match tr.writeBuf.allocate n with
  | .error e => .error e
  | .ok _ =>
    if off + n ≤ src.length then tr.append ((src.drop off).take n)
    else .error (.undefined_behaviour "copy from beyond the end of the source buffer")

end WriteTransaction

/-! ## Appending to top-level collections (kvstore.h) -/

namespace WriteTransaction

variable {O : Type}

/-- `WriteTransaction::saveChunk(const T *array, size_t arraySize, CollectionInfo *ci)`: save a
raw data collection chunk. `array` holds the bytes of the array, `sizeofT` is `sizeof(T)`. -/
def saveChunkData (tr : WriteTransaction) (array : List byte_t) (arraySize sizeofT : Nat)
    (ci : CollectionInfo) : Except Err (CollectionInfo × WriteTransaction) :=
  if arraySize == 0 then .ok (ci, tr)
  else
    let chunkSize := arraySize * sizeofT
    match tr.startChunk ci chunkSize arraySize with
    | .error e => .error e
    | .ok (_, ci', tr') =>
      match tr'.appendFrom array 0 chunkSize with
      | .error e => .error e
      | .ok tr'' => .ok (ci', tr'')

/-- An exception on its way out of `appendCollection`, `appendValueCollection` or
`appendDataCollection`. `tr` is the transaction as the throw statement of the function itself
finds it; for an exception that comes out of a callee the transaction is not followed
(`none`). -/
structure Thrown where
  err : Err
  tr : Option WriteTransaction

/-- `WriteTransaction::appendCollection(ObjectId, const std::vector<Ptr<T>> &)`. -/
def appendCollection (tr : WriteTransaction) (t : ClassTraits O) (kv : KeyValueStore O)
    (decode : Nat → List byte_t → WriteTransaction → Except Err CollectionInfo)
    (collectionId : Nat) (vect : List (Nat × O)) : Except Thrown (ChunkSaved O) :=
  match tr.getCollectionInfo decode collectionId with
  | .error e => .error ⟨e, none⟩
  | .ok (none, tr1) => .error ⟨.persistence_error "collection not found", some tr1⟩
  | .ok (some ci, tr1) =>
    match tr1.saveChunk t kv vect ci t.info.isPoly with
    | .error e => .error ⟨e, none⟩
    | .ok r => .ok { r with tr := r.tr.cacheCollectionInfo r.ci }

/-- `WriteTransaction::appendValueCollection`. -/
def appendValueCollection (tr : WriteTransaction)
    (decode : Nat → List byte_t → WriteTransaction → Except Err CollectionInfo)
    (byteSize : Nat) (collectionId : Nat) (vect : List Int) :
    Except Thrown (CollectionInfo × WriteTransaction) :=
  match tr.getCollectionInfo decode collectionId with
  | .error e => .error ⟨e, none⟩
  | .ok (none, tr1) => .error ⟨.persistence_error "collection not found", some tr1⟩
  | .ok (some ci, tr1) =>
    match tr1.saveChunkValues byteSize vect ci with
    | .error e => .error ⟨e, none⟩
    | .ok (ci', tr2) => .ok (ci', tr2.cacheCollectionInfo ci')

/-- `WriteTransaction::appendDataCollection`. -/
def appendDataCollection (tr : WriteTransaction)
    (decode : Nat → List byte_t → WriteTransaction → Except Err CollectionInfo)
    (collectionId : Nat) (data : List byte_t) (dataSize sizeofT : Nat) :
    Except Thrown (CollectionInfo × WriteTransaction) :=
  match tr.getCollectionInfo decode collectionId with
  | .error e => .error ⟨e, none⟩
  | .ok (none, tr1) => .error ⟨.persistence_error "collection not found", some tr1⟩
  | .ok (some ci, tr1) =>
    match tr1.saveChunkData data dataSize sizeofT ci with
    | .error e => .error ⟨e, none⟩
    | .ok (ci', tr2) => .ok (ci', tr2.cacheCollectionInfo ci')

end WriteTransaction

/-! ## String values (kvtraits.h) -/

namespace ValueTraits.string

/-- `ValueTraits<std::string>::size`. A `std::string` is the list of its `length()` bytes, any
of which may be zero. -/
def size (val : List byte_t) : Nat := val.length + 1

/-- `ValueTraits<std::string>::putBytes`: `buf.append(val.data(), val.length()+1)`; the byte
after the last one of `data()` is the terminator. -/
def putBytes (buf : WriteBuf) (val : List byte_t) : Except Err WriteBuf :=
  buf.append (val ++ [0])

/-- `ValueTraits<std::string>::getBytes`: the string is built from the C string at the cursor
(`val = (const char *)buf.read(0)`), which ends before the first zero byte, then the cursor
is moved by `val.length() + 1`. Without a zero byte in the rest of the buffer the scan leaves
the buffer. -/
def getBytes (buf : ReadBuf) : Except Err (List byte_t × ReadBuf) :=
  match buf.read 0 with
  | .error e => .error e
  | .ok (_, b0) =>
    let rest := b0.data.drop b0.pos
    if rest.all (fun c => c != 0) then
      .error (.undefined_behaviour "C string without terminator in the buffer")
    else
      let val := rest.takeWhile (fun c => c != 0)
      match b0.read (val.length + 1) with
      | .error e => .error e
      | .ok (_, b1) => .ok (val, b1)

end ValueTraits.string

/-! ## More storage strategies (kvtraits.h, kvstore.h) -/

/-- `StoreAccessEmbeddedKey::size(void *obj, const PropertyAccessBase *pa)`. -/
def StoreAccessEmbeddedKey.size : Nat := ObjectKey_sz

/-- `StoreAccessPropertyKey::size(void *obj, const PropertyAccessBase *pa)`. -/
def StoreAccessPropertyKey.size : Nat := 0

namespace ValueVectorPropertyStorage

/-- The loop `while(!readBuf.atEnd())` of `ValueVectorPropertyStorage::load`, with `fuel`
rounds at most; `signed` tells whether `V` is a signed type. -/
def loadLoop (byteSize : Nat) (signed : Bool) : Nat → ReadBuf → List Int → Except Err (List Int)
  | 0, buf, val =>
    if buf.atEnd then .ok val
    else .error (.undefined_behaviour "the loop has not come to the end of the buffer")
  | fuel + 1, buf, val =>
    if buf.atEnd then .ok val
    else
      match ValueTraits.getBytes buf byteSize with
      | .error e => .error e
      | .ok (v, buf') =>
        loadLoop byteSize signed fuel buf'
          (val ++ [if signed then to_signed byteSize v else (v : Int)])

/-- `ValueVectorPropertyStorage::load`: the vector that is handed to the setter
`ClassTraits<T>::get`. A null buffer is at its end. Every round of the loop with a value of
one byte at least moves the cursor, so the length of the data is fuel enough. -/
def load (tr : WriteTransaction) (byteSize : Nat) (signed : Bool)
    (classId objectId propertyId : Nat) : Except Err (List Int) :=
  match tr.getData classId objectId propertyId with
  | none => .ok []
  | some bytes => loadLoop byteSize signed bytes.length { data := bytes, pos := 0 } []

end ValueVectorPropertyStorage

/-- A pointer `Ptr<V>` to a mapped object, as the transactions see it: the class id that
`getClassId(typeid(*ptr))` yields for the object pointed to (the id of its runtime class),
the object id the pointer carries (0 for an object not saved so far), and the object. -/
structure ObjectPtr (V : Type) where
  classId : Nat
  objectId : Nat
  obj : V

namespace WriteTransaction

variable {O : Type}

/-- `WriteTransaction::saveObject(ClassId classId, ObjectId id, T &obj, bool newObject, ..)`,
the polymorphic save: class info and properties are looked up in the maps of the store, the
property dispatch goes through `ClassTraits<T>` (`t`). Hands back the maps with the advanced
`maxObjectId` as well. -/
def saveObjectPoly (tr : WriteTransaction) (t : ClassTraits O) (kv : KeyValueStore O)
    (classId id : Nat) (obj : O) (newObject : Bool) (pa : Option (PropertyAccessBase O))
    (shallow : Bool) : Except Err (Saved O × KeyValueStore O) :=
  match kv.objectClassInfos.find? (fun e => e.1 == classId) with
  | none => .error (.persistence_error "std::out_of_range")
  | some (_, classInfo) =>
    match kv.objectProperties.find? (fun e => e.1 == classId) with
    | none => .error (.undefined_behaviour "properties missing from the maps of the store")
    | some (_, properties) =>
      let classInfo' :=
        if newObject then classInfo.setMaxObjectId (wrap64 (classInfo.maxObjectId + 1))
        else classInfo
      let kv' : KeyValueStore O :=
        if newObject then { kv with
          objectClassInfos := kv.objectClassInfos.map (fun e =>
            if e.1 == classId then (e.1, classInfo') else e) }
        else kv
      let objectId := if newObject then classInfo'.maxObjectId else id
      let r1 : Except Err WriteTransaction :=
        match pa with
        | some p =>
          if shallow then (t.save tr classId id obj p StoreMode.force_property).map (fun r => r.2)
          else .ok tr
        | none => .ok tr
      match r1 with
      | .error e => .error e
      | .ok tr1 =>
        match calculateBuffer t obj properties with
        | .error e => .error e
        | .ok size =>
          let tr2 := tr1.setBuf (WriteBuf.start size)
          match tr2.writeObject t classId objectId obj properties shallow with
          | .error e => .error e
          | .ok tr3 =>
            match tr3.putData classId objectId 0 tr3.writeBuf with
            | (false, _) => .error (.persistence_error "data was not saved")
            | (true, tr4) =>
              let tr5 := tr4.setBuf { tr4.writeBuf with pos := 0 }
              let obj' :=
                if newObject then
                  match properties.objectIdAccess with
                  | some ida => ida.set obj objectId
                  | none => obj
                else obj
              .ok ({ objectId := objectId, obj := obj', info := classInfo', tr := tr5 }, kv')

/-- `WriteTransaction::saveObject(const std::shared_ptr<T> &obj)`: written under the key the
pointer carries, or under a new key. -/
def saveObjectPtr (tr : WriteTransaction) (t : ClassTraits O) (obj : ObjectPtr O) :
    Except Err (Saved O) :=
  if obj.objectId != 0 then tr.saveObject t obj.objectId obj.obj false none false
  else tr.saveObject t 0 obj.obj true none false

/-- `ReadTransaction::loadObject<T>(ObjectId objectId)`, the non-polymorphic load: the key is
built from `ClassTraits<T>::info->classId`. The template function `readObject<T>` (the
non-polymorphic one, on a new `T`) is passed in; `none` is the null pointer. -/
def loadObject {V : Type} (tr : WriteTransaction) (t : ClassTraits V)
    (readObject : ReadBuf → Nat → Nat → Except Err V) (objectId : Nat) :
    Except Err (Option V) :=
  let classId := t.info.classId
  match tr.getData classId objectId 0 with
  | none => .ok none
  | some bytes =>
    match readObject { data := bytes, pos := 0 } classId objectId with
    | .error e => .error e
    | .ok obj => .ok (some obj)

end WriteTransaction

namespace ObjectPtrPropertyStorage

variable {V : Type}

/-- `ObjectPtrPropertyStorage::save`. `val` is the value of the property (`none` for a null
pointer), `t` is `ClassTraits<V>`. Hands back the pointer, which holds the object id after
the save, the maps of the store and the transaction. -/
def save (tr : WriteTransaction) (t : ClassTraits V) (kv : KeyValueStore V)
    (val : Option (ObjectPtr V)) (mode : StoreMode) :
    Except Err (Option (ObjectPtr V) × KeyValueStore V × WriteTransaction) :=
  let r : Except Err (Nat × Nat × Option (ObjectPtr V) × KeyValueStore V × WriteTransaction) :=
    match val with
    | none => .ok (0, 0, none, kv, tr)
    | some p =>
      -- save the pointed-to object
      let childClassId := p.classId
      let childId := p.objectId
      if mode != StoreMode.force_buffer then
        let saved :=
          if childId != 0 then
            (tr.pushWriteBuf).saveObjectPoly t kv childClassId childId p.obj false none false
          else (tr.pushWriteBuf).saveObjectPoly t kv childClassId 0 p.obj true none false
        match saved with
        | .error e => .error e
        | .ok (s, kv') =>
          match s.tr.popWriteBuf with
          | .error e => .error e
          | .ok tr1 =>
            -- update the property so that it holds the object id
            .ok (childClassId, s.objectId, some { p with objectId := s.objectId, obj := s.obj },
              kv', tr1)
      else .ok (childClassId, childId, some p, kv, tr)
  match r with
  | .error e => .error e
  | .ok (childClassId, childId, val', kv', tr1) =>
    if mode != StoreMode.force_property then
      -- save the key in this objects write buffer
      match tr1.appendKey childClassId childId 0 with
      | .error e => .error e
      | .ok tr2 => .ok (val', kv', tr2)
    else .ok (val', kv', tr1)

/-- `ObjectPtrPropertyStorage::load`. Hands back what the setter `ClassTraits<T>::get` is
called with, the pair of the object pointer `loadObject` returned (`none` when it is null) and
the object id, or `none` when the setter is not called, and the buffer. -/
def load (m_lazy : Bool) (tr : WriteTransaction) (t : ClassTraits V)
    (readObject : ReadBuf → Nat → Nat → Except Err V) (buf : ReadBuf) (mode : StoreMode) :
    Except Err (Option (Option V × Nat) × ReadBuf) :=
  if m_lazy && mode == StoreMode.force_none then
    match buf.read StorageKey.byteSize with
    | .error e => .error e
    | .ok (_, buf1) => .ok (none, buf1)
  else
    match buf.readKey with
    | .error e => .error e
    | .ok (sk, buf1) =>
      if sk.classId > 0 then
        match tr.loadObject t readObject sk.objectId with
        | .error e => .error e
        | .ok v => .ok (some (v, sk.objectId), buf1)
      else .ok (none, buf1)

end ObjectPtrPropertyStorage

namespace ObjectIterPropertyStorage

/-- The `size(void *obj, const PropertyAccessBase *pa)` of `ObjectIterPropertyStorage`, which
it has from `StoreAccessPropertyKey`. -/
def size : Nat := StoreAccessPropertyKey.size

/-- `ObjectIterPropertyStorage::save`: `tr->writeBuf().appendRaw(ib ? ib->getCollectionId() :
0)`. `ib` is the collection id of the iterator, `none` for a null pointer. Modelled from the
spec: `appendRaw` of the missing kvbuf.h writes the 8 bytes of the `ObjectId`, "u64 collection
id inline". -/
def save (tr : WriteTransaction) (ib : Option Nat) : Except Err WriteTransaction :=
  tr.append (write_integer (match ib with
    | some collectionId => (collectionId : Int)
    | none => 0) ObjectId_sz)

end ObjectIterPropertyStorage

namespace ClassTraitsBase

variable {O : Type}

/-- The loop of `ClassTraitsBase::size` over the property indexes `i, i+1, ..` (`n` of them);
`ClassTraits.add` is `addSize`. -/
def sizeLoop (t : ClassTraits O) (obj : O) : Nat → Nat → Nat → Except Err Nat
  | 0, _, size => .ok size
  | n + 1, i, size =>
    match t.properties.get i with
    | .error e => .error e
    | .ok pa =>
      if !pa.enabled then sizeLoop t obj n (i + 1) size
      else
        match t.add obj pa size with
        | .error e => .error e
        | .ok (_, size') => sizeLoop t obj n (i + 1) size'

/-- `ClassTraitsBase::size`: the buffer size for the given object, non-polymorphic. -/
def size (t : ClassTraits O) (obj : O) : Except Err Nat :=
  if t.properties.fixedSize != 0 then .ok t.properties.fixedSize
  else sizeLoop t obj t.properties.full_size 0 0

end ClassTraitsBase

/-! ## Attached collections (kvstore.h) -/

/-- What `updateCollection` leaves behind. `result` is the value returned, `none` when control
reaches the end of the function body, which has no return statement there. -/
structure CollectionUpdated (V : Type) where
  result : Option Bool
  info : AbstractClassInfo
  tr : WriteTransaction

namespace WriteTransaction

variable {V : Type}

/-- The loop over the vector of the attached `putCollection`, `t.info` being the class info
the saves before left. The call `saveObject(0, v, true)` of the branch without `saveMembers`
is taken as `saveObject<V>(0, *v, true)`. Hands back the object ids written. -/
def putCollectionLoop (t : ClassTraits V) (saveMembers : Bool) :
    List (ObjectPtr V) → AbstractClassInfo → WriteTransaction → List Nat →
      Except Err (List Nat × AbstractClassInfo × WriteTransaction)
  | [], info, tr, ids => .ok (ids, info, tr)
  | v :: rest, info, tr, ids =>
    let classId := v.classId
    let r : Except Err (Nat × AbstractClassInfo × WriteTransaction) :=
      if saveMembers then
        match (tr.pushWriteBuf).saveObjectPtr { t with info := info } v with
        | .error e => .error e
        | .ok s =>
          match s.tr.popWriteBuf with
          | .error e => .error e
          | .ok tr1 => .ok (s.objectId, s.info, tr1)
      else
        if v.objectId == 0 then
          match (tr.pushWriteBuf).saveObject { t with info := info } 0 v.obj true none false with
          | .error e => .error e
          | .ok s =>
            match s.tr.popWriteBuf with
            | .error e => .error e
            | .ok tr1 => .ok (s.objectId, s.info, tr1)
        else .ok (v.objectId, info, tr)
    match r with
    | .error e => .error e
    | .ok (objectId, info', tr1) =>
      match tr1.appendKey classId objectId 0 with
      | .error e => .error e
      | .ok tr2 => putCollectionLoop t saveMembers rest info' tr2 (ids ++ [objectId])

/-- `WriteTransaction::putCollection(std::shared_ptr<T> &obj, PropertyId propertyId,
const std::vector<std::shared_ptr<V>> &vect, bool saveMembers)`: insert an attached member
collection. `classId` and `objId` are the class id and the object id of the object the
collection is attached to, `t` is `ClassTraits<V>`. -/
def putCollectionAttached (tr : WriteTransaction) (t : ClassTraits V)
    (classId objId propertyId : Nat) (vect : List (ObjectPtr V)) (saveMembers : Bool) :
    Except Err (List Nat × AbstractClassInfo × WriteTransaction) :=
  let bufSz := vect.length * StorageKey.byteSize + 4
  match tr.allocData classId objId propertyId bufSz with
  | none => .error (.persistence_error "allocData failed")
  | some (data, tr1) =>
    let tr2 := tr1.setBuf (WriteBuf.startOn ⟨classId, objId, propertyId⟩ data 0)
    match tr2.append (write_integer vect.length 4) with
    | .error e => .error e
    | .ok tr3 => putCollectionLoop t saveMembers vect t.info tr3 []

/-- The loop `for(size_t i=0; i < elementCount; i++)` of `updateCollection` that looks for the
key of the value: the offset of the slot found (`buf.cur() - StorageKey::byteSize`), if
any. -/
def findSlot (valueClassId valueId : Nat) : Nat → ReadBuf → Except Err (Option Nat)
  | 0, _ => .ok none
  | n + 1, buf =>
    match buf.readKey with
    | .error e => .error e
    | .ok (sk, buf1) =>
      if sk.classId == valueClassId && sk.objectId == valueId then
        .ok (some (buf1.pos - StorageKey.byteSize))
      else findSlot valueClassId valueId n buf1

/-- `WriteTransaction::updateCollection`: add or remove an element to an attached member
collection. `classId` and `objectId` belong to the object the collection is attached to, `t`
is `ClassTraits<V>`. The call `saveObject(0, val, true)` is taken as
`saveObject<V>(0, *val, true)`. -/
def updateCollection (tr : WriteTransaction) (t : ClassTraits V)
    (classId objectId propertyId : Nat) (val : ObjectPtr V) (remove : Bool) :
    Except Err (CollectionUpdated V) :=
  match tr.getData classId objectId propertyId with
  | none => .error (.persistence_error "collection does not exist")
  | some bytes =>
    let buf : ReadBuf := { data := bytes, pos := 0 }
    match buf.readInteger 4 with
    | .error e => .error e
    | .ok (elementCount, buf1) =>
      let valueClassId := val.classId
      let valueId := val.objectId
      match findSlot valueClassId valueId elementCount buf1 with
      | .error e => .error e
      | .ok (some slotStart) =>
        if !remove then
          match tr.saveObjectPtr t val with
          | .error e => .error e
          | .ok s => .ok { result := some false, info := s.info, tr := s.tr }
        else
          let tr1 := tr.setBuf (WriteBuf.start (bytes.length - StorageKey.byteSize))
          match tr1.appendFrom bytes 0 slotStart with
          | .error e => .error e
          | .ok tr2 =>
            match tr2.appendFrom bytes (slotStart + StorageKey.byteSize)
                (bytes.length - StorageKey.byteSize) with
            | .error e => .error e
            | .ok tr3 =>
              .ok { result := some true, info := t.info,
                    tr := (tr3.putData classId objectId propertyId tr3.writeBuf).2 }
      | .ok none =>
        if remove then .ok { result := some false, info := t.info, tr := tr }
        else
          let r : Except Err (Nat × AbstractClassInfo × WriteTransaction) :=
            if valueId == 0 then
              match tr.saveObject t 0 val.obj true none false with
              | .error e => .error e
              | .ok s => .ok (s.objectId, s.info, s.tr)
            else .ok (valueId, t.info, tr)
          match r with
          | .error e => .error e
          | .ok (valueId', info, tr1) =>
            let tr2 := tr1.setBuf (WriteBuf.start (bytes.length + StorageKey.byteSize))
            match tr2.appendFrom bytes 0 bytes.length with
            | .error e => .error e
            | .ok tr3 =>
              match tr3.appendKey valueClassId valueId' 0 with
              | .error e => .error e
              | .ok tr4 => .ok { result := none, info := info, tr := tr4 }

end WriteTransaction

/-! ## Specification-side notions, storage strategies and attached collections -/

/-- The property `samples` (id 2) of a class with the id 10 whose objects are value vectors
of `int`. -/
def samplesProperty : PropertyAccessBase (List Int) :=
  { name := "samples", classId := 10, id := 2, storage := .valueVector 4 (fun o => o),
    type := { id := 3, isVector := true, byteSize := 4 } }

/-- The object 1 of the class of `samplesProperty` saved with the vector `first`, loaded,
saved again with the vector `second` and loaded again, on a new transaction. Hands back the
two vectors loaded. -/
def saveTwiceThenLoad (first second : List Int) : Except Err (List Int × List Int) :=
  match samplesProperty.storage.save {} 10 1 first samplesProperty StoreMode.force_none with
  | .error e => .error e
  | .ok tr1 =>
    match ValueVectorPropertyStorage.load tr1 4 true 10 1 2 with
    | .error e => .error e
    | .ok l1 =>
      match samplesProperty.storage.save tr1 10 1 second samplesProperty
          StoreMode.force_none with
      | .error e => .error e
      | .ok tr2 =>
        match ValueVectorPropertyStorage.load tr2 4 true 10 1 2 with
        | .error e => .error e
        | .ok l2 => .ok (l1, l2)

/-- The `ClassTraits` of a mapped class `Shape` (class id 10) with the registered subclass
`Circle` (class id 11); the objects of both are `Point`s. -/
def shapeTraits : ClassTraits Point :=
  { info := .mk "Shape" 10 0 [.mk "Circle" 11 0 []]
    properties := .mk (Point.decl_props 10) none 0 none 0 }

/-- The maps of a store in which `Shape` and `Circle` are registered. -/
def shapeStore : KeyValueStore Point :=
  { objectProperties :=
      [ (10, .mk (Point.decl_props 10) none 0 none 0),
        (11, .mk (Point.decl_props 11) none 0 none 0) ]
    objectClassInfos := [(10, .mk "Shape" 10 0 [.mk "Circle" 11 0 []]), (11, .mk "Circle" 11 0 [])] }

/-- The record of a `Point` read back: the two `int` members. -/
def Point.readObject (buf : ReadBuf) (_classId _objectId : Nat) : Except Err Point :=
  match ValueTraits.getBytes buf 4 with
  | .error e => .error e
  | .ok (x, b1) =>
    match ValueTraits.getBytes b1 4 with
    | .error e => .error e
    | .ok (y, _) => .ok { x := to_signed 4 x, y := to_signed 4 y }

/-- The property value `target` of an object pointer property with the declared type `Shape`
saved into a 14-byte buffer of the transaction `tr` and loaded from the bytes written. Hands
back the class id and the object id the pointer holds after the save, the entries of the
store, the bytes written, what the load hands to the setter, and the cursor after the
load. -/
def ptrSaveThenLoad (tr : WriteTransaction) (target : ObjectPtr Point) :
    Except Err ((Nat × Nat) × List (StorageKey × List byte_t) × List byte_t
      × Option (Option Point × Nat) × Nat) :=
  match ObjectPtrPropertyStorage.save (tr.setBuf (WriteBuf.start 14)) shapeTraits shapeStore
      (some target) StoreMode.force_none with
  | .error e => .error e
  | .ok (none, _, _) => .error (.undefined_behaviour "null pointer after the save")
  | .ok (some p, _, tr1) =>
    match ObjectPtrPropertyStorage.load false tr1 shapeTraits Point.readObject
        { data := tr1.writeBuf.filled, pos := 0 } StoreMode.force_none with
    | .error e => .error e
    | .ok (r, buf) =>
      .ok ((p.classId, p.objectId), tr1.store.entries, tr1.writeBuf.filled, r, buf.pos)

/-- An attached collection of the two new points (1, 2) and (3, 4) of the class 10, put under
the property id 5 of the object 1 of the class 20, on a new transaction. -/
def attachedTwo : Except Err (List Nat × AbstractClassInfo × WriteTransaction) :=
  WriteTransaction.putCollectionAttached {} (Point.traits 10) 20 1 5
    [{ classId := 10, objectId := 0, obj := { x := 1, y := 2 } },
     { classId := 10, objectId := 0, obj := { x := 3, y := 4 } }] true

/-- The record of the collection of `attachedTwo`: the count 2 and the keys (10, 1, 0) and
(10, 2, 0). -/
def attachedTwoRecord : List byte_t :=
  [2, 0, 0, 0,
   10, 0, 0, 0, 1, 0, 0, 0, 0, 0, 0, 0, 0, 0,
   10, 0, 0, 0, 2, 0, 0, 0, 0, 0, 0, 0, 0, 0]

/-- The collection of `attachedTwo` updated with `val`. Hands back the value returned, the
record stored before and after the call, the backend calls of the call, and the filled part of
the write buffer after it. -/
def updateAttached (val : ObjectPtr Point) (remove : Bool) :
    Except Err (Option Bool × Option (List byte_t) × Option (List byte_t) × List BackendOp
      × List byte_t) :=
  match attachedTwo with
  | .error e => .error e
  | .ok (_, info, tr) =>
    match tr.updateCollection { Point.traits 10 with info := info } 20 1 5 val remove with
    | .error e => .error e
    | .ok r =>
      .ok (r.result, tr.getData 20 1 5, r.tr.getData 20 1 5, r.tr.log.drop tr.log.length,
        r.tr.writeBuf.filled)

/-- The object ids that the pointers of a vector carry once each has been saved, `m` being
the `maxObjectId` of the class before: the id a pointer has, or for a pointer without id (a
new object) the next id of the class. -/
def savedIds {V : Type} : Nat → List (ObjectPtr V) → List Nat
  | _, [] => []
  | m, v :: rest =>
    if v.objectId != 0 then v.objectId :: savedIds m rest
    else wrap64 (m + 1) :: savedIds (wrap64 (m + 1)) rest

/-- The `maxObjectId` of the class after each save of a vector of pointers, `m` being its
value before: it counts up with every pointer without id. -/
def savedCounts {V : Type} : Nat → List (ObjectPtr V) → List Nat
  | _, [] => []
  | m, v :: rest =>
    if v.objectId != 0 then m :: savedCounts m rest
    else wrap64 (m + 1) :: savedCounts (wrap64 (m + 1)) rest

/-! ## Removal of objects (kvstore.h) -/

namespace Store

/-- Modelled from the spec: `remove(classId, objectId, propertyId) -> bool`, true when the key
was there. -/
def remove (s : Store) (k : StorageKey) : Bool × Store :=
  (s.entries.any (fun e => e.1 = k), { s with entries := s.entries.filter (fun e => e.1 ≠ k) })

end Store

/-- What `removeObject` leaves behind. `result` is the value returned, `none` as the function
body has no return statement. -/
structure ObjectRemoved where
  result : Option Bool
  tr : WriteTransaction

namespace WriteTransaction

variable {O : Type}

/-- The pure virtual `WriteTransaction::remove`. -/
def remove (tr : WriteTransaction) (classId objectId propertyId : Nat) :
    Bool × WriteTransaction :=
  let r := tr.store.remove ⟨classId, objectId, propertyId⟩
  (r.1, { tr with store := r.2, log := tr.log ++ [.remove ⟨classId, objectId, propertyId⟩] })

/-- The loop of `removeObject` over the property indexes `px, px+1, ..` (`n` of them): "first
kill all separately stored (vector) properties". -/
def removeObjectLoop (classId objectId : Nat) (properties : Properties O) :
    Nat → Nat → WriteTransaction → Except Err WriteTransaction
  | 0, _, tr => .ok tr
  | n + 1, px, tr =>
    match properties.get px with
    | .error e => .error e
    | .ok p =>
      if p.type.isVector then
        removeObjectLoop classId objectId properties n (px + 1) (tr.remove classId objectId p.id).2
      else removeObjectLoop classId objectId properties n (px + 1) tr

/-- `WriteTransaction::removeObject`: non-polymorphic object removal. -/
def removeObject (tr : WriteTransaction) (t : ClassTraits O) (classId objectId : Nat)
    (_obj : O) : Except Err ObjectRemoved :=
  match removeObjectLoop classId objectId t.properties t.properties.full_size 0 tr with
  | .error e => .error e
  | .ok tr1 =>
    -- now remove the object proper
    .ok { result := none, tr := (tr1.remove classId objectId 0).2 }

end WriteTransaction

/-! ## Class cursors (kvstore.h) -/

/-- Modelled from the spec: the pure virtual `CursorHelper`, a backend cursor that "iterates
all objects whose ClassId is in the set". `ahead` holds the item under the cursor followed by
those ahead of it, in key order. -/
structure CursorHelper where
  ahead : List (StorageKey × List byte_t)
  m_currentClassId : Nat := 0
  m_currentObjectId : Nat := 0
  deriving DecidableEq, Repr

namespace CursorHelper

/-- Modelled from the spec: `CursorHelper::start`, "position the cursor at the first object;
return true if an object was found". -/
def start (h : CursorHelper) : Bool × CursorHelper :=
  match h.ahead with
  | [] => (false, h)
  | e :: _ => (true, { h with m_currentClassId := e.1.classId, m_currentObjectId := e.1.objectId })

/-- Modelled from the spec: `CursorHelper::next`, "position the cursor at the next object;
return true if an object was found". -/
def next (h : CursorHelper) : Bool × CursorHelper :=
  match h.ahead with
  | _ :: e :: rest =>
    (true, { ahead := e :: rest, m_currentClassId := e.1.classId,
             m_currentObjectId := e.1.objectId })
  | _ => (false, { h with ahead := [] })

/-- `CursorHelper::currentClassId`. -/
def currentClassId (h : CursorHelper) : Nat := h.m_currentClassId

end CursorHelper

mutual
/-- `ClassTraitsBase::getSubstitute`. `substitutes` tells for a class id whether the
`substitute` of the `ClassInfo` of that class is set (by `registerSubstitute`). Hands back the
id of the class whose substitute makes the object, `none` for the null pointer. -/
def getSubstitute (substitutes : Nat → Bool) : AbstractClassInfo → Option Nat
  | .mk _ classId _ subs =>
    if substitutes classId then some classId else getSubstituteSubs substitutes subs
/-- The loop `for(auto &sub : traits_info->subs)` of `getSubstitute`. -/
def getSubstituteSubs (substitutes : Nat → Bool) : List AbstractClassInfo → Option Nat
  | [] => none
  | sub :: rest =>
    match getSubstitute substitutes sub with
    | some subst => some subst
    | none => getSubstituteSubs substitutes rest
end

/-- `ClassCursor<T>` of kvstore.h: cursor for iterating over class objects (each with its own
key). -/
structure ClassCursor where
  m_helper : CursorHelper
  m_hasData : Bool
  m_classInfo : Option AbstractClassInfo

namespace ClassCursor

/-- `ClassCursor::validateClass`: `FIND_CLS(T, m_helper->currentClassId())`, then
`m_classInfo != nullptr || ClassTraits<T>::info->substitute != nullptr`. `info` is the class
info of `T`. -/
def validateClass (info : AbstractClassInfo) (substitutes : Nat → Bool)
    (helper : CursorHelper) : Bool × Option AbstractClassInfo :=
  let m_classInfo := info.resolve helper.currentClassId
  (m_classInfo.isSome || substitutes info.classId, m_classInfo)

/-- The loop `while(hasData && !clsFound) { hasData = helper->next(); clsFound = hasData &&
validateClass(); }`, with `fuel` rounds at most; `none` when the rounds are used up before the
loop has ended. -/
def skip (info : AbstractClassInfo) (substitutes : Nat → Bool) :
    Nat → Bool → Bool → CursorHelper → Option AbstractClassInfo → Option ClassCursor
  | 0, hasData, clsFound, helper, classInfo =>
    if hasData && !clsFound then none
    else some { m_helper := helper, m_hasData := hasData && clsFound, m_classInfo := classInfo }
  | fuel + 1, hasData, clsFound, helper, classInfo =>
    if hasData && !clsFound then
      match helper.next with
      | (true, helper1) =>
        let v := validateClass info substitutes helper1
        skip info substitutes fuel true v.1 helper1 v.2
      | (false, helper1) => skip info substitutes fuel false false helper1 classInfo
    else some { m_helper := helper, m_hasData := hasData && clsFound, m_classInfo := classInfo }

/-- The constructor `ClassCursor::ClassCursor`. Every round of the loop moves the helper by
one item, so the number of items is fuel enough. -/
def new (info : AbstractClassInfo) (substitutes : Nat → Bool) (helper : CursorHelper) :
    Option ClassCursor :=
  let s := helper.start
  let v := validateClass info substitutes s.2
  skip info substitutes s.2.ahead.length s.1 v.1 s.2 v.2

/-- `ClassCursor::next`: the first round of the `do .. while` loop, then the rounds that
follow. -/
def next (info : AbstractClassInfo) (substitutes : Nat → Bool) (c : ClassCursor) :
    Option (Bool × ClassCursor) :=
  let r : Option ClassCursor :=
    match c.m_helper.next with
    | (true, helper1) =>
      let v := validateClass info substitutes helper1
      skip info substitutes helper1.ahead.length true v.1 helper1 v.2
    | (false, helper1) =>
      skip info substitutes helper1.ahead.length false false helper1 c.m_classInfo
  r.map (fun c1 => (c1.m_hasData, c1))

/-- `ClassCursor::atEnd`. -/
def atEnd (c : ClassCursor) : Bool := !c.m_hasData

end ClassCursor

/-! ## Kinds of transactions (kvstore.h) -/

/-- Modelled from the spec: the "three transaction kinds" of the transaction manager. -/
inductive TransactionKind where
  | Read
  | ExclusiveRead
  | Write
  deriving DecidableEq, Repr

/-- Modelled from the spec: the error kinds `WriteBlocked`, `ReadBlocked`, "transaction-kind
conflict". -/
inductive Blocked where
  | WriteBlocked
  | ReadBlocked
  deriving DecidableEq, Repr

namespace KeyValueStore

/-- Modelled from the spec: what an active transaction of the kind `active` means for the
begin of one of the kind `begun` (the backend that implements `beginRead`,
`beginExclusiveRead` and `beginWrite` is not part of the sources): "beginning a Write while an
ExclusiveRead is active fails with WriteBlocked; beginning an ExclusiveRead while a Write is
active fails with ReadBlocked"; a Read is "concurrent with other reads and with a write". For
a second Write ("singleton; only one active at a time") the spec names no error; it is
refused like a blocked one. -/
def blocks : TransactionKind → TransactionKind → Option Blocked
  | .ExclusiveRead, .Write => some .WriteBlocked
  | .Write, .ExclusiveRead => some .ReadBlocked
  | .Write, .Write => some .WriteBlocked
  | _, _ => none

/-- Modelled from the spec: `beginRead`, `beginExclusiveRead` and `beginWrite` as one function
of the kind begun, on the list of the transactions that are active. -/
def begin (active : List TransactionKind) (kind : TransactionKind) :
    Except Blocked (List TransactionKind) :=
  match active.findSome? (fun a => blocks a kind) with
  | some e => .error e
  | none => .ok (active ++ [kind])

end KeyValueStore

/-! ## Vectors embedded in the record of their object (kvstore.h) -/

/-- Modelled from the spec: `read_integer<unsigned>(buf, n)` of the missing kvbuf.h for the
pointer `buf` at the offset `off` of the bytes `data`. The pointer is passed by value and
stays where it is; a read beyond the end of the bytes is undefined. -/
def readIntegerAt (data : List byte_t) (off n : Nat) : Except Err Nat :=
  if off + n ≤ data.length then .ok (read_integer (data.drop off) n)
  else .error (.undefined_behaviour "read beyond the end of the buffer")

/-- Wrap-around of a 32 bit unsigned integer (`unsigned`). -/
def wrap32 (n : Nat) : Nat := n % 2 ^ 32

namespace ObjectVectorPropertyStorageEmbedded

variable {V : Type}

/-- The loop `for(unsigned i=0; i<vectSize; i++)` of `size(const byte_t *buf)`, with `n`
rounds left; `buf` is the offset the pointer has reached. -/
def sizeBufLoop (data : List byte_t) : Nat → Nat → Nat → Except Err Nat
  | 0, _, sz => .ok sz
  | n + 1, buf, sz =>
    match readIntegerAt data buf 4 with
    | .error e => .error e
    | .ok objSize => sizeBufLoop data n (buf + wrap32 (4 + objSize)) (sz + wrap32 (4 + objSize))

/-- `ObjectVectorPropertyStorageEmbedded::size(const byte_t *buf)`: the size from a serialized
buffer; `data` holds the bytes at `buf`, `t` is `ClassTraits<V>`. -/
def sizeBuf (t : ClassTraits V) (data : List byte_t) : Except Err Nat :=
  match readIntegerAt data 0 4 with
  | .error e => .error e
  | .ok vectSize =>
    let sz := t.properties.fixedSize
    if sz != 0 then
      match readIntegerAt data 0 4 with
      | .error e => .error e
      | .ok objSize =>
        if objSize != sz then .error (.persistence_error "invalid object buffer")
        else .ok (wrap32 (wrap32 (vectSize * wrap32 (objSize + 4)) + 4))
    else
      match sizeBufLoop data vectSize 0 sz with
      | .error e => .error e
      | .ok sz1 => .ok (sz1 + 4)

/-- The loop `for(V &v : val) sz += calculateBuffer(&v, ClassTraits<V>::properties) + 4` of
`size(void *obj, const PropertyAccessBase *pa)`. -/
def sizeLoop (t : ClassTraits V) : List V → Nat → Except Err Nat
  | [], sz => .ok sz
  | v :: rest, sz =>
    match calculateBuffer t v t.properties with
    | .error e => .error e
    | .ok n => sizeLoop t rest (sz + (n + 4))

/-- `ObjectVectorPropertyStorageEmbedded::size(void *obj, const PropertyAccessBase *pa)`: the
size from a live object; `val` is the value of the property. -/
def size (t : ClassTraits V) (val : List V) : Except Err Nat :=
  let sz := t.properties.fixedSize
  if sz != 0 then .ok (val.length * (sz + 4) + 4)
  else
    match sizeLoop t val sz with
    | .error e => .error e
    | .ok sz1 => .ok (sz1 + 4)

/-- The loop `for(V &v : val)` of `save`; `childObjectId` is a `PropertyId`. -/
def saveLoop (t : ClassTraits V) (childClassId fsz : Nat) :
    List V → Nat → WriteTransaction → Except Err WriteTransaction
  | [], _, tr => .ok tr
  | v :: rest, childObjectId, tr =>
    let r : Except Err Nat :=
      if fsz != 0 then .ok fsz else calculateBuffer t v t.properties
    match r with
    | .error e => .error e
    | .ok sz =>
      match tr.append (write_integer sz 4) with
      | .error e => .error e
      | .ok tr1 =>
        match tr1.writeObject t childClassId (wrap16 (childObjectId + 1)) v t.properties true with
        | .error e => .error e
        | .ok tr2 => saveLoop t childClassId fsz rest (wrap16 (childObjectId + 1)) tr2

/-- `ObjectVectorPropertyStorageEmbedded::save`; `appendInteger(v, 4)` of the missing kvbuf.h
appends the 4 little-endian bytes of the value. -/
def save (tr : WriteTransaction) (t : ClassTraits V) (val : List V) :
    Except Err WriteTransaction :=
  match tr.append (write_integer (wrap32 val.length) 4) with
  | .error e => .error e
  | .ok tr1 => saveLoop t t.info.classId t.properties.fixedSize val 0 tr1

end ObjectVectorPropertyStorageEmbedded

namespace ObjectPtrVectorPropertyStorageEmbedded

variable {V : Type}

/-- `ClassTraitsBase::bufferSize(T *obj, ClassId *clsId)`: the size and the class id of the
object behind a pointer. The class id of the pointer stands for `typeid(*obj)`; `traits` hands
out the `ClassTraits<S>` of a registered subclass `S` by its class id, whose `size` the class
info found refers to. -/
def bufferSize (t : ClassTraits V) (traits : Nat → Option (ClassTraits V)) (p : ObjectPtr V) :
    Except Err (Nat × Nat) :=
  if p.classId == t.info.classId then
    match ClassTraitsBase.size t p.obj with
    | .error e => .error e
    | .ok sz => .ok (sz, t.info.classId)
  else
    match t.info.resolve p.classId with
    | none => .error (.persistence_error "unknow typeid. Class missing from registry")
    | some sub =>
      match traits sub.classId with
      | none => .error (.undefined_behaviour "class info without class traits")
      | some st =>
        match ClassTraitsBase.size st p.obj with
        | .error e => .error e
        | .ok sz => .ok (sz, sub.classId)

/-- `ClassTraitsBase::getProperties(ClassId classId)`; `none` is the null pointer. -/
def getProperties (t : ClassTraits V) (traits : Nat → Option (ClassTraits V)) (classId : Nat) :
    Except Err (Option (Properties V)) :=
  if classId == t.info.classId then .ok (some t.properties)
  else if classId != 0 then
    match t.info.doresolve classId with
    | .error e => .error e
    | .ok sub =>
      match traits sub.classId with
      | none => .error (.undefined_behaviour "class info without class traits")
      | some st => .ok (some st.properties)
  else .ok none

/-- The loop `for(std::shared_ptr<V> &v : val)` of `save`; `childObjectId` is a
`PropertyId`. -/
def saveLoop (t : ClassTraits V) (traits : Nat → Option (ClassTraits V)) :
    List (ObjectPtr V) → Nat → WriteTransaction → Except Err WriteTransaction
  | [], _, tr => .ok tr
  | v :: rest, childObjectId, tr =>
    match bufferSize t traits v with
    | .error e => .error e
    | .ok (sz, childClassId) =>
      match tr.append (write_integer childClassId ClassId_sz) with
      | .error e => .error e
      | .ok tr1 =>
        match tr1.append (write_integer sz 4) with
        | .error e => .error e
        | .ok tr2 =>
          match getProperties t traits childClassId with
          | .error e => .error e
          | .ok none => .error (.undefined_behaviour "properties is null")
          | .ok (some properties) =>
            match tr2.writeObject t childClassId (wrap16 (childObjectId + 1)) v.obj
                properties true with
            | .error e => .error e
            | .ok tr3 => saveLoop t traits rest (wrap16 (childObjectId + 1)) tr3

/-- `ObjectPtrVectorPropertyStorageEmbedded::save`; `val` is the value of the property, `t`
is `ClassTraits<V>`. -/
def save (tr : WriteTransaction) (t : ClassTraits V) (traits : Nat → Option (ClassTraits V))
    (val : List (ObjectPtr V)) : Except Err WriteTransaction :=
  match tr.append (write_integer (wrap32 val.length) 4) with
  | .error e => .error e
  | .ok tr1 => saveLoop t traits val 0 tr1

/-- The loop `for(size_t i=0; i<len; i++)` of `load`, with `n` rounds left. `info` is the
class info of `V`. The template functions `readObject<V>` are passed in: `readObject` is the
polymorphic one, which makes the object of the class found, `readSubstitute` the
non-polymorphic one on the object that the substitute of the class `subst` has made, with
`StoreMode::force_buffer`. Modelled from the spec: `mark()` notes the cursor and
`unmark(n)` puts it `n` bytes behind the mark, "for bounded skips". -/
def loadLoop (info : AbstractClassInfo) (substitutes : Nat → Bool)
    (readObject : ReadBuf → Nat → Nat → Except Err (V × ReadBuf))
    (readSubstitute : Nat → ReadBuf → Nat → Nat → Except Err (V × ReadBuf)) :
    Nat → Nat → ReadBuf → List V → Except Err (List V × ReadBuf)
  | 0, _, buf, val => .ok (val, buf)
  | n + 1, childObjectId, buf, val =>
    match buf.readInteger ClassId_sz with
    | .error e => .error e
    | .ok (childClassId, buf1) =>
      match buf1.readInteger 4 with
      | .error e => .error e
      | .ok (sz, buf2) =>
        match info.resolve childClassId with
        | none =>
          let mark := buf2.pos
          match getSubstitute substitutes info with
          | some subst =>
            match readSubstitute subst buf2 childClassId (wrap16 (childObjectId + 1)) with
            | .error e => .error e
            | .ok (vp, _) =>
              loadLoop info substitutes readObject readSubstitute n (wrap16 (childObjectId + 1))
                { buf2 with pos := mark + sz } (val ++ [vp])
          | none =>
            loadLoop info substitutes readObject readSubstitute n childObjectId
              { buf2 with pos := mark + sz } val
        | some _ =>
          match readObject buf2 childClassId (wrap16 (childObjectId + 1)) with
          | .error e => .error e
          | .ok (vp, buf3) =>
            loadLoop info substitutes readObject readSubstitute n (wrap16 (childObjectId + 1))
              buf3 (val ++ [vp])

/-- `ObjectPtrVectorPropertyStorageEmbedded::load`: the vector that is handed to the setter
`ClassTraits<T>::get`, and the buffer. -/
def load (info : AbstractClassInfo) (substitutes : Nat → Bool)
    (readObject : ReadBuf → Nat → Nat → Except Err (V × ReadBuf))
    (readSubstitute : Nat → ReadBuf → Nat → Nat → Except Err (V × ReadBuf))
    (buf : ReadBuf) : Except Err (List V × ReadBuf) :=
  match buf.readInteger 4 with
  | .error e => .error e
  | .ok (len, buf1) => loadLoop info substitutes readObject readSubstitute len 0 buf1 []

end ObjectPtrVectorPropertyStorageEmbedded

/-! ## Appender for raw data collections (kvstore.h) -/

namespace DataCollectionAppender

/-- `DataCollectionAppender<T>::put(T *val, size_t dataSize)`. `val` holds the bytes of the
array behind the pointer, `sizeofT` is `sizeof(T)`; `m_writeBuf` is the write buffer of the
transaction. `dataSize -= avail` is the subtraction of 64 bit unsigned integers. The function
`CollectionAppenderBase::startChunk(size_t)`, which kvstore.h declares and kvstore.cpp does
not define, is passed in. -/
def put
    (startChunk : CollectionAppenderBase → WriteTransaction → Nat →
      Except Err (CollectionAppenderBase × WriteTransaction))
    (a : CollectionAppenderBase) (wtxn : WriteTransaction) (val : List byte_t)
    (dataSize sizeofT : Nat) : Except Err (CollectionAppenderBase × WriteTransaction) :=
  let avail := wtxn.writeBuf.avail
  let r : Except Err (CollectionAppenderBase × WriteTransaction × Nat × Nat) :=
    if sizeofT ≤ avail then
      match wtxn.appendFrom val 0 avail with
      | .error e => .error e
      | .ok tr1 =>
        .ok ({ a with m_elementCount := wrap64 (a.m_elementCount + avail / sizeofT) }, tr1,
          wrap64 (dataSize + 2 ^ 64 - wrap64 avail), avail)
    else .ok (a, wtxn, dataSize, 0)
  match r with
  | .error e => .error e
  | .ok (a1, tr1, dataSize1, off) =>
    if dataSize1 != 0 then
      match startChunk a1 tr1 (if dataSize1 < a1.m_chunkSize then a1.m_chunkSize else dataSize1)
      with
      | .error e => .error e
      | .ok (a2, tr2) =>
        match tr2.appendFrom val off dataSize1 with
        | .error e => .error e
        | .ok tr3 =>
          .ok ({ a2 with m_elementCount := wrap64 (a2.m_elementCount + dataSize1 / sizeofT) },
            tr3)
    else .ok (a1, tr1)

end DataCollectionAppender

/-! ## Specification-side notions, removal and cursors -/

/-- The `ClassTraits` of a class `Samples` (class id 10) whose one property is the value
vector `samplesProperty`; an object of the class is the vector. -/
def samplesTraits : ClassTraits (List Int) :=
  { info := .mk "Samples" 10 0 []
    properties := .mk [samplesProperty] none 0 none 0 }

/-- The transaction after `putObject` of the `Samples` object with the vector 1, 2, 3 on a new
transaction: the main record under (10, 1, 0) and the vector under (10, 1, 2). -/
def samplesSaved : WriteTransaction :=
  match WriteTransaction.putObject {} samplesTraits [1, 2, 3] with
  | .ok r => r.tr
  | .error _ => {}

/-- The state of a cursor helper that stands on the item `e`, with the items `rest` ahead. -/
def CursorHelper.at (e : StorageKey × List byte_t) (rest : List (StorageKey × List byte_t)) :
    CursorHelper :=
  { ahead := e :: rest, m_currentClassId := e.1.classId, m_currentObjectId := e.1.objectId }

/-- The loop `for(; !cursor.atEnd(); cursor.next())` over a class cursor, with `fuel` rounds at
most: the items the cursor stood on, in the order of the visits; `none` when the rounds are
used up before the cursor is at its end. -/
def ClassCursor.visit (info : AbstractClassInfo) (substitutes : Nat → Bool) :
    Nat → ClassCursor → Option (List (StorageKey × List byte_t))
  | 0, c => if c.atEnd then some [] else none
  | fuel + 1, c =>
    if c.atEnd then some []
    else
      match c.m_helper.ahead, ClassCursor.next info substitutes c with
      | e :: _, some (_, c1) => (ClassCursor.visit info substitutes fuel c1).map (fun l => e :: l)
      | _, _ => none

/-- A decoder of stored `CollectionInfo` records that reads the collection id, the first
property of the record, and leaves the chunk list empty. -/
def decodeCollectionId : Nat → List byte_t → WriteTransaction → Except Err CollectionInfo :=
  fun _ bytes _ => .ok { collectionId := read_integer bytes ObjectId_sz }

/-- A transaction over a store that holds a record for the collection 7 under
(COLLINFO_CLSID, 7, 0), with an empty cache. -/
def storedInfoTransaction : WriteTransaction :=
  { store := { entries := [(⟨COLLINFO_CLSID, 7, 0⟩, [7, 0, 0, 0, 0, 0, 0, 0])] } }

/-- The `ClassTraits<Point>` of `Point` (class id 10) whose property table has the fixed size
`fixedSize` (0 when `init` found none). -/
def Point.traitsFixed (fixedSize : Nat) : ClassTraits Point :=
  { info := .mk "Point" 10 0 []
    properties := .mk (Point.decl_props 10) none 0 none fixedSize }

/-- The value `val` of an embedded object vector property of points, saved into a buffer of
the size that `size(obj, pa)` computes for it. Hands back that size, the bytes written, and
what `size(buf)` computes from the bytes written. -/
def embeddedVectorSizes (fixedSize : Nat) (val : List Point) :
    Except Err (Nat × List byte_t × Except Err Nat) :=
  match ObjectVectorPropertyStorageEmbedded.size (Point.traitsFixed fixedSize) val with
  | .error e => .error e
  | .ok sz =>
    match ObjectVectorPropertyStorageEmbedded.save
        (({} : WriteTransaction).setBuf (WriteBuf.start sz)) (Point.traitsFixed fixedSize) val with
    | .error e => .error e
    | .ok tr =>
      .ok (sz, tr.writeBuf.filled,
        ObjectVectorPropertyStorageEmbedded.sizeBuf (Point.traitsFixed fixedSize)
          tr.writeBuf.filled)

/-- The property table of a mapped class `Shape` (class id 10) with the one `int` member
`x`. -/
def Shape.properties : Properties Point :=
  .mk [ { name := "x", classId := 10, id := 2, storage := .base 4 (fun p => p.x),
          type := { id := 3, byteSize := 4 } } ] none 0 none 0

/-- The `ClassTraits<Shape>` of a writer that has registered `Shape` with the subclasses
`Circle` (class id 11) and `Square` (class id 12). -/
def drawingTraits : ClassTraits Point :=
  { info := .mk "Shape" 10 0 [.mk "Circle" 11 0 [], .mk "Square" 12 0 []]
    properties := Shape.properties }

/-- The `readObject<Shape>` of a reader that knows `Shape` and `Circle`: the member `x`, and
for a class other than `Shape` one more `int` member. -/
def drawingRead (buf : ReadBuf) (classId _objectId : Nat) : Except Err (Point × ReadBuf) :=
  match ValueTraits.getBytes buf 4 with
  | .error e => .error e
  | .ok (x, b1) =>
    if classId == 10 then .ok ({ x := to_signed 4 x, y := 0 }, b1)
    else
      match ValueTraits.getBytes b1 4 with
      | .error e => .error e
      | .ok (y, b2) => .ok ({ x := to_signed 4 x, y := to_signed 4 y }, b2)

/-- The call `next()` made `n` times in a row on a collection cursor: the values returned and
the cursor after the last call. -/
def CollectionCursorBase.nextTimes :
    Nat → CollectionCursorBase → Except Err (List Bool × CollectionCursorBase)
  | 0, c => .ok ([], c)
  | n + 1, c =>
    match c.next with
    | .error e => .error e
    | .ok (b, c1) =>
      match CollectionCursorBase.nextTimes n c1 with
      | .error e => .error e
      | .ok (bs, c2) => .ok (b :: bs, c2)

/-- A transaction over a store that holds the collection 7 in one chunk without elements:
chunk 1 with the header `(12, 0, 0)`. -/
def emptyChunkTransaction : WriteTransaction :=
  { store := { entries := [ (⟨COLLECTION_CLSID, 7, 1⟩, [12, 0, 0, 0, 0, 0, 0, 0, 0, 0, 0, 0]) ] } }

/-- A transaction over a store that holds the collection 7 in three chunks: chunk 1 with the
header `(20, 0, 2)` and two 4-byte elements, chunk 2 with the header `(12, 2, 0)` and no
element, chunk 3 with the header `(16, 2, 1)` and one element. -/
def gapTransaction : WriteTransaction :=
  { store := { entries :=
      [ (⟨COLLECTION_CLSID, 7, 1⟩,
          [20, 0, 0, 0, 0, 0, 0, 0, 2, 0, 0, 0, 10, 0, 0, 0, 20, 0, 0, 0]),
        (⟨COLLECTION_CLSID, 7, 2⟩, [12, 0, 0, 0, 2, 0, 0, 0, 0, 0, 0, 0]),
        (⟨COLLECTION_CLSID, 7, 3⟩,
          [16, 0, 0, 0, 2, 0, 0, 0, 1, 0, 0, 0, 30, 0, 0, 0]) ] } }

/-- The bytes of a chunk of a top-level object collection as `readChunkHeader` and
`readObjectHeader` read them: the chunk header `(dataSize, 0, elementCount)`, then for every
element, given by its class id, its object id and its payload, the class id, the object id,
the size and the payload. -/
def objectChunkBytes (elems : List (Nat × Nat × List byte_t)) : List byte_t :=
  let body := (elems.map (fun e =>
    write_integer e.1 ClassId_sz ++ write_integer e.2.1 ObjectId_sz
      ++ write_integer (e.2.2.length + ObjectHeader_sz) 4 ++ e.2.2)).flatten
  write_integer (ChunkHeader_sz + body.length) 4 ++ write_integer 0 4
    ++ write_integer elems.length 4 ++ body

/-- A transaction over a store that holds the collection 7 in one chunk with the given
elements. -/
def shapesTransaction (elems : List (Nat × Nat × List byte_t)) : WriteTransaction :=
  { store := { entries := [ (⟨COLLECTION_CLSID, 7, 1⟩, objectChunkBytes elems) ] } }

/-- The payload of a `Circle` or a `Square`: the member `x` of `Shape` and the member of the
subclass, 4 bytes each. -/
def shapePayload (x y : Int) : List byte_t := write_integer x 4 ++ write_integer y 4

/-- The `readObject<T>` of `loadChunkedCollection` for the shapes: `drawingRead`, which never
hands back a null pointer. -/
def shapeRead (buf : ReadBuf) (classId objectId : Nat) : Except Err (Option Point × ReadBuf) :=
  match drawingRead buf classId objectId with
  | .error e => .error e
  | .ok (p, b) => .ok (some p, b)

/-- An appender with chunk size 20 opened on a new, empty collection: the chunk it starts has
room for 8 bytes after the chunk header. -/
def dataAppender : Except Err (CollectionAppenderBase × WriteTransaction) :=
  match WriteTransaction.putValueCollection {} 4 [] with
  | .error e => .error e
  | .ok (id, tr) =>
    CollectionAppenderBase.new (tr._openChunkCursor COLLECTION_CLSID id true) tr noDecode id 20

/-! ## Objects that point to objects of their own class (kvstore.h) -/

/-- A property `ObjectPtrPropertyAssign<T, T, ..>` of a class `T`: a pointer to a mapped
object of the class `T` itself, stored by `ObjectPtrPropertyStorage` (a
`StoreAccessEmbeddedKey`). `get` is `ClassTraits<T>::put`, the value of the property: `none`
for the null pointer, else the object id the pointer carries (0 for an object not saved so
far) and the object pointed to, whose runtime class is `T`. -/
structure SelfPtrProperty (O : Type) where
  name : String
  enabled : Bool := true
  id : Nat
  get : O → Option (Nat × O)

namespace WriteTransaction

variable {O : Type}

/-- `WriteTransaction::saveObject` for a class `T` whose declared properties are those of
`t`, of the embedded strategies, followed by the pointer property `next`. `info` is the
`ClassInfo` of `T`: `Traits::info` of the non-polymorphic save and
`store.objectClassInfos.at(classId)` of the polymorphic one are the same object, so that both
saves advance the same `maxObjectId`. The two saves do the same steps when no changed
property is passed, as here.

For the property `next`, `calculateBuffer` adds `StoreAccessEmbeddedKey::size` =
`ObjectKey_sz`, and `writeObject` calls `ObjectPtrPropertyStorage::save` with
`StoreMode::force_none`: an object pointed to is saved first, under the id its pointer
carries or as a new object (`saveObject<V>(childClassId, childId, *val, false)` or
`saveObject<V>(childClassId, 0, *val, true)`, between `pushWriteBuf` and `popWriteBuf`), then
the key is appended to the buffer of the object. The update of the pointer and of the key
property in memory is not followed. The recursion follows the pointers; `none` when it is
deeper than `fuel`. Hands back the object id, the class info and the transaction. -/
def saveObjectLinked (t : ClassTraits O) (next : SelfPtrProperty O) :
    Nat → AbstractClassInfo → WriteTransaction → Nat → O → Bool →
      Option (Except Err (Nat × AbstractClassInfo × WriteTransaction))
  | 0, _, _, _, _, _ => none
  | fuel + 1, info, tr, id, obj, newObject =>
    let classId := info.classId
    let info1 :=
      if newObject then info.setMaxObjectId (wrap64 (info.maxObjectId + 1)) else info
    let objectId := if newObject then info1.maxObjectId else id
    match calculateBuffer { t with info := info } obj t.properties with
    | .error e => some (.error e)
    | .ok n =>
      let size := if next.enabled then n + ObjectKey_sz else n
      let tr1 := tr.setBuf (WriteBuf.start size)
      match tr1.writeObject { t with info := info } classId objectId obj t.properties false
      with
      | .error e => some (.error e)
      | .ok tr2 =>
        let r : Option (Except Err (AbstractClassInfo × WriteTransaction)) :=
          if next.enabled then
            match next.get obj with
            | none => some ((tr2.appendKey 0 0 0).map (fun tr3 => (info1, tr3)))
            | some (childId, child) =>
              -- save the pointed-to object
              match saveObjectLinked t next fuel info1 tr2.pushWriteBuf childId child
                  (childId == 0) with
              | none => none
              | some (.error e) => some (.error e)
              | some (.ok (savedId, info2, tr3)) =>
                match tr3.popWriteBuf with
                | .error e => some (.error e)
                | .ok tr4 =>
                  -- save the key in this objects write buffer
                  some ((tr4.appendKey classId savedId 0).map (fun tr5 => (info2, tr5)))
          else some (.ok (info1, tr2))
        match r with
        | none => none
        | some (.error e) => some (.error e)
        | some (.ok (info3, tr5)) =>
          match tr5.putData classId objectId 0 tr5.writeBuf with
          | (false, _) => some (.error (.persistence_error "data was not saved"))
          | (true, tr6) =>
            some (.ok (objectId, info3, tr6.setBuf { tr6.writeBuf with pos := 0 }))

end WriteTransaction

/-! ## Fixed size of classes with key storages (kvtraits.h) -/

/-- `StoreAccessBase` of kvtraits.h as far as `PropertiesImpl::init` and
`ClassTraitsBase::size` look at a storage: the members `layout` and `fixedSize`, which the
constructor sets (`StoreAccessBase(StoreLayout layout=StoreLayout::all_embedded, size_t
fixedSize=0)`), and the virtual `size(void *obj, const PropertyAccessBase *pa)`, which
returns 0 unless a class overrides it. -/
structure StoreAccessBase (O : Type) where
  layout : StoreLayout := .all_embedded
  fixedSize : Nat := 0
  size : O → Nat := fun _ => 0

/-- `StoreAccessBase::initFixedSize`: `virtual size_t initFixedSize() {return fixedSize;}`. No
storage class of kvstore.h overrides it. -/
def StoreAccessBase.initFixedSize {O : Type} (s : StoreAccessBase O) : Nat := s.fixedSize

/-- The storage classes of kvstore.h, by the base class they derive from:

* `embedded`: the classes derived from `StoreAccessBase` itself, which they construct with
  `StoreAccessBase()`: `BasePropertyStorage` (`size` is `TypeTraits<V>::byteSize`, or the
  length of the string plus 1), `ObjectIdStorage` (`size` is 0) and the vector storages that
  are embedded in the record of the object; `size` is the `size(void *obj, ..)` of the class,
* `embeddedKey`: the classes derived from `StoreAccessEmbeddedKey`, `ObjectPropertyStorage` and
  `ObjectPtrPropertyStorage`,
* `propertyKey`: the classes derived from `StoreAccessPropertyKey`, the value and object vector
  storages under a property key and `ObjectIterPropertyStorage`. -/
inductive StorageClass (O : Type) where
  | embedded (size : O → Nat)
  | embeddedKey
  | propertyKey

/-- The `StoreAccessBase` part of a storage: the constructors `StoreAccessBase()`,
`StoreAccessEmbeddedKey() : StoreAccessBase(StoreLayout::embedded_key, ObjectKey_sz)` with
`size` = `ObjectKey_sz`, and `StoreAccessPropertyKey() :
StoreAccessBase(StoreLayout::property)` with `size` = 0. -/
def StorageClass.base {O : Type} : StorageClass O → StoreAccessBase O
  | .embedded size => { size := size }
  | .embeddedKey =>
    { layout := .embedded_key, fixedSize := ObjectKey_sz, size := fun _ => ObjectKey_sz }
  | .propertyKey => { layout := .property, size := fun _ => 0 }

/-- The storage class of a strategy of `StoreAccess`. -/
def StoreAccess.storageClass {O : Type} (s : StoreAccess O) : StorageClass O :=
  match s with
  | .valueVector _ _ => .propertyKey
  | s => .embedded s.size

namespace keyed

/-- `PropertyAccessBase` of kvtraits.h with a storage of any storage class: the members that
`PropertiesImpl::init` and `ClassTraitsBase::size` look at. -/
structure PropertyAccessBase (O : Type) where
  name : String
  enabled : Bool := true
  classId : Nat := 0
  storage : StorageClass O

/-- `Properties` of kvtraits.h over such properties. -/
inductive Properties (O : Type) where
  | mk (decl_props : List (PropertyAccessBase O)) (superIter : Option (Properties O))
      (startPos : Nat) (fixedSize : Nat)

namespace Properties

variable {O : Type}

/-- Field `decl_props`. -/
def decl_props : Properties O → List (PropertyAccessBase O)
  | .mk d _ _ _ => d

/-- Field `fixedSize`. -/
def fixedSize : Properties O → Nat
  | .mk _ _ _ f => f

/-- `Properties::full_size`. -/
def full_size : Properties O → Nat
  | .mk d none _ _ => d.length
  | .mk d (some s) _ _ => full_size s + d.length

/-- `Properties::get`; an index outside the array, or a null `superIter`, is undefined
behaviour. -/
def get : Properties O → Nat → Except Err (PropertyAccessBase O)
  | .mk d none startPos _, index =>
    if index ≥ startPos then
      match d.get? (index - startPos) with
      | some pa => .ok pa
      | none => .error (.undefined_behaviour "decl_props index out of range")
    else .error (.undefined_behaviour "superIter is null")
  | .mk d (some s) startPos _, index =>
    if index ≥ startPos then
      match d.get? (index - startPos) with
      | some pa => .ok pa
      | none => .error (.undefined_behaviour "decl_props index out of range")
    else get s index

end Properties

namespace PropertiesImpl

variable {O : Type}

/-- The loop of `PropertiesImpl::init` that sees whether the class is of fixed size. -/
def fixedSizeLoop : List (PropertyAccessBase O) → Nat → Nat
  | [], fixedSize => fixedSize
  | pa :: rest, fixedSize =>
    if pa.enabled then
      match pa.storage.base.layout with
      | .all_embedded =>
        if pa.storage.base.initFixedSize == 0 then 0
        else fixedSizeLoop rest (fixedSize + pa.storage.base.fixedSize)
      | .embedded_key => fixedSizeLoop rest (fixedSize + ObjectKey_sz)
      | .property => fixedSizeLoop rest fixedSize
      | .none => fixedSizeLoop rest fixedSize
    else fixedSizeLoop rest fixedSize

/-- `PropertiesImpl<S>::init`: determine superclass and property start position, and the
fixed size. `decl_props` are the declared properties of the class, `traits_properties` is
`ClassTraits<S>::traits_properties` of the superclass `S`, null for `EmptyClass`. -/
def init (decl_props : List (PropertyAccessBase O))
    (traits_properties : Option (Properties O)) : Properties O :=
  let startPos := match traits_properties with
    | some s => s.full_size
    | none => 0
  match traits_properties with
  | some s =>
    if s.fixedSize == 0 then .mk decl_props (some s) startPos 0
    else .mk decl_props (some s) startPos (fixedSizeLoop decl_props s.fixedSize)
  | none => .mk decl_props none startPos (fixedSizeLoop decl_props 0)

end PropertiesImpl

/-- The static members of `ClassTraits<T>` that `size` uses: `traits_info`,
`traits_properties`, and the class ids of the chain of mapped superclasses. -/
structure ClassTraits (O : Type) where
  info : AbstractClassInfo
  properties : Properties O
  sups : List Nat := []

namespace ClassTraitsBase

variable {O : Type}

/-- `ClassTraitsBase::addSize`: the storage is asked when the property belongs to the class
itself, to a mapped superclass (`UP`), or to a class of the subtree (`DN`, through
`RESOLVE_SUB`, which throws for an unknown id). -/
def addSize (t : ClassTraits O) (obj : O) (pa : PropertyAccessBase O) (size : Nat) :
    Except Err (Bool × Nat) :=
  if pa.classId == t.info.classId then .ok (true, size + pa.storage.base.size obj)
  else if pa.classId != 0 then
    if t.sups.contains pa.classId then .ok (true, size + pa.storage.base.size obj)
    else
      match t.info.doresolve pa.classId with
      | .ok _ => .ok (true, size + pa.storage.base.size obj)
      | .error e => .error e
  else .ok (false, size)

/-- The loop of `ClassTraitsBase::size` over the property indexes `i, i+1, ..` (`n` of
them). -/
def sizeLoop (t : ClassTraits O) (obj : O) : Nat → Nat → Nat → Except Err Nat
  | 0, _, size => .ok size
  | n + 1, i, size =>
    match t.properties.get i with
    | .error e => .error e
    | .ok pa =>
      if !pa.enabled then sizeLoop t obj n (i + 1) size
      else
        match addSize t obj pa size with
        | .error e => .error e
        | .ok (_, size') => sizeLoop t obj n (i + 1) size'

/-- `ClassTraitsBase::size`: the buffer size for the given object, non-polymorphic. -/
def size (t : ClassTraits O) (obj : O) : Except Err Nat :=
  if t.properties.fixedSize != 0 then .ok t.properties.fixedSize
  else sizeLoop t obj t.properties.full_size 0 0

end ClassTraitsBase

end keyed

/-! ## Mapped object vectors (kvstore.h) and commit (kvstore.cpp) -/

namespace ObjectVectorPropertyStorage

variable {V : Type}

/-- The loop `for(V &v : val)` of `ObjectVectorPropertyStorage<T, V>::save`. `tc` is
`ClassTraits<V>`, `info` the state of `ClassTraits<V>::info`, whose `maxObjectId` a
`putObject<V>` advances; `propBuf` is the local buffer of the keys. A null
`ClassTraits<V>::objectIdAccess()` is dereferenced at the first element. -/
def saveLoop (tc : ClassTraits V) (mode : StoreMode) :
    List V → AbstractClassInfo → WriteBuf → WriteTransaction →
      Except Err (AbstractClassInfo × WriteBuf × WriteTransaction)
  | [], info, propBuf, tr => .ok (info, propBuf, tr)
  | v :: rest, info, propBuf, tr =>
    match tc.properties.objectIdAccess with
    | none => .error (.undefined_behaviour "objectIdAccess is null")
    | some ida =>
      let childId := ida.get v
      let r : Except Err (Nat × AbstractClassInfo × WriteTransaction) :=
        if mode != StoreMode.force_buffer then
          if childId != 0 then
            (tr.updateObject { tc with info := info } childId v).map
              (fun s => (childId, s.info, s.tr))
          else
            (tr.putObject { tc with info := info } v).map
              (fun s => (s.objectId, s.info, s.tr))
        else .ok (childId, info, tr)
      match r with
      | .error e => .error e
      | .ok (childId1, info1, tr1) =>
        match propBuf.append (StorageKey.bytes ⟨tc.info.classId, childId1, 0⟩) with
        | .error e => .error e
        | .ok propBuf1 => saveLoop tc mode rest info1 propBuf1 tr1

/-- `ObjectVectorPropertyStorage<T, V>::save`: every element is saved as an object of its own
(updated when its key property holds an id, put otherwise), and the keys of the elements go
under the property key `(classId, objectId, pa->id)`. `get` is `ClassTraits<T>::put`, `id` is
`pa->id`. -/
def save {T : Type} (m_lazy : Bool) (get : T → List V) (tc : ClassTraits V)
    (tr : WriteTransaction) (info : AbstractClassInfo) (classId objectId : Nat) (obj : T)
    (id : Nat) (mode : StoreMode) : Except Err (AbstractClassInfo × WriteTransaction) :=
  if m_lazy && mode == StoreMode.force_none then .ok (info, tr)
  else
    let val := get obj
    let psz := StorageKey.byteSize * val.length
    match saveLoop tc mode val info (WriteBuf.start psz) tr.pushWriteBuf with
    | .error e => .error e
    | .ok (info1, propBuf, tr1) =>
      match tr1.popWriteBuf with
      | .error e => .error e
      | .ok tr2 =>
        match tr2.putData classId objectId id propBuf with
        | (true, tr3) => .ok (info1, tr3)
        | (false, _) => .error (.persistence_error "data was not saved")

end ObjectVectorPropertyStorage

namespace mapped

variable {T V : Type}

/-- The storage strategies of the properties of a class `T` that holds mapped objects of the
class `V` in a vector: the strategies of `flexis.StoreAccess`, and
`ObjectVectorPropertyStorage<T, V>` with its member `m_lazy` and the accessor of the
vector. -/
inductive StoreAccess (T V : Type) where
  | plain (s : flexis.StoreAccess T)
  | objectVector (m_lazy : Bool) (get : T → List V)

/-- `PropertyAccessBase` of kvtraits.h for such a class. -/
structure PropertyAccessBase (T V : Type) where
  name : String
  enabled : Bool := true
  classId : Nat := 0
  id : Nat := 0
  storage : StoreAccess T V
  type : PropertyType

/-- The accessor as one over `flexis.StoreAccess`, for a storage `s` of that kind. -/
def PropertyAccessBase.plain (pa : PropertyAccessBase T V) (s : flexis.StoreAccess T) :
    flexis.PropertyAccessBase T :=
  { name := pa.name, enabled := pa.enabled, classId := pa.classId, id := pa.id, storage := s,
    type := pa.type }

/-- `StoreAccessBase::size(void *obj, const PropertyAccessBase *pa)`; for the object vector
this is `StoreAccessPropertyKey::size`, which returns 0. -/
def StoreAccess.size (s : StoreAccess T V) (obj : T) : Nat :=
  match s with
  | .plain s => s.size obj
  | .objectVector _ _ => 0

/-- `StoreAccessBase::save` of the strategies. `tc` is `ClassTraits<V>` and `info` the state
of `ClassTraits<V>::info`. -/
def StoreAccess.save (s : StoreAccess T V) (tc : flexis.ClassTraits V) (tr : WriteTransaction)
    (info : AbstractClassInfo) (classId objectId : Nat) (obj : T) (pa : PropertyAccessBase T V)
    (mode : StoreMode) : Except Err (AbstractClassInfo × WriteTransaction) :=
  match s with
  | .plain s => (s.save tr classId objectId obj (pa.plain s) mode).map (fun tr1 => (info, tr1))
  | .objectVector m_lazy get =>
    ObjectVectorPropertyStorage.save m_lazy get tc tr info classId objectId obj pa.id mode

/-- The static members of `ClassTraits<T>` that `calculateBuffer` and `writeObject` use, for a
class `T` without a mapped superclass: `info`, and the array `decl_props` behind `properties`
(`superIter` is null and `startPos` 0, so that `full_size()` is the length of the array and
`get(i)` its element `i`). -/
structure ClassTraits (T V : Type) where
  info : AbstractClassInfo
  decl_props : List (PropertyAccessBase T V)

/-- `ClassTraitsBase::addSize` (called `ClassTraits<T>::add` in `calculateBuffer`). The
superclass is `EmptyClass`, whose `addSize` returns false. -/
def ClassTraits.add (t : ClassTraits T V) (obj : T) (pa : PropertyAccessBase T V) (size : Nat) :
    Except Err (Bool × Nat) :=
  if pa.classId == t.info.classId then .ok (true, size + pa.storage.size obj)
  else if pa.classId != 0 then
    match t.info.doresolve pa.classId with
    | .ok _ => .ok (true, size + pa.storage.size obj)
    | .error e => .error e
  else .ok (false, size)

/-- `ClassTraitsBase::save`, with the same dispatch as `add`. -/
def ClassTraits.save (t : ClassTraits T V) (tc : flexis.ClassTraits V) (tr : WriteTransaction)
    (info : AbstractClassInfo) (classId objectId : Nat) (obj : T) (pa : PropertyAccessBase T V)
    (mode : StoreMode) : Except Err (Bool × AbstractClassInfo × WriteTransaction) :=
  if pa.classId == t.info.classId then
    (pa.storage.save tc tr info classId objectId obj pa mode).map (fun r => (true, r))
  else if pa.classId != 0 then
    match t.info.doresolve pa.classId with
    | .ok _ => (pa.storage.save tc tr info classId objectId obj pa mode).map (fun r => (true, r))
    | .error e => .error e
  else .ok (false, info, tr)

/-- Loop body of `calculateBuffer`, for the properties that are left. -/
def calculateBufferLoop (t : ClassTraits T V) (obj : T) :
    List (PropertyAccessBase T V) → Nat → Except Err Nat
  | [], size => .ok size
  | info :: rest, size =>
    if !info.enabled then calculateBufferLoop t obj rest size
    else
      match t.add obj info size with
      | .error e => .error e
      | .ok (_, size1) => calculateBufferLoop t obj rest size1

/-- `calculateBuffer` of kvstore.h: the shallow byte size of an object. -/
def calculateBuffer (t : ClassTraits T V) (obj : T) : Except Err Nat :=
  calculateBufferLoop t obj t.decl_props 0

/-- Loop body of `writeObject`, for the properties that are left. -/
def writeObjectLoop (t : ClassTraits T V) (tc : flexis.ClassTraits V) (classId objectId : Nat)
    (obj : T) (shallow : Bool) :
    List (PropertyAccessBase T V) → AbstractClassInfo → WriteTransaction →
      Except Err (AbstractClassInfo × WriteTransaction)
  | [], info, tr => .ok (info, tr)
  | pa :: rest, info, tr =>
    if !pa.enabled then writeObjectLoop t tc classId objectId obj shallow rest info tr
    else
      match t.save tc tr info classId objectId obj pa
          (if shallow then StoreMode.force_buffer else StoreMode.force_none) with
      | .error e => .error e
      | .ok (_, info1, tr1) => writeObjectLoop t tc classId objectId obj shallow rest info1 tr1

/-- `WriteTransaction::writeObject`: serialize the object to the write buffer. -/
def writeObject (tr : WriteTransaction) (t : ClassTraits T V) (tc : flexis.ClassTraits V)
    (info : AbstractClassInfo) (classId objectId : Nat) (obj : T) (shallow : Bool) :
    Except Err (AbstractClassInfo × WriteTransaction) :=
  writeObjectLoop t tc classId objectId obj shallow t.decl_props info tr

end mapped

/-- `ClassTraits<CollectionInfo>` of kvstore.cpp: the class info with the id `COLLINFO_CLSID`,
and the two declared properties, `collectionId` (a `BasePropertyAssign` of an `ObjectId`) and
`chunkInfos` (an `ObjectVectorPropertyAssign` of `ChunkInfo`, not lazy), with the ids 2 and 3
that `Properties::mk` assigns. The member `classId` of the accessors is set by
`registerType<CollectionInfo>` only, which no code of src/ calls: `registered` says whether
that has happened, and the member is 0 before. -/
def CollectionInfo.traits (registered : Bool) : mapped.ClassTraits CollectionInfo ChunkInfo :=
  { info := .mk "flexis::persistence::CollectionInfo" COLLINFO_CLSID 0 []
    decl_props :=
      [ { name := "collectionId", classId := if registered then COLLINFO_CLSID else 0, id := 2,
          storage := .plain (.base 8 (fun ci => (ci.collectionId : Int))),
          type := { id := 6, byteSize := 8 } },
        { name := "chunkInfos", classId := if registered then COLLINFO_CLSID else 0, id := 3,
          storage := .objectVector false (fun ci => ci.chunkInfos),
          type := { id := 0, isVector := true, byteSize := ObjectKey_sz,
                    className := some "flexis::persistence::ChunkInfo" } } ] }

namespace WriteTransaction

/-- The loop of `WriteTransaction::commit` over `m_collectionInfos`. `t` is
`ClassTraits<CollectionInfo>`, `tc` is `ClassTraits<ChunkInfo>` and `info` the state of
`ClassTraits<ChunkInfo>::info`. The result of `putData` is not looked at. -/
def commitLoop (t : mapped.ClassTraits CollectionInfo ChunkInfo) (tc : ClassTraits ChunkInfo) :
    List (Nat × CollectionInfo) → AbstractClassInfo → WriteTransaction →
      Except Err (AbstractClassInfo × WriteTransaction)
  | [], info, tr => .ok (info, tr)
  | (_, ci) :: rest, info, tr =>
    match mapped.calculateBuffer t ci with
    | .error e => .error e
    | .ok sz =>
      match mapped.writeObject (tr.setBuf (WriteBuf.start sz)) t tc info COLLINFO_CLSID
          ci.collectionId ci false with
      | .error e => .error e
      | .ok (info1, tr2) =>
        commitLoop t tc rest info1
          (tr2.putData COLLINFO_CLSID ci.collectionId 0 tr2.writeBuf).2

/-- `WriteTransaction::commit`. The static state it works on is passed in: `t` is
`ClassTraits<CollectionInfo>` and `tc` is `ClassTraits<ChunkInfo>`, whose class info comes
back with the `maxObjectId` the saved chunk infos have left. -/
def commit (tr : WriteTransaction) (t : mapped.ClassTraits CollectionInfo ChunkInfo)
    (tc : ClassTraits ChunkInfo) : Except Err (AbstractClassInfo × WriteTransaction) :=
  match commitLoop t tc tr.m_collectionInfos tc.info tr with
  | .error e => .error e
  | .ok (info, tr1) => .ok (info, ({ tr1 with m_collectionInfos := [] } : WriteTransaction).doCommit)

end WriteTransaction

/-! ## Specification-side notions, objects of objects -/

/-- An object of a mapped class `Node`: an `int` member `value` and a member `next` of type
`std::shared_ptr<Node>`, which is null or carries an object id (0 for a node not saved so
far) and points to a node. -/
inductive Node where
  | mk (value : Int) (next : Option (Nat × Node))

/-- The member `value` of a node. -/
def Node.value : Node → Int
  | .mk v _ => v

/-- The member `next` of a node. -/
def Node.next : Node → Option (Nat × Node)
  | .mk _ n => n

/-- The `ClassTraits` of `Node` (class id 10) without the pointer property: the property
`value`, an `int`. -/
def Node.traits : ClassTraits Node :=
  { info := .mk "Node" 10 0 []
    properties := .mk
      [ { name := "value", classId := 10, id := 2, storage := .base 4 Node.value,
          type := { id := 3, byteSize := 4 } } ] none 0 none 0 }

namespace keyed

/-- The properties of a table in index order: those of the superclass chain first, then the
declared ones. -/
def Properties.all {O : Type} : Properties O → List (PropertyAccessBase O)
  | .mk d none _ _ => d
  | .mk d (some s) _ _ => all s ++ d

/-- What `PropertiesImpl::init` establishes: `startPos` is the `full_size` of the superclass
properties (0 without a mapped superclass). -/
def Properties.Initialized {O : Type} : Properties O → Prop
  | .mk _ none startPos _ => startPos = 0
  | .mk _ (some s) startPos _ => startPos = full_size s ∧ Initialized s

/-- A property of a registered class: `registerType` has set its `classId` to the id of the
declaring class, which is the class itself or one of its mapped superclasses. -/
def Registered {O : Type} (t : ClassTraits O) (pa : PropertyAccessBase O) : Prop :=
  pa.classId = t.info.classId ∨ (pa.classId ≠ 0 ∧ pa.classId ∈ t.sups)

/-- The property tables of a chain of classes, each initialized by `PropertiesImpl::init`
with the table of its superclass: `chain` holds the declared properties of the classes that
follow the class of `sup`, the topmost first. -/
def initChain {O : Type} :
    Option (Properties O) → List (List (PropertyAccessBase O)) → Option (Properties O)
  | sup, [] => sup
  | sup, d :: rest => initChain (some (PropertiesImpl.init d sup)) rest

end keyed

/-- What `init` hands on along a chain of classes: the table is initialized, and a fixed size
that is not zero is the sum of the sizes of the enabled properties, none of which is embedded
in the record with its value. -/
def keyed.FixedSizeSound {O : Type} (obj : O) (p : keyed.Properties O) : Prop :=
  p.Initialized ∧ (p.fixedSize ≠ 0 →
    p.fixedSize = ((p.all.filter (fun pa => pa.enabled)).map
        (fun pa => pa.storage.base.size obj)).sum
      ∧ ∀ pa ∈ p.all, pa.enabled = true → pa.storage.base.layout ≠ StoreLayout.all_embedded)

/-- An object with two pointers to mapped objects and a vector of values: the object ids the
pointers carry and the values. -/
structure Edge where
  source : Nat
  target : Nat
  weights : List Int

/-- The declared properties of `Edge` (class id 20): `source` and `target`, stored by
`ObjectPtrPropertyStorage`, and `weights`, stored by `ValueVectorPropertyStorage`. -/
def Edge.decl_props : List (keyed.PropertyAccessBase Edge) :=
  [ { name := "source", classId := 20, storage := .embeddedKey },
    { name := "target", classId := 20, storage := .embeddedKey },
    { name := "weights", classId := 20, storage := .propertyKey } ]

/-- The declared properties of a subclass `LabelledEdge` of `Edge` (class id 21): `label`, a
pointer to a mapped object. -/
def LabelledEdge.decl_props : List (keyed.PropertyAccessBase Edge) :=
  [ { name := "label", classId := 21, storage := .embeddedKey } ]

/-- The `ClassTraits<LabelledEdge>` after the `init` of `Edge` and of `LabelledEdge`. -/
def LabelledEdge.traits : keyed.ClassTraits Edge :=
  { info := .mk "LabelledEdge" 21 0 []
    properties := keyed.PropertiesImpl.init LabelledEdge.decl_props
      (some (keyed.PropertiesImpl.init Edge.decl_props none))
    sups := [20] }

/-- The declared properties of `Point` in the storage classes of kvstore.h: two `int`
members, stored by `BasePropertyStorage`. -/
def Point.storage_classes : List (keyed.PropertyAccessBase Point) :=
  (Point.decl_props 10).map
    (fun pa => { name := pa.name, classId := pa.classId, storage := pa.storage.storageClass })

/-- A `ClassTraits<ChunkInfo>` for the scenarios. kvstore.cpp declares the class with the id
`CHUNKINFO_CLSID` and a key property over a member `sk`, neither of which kvstore.h has: here
the class id is 3, the declared properties are the four integral members, registered and
numbered from 2 on, and the key accessor finds no object id in a chunk info, so that every
chunk info is saved as a new object. -/
def ChunkInfo.traits : ClassTraits ChunkInfo :=
  { info := .mk "flexis::persistence::ChunkInfo" 3 0 []
    properties := .mk
      [ { name := "chunkId", classId := 3, id := 2,
          storage := .base 2 (fun c => (c.chunkId : Int)), type := { id := 2, byteSize := 2 } },
        { name := "startIndex", classId := 3, id := 3,
          storage := .base 8 (fun c => (c.startIndex : Int)), type := { id := 6, byteSize := 8 } },
        { name := "elementCount", classId := 3, id := 4,
          storage := .base 8 (fun c => (c.elementCount : Int)),
          type := { id := 6, byteSize := 8 } },
        { name := "dataSize", classId := 3, id := 5,
          storage := .base 8 (fun c => (c.dataSize : Int)), type := { id := 6, byteSize := 8 } } ]
      none 0 (some { get := fun _ => 0, set := fun c _ => c }) 0 }

/-- A transaction with two collection infos in its cache: the collection 1 of `slackInfo` with
its one chunk, and a collection 2 with two chunks. -/
def twoInfosTransaction : WriteTransaction :=
  { m_collectionInfos :=
      [ (1, slackInfo),
        (2, { collectionId := 2
              chunkInfos := [ { chunkId := 1, startIndex := 0, elementCount := 3, dataSize := 24 },
                              { chunkId := 2, startIndex := 3, elementCount := 1, dataSize := 16 } ]
              nextChunkId := 3
              nextStartIndex := 4 }) ] }

/-! # Theorems -/

set_option linter.unusedVariables false

/-! ## Buffers and the backend -/

theorem write_integer_length : ∀ (w : Nat) (v : Int), (write_integer v w).length = w
  | 0, _ => rfl
  | w + 1, v => by
    rw [write_integer, List.length_cons, write_integer_length w]

theorem pokeAt_length (region : List byte_t) (off : Nat) (bytes : List byte_t)
    (h : off + bytes.length ≤ region.length) : (pokeAt region off bytes).length = region.length := by
  simp only [pokeAt, List.length_append, List.length_take, List.length_drop]
  omega

theorem pokeAt_take (region : List byte_t) (off : Nat) (bytes : List byte_t)
    (h : off + bytes.length ≤ region.length) :
    (pokeAt region off bytes).take (off + bytes.length) = region.take off ++ bytes := by
  have h1 : (region.take off ++ bytes).length = off + bytes.length := by
    simp only [List.length_append, List.length_take]
    omega
  unfold pokeAt
  rw [← h1, List.take_left]

namespace WriteBuf

theorem append_ok (b : WriteBuf) (bytes : List byte_t)
    (h : b.pos + bytes.length ≤ b.data.length) :
    b.append bytes
      = .ok { b with data := pokeAt b.data b.pos bytes, pos := b.pos + bytes.length } := by
  simp [append, allocate, h]

theorem append_filled (b : WriteBuf) (bytes : List byte_t)
    (h : b.pos + bytes.length ≤ b.data.length) :
    ({ b with data := pokeAt b.data b.pos bytes, pos := b.pos + bytes.length } : WriteBuf).filled
      = b.filled ++ bytes := by
  simp only [filled]
  exact pokeAt_take b.data b.pos bytes h

end WriteBuf

namespace Store

theorem find_insertEntry (k : StorageKey) (v : List byte_t) :
    ∀ l : List (StorageKey × List byte_t),
      (insertEntry k v l).find? (fun e => e.1 = k) = some (k, v)
  | [] => by simp [insertEntry]
  | (k', v') :: rest => by
    rw [insertEntry]
    by_cases h : k = k'
    · simp [h]
    · by_cases h2 : k.lt k' = true
      · simp [h, h2]
      · have h3 : ¬ (k' = k) := fun e => h e.symm
        simp [h, h2, h3, find_insertEntry k v rest]

theorem get_set (s : Store) (k : StorageKey) (v : List byte_t) : (s.set k v).get k = some v := by
  simp [get, set, find_insertEntry]

theorem set_full (s : Store) (k : StorageKey) (v : List byte_t) : (s.set k v).full = s.full := rfl

end Store

/-! ## Property tables -/

namespace Properties
variable {O : Type}

theorem full_size_eq_length : ∀ p : Properties O, p.full_size = p.all.length
  | .mk d none _ _ _ => by simp [full_size, all]
  | .mk d (some s) _ _ _ => by
    simp [full_size, all, full_size_eq_length s]

theorem get_of_initialized :
    ∀ (p : Properties O), p.Initialized → ∀ (px : Nat) (pa : PropertyAccessBase O),
      p.all.get? px = some pa → p.get px = .ok pa
  | .mk d none sp _ _, hi, px, pa, h => by
    simp only [Initialized] at hi
    subst hi
    simp only [all, List.get?_eq_getElem?] at h
    simp [get, h]
  | .mk d (some s) sp _ _, hi, px, pa, h => by
    simp only [Initialized] at hi
    obtain ⟨hsp, hs⟩ := hi
    subst hsp
    simp only [all] at h
    rw [get]
    by_cases hpx : px ≥ s.full_size
    · rw [full_size_eq_length] at hpx
      rw [List.get?_eq_getElem?, List.getElem?_append_right hpx] at h
      rw [full_size_eq_length]
      simp [hpx, h]
    · have hlt : px < s.all.length := by
        rw [full_size_eq_length] at hpx
        omega
      rw [List.get?_eq_getElem?, List.getElem?_append_left hlt] at h
      simp only [hpx, if_false]
      exact get_of_initialized s hs px pa (by rw [List.get?_eq_getElem?]; exact h)

theorem get_of_drop (p : Properties O) (hi : p.Initialized) (px : Nat)
    (pa : PropertyAccessBase O) (rest : List (PropertyAccessBase O))
    (h : p.all.drop px = pa :: rest) :
    p.get px = .ok pa ∧ p.all.drop (px + 1) = rest := by
  constructor
  · apply get_of_initialized p hi
    rw [List.get?_eq_getElem?, ← List.head?_drop, h]
    rfl
  · rw [← List.tail_drop, h]
    rfl

end Properties

theorem ClassTraits.add_registered {O : Type} (t : ClassTraits O) (obj : O)
    (pa : PropertyAccessBase O) (size : Nat) (h : Registered t pa) :
    t.add obj pa size = .ok (true, size + pa.storage.size obj) := by
  unfold ClassTraits.add
  by_cases h1 : pa.classId = t.info.classId
  · simp [h1]
  · rcases h with h | ⟨h0, hs⟩
    · exact absurd h h1
    · simp [h1, h0, hs]

theorem ClassTraits.save_registered {O : Type} (t : ClassTraits O) (tr : WriteTransaction)
    (classId objectId : Nat) (obj : O) (pa : PropertyAccessBase O) (mode : StoreMode)
    (h : Registered t pa) :
    t.save tr classId objectId obj pa mode
      = (pa.storage.save tr classId objectId obj pa mode).map (fun tr' => (true, tr')) := by
  unfold ClassTraits.save
  by_cases h1 : pa.classId = t.info.classId
  · simp [h1]
  · rcases h with h | ⟨h0, hs⟩
    · exact absurd h h1
    · simp [h1, h0, hs]

/-! ## Saving an object -/

section save
variable {O : Type}

theorem WriteTransaction.append_private (tr : WriteTransaction) (bytes : List byte_t)
    (hk : tr.writeBuf.key = none)
    (hroom : tr.writeBuf.pos + bytes.length ≤ tr.writeBuf.data.length) :
    ∃ tr', tr.append bytes = .ok tr' ∧ tr'.writeBuf.filled = tr.writeBuf.filled ++ bytes
      ∧ tr'.writeBuf.key = none ∧ tr'.store = tr.store
      ∧ tr'.writeBuf.data.length = tr.writeBuf.data.length
      ∧ tr'.writeBuf.pos = tr.writeBuf.pos + bytes.length := by
  refine ⟨tr.setBuf { tr.writeBuf with
      data := pokeAt tr.writeBuf.data tr.writeBuf.pos bytes
      pos := tr.writeBuf.pos + bytes.length }, ?_, ?_, ?_, ?_, ?_, ?_⟩
  · simp only [WriteTransaction.append, WriteBuf.append_ok _ _ hroom]
  · simp only [WriteTransaction.setBuf]
    exact WriteBuf.append_filled _ _ hroom
  · simp [WriteTransaction.setBuf, hk]
  · simp [WriteTransaction.setBuf, hk]
  · simp only [WriteTransaction.setBuf]
    exact pokeAt_length _ _ _ hroom
  · simp [WriteTransaction.setBuf]

theorem StoreAccess.putAll_ok (byteSize : Nat) :
    ∀ (val : List Int) (buf : WriteBuf),
      buf.pos + (val.map (ValueTraits.size byteSize)).sum ≤ buf.data.length →
        ∃ b, StoreAccess.putAll byteSize val buf = .ok b
  | [], buf, _ => ⟨buf, rfl⟩
  | v :: rest, buf, h => by
    simp only [List.map_cons, List.sum_cons, ValueTraits.size] at h
    have hroom : buf.pos + (write_integer v byteSize).length ≤ buf.data.length := by
      rw [write_integer_length]
      omega
    rw [StoreAccess.putAll, ValueTraits.putBytesBuf, WriteBuf.append_ok _ _ hroom]
    simp only
    apply StoreAccess.putAll_ok byteSize rest
    simp only [write_integer_length, pokeAt_length _ _ _ hroom, ValueTraits.size]
    have : (List.map (fun _val => byteSize) rest).sum
        = (List.map (ValueTraits.size byteSize) rest).sum := rfl
    omega

theorem StoreAccess.save_effect (s : StoreAccess O) (tr : WriteTransaction)
    (classId objectId : Nat) (obj : O) (pa : PropertyAccessBase O) (mode : StoreMode)
    (hk : tr.writeBuf.key = none) (hf : tr.store.full = false)
    (hroom : tr.writeBuf.pos + s.size obj ≤ tr.writeBuf.data.length) :
    ∃ tr', s.save tr classId objectId obj pa mode = .ok tr'
      ∧ tr'.writeBuf.filled = tr.writeBuf.filled ++ s.payload obj
      ∧ tr'.writeBuf.key = none ∧ tr'.store.full = false
      ∧ tr'.writeBuf.data.length = tr.writeBuf.data.length
      ∧ tr'.writeBuf.pos = tr.writeBuf.pos + s.size obj := by
  cases s with
  | base byteSize get =>
    have hr : tr.writeBuf.pos + (write_integer (get obj) byteSize).length
        ≤ tr.writeBuf.data.length := by
      rw [write_integer_length]
      exact hroom
    obtain ⟨tr', h1, h2, h3, h4, h5, h6⟩ := tr.append_private _ hk hr
    refine ⟨tr', h1, h2, h3, by rw [h4]; exact hf, h5, ?_⟩
    rw [h6, write_integer_length]
    rfl
  | string get =>
    have hr : tr.writeBuf.pos + (get obj ++ [0]).length ≤ tr.writeBuf.data.length := by
      simpa [StoreAccess.size] using hroom
    obtain ⟨tr', h1, h2, h3, h4, h5, h6⟩ := tr.append_private _ hk hr
    refine ⟨tr', h1, h2, h3, by rw [h4]; exact hf, h5, ?_⟩
    rw [h6]
    simp [StoreAccess.size]
  | objectId =>
    exact ⟨tr, rfl, by simp [StoreAccess.payload], hk, hf, rfl, by simp [StoreAccess.size]⟩
  | valueVector byteSize get =>
    simp only [StoreAccess.save, StoreAccess.payload, StoreAccess.size, List.append_nil,
      Nat.add_zero]
    by_cases hz : ((get obj).map (ValueTraits.size byteSize)).sum = 0
    · simp only [hz, bne_self_eq_false, Bool.false_eq_true, if_false]
      exact ⟨tr, rfl, rfl, hk, hf, rfl, rfl⟩
    · have hne : (((get obj).map (ValueTraits.size byteSize)).sum != 0) = true := by
        simpa using hz
      obtain ⟨b, hb⟩ := StoreAccess.putAll_ok byteSize (get obj)
        (WriteBuf.start ((get obj).map (ValueTraits.size byteSize)).sum)
        (by simp [WriteBuf.start])
      simp only [hne, if_true, hb, WriteTransaction.putData, Store.put, hf, Bool.false_eq_true,
        if_false]
      exact ⟨_, rfl, rfl, hk, hf, rfl, rfl⟩

end save

section save
variable {O : Type}

theorem calculateBufferLoop_eq (t : ClassTraits O) (obj : O) (p : Properties O)
    (hi : p.Initialized) :
    ∀ (l : List (PropertyAccessBase O)) (px size : Nat),
      p.all.drop px = l → (∀ pa ∈ l, Registered t pa) →
        calculateBufferLoop t obj p l.length px size
          = .ok (size + ((l.filter (fun pa => pa.enabled)).map
              (fun pa => pa.storage.size obj)).sum)
  | [], px, size, _, _ => by simp [calculateBufferLoop]
  | pa :: rest, px, size, hd, hreg => by
    obtain ⟨hget, hrest⟩ := p.get_of_drop hi px pa rest hd
    have ih := fun sz => calculateBufferLoop_eq t obj p hi rest (px + 1) sz hrest
      (fun q hq => hreg q (List.mem_cons_of_mem _ hq))
    rw [List.length_cons, calculateBufferLoop, hget]
    by_cases he : pa.enabled = true
    · simp only [he, Bool.not_true, Bool.false_eq_true, if_false,
        ClassTraits.add_registered t obj pa size (hreg pa (List.mem_cons_self _ _)), ih,
        List.filter_cons_of_pos, List.map_cons, List.sum_cons, Nat.add_assoc]
    · simp only [he, Bool.not_false, if_true, ih]
      rw [List.filter_cons_of_neg (by simpa using he)]

theorem writeObjectLoop_effect (t : ClassTraits O) (classId objectId : Nat) (obj : O)
    (p : Properties O) (shallow : Bool) (hi : p.Initialized) :
    ∀ (l : List (PropertyAccessBase O)) (px : Nat) (tr : WriteTransaction),
      p.all.drop px = l → (∀ pa ∈ l, Registered t pa) →
      tr.writeBuf.key = none → tr.store.full = false →
      tr.writeBuf.pos + ((l.filter (fun pa => pa.enabled)).map
          (fun pa => pa.storage.size obj)).sum ≤ tr.writeBuf.data.length →
        ∃ tr', WriteTransaction.writeObjectLoop t classId objectId obj p shallow l.length px tr
            = .ok tr'
          ∧ tr'.writeBuf.filled = tr.writeBuf.filled
              ++ ((l.filter (fun pa => pa.enabled)).map (fun pa => pa.storage.payload obj)).flatten
          ∧ tr'.writeBuf.key = none ∧ tr'.store.full = false
  | [], px, tr, _, _, hk, hf, _ => ⟨tr, by simp [WriteTransaction.writeObjectLoop], by simp, hk, hf⟩
  | pa :: rest, px, tr, hd, hreg, hk, hf, hroom => by
    obtain ⟨hget, hrest⟩ := p.get_of_drop hi px pa rest hd
    have hreg' : ∀ q ∈ rest, Registered t q := fun q hq => hreg q (List.mem_cons_of_mem _ hq)
    rw [List.length_cons, WriteTransaction.writeObjectLoop, hget]
    by_cases he : pa.enabled = true
    · simp only [he, List.filter_cons_of_pos, List.map_cons, List.sum_cons] at hroom
      obtain ⟨tr1, hs, hfill, hk1, hf1, hlen, hpos⟩ :=
        pa.storage.save_effect tr classId objectId obj pa
          (if shallow then StoreMode.force_buffer else StoreMode.force_none) hk hf (by omega)
      obtain ⟨tr2, hl, hfill2, hk2, hf2⟩ :=
        writeObjectLoop_effect t classId objectId obj p shallow hi rest (px + 1) tr1 hrest hreg'
          hk1 hf1 (by rw [hlen, hpos]; omega)
      refine ⟨tr2, ?_, ?_, hk2, hf2⟩
      · simp only [he, Bool.not_true, Bool.false_eq_true, if_false,
          ClassTraits.save_registered t tr classId objectId obj pa _
            (hreg pa (List.mem_cons_self _ _)), hs, Except.map, hl]
      · rw [hfill2, hfill]
        simp [he, List.append_assoc]
    · have he' : ¬ (pa.enabled = true) := he
      rw [List.filter_cons_of_neg (by simpa using he)] at hroom
      obtain ⟨tr2, hl, hfill2, hk2, hf2⟩ :=
        writeObjectLoop_effect t classId objectId obj p shallow hi rest (px + 1) tr hrest hreg'
          hk hf hroom
      refine ⟨tr2, ?_, ?_, hk2, hf2⟩
      · simp only [he, Bool.not_false, if_true, hl]
      · rw [hfill2, List.filter_cons_of_neg (by simpa using he)]

theorem AbstractClassInfo.maxObjectId_set (c : AbstractClassInfo) (m : Nat) :
    (c.setMaxObjectId m).maxObjectId = m := by
  cases c; rfl

theorem AbstractClassInfo.classId_set (c : AbstractClassInfo) (m : Nat) :
    (c.setMaxObjectId m).classId = c.classId := by
  cases c; rfl

/-- What a non-shallow `saveObject` without a changed property does for a registered class:
it returns, with the new id for a new object and the given id otherwise, advances
`maxObjectId` for a new object only, and leaves under `(classId, objectId, 0)` the payloads of
the enabled properties and nothing else. -/
theorem saveObject_effect (tr : WriteTransaction) (t : ClassTraits O) (id : Nat) (obj : O)
    (newObject : Bool) (hi : t.properties.Initialized)
    (hreg : ∀ pa ∈ t.properties.all, Registered t pa) (hf : tr.store.full = false) :
    ∃ r, tr.saveObject t id obj newObject none false = .ok r
      ∧ r.objectId = (if newObject then wrap64 (t.info.maxObjectId + 1) else id)
      ∧ r.info = (if newObject then t.info.setMaxObjectId (wrap64 (t.info.maxObjectId + 1))
          else t.info)
      ∧ r.tr.getData t.info.classId r.objectId 0 = some (payloads t.properties obj)
      ∧ r.tr.store.full = false := by
  have hcalc : calculateBuffer t obj t.properties
      = .ok (((t.properties.all.filter (fun pa => pa.enabled)).map
          (fun pa => pa.storage.size obj)).sum) := by
    have := calculateBufferLoop_eq t obj t.properties hi t.properties.all 0 0 rfl hreg
    rw [Nat.zero_add] at this
    rw [calculateBuffer, Properties.full_size_eq_length]
    exact this
  obtain ⟨tr2, hl, hfill, hk2, hf2⟩ :=
    writeObjectLoop_effect t t.info.classId
      (if newObject then wrap64 (t.info.maxObjectId + 1) else id) obj t.properties false hi
      t.properties.all 0
      (tr.setBuf (WriteBuf.start (((t.properties.all.filter (fun pa => pa.enabled)).map
          (fun pa => pa.storage.size obj)).sum)))
      rfl hreg rfl hf (by simp [WriteTransaction.setBuf, WriteBuf.start])
  have hfill' : tr2.writeBuf.filled = payloads t.properties obj := by
    rw [hfill]
    simp [WriteTransaction.setBuf, WriteBuf.start, WriteBuf.filled, payloads]
  have hoid : (if newObject = true then
        (if newObject = true then t.info.setMaxObjectId (wrap64 (t.info.maxObjectId + 1))
          else t.info).maxObjectId
      else id) = (if newObject = true then wrap64 (t.info.maxObjectId + 1) else id) := by
    cases newObject <;> simp [AbstractClassInfo.maxObjectId_set]
  unfold WriteTransaction.saveObject
  simp only [hcalc, hoid]
  unfold WriteTransaction.writeObject
  rw [Properties.full_size_eq_length, hl]
  simp only [WriteTransaction.putData, Store.put, hf2, Bool.false_eq_true, if_false]
  refine ⟨_, rfl, rfl, rfl, ?_, ?_⟩
  · simp only [WriteTransaction.setBuf, hk2, WriteTransaction.getData, Store.get_set, hfill']
  · simp only [WriteTransaction.setBuf, hk2, Store.set_full, hf2]

end save

/-! ## Class-info tree -/

namespace AbstractClassInfo

theorem isInstanceSubs_of_mem (c : Nat) :
    ∀ (l : List AbstractClassInfo) (s : AbstractClassInfo),
      s ∈ l → isInstance s c = true → isInstanceSubs l c = true
  | [], _, h, _ => by cases h
  | t :: rest, s, h, hs => by
    rw [isInstanceSubs]
    rcases List.mem_cons.mp h with rfl | h'
    · simp [hs]
    · by_cases ht : isInstance t c = true
      · simp [ht]
      · simp [ht, isInstanceSubs_of_mem c rest s h' hs]

theorem isInstance_of_reaches {n m : AbstractClassInfo} (h : Reaches n m) :
    isInstance n m.classId = true := by
  induction h with
  | self n =>
    cases n with
    | mk nm cid mx subs => simp [isInstance, classId]
  | sub n s m hs _ ih =>
    cases n with
    | mk nm cid mx subs =>
      rw [isInstance]
      by_cases hc : (cid == m.classId) = true
      · simp [hc]
      · simp only [hc, Bool.false_eq_true, if_false]
        exact isInstanceSubs_of_mem _ subs s hs ih

mutual
theorem reaches_of_isInstance (c : Nat) :
    ∀ n : AbstractClassInfo, isInstance n c = true → ∃ m, Reaches n m ∧ m.classId = c
  | .mk nm cid mx subs, h => by
    rw [isInstance] at h
    by_cases hc : (cid == c) = true
    · exact ⟨.mk nm cid mx subs, Reaches.self _, by simpa [classId] using hc⟩
    · simp only [hc, Bool.false_eq_true, if_false] at h
      obtain ⟨s, hs, m, hr, hm⟩ := reaches_of_isInstanceSubs c subs h
      exact ⟨m, Reaches.sub _ s m hs hr, hm⟩
theorem reaches_of_isInstanceSubs (c : Nat) :
    ∀ l : List AbstractClassInfo, isInstanceSubs l c = true →
      ∃ s ∈ l, ∃ m, Reaches s m ∧ m.classId = c
  | [], h => by simp [isInstanceSubs] at h
  | t :: rest, h => by
    rw [isInstanceSubs] at h
    by_cases ht : isInstance t c = true
    · obtain ⟨m, hr, hm⟩ := reaches_of_isInstance c t ht
      exact ⟨t, List.mem_cons_self _ _, m, hr, hm⟩
    · simp only [ht, Bool.false_eq_true, if_false] at h
      obtain ⟨s, hs, r⟩ := reaches_of_isInstanceSubs c rest h
      exact ⟨s, List.mem_cons_of_mem _ hs, r⟩
end

end AbstractClassInfo

/-- C10: `isInstance(c)` on a node of a class-info tree is true exactly when `c` is the class
id of that node or of a node reachable from it by following `subs` transitively. -/
theorem isInstance_iff_reachable (n : AbstractClassInfo) (c : Nat) :
    n.isInstance c = true ↔ ∃ m, AbstractClassInfo.Reaches n m ∧ m.classId = c :=
  ⟨AbstractClassInfo.reaches_of_isInstance c n,
   fun ⟨_, hr, hm⟩ => hm ▸ AbstractClassInfo.isInstance_of_reaches hr⟩

/-! ## Schema compatibility -/

section schema
variable {O : Type}

theorem streq_iff (s1 : String) (s2 : Option String) :
    streq s1 s2 = true ↔ s2.getD "" = s1 := by
  cases s2 with
  | none =>
    simp only [streq, String.isEmpty_iff, Option.getD_none]
    exact ⟨fun h => h.symm, fun h => h.symm⟩
  | some s =>
    simp only [streq, beq_iff_eq, Option.getD_some]
    exact ⟨fun h => h.symm, fun h => h.symm⟩

theorem typeChanged_iff (pa : PropertyAccessBase O) (pi : PropertyMetaInfo) :
    typeChanged pa pi = true ↔ TypeDiffers pa pi := by
  have h := streq_iff pi.className pa.type.className
  unfold typeChanged TypeDiffers
  by_cases hs : streq pi.className pa.type.className = true
  · have := h.mp hs
    simp only [hs, this, Bool.not_true, Bool.or_false, Bool.or_eq_true, bne_iff_ne, ne_eq,
      not_true_eq_false, or_false]
    constructor
    · rintro ((h1 | h2) | h3)
      · exact Or.inl h1
      · exact Or.inr (Or.inl h2)
      · exact Or.inr (Or.inr (fun e => h3 e.symm))
    · rintro (h1 | h2 | h3)
      · exact Or.inl (Or.inl h1)
      · exact Or.inl (Or.inr h2)
      · exact Or.inr (fun e => h3 e.symm)
  · have hne : ¬ (pa.type.className.getD "" = pi.className) := fun e => hs (h.mpr e)
    simp only [hs, Bool.not_false, Bool.or_true, Bool.true_or, ne_eq]
    exact ⟨fun _ => Or.inr (Or.inr (Or.inr hne)), fun _ => trivial⟩

theorem checkProperty_ok_iff (className : String) (pi : PropertyMetaInfo) :
    ∀ properties : List (PropertyAccessBase O),
      checkProperty className pi properties = .ok () ↔
        ∀ pa ∈ properties, pi.name = pa.name → ¬ TypeDiffers pa pi
  | [] => by simp [checkProperty]
  | pa :: rest => by
    rw [checkProperty]
    by_cases h : (pi.name == pa.name && typeChanged pa pi) = true
    · simp only [h, if_true]
      simp only [Bool.and_eq_true, beq_iff_eq, typeChanged_iff] at h
      constructor
      · intro hc; cases hc
      · intro hall; exact absurd h.2 (hall pa (List.mem_cons_self _ _) h.1)
    · simp only [h, Bool.false_eq_true, if_false, checkProperty_ok_iff className pi rest]
      simp only [Bool.and_eq_true, beq_iff_eq, typeChanged_iff, not_and] at h
      constructor
      · intro hr p hp
        rcases List.mem_cons.mp hp with rfl | hp'
        · exact h
        · exact hr p hp'
      · intro hall p hp
        exact hall p (List.mem_cons_of_mem _ hp)

theorem checkProperty_error (className : String) (pi : PropertyMetaInfo) :
    ∀ (properties : List (PropertyAccessBase O)) (e : Err),
      checkProperty className pi properties = .error e →
        ∃ d, e = .incompatible_schema_error d
  | [], e, h => by simp [checkProperty] at h
  | pa :: rest, e, h => by
    rw [checkProperty] at h
    by_cases hc : (pi.name == pa.name && typeChanged pa pi) = true
    · simp only [hc, if_true, Except.error.injEq] at h
      exact ⟨_, h.symm⟩
    · simp only [hc, Bool.false_eq_true, if_false] at h
      exact checkProperty_error className pi rest e h

theorem checkInfos_ok (className : String) (properties : List (PropertyAccessBase O)) :
    ∀ (infos : List PropertyMetaInfo) (piNames : List String),
      (∀ pi ∈ infos, ∀ pa ∈ properties, pi.name = pa.name → ¬ TypeDiffers pa pi) →
        checkInfos className properties infos piNames
          = .ok ((infos.map (fun pi => pi.name)).reverse ++ piNames)
  | [], piNames, _ => by simp [checkInfos]
  | pi :: rest, piNames, h => by
    have h1 : checkProperty className pi properties = .ok () :=
      (checkProperty_ok_iff className pi properties).mpr (h pi (List.mem_cons_self _ _))
    rw [checkInfos, h1]
    simp only
    rw [checkInfos_ok className properties rest (pi.name :: piNames)
      (fun p hp => h p (List.mem_cons_of_mem _ hp))]
    simp

theorem checkInfos_error (className : String) (properties : List (PropertyAccessBase O)) :
    ∀ (infos : List PropertyMetaInfo) (piNames : List String),
      (∃ pi ∈ infos, ∃ pa ∈ properties, pi.name = pa.name ∧ TypeDiffers pa pi) →
        ∃ d, checkInfos className properties infos piNames = .error (.incompatible_schema_error d)
  | [], _, h => by
    obtain ⟨pi, hpi, _⟩ := h
    cases hpi
  | pi :: rest, piNames, h => by
    rw [checkInfos]
    cases hc : checkProperty className pi properties with
    | error e =>
      obtain ⟨d, rfl⟩ := checkProperty_error className pi properties e hc
      exact ⟨d, rfl⟩
    | ok u =>
      cases u
      simp only
      apply checkInfos_error className properties rest
      obtain ⟨p, hp, pa, hpa, hn, hd⟩ := h
      rcases List.mem_cons.mp hp with rfl | hp'
      · exact absurd hd ((checkProperty_ok_iff className p properties).mp hc pa hpa hn)
      · exact ⟨p, hp', pa, hpa, hn, hd⟩

theorem disableMissing_eq_map (piNames : List String) :
    ∀ properties : List (PropertyAccessBase O),
      disableMissing piNames properties
        = properties.map
            (fun pa => if pa.name ∈ piNames then pa else { pa with enabled := false })
  | [] => rfl
  | pa :: rest => by
    rw [disableMissing, disableMissing_eq_map piNames rest]
    by_cases h : pa.name ∈ piNames <;> simp [h]

end schema

/-- C2: `updateClassSchema` throws `incompatible_schema_error` exactly when the persisted
property list is non-empty and holds an entry with the name of a live property whose type
id, byte size, vector flag or class name (a null live class name counting as the empty
string) differs; in every other case it returns, so persisted names without a live
counterpart never make it fail. -/
theorem updateClassSchema_fails_iff {O : Type} (className : String)
    (properties : List (PropertyAccessBase O)) (propertyInfos : List PropertyMetaInfo) :
    ((∃ d, updateClassSchema className properties propertyInfos
            = .error (.incompatible_schema_error d)) ↔
        (propertyInfos ≠ [] ∧
          ∃ pi ∈ propertyInfos, ∃ pa ∈ properties, pi.name = pa.name ∧ TypeDiffers pa pi)) ∧
    ((∃ ps, updateClassSchema className properties propertyInfos = .ok ps) ↔
        ¬ (propertyInfos ≠ [] ∧
          ∃ pi ∈ propertyInfos, ∃ pa ∈ properties, pi.name = pa.name ∧ TypeDiffers pa pi)) := by
  by_cases hbad : ∃ pi ∈ propertyInfos, ∃ pa ∈ properties, pi.name = pa.name ∧ TypeDiffers pa pi
  · have hne : propertyInfos ≠ [] := by
      obtain ⟨pi, hpi, _⟩ := hbad
      exact List.ne_nil_of_mem hpi
    obtain ⟨d, hd⟩ := checkInfos_error className properties propertyInfos [] hbad
    have hres : updateClassSchema className properties propertyInfos
        = .error (.incompatible_schema_error d) := by
      unfold updateClassSchema
      have : propertyInfos.isEmpty = false := by
        cases propertyInfos with
        | nil => exact absurd rfl hne
        | cons a l => rfl
      simp [this, hd]
    refine ⟨⟨fun _ => ⟨hne, hbad⟩, fun _ => ⟨d, hres⟩⟩, ⟨?_, ?_⟩⟩
    · rintro ⟨ps, hps⟩
      rw [hres] at hps
      cases hps
    · intro hn
      exact absurd ⟨hne, hbad⟩ hn
  · have hgood : ∀ pi ∈ propertyInfos, ∀ pa ∈ properties, pi.name = pa.name →
        ¬ TypeDiffers pa pi := fun pi hpi pa hpa hn hd => hbad ⟨pi, hpi, pa, hpa, hn, hd⟩
    have hok : ∃ ps, updateClassSchema className properties propertyInfos = .ok ps := by
      unfold updateClassSchema
      rw [checkInfos_ok className properties propertyInfos [] hgood]
      by_cases he : propertyInfos.isEmpty = true
      · exact ⟨properties, by simp [he]⟩
      · exact ⟨_, by simp [he]; rfl⟩
    refine ⟨⟨?_, fun h => absurd h.2 hbad⟩, ⟨fun _ h => hbad h.2, fun _ => hok⟩⟩
    rintro ⟨d, hd⟩
    obtain ⟨ps, hps⟩ := hok
    rw [hps] at hd
    cases hd

/-- C3: when no live property has a changed type, `updateClassSchema` returns and sets
`enabled = false` on exactly the live properties whose name does not occur in a non-empty
persisted list; every other property, and every other field, is left as it was. With an empty
persisted list (first registration) nothing is changed. -/
theorem updateClassSchema_disables_missing {O : Type} (className : String)
    (properties : List (PropertyAccessBase O)) (propertyInfos : List PropertyMetaInfo)
    (hcompat : ∀ pi ∈ propertyInfos, ∀ pa ∈ properties, pi.name = pa.name →
      ¬ TypeDiffers pa pi) :
    updateClassSchema className properties propertyInfos
      = .ok (properties.map (fun pa =>
          if propertyInfos = [] ∨ pa.name ∈ propertyInfos.map (fun pi => pi.name) then pa
          else { pa with enabled := false })) ∧
    (propertyInfos = [] → updateClassSchema className properties propertyInfos = .ok properties) := by
  unfold updateClassSchema
  rw [checkInfos_ok className properties propertyInfos [] hcompat]
  cases propertyInfos with
  | nil => simp
  | cons a l =>
    simp only [List.isEmpty_cons, Bool.not_false, if_true, List.append_nil, reduceCtorEq,
      false_or, false_implies, and_true, disableMissing_eq_map, List.mem_reverse]

/-- Witness for C3: `Point` with the members `x` and `y`, the database knowing only `x`:
`y` is disabled, `x` stays enabled. -/
theorem updateClassSchema_disables_missing_witness :
    (updateClassSchema "Point" (Point.decl_props 10)
        [⟨"x", 2, 3, false, 4, ""⟩]).toOption.map (fun ps => ps.map (fun pa => (pa.name, pa.enabled)))
      = some [("x", true), ("y", false)] := by
  rw [(updateClassSchema_disables_missing "Point" (Point.decl_props 10)
    [⟨"x", 2, 3, false, 4, ""⟩] (by
      intro pi hpi pa hpa hn
      simp only [List.mem_singleton] at hpi
      subst hpi
      simp only [Point.decl_props, List.mem_cons, List.mem_singleton, List.not_mem_nil,
        or_false] at hpa
      rcases hpa with rfl | rfl
      · simp [TypeDiffers]
      · simp at hn)).1]
  decide

/-- C1, counterexample: for `Point` registered with class id 10, the first `putObject` of
`(3, -5)` returns 1, and the record under `(10, 1, 0)` is the eight payload bytes
`03 00 00 00 FB FF FF FF`: it does not start with an ObjectHeader, so it is not the 24-byte
record of the claim. -/
theorem putObject_point_record_has_no_header :
    (WriteTransaction.putObject {} (Point.traits 10) ⟨3, -5⟩).toOption.map
        (fun r => (r.objectId, r.tr.getData 10 1 0))
      = some (1, some [0x03, 0, 0, 0, 0xFB, 0xFF, 0xFF, 0xFF])
    ∧ (WriteTransaction.putObject {} (Point.traits 10) ⟨3, -5⟩).toOption.map
        (fun r => (r.objectId, r.tr.getData 10 1 0))
      ≠ some (1, some [0x0A, 0, 0, 0, 0x01, 0, 0, 0, 0, 0, 0, 0, 0x0E, 0, 0, 0,
          0x03, 0, 0, 0, 0xFB, 0xFF, 0xFF, 0xFF]) := by
  decide

/-- C1, amended: for every object of a registered class whose property table is initialized,
`putObject` returns the next object id and stores under `(classId, objectId, 0)` exactly the
payloads of the enabled embedded properties in declared order, without an ObjectHeader in
front of them. -/
theorem putObject_stores_payloads {O : Type} (tr : WriteTransaction) (t : ClassTraits O)
    (obj : O) (hi : t.properties.Initialized)
    (hreg : ∀ pa ∈ t.properties.all, Registered t pa) (hf : tr.store.full = false) :
    ∃ r, tr.putObject t obj = .ok r
      ∧ r.objectId = wrap64 (t.info.maxObjectId + 1)
      ∧ r.tr.getData t.info.classId r.objectId 0 = some (payloads t.properties obj) := by
  obtain ⟨r, hr, hid, _, hget, _⟩ := saveObject_effect tr t 0 obj true hi hreg hf
  exact ⟨r, hr, by simpa using hid, hget⟩

theorem Point.traits_registered (classId : Nat) :
    ∀ pa ∈ (Point.traits classId).properties.all, Registered (Point.traits classId) pa := by
  intro pa hpa
  simp only [Point.traits, Properties.all, Point.decl_props, List.mem_cons, List.mem_singleton,
    List.not_mem_nil, or_false] at hpa
  rcases hpa with rfl | rfl <;> exact Or.inl rfl

/-- Witness for C1, amended: `Point` with class id 10 and the object `(3, -5)`: the id is 1
and the record is `03 00 00 00 FB FF FF FF`. -/
theorem putObject_stores_payloads_witness :
    ∃ r, WriteTransaction.putObject {} (Point.traits 10) ⟨3, -5⟩ = .ok r
      ∧ r.objectId = 1
      ∧ r.tr.getData 10 r.objectId 0 = some [0x03, 0, 0, 0, 0xFB, 0xFF, 0xFF, 0xFF] :=
  let ⟨r, h1, h2, h3⟩ := putObject_stores_payloads {} (Point.traits 10) ⟨3, -5⟩ rfl
    (Point.traits_registered 10) rfl
  ⟨r, h1, h2.trans (by decide), h3.trans (by decide)⟩

theorem read_integer_lt : ∀ (bs : List byte_t) (w : Nat), read_integer bs w < 256 ^ w
  | _, 0 => by simp [read_integer]
  | [], w + 1 => by
    simp only [read_integer]
    positivity
  | b :: bs, w + 1 => by
    have ih := read_integer_lt bs w
    have hb := b.isLt
    simp only [read_integer]
    rw [Nat.pow_succ]
    omega

theorem chunkElementCount_lt (bytes : List byte_t) : chunkElementCount bytes < 2 ^ 64 := by
  have h := read_integer_lt ((bytes.drop 8).take 4) 4
  unfold chunkElementCount
  have : (256 : Nat) ^ 4 < 2 ^ 64 := by decide
  omega

theorem readChunkHeader_ok (bytes : List byte_t) (h : 12 ≤ bytes.length) :
    ∃ dataSize startIndex, readChunkHeader { data := bytes, pos := 0 }
      = .ok ((dataSize, startIndex, chunkElementCount bytes), { data := bytes, pos := 12 }) := by
  have h4 : 0 + 4 ≤ bytes.length := by omega
  have h8 : 0 + 4 + 4 ≤ bytes.length := by omega
  have h12 : 0 + 4 + 4 + 4 ≤ bytes.length := by omega
  refine ⟨read_integer ((bytes.drop 0).take 4) 4, read_integer ((bytes.drop (0 + 4)).take 4) 4, ?_⟩
  simp only [readChunkHeader, ReadBuf.readInteger, ReadBuf.read, h4, h8, h12, if_true]
  rfl

theorem cursorPositions_length :
    ∀ chunks : List (Nat × List byte_t),
      (cursorPositions chunks).length = (chunks.map (fun c => chunkElementCount c.2)).sum
  | [] => rfl
  | (id, bytes) :: rest => by
    simp [cursorPositions, cursorPositions_length rest]

theorem drive_at_end (fuel : Nat) (c : CollectionCursorBase) (h : c.atEnd = true) :
    c.drive fuel = .ok ([], c) := by
  cases fuel with
  | zero => rfl
  | succ n => simp [CollectionCursorBase.drive, h]

theorem cursorAt_next_within (id : Nat) (bytes : List byte_t) (rest : List (Nat × List byte_t))
    (j : Nat) (h : j + 1 < chunkElementCount bytes) :
    (cursorAt id bytes rest j).next = .ok (true, cursorAt id bytes rest (j + 1)) := by
  have hlt := chunkElementCount_lt bytes
  have hw : wrap64 (j + 1) = j + 1 := by
    rw [wrap64, Nat.mod_eq_of_lt (by omega)]
  have hne : (j + 1 == chunkElementCount bytes) = false := by
    simp only [beq_eq_false_iff_ne, ne_eq]; omega
  simp only [CollectionCursorBase.next, cursorAt, hw, hne, Bool.false_eq_true, if_false,
    decide_eq_true h]

theorem cursorAt_next_last (id : Nat) (bytes : List byte_t) (j : Nat)
    (h : j + 1 = chunkElementCount bytes) :
    (cursorAt id bytes [] j).next
      = .ok (false, { cursorAt id bytes [] (j + 1) with
          m_chunkCursor := { rest := [], m_atEnd := true } }) := by
  have hlt := chunkElementCount_lt bytes
  have hw : wrap64 (j + 1) = j + 1 := by
    rw [wrap64, Nat.mod_eq_of_lt (by omega)]
  have hw2 : wrap64 (chunkElementCount bytes) = chunkElementCount bytes :=
    Nat.mod_eq_of_lt hlt
  simp only [CollectionCursorBase.next, cursorAt, h, hw2, beq_self_eq_true, if_true,
    ChunkCursor.next, Nat.lt_irrefl, decide_False]

theorem cursorAt_next_chunk (id : Nat) (bytes : List byte_t) (id2 : Nat) (b2 : List byte_t)
    (rest : List (Nat × List byte_t)) (j : Nat) (h : j + 1 = chunkElementCount bytes)
    (h2 : 12 ≤ b2.length) :
    ∃ b, (cursorAt id bytes ((id2, b2) :: rest) j).next = .ok (b, cursorAt id2 b2 rest 0) := by
  have hlt := chunkElementCount_lt bytes
  have hw : wrap64 (j + 1) = j + 1 := by
    rw [wrap64, Nat.mod_eq_of_lt (by omega)]
  obtain ⟨ds, si, hrd⟩ := readChunkHeader_ok b2 h2
  refine ⟨decide (0 < chunkElementCount b2), ?_⟩
  have hw2 : wrap64 (chunkElementCount bytes) = chunkElementCount bytes :=
    Nat.mod_eq_of_lt hlt
  simp only [CollectionCursorBase.next, cursorAt, h, hw2, beq_self_eq_true, if_true,
    ChunkCursor.next, ChunkCursor.get, hrd]

theorem drive_step (f : Nat) (c c1 : CollectionCursorBase) (b : Bool)
    (hnot : c.atEnd = false) (hnext : c.next = .ok (b, c1)) :
    c.drive (f + 1) = match c1.drive f with
      | .error e => .error e
      | .ok (ps, c2) => .ok ((c.m_chunkCursor.chunkId, c.m_curElement) :: ps, c2) := by
  rw [CollectionCursorBase.drive]
  simp only [hnot, Bool.false_eq_true, if_false, hnext]

theorem cursorAt_not_atEnd (id : Nat) (bytes : List byte_t) (rest : List (Nat × List byte_t))
    (j : Nat) (h : j < chunkElementCount bytes) : (cursorAt id bytes rest j).atEnd = false := by
  simp only [CollectionCursorBase.atEnd, cursorAt, ge_iff_le, decide_eq_false_iff_not, Nat.not_le]
  exact h

theorem drive_chunks :
    ∀ (rest : List (Nat × List byte_t)) (id : Nat) (bytes : List byte_t),
      (∀ c ∈ rest, 12 ≤ c.2.length) → (∀ c ∈ rest, 1 ≤ chunkElementCount c.2) →
      ∀ (k j fuel : Nat), j + (k + 1) = chunkElementCount bytes →
        (k + 1) + (rest.map (fun c => chunkElementCount c.2)).sum ≤ fuel →
        ∃ c', (cursorAt id bytes rest j).drive fuel
            = .ok ((List.range' j (k + 1)).map (fun i => (id, i)) ++ cursorPositions rest, c')
          ∧ c'.atEnd = true := by
  intro rest
  induction rest with
  | nil =>
    intro id bytes _ _ k
    induction k with
    | zero =>
      intro j fuel hj hfuel
      obtain ⟨f, rfl⟩ : ∃ f, fuel = f + 1 := ⟨fuel - 1, by omega⟩
      refine ⟨{ cursorAt id bytes [] (j + 1) with
          m_chunkCursor := { rest := [], m_atEnd := true } }, ?_, ?_⟩
      · rw [drive_step f _ _ _ (cursorAt_not_atEnd id bytes [] j (by omega))
          (cursorAt_next_last id bytes j (by omega)),
          drive_at_end _ _ (by simp [CollectionCursorBase.atEnd, cursorAt]; omega)]
        simp [cursorPositions, cursorAt, ChunkCursor.chunkId]
      · simp [CollectionCursorBase.atEnd, cursorAt]; omega
    | succ k ih =>
      intro j fuel hj hfuel
      obtain ⟨f, rfl⟩ : ∃ f, fuel = f + 1 := ⟨fuel - 1, by omega⟩
      obtain ⟨c', hd, hend⟩ := ih (j + 1) f (by omega) (by simp at hfuel ⊢; omega)
      refine ⟨c', ?_, hend⟩
      rw [drive_step f _ _ _ (cursorAt_not_atEnd id bytes [] j (by omega))
        (cursorAt_next_within id bytes [] j (by omega)), hd]
      simp [cursorAt, ChunkCursor.chunkId, List.range'_succ]
  | cons d rest ihr =>
    intro id bytes hhdr hcnt k
    obtain ⟨id2, b2⟩ := d
    have hhdr2 : 12 ≤ b2.length := hhdr (id2, b2) (List.mem_cons_self _ _)
    have hcnt2 : 1 ≤ chunkElementCount b2 := hcnt (id2, b2) (List.mem_cons_self _ _)
    induction k with
    | zero =>
      intro j fuel hj hfuel
      obtain ⟨f, rfl⟩ : ∃ f, fuel = f + 1 := ⟨fuel - 1, by omega⟩
      obtain ⟨k2, hk2⟩ : ∃ k2, 0 + (k2 + 1) = chunkElementCount b2 :=
        ⟨chunkElementCount b2 - 1, by omega⟩
      obtain ⟨c', hd, hend⟩ := ihr id2 b2
        (fun c hc => hhdr c (List.mem_cons_of_mem _ hc))
        (fun c hc => hcnt c (List.mem_cons_of_mem _ hc)) k2 0 f hk2
        (by simp at hfuel ⊢; omega)
      obtain ⟨b, hb⟩ := cursorAt_next_chunk id bytes id2 b2 rest j (by omega) hhdr2
      refine ⟨c', ?_, hend⟩
      rw [drive_step f _ _ _ (cursorAt_not_atEnd id bytes _ j (by omega)) hb, hd]
      have : k2 + 1 = chunkElementCount b2 := by omega
      simp [cursorPositions, cursorAt, ChunkCursor.chunkId, this]
    | succ k ih =>
      intro j fuel hj hfuel
      obtain ⟨f, rfl⟩ : ∃ f, fuel = f + 1 := ⟨fuel - 1, by omega⟩
      obtain ⟨c', hd, hend⟩ := ih (j + 1) f (by omega) (by simp at hfuel ⊢; omega)
      refine ⟨c', ?_, hend⟩
      rw [drive_step f _ _ _ (cursorAt_not_atEnd id bytes _ j (by omega))
        (cursorAt_next_within id bytes _ j (by omega)), hd]
      simp [cursorAt, ChunkCursor.chunkId, List.range'_succ]

/-- C7: for a collection whose chunks, in chunk-id order, all carry a header and an element
count of at least 1, the cursor driven by `while(!atEnd()) next()` comes to its end, having
stood on exactly the elements of the chunks: as many positions as the element counts add up
to, all elements of a chunk before those of the next, and with `m_curElement` = 0 at the
first position of every chunk. -/
theorem collection_cursor_visits_all (tr : WriteTransaction) (collectionId fuel : Nat)
    (hhdr : ∀ c ∈ tr.store.chunks COLLECTION_CLSID collectionId, 12 ≤ c.2.length)
    (hcnt : ∀ c ∈ tr.store.chunks COLLECTION_CLSID collectionId, 1 ≤ chunkElementCount c.2)
    (hfuel : ((tr.store.chunks COLLECTION_CLSID collectionId).map
      (fun c => chunkElementCount c.2)).sum ≤ fuel) :
    ∃ c0 c', CollectionCursorBase.new (tr._openChunkCursor COLLECTION_CLSID collectionId false)
        = .ok c0
      ∧ c0.drive fuel
        = .ok (cursorPositions (tr.store.chunks COLLECTION_CLSID collectionId), c')
      ∧ c'.atEnd = true
      ∧ (cursorPositions (tr.store.chunks COLLECTION_CLSID collectionId)).length
        = ((tr.store.chunks COLLECTION_CLSID collectionId).map
            (fun c => chunkElementCount c.2)).sum := by
  have hopen : tr._openChunkCursor COLLECTION_CLSID collectionId false
      = { rest := tr.store.chunks COLLECTION_CLSID collectionId,
          m_atEnd := (tr.store.chunks COLLECTION_CLSID collectionId).isEmpty } := rfl
  rw [hopen]
  generalize tr.store.chunks COLLECTION_CLSID collectionId = chunks at *
  cases chunks with
  | nil =>
    refine ⟨{ m_chunkCursor := { rest := [], m_atEnd := true } },
      { m_chunkCursor := { rest := [], m_atEnd := true } }, rfl, ?_, ?_, rfl⟩
    · exact drive_at_end fuel _ (by simp [CollectionCursorBase.atEnd])
    · simp [CollectionCursorBase.atEnd]
  | cons d rest =>
    obtain ⟨id, bytes⟩ := d
    have h12 : 12 ≤ bytes.length := hhdr (id, bytes) (List.mem_cons_self _ _)
    have h1 : 1 ≤ chunkElementCount bytes := hcnt (id, bytes) (List.mem_cons_self _ _)
    obtain ⟨ds, si, hrd⟩ := readChunkHeader_ok bytes h12
    obtain ⟨k, hk⟩ : ∃ k, 0 + (k + 1) = chunkElementCount bytes :=
      ⟨chunkElementCount bytes - 1, by omega⟩
    obtain ⟨c', hd, hend⟩ := drive_chunks rest id bytes
      (fun c hc => hhdr c (List.mem_cons_of_mem _ hc))
      (fun c hc => hcnt c (List.mem_cons_of_mem _ hc)) k 0 fuel hk
      (by simp at hfuel ⊢; omega)
    refine ⟨cursorAt id bytes rest 0, c', ?_, ?_, hend, cursorPositions_length _⟩
    · simp only [CollectionCursorBase.new, ChunkCursor.atEnd, List.isEmpty_cons, Bool.not_false,
        if_true, ChunkCursor.get, hrd, cursorAt]
    · rw [hd]
      have : k + 1 = chunkElementCount bytes := by omega
      simp [cursorPositions, this]

/-- Witness for C7: a collection of two chunks with 2 and 1 elements: the cursor stands on
the elements 0 and 1 of chunk 1, then on element 0 of chunk 2, and is at its end. -/
theorem collection_cursor_visits_all_witness :
    ∃ c0 c', CollectionCursorBase.new (twoChunkTransaction._openChunkCursor COLLECTION_CLSID 7 false)
        = .ok c0
      ∧ c0.drive 3 = .ok ([(1, 0), (1, 1), (2, 0)], c')
      ∧ c'.atEnd = true :=
  let ⟨c0, c', h0, h1, h2, _⟩ := collection_cursor_visits_all twoChunkTransaction 7 3
    (by decide) (by decide) (by decide)
  have hp : cursorPositions (twoChunkTransaction.store.chunks COLLECTION_CLSID 7)
      = [(1, 0), (1, 1), (2, 0)] := by decide
  ⟨c0, c', h0, hp ▸ h1, h2⟩

/-! ## Chunked collections -/

/-- C4, evaluated at the failing input: `putValueCollection` of the `u32` vector
`[10, 20, 30]` on a new transaction does not return a collection id, so that no
`getValueCollection` gives the vector back. -/
theorem putValueCollection_roundtrip_u32 :
    (match WriteTransaction.putValueCollection {} 4 [10, 20, 30] with
      | .ok (id, tr) => (tr.getValueCollection 4 false id).toOption
      | .error _ => none) = none
    ∧ (match WriteTransaction.putValueCollection {} 4 [10, 20, 30] with
      | .ok (id, tr) => (tr.getValueCollection 4 false id).toOption
      | .error _ => none) ≠ some [10, 20, 30] := by
  decide

/-- C5, evaluated at the failing input: for the `u32` vector `[10, 20, 30]`, `saveChunk` hands
the element count 3 to `startChunk`, which takes it for the count of a chunk written before
and assigns through `chunkInfos.back()` of the empty chunk list. Apart from that, the chunk
that `startChunk` allocates for the chunk size 12 that `saveChunk` computes is filled by the
header reserve alone: the first value put into it does not fit. -/
theorem putValueCollection_u32_chunk :
    WriteTransaction.putValueCollection {} 4 [10, 20, 30]
      = .error (.undefined_behaviour "chunkInfos.back() on an empty vector")
    ∧ (match WriteTransaction.startChunk {} { collectionId := 1 } 12 0 with
      | .ok (_, _, tr) =>
        (tr.store.chunks COLLECTION_CLSID 1, tr.writeBuf.avail,
          WriteTransaction.putAllValues 4 [10, 20, 30] tr)
      | .error e => ([], 0, .error e))
      = ([(1, [0, 0, 0, 0, 0, 0, 0, 0, 0, 0, 0, 0])], 0, .error .buffer_full) := by
  constructor <;> rfl

/-- C6, evaluated at the failing input: an appender with chunk size 20 (the header and two
4-byte elements) on an empty collection, three elements put, then closed. The element counts
2 and 1 add up to 3, but the first chunk has the start index 2, not 0, and the start indexes
2, 2 do not increase. -/
theorem appender_start_index_three_puts :
    (appendRun 20 [[1, 0, 0, 0], [2, 0, 0, 0], [3, 0, 0, 0]]).toOption.map
        (fun info => info.chunkInfos.map (fun c => (c.chunkId, c.startIndex, c.elementCount)))
      = some [(1, 2, 2), (2, 2, 1)] := by
  decide

/-- C8: `putCollection` of an empty vector returns the next collection id, puts into the cache
a `CollectionInfo` with no chunk infos, `nextChunkId` 1 and `nextStartIndex` 0, and leaves the
store as it was (no chunk is allocated); `getCollection` on the returned id then yields the
empty sequence, and so does `loadChunkedCollection` in any transaction that has the
collection info and no chunk of the collection (a later transaction that read the info back).
The id is taken to be a fresh one: no chunk is stored under it. -/
theorem putCollection_empty {O T : Type} (tr : WriteTransaction) (t : ClassTraits O)
    (kv : KeyValueStore O) (info : AbstractClassInfo)
    (readObject : ReadBuf → Nat → Nat → Except Err (Option T × ReadBuf))
    (decode : Nat → List byte_t → WriteTransaction → Except Err CollectionInfo)
    (hfresh : tr.store.chunks COLLECTION_CLSID (wrap64 (tr.m_maxCollectionId + 1)) = []) :
    ∃ r, tr.putCollection t kv [] = .ok (wrap64 (tr.m_maxCollectionId + 1), r)
      ∧ r.tr.m_collectionInfos.find? (fun e => e.1 == wrap64 (tr.m_maxCollectionId + 1))
          = some (wrap64 (tr.m_maxCollectionId + 1),
              { collectionId := wrap64 (tr.m_maxCollectionId + 1), chunkInfos := [],
                nextChunkId := 1, nextStartIndex := 0 })
      ∧ r.tr.store = tr.store
      ∧ r.tr.getCollection info readObject decode (wrap64 (tr.m_maxCollectionId + 1))
          = .ok (([] : List T), r.tr)
      ∧ ∀ (tr2 : WriteTransaction) (ci : CollectionInfo),
          tr2.store.chunks COLLECTION_CLSID ci.collectionId = [] →
            tr2.loadChunkedCollection info readObject (some ci) = .ok ([] : List T) := by
  refine ⟨_, rfl, ?_, rfl, ?_, ?_⟩
  · simp [WriteTransaction.saveChunk, WriteTransaction.cacheCollectionInfo]
  · simp [WriteTransaction.getCollection, WriteTransaction.getCollectionInfo,
      WriteTransaction.saveChunk, WriteTransaction.cacheCollectionInfo,
      WriteTransaction.loadChunkedCollection, WriteTransaction._openChunkCursor, hfresh,
      ChunkCursor.atEnd]
  · intro tr2 ci h
    simp [WriteTransaction.loadChunkedCollection, WriteTransaction._openChunkCursor, h,
      ChunkCursor.atEnd]

/-- Witness for C8: `putCollection` of an empty `Point` vector on a new transaction: the id
is 1, the store stays empty, and `getCollection 1` yields the empty sequence. -/
theorem putCollection_empty_witness :
    ∃ r, WriteTransaction.putCollection {} (Point.traits 10) ({} : KeyValueStore Point) []
        = .ok (1, r)
      ∧ r.tr.store = {}
      ∧ r.tr.getCollection (T := Point) (Point.traits 10).info
          (fun _ _ _ => .error .corrupt_data) noDecode 1 = .ok ([], r.tr) :=
  let ⟨r, h1, _, h3, h4, _⟩ := putCollection_empty (T := Point) {} (Point.traits 10) {}
    (Point.traits 10).info (fun _ _ _ => .error .corrupt_data) noDecode rfl
  ⟨r, h1, h3, h4⟩

/-! ## Resolution in the class-info tree -/

namespace AbstractClassInfo

mutual
theorem resolve_sound (cid : Nat) :
    ∀ (n r : AbstractClassInfo), resolve n cid = some r → Reaches n r ∧ r.classId = cid
  | .mk nm c mx subs, r, h => by
    rw [resolve] at h
    by_cases hc : (cid == c) = true
    · simp only [hc, if_true, Option.some.injEq] at h
      subst h
      exact ⟨Reaches.self _, (eq_of_beq hc).symm⟩
    · simp only [hc, Bool.false_eq_true, if_false] at h
      obtain ⟨s, hs, hr, hid⟩ := resolveSubs_sound cid subs r h
      exact ⟨Reaches.sub _ s r hs hr, hid⟩
theorem resolveSubs_sound (cid : Nat) :
    ∀ (l : List AbstractClassInfo) (r : AbstractClassInfo), resolveSubs l cid = some r →
      ∃ s ∈ l, Reaches s r ∧ r.classId = cid
  | [], r, h => by simp [resolveSubs] at h
  | t :: rest, r, h => by
    rw [resolveSubs] at h
    cases ht : resolve t cid with
    | some r' =>
      simp only [ht, Option.some.injEq] at h
      subst h
      obtain ⟨hr, hid⟩ := resolve_sound cid t r' ht
      exact ⟨t, List.mem_cons_self _ _, hr, hid⟩
    | none =>
      simp only [ht] at h
      obtain ⟨s, hs, hr⟩ := resolveSubs_sound cid rest r h
      exact ⟨s, List.mem_cons_of_mem _ hs, hr⟩
end

mutual
theorem resolve_isSome (cid : Nat) :
    ∀ n : AbstractClassInfo, (resolve n cid).isSome = isInstance n cid
  | .mk nm c mx subs => by
    rw [resolve, isInstance]
    by_cases hc : c = cid
    · subst hc
      simp
    · have h1 : (cid == c) = false := beq_eq_false_iff_ne.mpr (fun e => hc e.symm)
      have h2 : (c == cid) = false := beq_eq_false_iff_ne.mpr hc
      simp only [h1, h2, Bool.false_eq_true, if_false]
      exact resolveSubs_isSome cid subs
theorem resolveSubs_isSome (cid : Nat) :
    ∀ l : List AbstractClassInfo, (resolveSubs l cid).isSome = isInstanceSubs l cid
  | [] => by simp [resolveSubs, isInstanceSubs]
  | t :: rest => by
    rw [resolveSubs, isInstanceSubs, ← resolve_isSome cid t, ← resolveSubs_isSome cid rest]
    cases ht : resolve t cid <;> simp
end

mutual
theorem hasClassId_eq_isInstance (cid : Nat) :
    ∀ n : AbstractClassInfo, hasClassId n cid = isInstance n cid
  | .mk nm c mx subs => by
    rw [hasClassId, isInstance, hasClassIdSubs_eq cid subs]
theorem hasClassIdSubs_eq (cid : Nat) :
    ∀ l : List AbstractClassInfo, hasClassIdSubs l cid = isInstanceSubs l cid
  | [] => by simp [hasClassIdSubs, isInstanceSubs]
  | t :: rest => by
    rw [hasClassIdSubs, isInstanceSubs, hasClassId_eq_isInstance cid t, hasClassIdSubs_eq cid rest]
end

mutual
theorem addClassIds_eq :
    ∀ (n : AbstractClassInfo) (ids : List Nat),
      addClassIds n ids = ids ++ (preorder n).map classId
  | .mk nm c mx subs, ids => by
    rw [addClassIds, preorder, addClassIdsSubs_eq subs]
    simp [classId]
theorem addClassIdsSubs_eq :
    ∀ (l : List AbstractClassInfo) (ids : List Nat),
      addClassIdsSubs l ids = ids ++ (preorderSubs l).map classId
  | [], ids => by simp [addClassIdsSubs, preorderSubs]
  | t :: rest, ids => by
    rw [addClassIdsSubs, addClassIds_eq t, addClassIdsSubs_eq rest, preorderSubs]
    simp
end

mutual
theorem preorder_length : ∀ n : AbstractClassInfo, (preorder n).length = numNodes n
  | .mk nm c mx subs => by
    rw [preorder, numNodes, List.length_cons, preorderSubs_length subs]
    omega
theorem preorderSubs_length :
    ∀ l : List AbstractClassInfo, (preorderSubs l).length = numNodesSubs l
  | [] => rfl
  | t :: rest => by
    rw [preorderSubs, numNodesSubs, List.length_append, preorder_length t,
      preorderSubs_length rest]
end

mutual
theorem mem_preorder_iff (cid : Nat) :
    ∀ n : AbstractClassInfo, cid ∈ (preorder n).map classId ↔ isInstance n cid = true
  | .mk nm c mx subs => by
    rw [preorder, isInstance, List.map_cons, List.mem_cons, mem_preorderSubs_iff cid subs]
    by_cases hc : c = cid
    · subst hc
      simp [classId]
    · have h2 : (c == cid) = false := by simpa using hc
      have h3 : ¬ (cid = c) := fun e => hc e.symm
      simp [classId, h2, h3]
theorem mem_preorderSubs_iff (cid : Nat) :
    ∀ l : List AbstractClassInfo,
      cid ∈ (preorderSubs l).map classId ↔ isInstanceSubs l cid = true
  | [] => by simp [preorderSubs, isInstanceSubs]
  | t :: rest => by
    rw [preorderSubs, isInstanceSubs, List.map_append, List.mem_append, mem_preorder_iff cid t,
      mem_preorderSubs_iff cid rest]
    by_cases ht : isInstance t cid = true <;> simp [ht]
end

theorem isInstance_false_iff (n : AbstractClassInfo) (cid : Nat) :
    isInstance n cid = false ↔ ¬ ∃ m, Reaches n m ∧ m.classId = cid := by
  constructor
  · rintro h ⟨m, hr, hm⟩
    have := isInstance_of_reaches hr
    rw [hm, h] at this
    cases this
  · intro h
    cases hi : isInstance n cid with
    | false => rfl
    | true => exact absurd (reaches_of_isInstance cid n hi) h

end AbstractClassInfo

open AbstractClassInfo in
/-- C11: `doresolve(cid)` returns a node of the subtree rooted at the receiver whose class id
is `cid` whenever there is such a node, and throws exactly when no node of the subtree has
the class id `cid`; `resolve` returns null in exactly that case. -/
theorem doresolve_finds_node (n : AbstractClassInfo) (cid : Nat) :
    (match n.doresolve cid with
      | .ok r => Reaches n r ∧ r.classId = cid
      | .error _ => ¬ ∃ m, Reaches n m ∧ m.classId = cid)
    ∧ ((∃ r, n.doresolve cid = .ok r) ↔ ∃ m, Reaches n m ∧ m.classId = cid)
    ∧ ((∃ e, n.doresolve cid = .error e) ↔ ¬ ∃ m, Reaches n m ∧ m.classId = cid)
    ∧ (n.resolve cid = none ↔ ¬ ∃ m, Reaches n m ∧ m.classId = cid) := by
  have hsome := resolve_isSome cid n
  cases hr : n.resolve cid with
  | some r =>
    obtain ⟨hreach, hid⟩ := resolve_sound cid n r hr
    have hex : ∃ m, Reaches n m ∧ m.classId = cid := ⟨r, hreach, hid⟩
    have hd : n.doresolve cid = .ok r := by simp only [doresolve, hr]
    rw [hd]
    refine ⟨⟨hreach, hid⟩, ?_, ?_, ?_⟩
    · exact ⟨fun _ => hex, fun _ => ⟨r, rfl⟩⟩
    · constructor
      · rintro ⟨e, he⟩
        cases he
      · intro h
        exact absurd hex h
    · constructor
      · intro h
        cases h
      · intro h
        exact absurd hex h
  | none =>
    rw [hr] at hsome
    have hno : ¬ ∃ m, Reaches n m ∧ m.classId = cid :=
      (isInstance_false_iff n cid).mp (by simpa using hsome.symm)
    have hd : n.doresolve cid
        = .error (.persistence_error "unknow classId. Class missing from registry") := by
      simp only [doresolve, hr]
    rw [hd]
    refine ⟨hno, ?_, ?_, ?_⟩
    · constructor
      · rintro ⟨r, h⟩
        cases h
      · intro h
        exact absurd h hno
    · exact ⟨fun _ => hno, fun _ => ⟨_, rfl⟩⟩
    · exact ⟨fun _ => hno, fun _ => rfl⟩

open AbstractClassInfo in
/-- C12: `allClassIds()` is the list of the class ids of the subtree in depth-first pre-order,
the class id of the receiver first; it has as many entries as the subtree has nodes, and a
class id occurs in it exactly when `isInstance` holds for it, which is the same as
`hasClassId` holding and as `resolve` being non-null. -/
theorem allClassIds_preorder (n : AbstractClassInfo) :
    n.allClassIds = n.preorder.map classId
    ∧ n.allClassIds.head? = some n.classId
    ∧ n.allClassIds.length = n.numNodes
    ∧ ∀ cid : Nat, (cid ∈ n.allClassIds ↔ n.isInstance cid = true)
        ∧ n.hasClassId cid = n.isInstance cid
        ∧ (n.hasClassId cid = true ↔ (n.resolve cid).isSome = true) := by
  have heq : n.allClassIds = n.preorder.map classId := by
    rw [allClassIds, addClassIds_eq, List.nil_append]
  refine ⟨heq, ?_, ?_, ?_⟩
  · rw [heq]
    cases n with
    | mk nm c mx subs => simp [preorder, classId]
  · rw [heq, List.length_map, preorder_length]
  · intro cid
    refine ⟨?_, hasClassId_eq_isInstance cid n, ?_⟩
    · rw [heq]
      exact mem_preorder_iff cid n
    · rw [hasClassId_eq_isInstance, resolve_isSome]

/-! ## Property ids and registration -/

/-- C13, evaluated at the failing input: for a mapped class `A` with one property the ids
enumerated after `mk` and `init` are `[2]`, but for its subclass `B` with one more property
they are `2, 2` and not `2, 3`: `mk` numbers the properties while `superIter` is still null,
so the declared properties of every class start again at 2. -/
theorem property_ids_of_subclass :
    classA.properties.toOption.map enumeratedIds = some [some ("a", 2)]
    ∧ classB.properties.toOption.map enumeratedIds = some [some ("a", 2), some ("b", 2)] := by
  decide

/-- C14, evaluated at the failing input: after `registerType` is called twice for a class
with a declared superclass, the class info of the class stands twice in the `subs` list of
the superclass. -/
theorem registerType_twice_subs :
    registerTwice.toOption.map
        (fun r => r.supers.map (fun a => (a.name, a.subs.map (fun s => (s.name, s.classId)))))
      = some [("A", [("Point", 11), ("Point", 11)])] := by
  decide

/-- C15, evaluated at the failing input: `publish` of a class with the two declared
superclasses `A` and `B` adds the class info to the `subs` of `A` only; for every list of
superclasses it is the first one alone that gets the class info. -/
theorem publish_two_superclasses :
    (ClassInfo.publish (.mk "T" 12 0 []) [.mk "A" 10 0 [], .mk "B" 11 0 []]).map
        (fun a => (a.name, a.subs.map (fun s => s.classId)))
      = [("A", [12]), ("B", [])]
    ∧ ∀ (info s : AbstractClassInfo) (rest : List AbstractClassInfo),
        ClassInfo.publish info (s :: rest) = s.addSub info :: rest := by
  constructor
  · decide
  · intro info s rest
    rfl

/-! ## Header codec -/

theorem read_write_integer :
    ∀ (w n : Nat) (rest : List byte_t), n < 256 ^ w →
      read_integer (write_integer (n : Int) w ++ rest) w = n
  | 0, n, rest, h => by
    simp only [Nat.pow_zero, Nat.lt_one_iff] at h
    simp [read_integer, h]
  | w + 1, n, rest, h => by
    have h1 : ((n : Int) % 256).toNat = n % 256 := by omega
    have h2 : ((n : Int) / 256) = ((n / 256 : Nat) : Int) := by omega
    have h3 : n / 256 < 256 ^ w := by
      rw [Nat.pow_succ] at h
      omega
    rw [write_integer, h1, h2, List.cons_append, read_integer,
      read_write_integer w (n / 256) rest h3]
    simp only [Fin.ofNat, Nat.reduceAdd]
    omega

theorem read_integer_take : ∀ (w : Nat) (l : List byte_t),
    read_integer (l.take w) w = read_integer l w
  | 0, l => by simp [read_integer]
  | w + 1, [] => by simp [read_integer]
  | w + 1, b :: bs => by
    simp only [List.take_succ_cons, read_integer, read_integer_take w bs]

theorem pokeAt_append (pre tail bytes : List byte_t) (off : Nat) (h : off = pre.length) :
    pokeAt (pre ++ tail) off bytes = pre ++ bytes ++ tail.drop bytes.length := by
  subst h
  simp [pokeAt]

theorem take_append_within (pre X rest : List byte_t) (n : Nat) (h : n ≤ X.length) :
    (pre ++ X ++ rest).take (pre.length + n) = pre ++ X.take n := by
  rw [List.append_assoc, List.take_append, List.take_append_of_le_length h]

theorem pokeAt3 (pre tail A B C : List byte_t) (o1 o2 o3 : Nat) (h1 : o1 = pre.length)
    (h2 : o2 = pre.length + A.length) (h3 : o3 = pre.length + A.length + B.length) :
    pokeAt (pokeAt (pokeAt (pre ++ tail) o1 A) o2 B) o3 C
      = pre ++ A ++ B ++ C ++ tail.drop (A.length + B.length + C.length) := by
  rw [pokeAt_append pre tail A o1 h1,
    pokeAt_append (pre ++ A) (tail.drop A.length) B o2 (by rw [h2, List.length_append]),
    pokeAt_append (pre ++ A ++ B) ((tail.drop A.length).drop B.length) C o3
      (by rw [h3, List.length_append, List.length_append])]
  simp only [List.drop_drop]

theorem ReadBuf.readInteger_at (d pre X rest : List byte_t) (p w : Nat)
    (hd : d = pre ++ X ++ rest) (hp : p = pre.length) (hw : X.length = w) :
    ReadBuf.readInteger { data := d, pos := p } w
      = .ok (read_integer X w, { data := d, pos := p + w }) := by
  subst hd hp hw
  have h : pre.length + X.length ≤ (pre ++ X ++ rest).length := by
    simp only [List.length_append]
    omega
  have h2 : ((pre ++ X ++ rest).drop pre.length).take X.length = X := by
    rw [List.append_assoc, List.drop_left, List.take_left]
  simp only [ReadBuf.readInteger, ReadBuf.read, h, if_true, h2]

theorem readChunkHeader_eq_data (d : List byte_t) (h : 12 ≤ d.length) :
    readChunkHeader { data := d, pos := 0 }
      = .ok (readChunkHeaderData d, { data := d, pos := 12 }) := by
  have h4 : 0 + 4 ≤ d.length := by omega
  have h8 : 0 + 4 + 4 ≤ d.length := by omega
  have h12 : 0 + 4 + 4 + 4 ≤ d.length := by omega
  simp only [readChunkHeader, ReadBuf.readInteger, ReadBuf.read, h4, h8, h12, if_true,
    readChunkHeaderData, read_integer_take, List.drop_zero, Nat.zero_add, Nat.reduceAdd]

theorem readChunkHeaderData_header (a b c : Nat) (rest : List byte_t)
    (ha : a < 2 ^ 32) (hb : b < 2 ^ 32) (hc : c < 2 ^ 32) :
    readChunkHeaderData
        (write_integer a 4 ++ write_integer b 4 ++ write_integer c 4 ++ rest)
      = (a, b, c) := by
  have e : (256 : Nat) ^ 4 = 2 ^ 32 := by decide
  have d4 : ∀ (n : Nat) (l : List byte_t), (write_integer (n : Int) 4 ++ l).drop 4 = l := by
    intro n l
    exact List.drop_left' (write_integer_length 4 (n : Int))
  have d8 : (write_integer (a : Int) 4 ++ write_integer (b : Int) 4
      ++ write_integer (c : Int) 4 ++ rest).drop 8 = write_integer (c : Int) 4 ++ rest := by
    have : (8 : Nat) = 4 + 4 := rfl
    rw [this, ← List.drop_drop, List.append_assoc, List.append_assoc, d4, d4]
  unfold readChunkHeaderData
  rw [d8, List.append_assoc, List.append_assoc, d4, read_write_integer 4 a _ (e ▸ ha),
    read_write_integer 4 b _ (e ▸ hb), read_write_integer 4 c _ (e ▸ hc)]

/-- C16: `writeChunkHeader(startIndex, elementCount)` puts the 12 bytes dataSize (the filled
length of the buffer), startIndex and elementCount, each as a little-endian 4-byte value, at
the start of the current buffer and leaves the rest of the buffer and its fill position as
they are; for values below 2^32 both overloads of `readChunkHeader` read that triple back from
these bytes; and on every input of at least 12 bytes the two overloads return the same triple,
the `ReadBuf` one having consumed 12 bytes. -/
theorem chunk_header_roundtrip (tr : WriteTransaction) (startIndex elementCount : Nat)
    (hlen : 12 ≤ tr.writeBuf.data.length) :
    ∃ tr1, tr.writeChunkHeader startIndex elementCount = .ok tr1
      ∧ tr1.writeBuf.data
          = write_integer tr.writeBuf.size 4 ++ write_integer startIndex 4
              ++ write_integer elementCount 4 ++ tr.writeBuf.data.drop 12
      ∧ tr1.writeBuf.data.length = tr.writeBuf.data.length
      ∧ tr1.writeBuf.pos = tr.writeBuf.pos
      ∧ (tr.writeBuf.size < 2 ^ 32 → startIndex < 2 ^ 32 → elementCount < 2 ^ 32 →
          readChunkHeader { data := tr1.writeBuf.data, pos := 0 }
              = .ok ((tr.writeBuf.size, startIndex, elementCount),
                  { data := tr1.writeBuf.data, pos := 12 })
            ∧ readChunkHeaderData tr1.writeBuf.data
                = (tr.writeBuf.size, startIndex, elementCount))
      ∧ ∀ d : List byte_t, 12 ≤ d.length →
          readChunkHeader { data := d, pos := 0 }
            = .ok (readChunkHeaderData d, { data := d, pos := 12 }) := by
  have hd : pokeAt (pokeAt (pokeAt tr.writeBuf.data 0 (write_integer tr.writeBuf.size 4))
        4 (write_integer startIndex 4)) 8 (write_integer elementCount 4)
      = write_integer tr.writeBuf.size 4 ++ write_integer startIndex 4
              ++ write_integer elementCount 4 ++ tr.writeBuf.data.drop 12 := by
    have := pokeAt3 [] tr.writeBuf.data (write_integer tr.writeBuf.size 4)
      (write_integer startIndex 4) (write_integer elementCount 4) 0 4 8 rfl
      (by rw [write_integer_length]; rfl) (by rw [write_integer_length, write_integer_length]; rfl)
    simpa only [List.nil_append, write_integer_length] using this
  have hl : (write_integer tr.writeBuf.size 4 ++ write_integer startIndex 4
      ++ write_integer elementCount 4 ++ tr.writeBuf.data.drop 12).length
        = tr.writeBuf.data.length := by
    simp only [List.length_append, write_integer_length, List.length_drop]
    omega
  have hnot : ¬ tr.writeBuf.data.length < 12 := by omega
  refine ⟨tr.setBuf { tr.writeBuf with
      data := pokeAt (pokeAt (pokeAt tr.writeBuf.data 0 (write_integer tr.writeBuf.size 4))
        4 (write_integer startIndex 4)) 8 (write_integer elementCount 4) },
    by simp only [WriteTransaction.writeChunkHeader, hnot, if_false], ?_, ?_, rfl, ?_,
    fun d h => readChunkHeader_eq_data d h⟩
  · exact hd
  · show (pokeAt _ _ _).length = _
    rw [hd, hl]
  · intro ha hb hc
    show readChunkHeader { data := pokeAt _ _ _, pos := 0 } = _
      ∧ readChunkHeaderData (pokeAt _ _ _) = _
    rw [hd]
    have hr := readChunkHeaderData_header tr.writeBuf.size startIndex elementCount
      (tr.writeBuf.data.drop 12) ha hb hc
    refine ⟨?_, hr⟩
    rw [readChunkHeader_eq_data _ (by rw [hl]; exact hlen), hr]
    rfl

theorem chunk_header_roundtrip_witness :
    ∃ tr1, ({ writeBuf := { data := List.replicate 20 7, pos := 20 } } :
          WriteTransaction).writeChunkHeader 0 2 = .ok tr1
      ∧ tr1.writeBuf.data = [20, 0, 0, 0, 0, 0, 0, 0, 2, 0, 0, 0, 7, 7, 7, 7, 7, 7, 7, 7]
      ∧ readChunkHeaderData tr1.writeBuf.data = (20, 0, 2) := by
  obtain ⟨tr1, h1, h2, _, _, h5, _⟩ := chunk_header_roundtrip
    ({ writeBuf := { data := List.replicate 20 7, pos := 20 } } : WriteTransaction) 0 2
    (by decide)
  refine ⟨tr1, h1, ?_, (h5 (by decide) (by decide) (by decide)).2⟩
  rw [h2]
  decide

/-- The header `(c, o, s)` read back where it stands in a buffer: `readObjectHeader` consumes
the `ClassId_sz + ObjectId_sz + 4` bytes of the header and returns the three values. -/
theorem readObjectHeader_at (d pre rest : List byte_t) (c o s : Nat)
    (hd : d = pre ++ (write_integer c ClassId_sz ++ write_integer o ObjectId_sz
      ++ write_integer s 4) ++ rest)
    (hc : c < 2 ^ 32) (ho : o < 2 ^ 64) (hs : s < 2 ^ 32) :
    readObjectHeader { data := d, pos := pre.length }
      = .ok ((c, o, s), { data := d, pos := pre.length + (ClassId_sz + ObjectId_sz + 4) }) := by
  have e4 : (256 : Nat) ^ ClassId_sz = 2 ^ 32 := by decide
  have e8 : (256 : Nat) ^ ObjectId_sz = 2 ^ 64 := by decide
  have e4b : (256 : Nat) ^ 4 = 2 ^ 32 := by decide
  have r1 := read_write_integer ClassId_sz c [] (e4 ▸ hc)
  have r2 := read_write_integer ObjectId_sz o [] (e8 ▸ ho)
  have r3 := read_write_integer 4 s [] (e4b ▸ hs)
  rw [List.append_nil] at r1 r2 r3
  unfold readObjectHeader
  rw [ReadBuf.readInteger_at d pre (write_integer c ClassId_sz)
    (write_integer o ObjectId_sz ++ write_integer s 4 ++ rest) pre.length ClassId_sz
    (by rw [hd]; simp only [List.append_assoc]) rfl (write_integer_length _ _)]
  simp only []
  rw [ReadBuf.readInteger_at d (pre ++ write_integer c ClassId_sz)
    (write_integer o ObjectId_sz) (write_integer s 4 ++ rest)
    (pre.length + ClassId_sz) ObjectId_sz (by rw [hd]; simp only [List.append_assoc])
    (by rw [List.length_append, write_integer_length]) (write_integer_length _ _)]
  simp only []
  rw [ReadBuf.readInteger_at d (pre ++ write_integer c ClassId_sz
      ++ write_integer o ObjectId_sz) (write_integer s 4) rest
    (pre.length + ClassId_sz + ObjectId_sz) 4 (by rw [hd]; simp only [List.append_assoc])
    (by rw [List.length_append, List.length_append, write_integer_length,
      write_integer_length])
    (write_integer_length _ _)]
  simp only [r1, r2, r3, Nat.add_assoc]

/-- C17, evaluated at the counterexample: on a fresh 32-byte buffer `writeObjectHeader(10, 1,
14)` appends 16 bytes, not 14: the class id in 4 bytes, the object id in 8 and the size in 4.
`readObjectHeader` on these bytes consumes all 16 and returns (10, 1, 14); on their first 14
bytes it fails, the size field being cut short. -/
theorem writeObjectHeader_sixteen_bytes :
    (match WriteTransaction.writeObjectHeader { writeBuf := WriteBuf.start 32 } 10 1 14 with
      | .ok tr =>
        (tr.writeBuf.pos, tr.writeBuf.filled,
          (readObjectHeader { data := tr.writeBuf.filled, pos := 0 }).toOption.map
            (fun r => (r.1, r.2.pos)),
          (readObjectHeader { data := tr.writeBuf.filled.take 14, pos := 0 }).toOption.map
            (fun r => (r.1, r.2.pos)))
      | .error _ => (0, [], none, none))
      = (16, [10, 0, 0, 0, 1, 0, 0, 0, 0, 0, 0, 0, 14, 0, 0, 0], some ((10, 1, 14), 16), none)
    ∧ ¬ ((16 : Nat) = 14) := by
  constructor
  · rfl
  · decide

/-- C17, amended: when the buffer has room for them, `writeObjectHeader(c, o, s)` appends
exactly `ObjectHeader_sz` = 4 + 8 + 4 = 16 bytes to the write buffer, the class id (4 bytes),
the object id (8 bytes) and the size (4 bytes), each little-endian, and changes no byte
behind them; `readObjectHeader` applied to these 16 bytes, alone or where they stand in the
buffer, consumes exactly the 16 bytes and returns `c`, `o`, `s`, for `c < 2^32`, `o < 2^64`,
`s < 2^32`. -/
theorem writeObjectHeader_layout (tr : WriteTransaction) (c o s : Nat)
    (hroom : tr.writeBuf.pos + ObjectHeader_sz ≤ tr.writeBuf.data.length) :
    ObjectHeader_sz = 16
      ∧ ∃ tr1, tr.writeObjectHeader c o s = .ok tr1
        ∧ tr1.writeBuf.pos = tr.writeBuf.pos + 16
        ∧ tr1.writeBuf.filled
            = tr.writeBuf.filled
                ++ (write_integer c 4 ++ write_integer o 8 ++ write_integer s 4)
        ∧ (write_integer (c : Int) 4 ++ write_integer (o : Int) 8
              ++ write_integer (s : Int) 4).length = 16
        ∧ tr1.writeBuf.data.drop (tr.writeBuf.pos + 16)
            = tr.writeBuf.data.drop (tr.writeBuf.pos + 16)
        ∧ (c < 2 ^ 32 → o < 2 ^ 64 → s < 2 ^ 32 →
            readObjectHeader
                { data := write_integer c 4 ++ write_integer o 8 ++ write_integer s 4,
                  pos := 0 }
              = .ok ((c, o, s),
                  { data := write_integer c 4 ++ write_integer o 8 ++ write_integer s 4,
                    pos := 16 })
            ∧ readObjectHeader { data := tr1.writeBuf.data, pos := tr.writeBuf.pos }
              = .ok ((c, o, s), { data := tr1.writeBuf.data, pos := tr.writeBuf.pos + 16 })) := by
  have h16 : ObjectHeader_sz = 16 := rfl
  have hpl : (tr.writeBuf.data.take tr.writeBuf.pos).length = tr.writeBuf.pos := by
    rw [List.length_take]
    omega
  have hd : pokeAt (pokeAt (pokeAt tr.writeBuf.data tr.writeBuf.pos
        (write_integer c ClassId_sz)) (tr.writeBuf.pos + ClassId_sz)
        (write_integer o ObjectId_sz)) (tr.writeBuf.pos + ClassId_sz + ObjectId_sz)
        (write_integer s 4)
      = tr.writeBuf.data.take tr.writeBuf.pos
          ++ (write_integer c ClassId_sz ++ write_integer o ObjectId_sz ++ write_integer s 4)
          ++ tr.writeBuf.data.drop (tr.writeBuf.pos + 16) := by
    have := pokeAt3 (tr.writeBuf.data.take tr.writeBuf.pos)
      (tr.writeBuf.data.drop tr.writeBuf.pos) (write_integer c ClassId_sz)
      (write_integer o ObjectId_sz) (write_integer s 4) tr.writeBuf.pos
      (tr.writeBuf.pos + ClassId_sz) (tr.writeBuf.pos + ClassId_sz + ObjectId_sz)
      hpl.symm (by rw [hpl, write_integer_length])
      (by rw [hpl, write_integer_length, write_integer_length])
    rw [List.take_append_drop, List.drop_drop, write_integer_length, write_integer_length,
      write_integer_length] at this
    rw [this]
    simp only [List.append_assoc, ClassId_sz, ObjectId_sz]
  have hlen : (write_integer (c : Int) ClassId_sz ++ write_integer (o : Int) ObjectId_sz
      ++ write_integer (s : Int) 4).length = 16 := by
    simp only [List.length_append, write_integer_length, ClassId_sz, ObjectId_sz]
  have hnot : ¬ tr.writeBuf.data.length < tr.writeBuf.pos + ClassId_sz + ObjectId_sz + 4 := by
    simp only [ClassId_sz, ObjectId_sz]
    omega
  refine ⟨h16, tr.setBuf { tr.writeBuf with
      pos := tr.writeBuf.pos + ObjectHeader_sz
      data := pokeAt (pokeAt (pokeAt tr.writeBuf.data tr.writeBuf.pos
        (write_integer c ClassId_sz)) (tr.writeBuf.pos + ClassId_sz)
        (write_integer o ObjectId_sz)) (tr.writeBuf.pos + ClassId_sz + ObjectId_sz)
        (write_integer s 4) }, ?_, rfl, ?_, hlen, ?_, ?_⟩
  · simp only [WriteTransaction.writeObjectHeader, WriteBuf.allocate, hroom, if_true, hnot,
      if_false]
  · show (pokeAt _ _ _).take (tr.writeBuf.pos + 16) = _
    have ht := take_append_within (tr.writeBuf.data.take tr.writeBuf.pos)
      (write_integer (c : Int) ClassId_sz ++ write_integer (o : Int) ObjectId_sz
        ++ write_integer (s : Int) 4)
      (tr.writeBuf.data.drop (tr.writeBuf.pos + 16)) 16 (by rw [hlen])
    rw [hpl] at ht
    rw [hd, ht, List.take_of_length_le (Nat.le_of_eq hlen)]
    rfl
  · show (pokeAt _ _ _).drop (tr.writeBuf.pos + 16) = _
    rw [hd, List.drop_append_of_le_length (by simp only [List.length_append, hpl, hlen]; omega),
      List.drop_of_length_le (by simp only [List.length_append, hpl, hlen]; omega),
      List.nil_append]
  · intro hc ho hs
    constructor
    · have := readObjectHeader_at
        (write_integer c ClassId_sz ++ write_integer o ObjectId_sz ++ write_integer s 4)
        [] [] c o s (by simp) hc ho hs
      simpa [ClassId_sz, ObjectId_sz] using this
    · show readObjectHeader { data := pokeAt _ _ _, pos := _ } = _
      rw [hd]
      have := readObjectHeader_at _ (tr.writeBuf.data.take tr.writeBuf.pos)
        (tr.writeBuf.data.drop (tr.writeBuf.pos + 16)) c o s rfl hc ho hs
      rw [hpl] at this
      exact this

/-- Witness for C17: on a fresh 32-byte buffer `writeObjectHeader(10, 1, 14)` fills 16
bytes, and `readObjectHeader` on the buffer reads (10, 1, 14) and stands behind them. -/
theorem writeObjectHeader_layout_witness :
    ∃ tr1, WriteTransaction.writeObjectHeader { writeBuf := WriteBuf.start 32 } 10 1 14
        = .ok tr1
      ∧ tr1.writeBuf.pos = 16
      ∧ tr1.writeBuf.filled = [10, 0, 0, 0, 1, 0, 0, 0, 0, 0, 0, 0, 14, 0, 0, 0]
      ∧ readObjectHeader { data := tr1.writeBuf.data, pos := 0 }
          = .ok ((10, 1, 14), { data := tr1.writeBuf.data, pos := 16 }) := by
  obtain ⟨_, tr1, h1, h2, h3, _, _, h6⟩ := writeObjectHeader_layout
    ({ writeBuf := WriteBuf.start 32 } : WriteTransaction) 10 1 14 (by decide)
  refine ⟨tr1, h1, h2, ?_, (h6 (by decide) (by decide) (by decide)).2⟩
  rw [h3]
  rfl

/-! ## Appending to a collection -/

/-- C19, evaluated at the failing input: a first appender (chunk size 32) puts two 4-byte
elements into an empty collection and is closed, which leaves one chunk with start index 0,
element count 2 and data size 20, and `nextStartIndex` 2. A second appender reuses the slack
of that chunk and puts one element. After its close the chunk has the element count 3, but
the start index 2 instead of 0, and `nextStartIndex` is 5 while the element counts add up
to 3. -/
theorem appender_reuse_counts_twice :
    (appendTwice 32 [[1, 0, 0, 0], [2, 0, 0, 0]] [[3, 0, 0, 0]]).toOption.map
        (fun r =>
          ((r.1.chunkInfos.map (fun c => (c.chunkId, c.startIndex, c.elementCount, c.dataSize)),
            r.1.nextStartIndex),
           (r.2.chunkInfos.map (fun c => (c.chunkId, c.startIndex, c.elementCount, c.dataSize)),
            r.2.nextStartIndex,
            (r.2.chunkInfos.map (fun c => c.elementCount)).sum)))
      = some (([(1, 0, 2, 20)], 2), ([(1, 2, 3, 24)], 5, 3)) := by
  rfl

theorem WriteTransaction.getCollectionInfo_frame (tr tr0 : WriteTransaction)
    (decode : Nat → List byte_t → WriteTransaction → Except Err CollectionInfo)
    (collectionId : Nat) (r : Option CollectionInfo)
    (h : tr.getCollectionInfo decode collectionId = .ok (r, tr0)) :
    tr0.store = tr.store ∧ tr0.log = tr.log ∧ tr0.reuseChunkspace = tr.reuseChunkspace
      ∧ tr0.writeBuf = tr.writeBuf := by
  unfold WriteTransaction.getCollectionInfo at h
  split at h
  · split at h
    · cases h
      exact ⟨rfl, rfl, rfl, rfl⟩
    · split at h
      · split at h
        · cases h
        · cases h
          exact ⟨rfl, rfl, rfl, rfl⟩
      · cases h
        exact ⟨rfl, rfl, rfl, rfl⟩
  · cases h
    exact ⟨rfl, rfl, rfl, rfl⟩

theorem updateBack_some (f : ChunkInfo → ChunkInfo) :
    ∀ l : List ChunkInfo, l ≠ [] → ∃ cis, updateBack f l = some cis ∧ cis.length = l.length
  | [], h => absurd rfl h
  | [c], _ => ⟨[f c], rfl, rfl⟩
  | c :: d :: rest, _ => by
    obtain ⟨cis, h1, h2⟩ := updateBack_some f (d :: rest) (List.cons_ne_nil _ _)
    refine ⟨c :: cis, ?_, ?_⟩
    · rw [updateBack, h1]
      rfl
    · simp only [List.length_cons, h2]

theorem WriteTransaction.setBuf_full (tr : WriteTransaction) (b : WriteBuf) :
    (tr.setBuf b).store.full = tr.store.full := by
  unfold WriteTransaction.setBuf
  cases b.key <;> rfl

theorem WriteTransaction.startChunk_zero (tr : WriteTransaction) (ci : CollectionInfo)
    (chunkSize : Nat) (hfull : tr.store.full = false) (h12 : ChunkHeader_sz ≤ chunkSize) :
    ∃ ci1 tr1, tr.startChunk ci chunkSize 0 = .ok (true, ci1, tr1)
      ∧ tr1.log = tr.log
          ++ [.allocate ⟨COLLECTION_CLSID, ci.collectionId, ci.nextChunkId⟩ chunkSize]
      ∧ tr1.writeBuf
          = { data := List.replicate chunkSize 0, pos := ChunkHeader_sz,
              key := some ⟨COLLECTION_CLSID, ci.collectionId, ci.nextChunkId⟩ }
      ∧ ci1.collectionId = ci.collectionId
      ∧ ci1.nextChunkId = wrap16 (ci.nextChunkId + 1)
      ∧ ci1.nextStartIndex = ci.nextStartIndex
      ∧ ci1.chunkInfos.length = ci.chunkInfos.length + 1
      ∧ (ci1.chunkInfos.getLast?).map (fun c => c.chunkId) = some ci.nextChunkId := by
  have hroom : (0 : Nat) + ChunkHeader_sz ≤ (List.replicate chunkSize (0 : byte_t)).length := by
    rw [List.length_replicate]
    omega
  simp only [WriteTransaction.startChunk, gt_iff_lt, Nat.lt_irrefl, if_false,
    WriteTransaction.allocData, Store.allocate, hfull, Bool.false_eq_true,
    WriteTransaction.setBuf, WriteBuf.startOn, WriteBuf.allocate, hroom, if_true]
  refine ⟨_, _, rfl, rfl, ?_, rfl, rfl, rfl, ?_, ?_⟩
  · simp only [Nat.zero_add]
  · simp only [List.length_append, List.length_singleton]
  · simp

theorem WriteTransaction.startChunk_ok (tr : WriteTransaction) (ci : CollectionInfo)
    (chunkSize elementCount : Nat) (hfull : tr.store.full = false)
    (h12 : ChunkHeader_sz ≤ chunkSize)
    (hprev : elementCount = 0 ∨ (ci.chunkInfos ≠ [] ∧ 12 ≤ tr.writeBuf.data.length)) :
    ∃ ci1 tr1, tr.startChunk ci chunkSize elementCount = .ok (true, ci1, tr1)
      ∧ tr1.log = tr.log
          ++ [.allocate ⟨COLLECTION_CLSID, ci.collectionId, ci.nextChunkId⟩ chunkSize]
      ∧ tr1.writeBuf
          = { data := List.replicate chunkSize 0, pos := ChunkHeader_sz,
              key := some ⟨COLLECTION_CLSID, ci.collectionId, ci.nextChunkId⟩ }
      ∧ ci1.collectionId = ci.collectionId
      ∧ ci1.nextChunkId = wrap16 (ci.nextChunkId + 1)
      ∧ ci1.nextStartIndex = ci.nextStartIndex
      ∧ ci1.chunkInfos.length = ci.chunkInfos.length + 1
      ∧ (ci1.chunkInfos.getLast?).map (fun c => c.chunkId) = some ci.nextChunkId := by
  by_cases hpos : elementCount > 0
  · rcases hprev with h0 | ⟨hne, hbuf⟩
    · omega
    · obtain ⟨cis, hu, hlen⟩ := updateBack_some (fun c => { c with
        startIndex := ci.nextStartIndex
        elementCount := elementCount
        dataSize := tr.writeBuf.size }) ci.chunkInfos hne
      have hnot : ¬ tr.writeBuf.data.length < 12 := by omega
      have hstep : tr.startChunk ci chunkSize elementCount
          = (tr.setBuf { tr.writeBuf with
              data := pokeAt (pokeAt (pokeAt tr.writeBuf.data 0
                (write_integer tr.writeBuf.size 4)) 4 (write_integer ci.nextStartIndex 4)) 8
                (write_integer elementCount 4) }).startChunk
              { ci with chunkInfos := cis } chunkSize 0 := by
        simp only [WriteTransaction.startChunk, hpos, if_true, hu,
          WriteTransaction.writeChunkHeader, hnot, if_false, gt_iff_lt, Nat.lt_irrefl]
      rw [hstep]
      obtain ⟨ci1, tr1, e1, e2, e3, e4, e5, e6, e7, e8⟩ :=
        WriteTransaction.startChunk_zero (tr.setBuf { tr.writeBuf with
              data := pokeAt (pokeAt (pokeAt tr.writeBuf.data 0
                (write_integer tr.writeBuf.size 4)) 4 (write_integer ci.nextStartIndex 4)) 8
                (write_integer elementCount 4) }) { ci with chunkInfos := cis } chunkSize
          (by rw [WriteTransaction.setBuf_full]; exact hfull) h12
      exact ⟨ci1, tr1, e1, e2, e3, e4, e5, e6, by rw [e7]; exact congrArg (· + 1) hlen, e8⟩
  · have h0 : elementCount = 0 := by omega
    subst h0
    exact WriteTransaction.startChunk_zero tr ci chunkSize hfull h12

theorem WriteTransaction.openChunkCursor_at_end (tr : WriteTransaction)
    (classId objectId lastId : Nat) (bytes : List byte_t) (others : List (Nat × List byte_t))
    (hch : (tr.store.chunks classId objectId).reverse = (lastId, bytes) :: others) :
    tr._openChunkCursor classId objectId true
      = { rest := (lastId, bytes) :: others, m_atEnd := false } := by
  have hne : (tr.store.chunks classId objectId).isEmpty = false := by
    cases hc : tr.store.chunks classId objectId with
    | nil => rw [hc] at hch; cases hch
    | cons a l => rfl
  simp only [WriteTransaction._openChunkCursor, if_true, hch, hne]

/-- C18: with chunk-space reuse enabled, an appender opened at the end of a collection whose
last chunk `bytes` carries a data size below the length of `bytes` calls no backend allocation
and leaves the write buffer on the bytes of that chunk, filled up to the data size, with the
element count of the chunk header. A following put of an element that fits into the bytes
left calls no allocation either and stays in that chunk. A put of a larger size (the store
not being full, the chunk size covering the header, and the chunk list of the collection info
not being empty when the chunk holds elements) calls `allocData` exactly once, for the key
(COLLECTION_CLSID, collection id, `nextChunkId`), and moves the write buffer to the new
chunk. -/
theorem appender_reuses_slack (wtxn tr0 : WriteTransaction)
    (decode : Nat → List byte_t → WriteTransaction → Except Err CollectionInfo)
    (collectionId chunkSize lastId : Nat) (bytes : List byte_t)
    (others : List (Nat × List byte_t)) (info : CollectionInfo)
    (hreuse : wtxn.reuseChunkspace = true)
    (hinfo : wtxn.getCollectionInfo decode collectionId = .ok (some info, tr0))
    (hch : (wtxn.store.chunks COLLECTION_CLSID collectionId).reverse = (lastId, bytes) :: others)
    (hlen : 12 ≤ bytes.length)
    (hslack : (readChunkHeaderData bytes).1 < bytes.length) :
    ∃ a tr1,
      CollectionAppenderBase.new (wtxn._openChunkCursor COLLECTION_CLSID collectionId true)
          wtxn decode collectionId chunkSize = .ok (a, tr1)
      ∧ tr1.log = wtxn.log
      ∧ tr1.writeBuf = WriteBuf.startOn ⟨COLLECTION_CLSID, collectionId, lastId⟩ bytes
          (readChunkHeaderData bytes).1
      ∧ tr1.writeBuf.avail = bytes.length - (readChunkHeaderData bytes).1
      ∧ a.m_collectionInfo = info
      ∧ a.m_elementCount = (readChunkHeaderData bytes).2.2
      ∧ (∀ e : List byte_t, e.length ≤ bytes.length - (readChunkHeaderData bytes).1 →
          ∃ a2 tr2, a.put tr1 e = .ok (a2, tr2)
            ∧ tr2.log = wtxn.log
            ∧ a2.m_collectionInfo = info
            ∧ tr2.writeBuf.key = some ⟨COLLECTION_CLSID, collectionId, lastId⟩
            ∧ tr2.writeBuf.pos = (readChunkHeaderData bytes).1 + e.length)
      ∧ (∀ e : List byte_t, bytes.length - (readChunkHeaderData bytes).1 < e.length →
          wtxn.store.full = false → ChunkHeader_sz + e.length ≤ chunkSize →
          ((readChunkHeaderData bytes).2.2 = 0 ∨ info.chunkInfos ≠ []) →
          ∃ a2 tr2, a.put tr1 e = .ok (a2, tr2)
            ∧ tr2.log = wtxn.log ++ [.allocate
                ⟨COLLECTION_CLSID, info.collectionId, info.nextChunkId⟩ chunkSize]
            ∧ tr2.writeBuf.key = some ⟨COLLECTION_CLSID, info.collectionId, info.nextChunkId⟩
            ∧ tr2.writeBuf.pos = ChunkHeader_sz + e.length
            ∧ a2.m_collectionInfo.nextChunkId = wrap16 (info.nextChunkId + 1)
            ∧ a2.m_collectionInfo.chunkInfos.length = info.chunkInfos.length + 1
            ∧ (a2.m_collectionInfo.chunkInfos.getLast?).map (fun c => c.chunkId)
                = some info.nextChunkId) := by
  obtain ⟨hst, hlog, hru, hwb⟩ :=
    WriteTransaction.getCollectionInfo_frame wtxn tr0 decode collectionId (some info) hinfo
  have hcur := WriteTransaction.openChunkCursor_at_end wtxn COLLECTION_CLSID collectionId
    lastId bytes others hch
  have hcond : (tr0.reuseChunkspace && decide ((readChunkHeaderData bytes).1 < bytes.length))
      = true := by
    rw [hru, hreuse, Bool.true_and, decide_eq_true_eq]
    exact hslack
  obtain ⟨tr1, htr1⟩ : ∃ t, t = tr0.setBuf
      (WriteBuf.startOn ⟨COLLECTION_CLSID, collectionId, lastId⟩ bytes
        (readChunkHeaderData bytes).1) := ⟨_, rfl⟩
  have hwb1 : tr1.writeBuf = WriteBuf.startOn ⟨COLLECTION_CLSID, collectionId, lastId⟩ bytes
      (readChunkHeaderData bytes).1 := by rw [htr1]; rfl
  have hlog1 : tr1.log = wtxn.log := by rw [htr1]; exact hlog
  have hfull1 : tr1.store.full = wtxn.store.full := by
    rw [htr1, WriteTransaction.setBuf_full, hst]
  have hav1 : tr1.writeBuf.avail = bytes.length - (readChunkHeaderData bytes).1 := by
    rw [hwb1]
    rfl
  refine ⟨{ m_chunkCursor := { rest := (lastId, bytes) :: others, m_atEnd := false }
            m_chunkSize := chunkSize
            m_collectionInfo := info
            m_elementCount := (readChunkHeaderData bytes).2.2 },
    tr1, ?_, hlog1, hwb1, hav1, rfl, rfl, ?_, ?_⟩
  · rw [hcur, htr1]
    simp only [CollectionAppenderBase.new, hinfo, ChunkCursor.atEnd, ChunkCursor.get,
      Bool.not_false, if_true, readChunkHeader_eq_data bytes hlen, hcond, ChunkCursor.chunkId,
      Bool.false_eq_true, if_false]
  · intro e he
    have hav : ¬ tr1.writeBuf.avail < e.length := by
      rw [hav1]
      omega
    have happ := WriteBuf.append_ok tr1.writeBuf e
      (by rw [hwb1]; show (readChunkHeaderData bytes).1 + e.length ≤ bytes.length; omega)
    simp only [CollectionAppenderBase.put, CollectionAppenderBase.preparePut, hav, if_false,
      WriteTransaction.append, happ]
    refine ⟨_, _, rfl, hlog1, rfl, ?_, ?_⟩
    · show tr1.writeBuf.key = _
      rw [hwb1]
      rfl
    · show tr1.writeBuf.pos + e.length = _
      rw [hwb1]
      rfl
  · intro e he hfull hsize hprev
    have hav : tr1.writeBuf.avail < e.length := by
      rw [hav1]
      exact he
    have h12 : ChunkHeader_sz ≤ chunkSize := by omega
    have hlen1 : 12 ≤ tr1.writeBuf.data.length := by
      rw [hwb1]
      exact hlen
    obtain ⟨ci1, tr2, e1, e2, e3, e4, e5, e6, e7, e8⟩ := WriteTransaction.startChunk_ok tr1
      { info with nextStartIndex := wrap64 (info.nextStartIndex + (readChunkHeaderData bytes).2.2) }
      chunkSize (readChunkHeaderData bytes).2.2 (by rw [hfull1]; exact hfull) h12
      (hprev.imp id (fun h => ⟨h, hlen1⟩))
    have happ := WriteBuf.append_ok tr2.writeBuf e
      (by rw [e3]; simp only [List.length_replicate]; exact hsize)
    simp only [CollectionAppenderBase.put, CollectionAppenderBase.preparePut, hav, if_true, e1,
      WriteTransaction.append, happ]
    refine ⟨_, _, rfl, ?_, ?_, ?_, e5, e7, e8⟩
    · show tr2.log = _
      rw [e2, hlog1]
    · show tr2.writeBuf.key = _
      rw [e3]
    · show tr2.writeBuf.pos + e.length = _
      rw [e3]

theorem appender_reuses_slack_witness :
    ∃ a tr1,
      CollectionAppenderBase.new
          (WriteTransaction._openChunkCursor slackTransaction COLLECTION_CLSID 1 true)
          slackTransaction noDecode 1 32 = .ok (a, tr1)
      ∧ tr1.log = []
      ∧ tr1.writeBuf.pos = 20
      ∧ tr1.writeBuf.avail = 12
      ∧ a.m_elementCount = 2
      ∧ (∃ a2 tr2, a.put tr1 [3, 0, 0, 0] = .ok (a2, tr2) ∧ tr2.log = [])
      ∧ (∃ a2 tr2, a.put tr1 (List.replicate 16 0) = .ok (a2, tr2)
          ∧ tr2.log = [.allocate ⟨COLLECTION_CLSID, 1, 2⟩ 32]) := by
  obtain ⟨a, tr1, h1, h2, h3, h4, _, h6, h7, h8⟩ := appender_reuses_slack slackTransaction
    slackTransaction noDecode 1 32 1 slackChunk [] slackInfo
    (by rfl) (by rfl) (by rfl) (by decide) (by decide)
  obtain ⟨a2, tr2, p1, p2, _⟩ := h7 [3, 0, 0, 0] (by decide)
  obtain ⟨a3, tr3, q1, q2, _⟩ := h8 (List.replicate 16 0) (by decide) (by rfl) (by decide)
    (Or.inr (by decide))
  refine ⟨a, tr1, h1, h2, ?_, h4, h6, ⟨a2, tr2, p1, p2⟩, ⟨a3, tr3, q1, q2⟩⟩
  rw [h3]
  rfl

/-! ## Commit -/

section commit
variable {O : Type}

theorem WriteTransaction.append_log (tr tr1 : WriteTransaction) (bytes : List byte_t)
    (h : tr.append bytes = .ok tr1) : tr1.log = tr.log := by
  unfold WriteTransaction.append at h
  split at h
  · cases h
    rfl
  · cases h

theorem StoreAccess.save_log (s : StoreAccess O) (tr tr1 : WriteTransaction)
    (classId objectId : Nat) (obj : O) (pa : PropertyAccessBase O) (mode : StoreMode)
    (h : s.save tr classId objectId obj pa mode = .ok tr1) :
    ∃ ops, tr1.log = tr.log ++ ops ∧ ∀ op ∈ ops, op = .put ⟨classId, objectId, pa.id⟩ := by
  cases s with
  | base byteSize get =>
    exact ⟨[], by rw [List.append_nil]; exact WriteTransaction.append_log _ _ _ h,
      fun op hop => absurd hop (List.not_mem_nil _)⟩
  | string get =>
    exact ⟨[], by rw [List.append_nil]; exact WriteTransaction.append_log _ _ _ h,
      fun op hop => absurd hop (List.not_mem_nil _)⟩
  | objectId =>
    cases h
    exact ⟨[], (List.append_nil _).symm, fun op hop => absurd hop (List.not_mem_nil _)⟩
  | valueVector byteSize get =>
    simp only [StoreAccess.save] at h
    split at h
    · split at h
      · cases h
      · rename_i propBuf hb
        cases hp : tr.store.put ⟨classId, objectId, pa.id⟩ propBuf.filled with
        | none =>
          simp only [WriteTransaction.putData, hp] at h
          cases h
        | some st =>
          simp only [WriteTransaction.putData, hp, Except.ok.injEq] at h
          subst h
          exact ⟨[.put ⟨classId, objectId, pa.id⟩], rfl, fun op hop => List.mem_singleton.mp hop⟩
    · cases h
      exact ⟨[], (List.append_nil _).symm, fun op hop => absurd hop (List.not_mem_nil _)⟩

theorem ClassTraits.save_dispatch_log (t : ClassTraits O) (tr tr1 : WriteTransaction)
    (classId objectId : Nat) (obj : O) (pa : PropertyAccessBase O) (mode : StoreMode) (b : Bool)
    (h : t.save tr classId objectId obj pa mode = .ok (b, tr1)) :
    ∃ ops, tr1.log = tr.log ++ ops ∧ ∀ op ∈ ops, op = .put ⟨classId, objectId, pa.id⟩ := by
  have key : ∀ r, (pa.storage.save tr classId objectId obj pa mode).map
      (fun tr2 => (true, tr2)) = .ok r →
      ∃ ops, r.2.log = tr.log ++ ops ∧ ∀ op ∈ ops, op = .put ⟨classId, objectId, pa.id⟩ := by
    intro r hr
    cases hs : pa.storage.save tr classId objectId obj pa mode with
    | error e =>
      rw [hs] at hr
      cases hr
    | ok tr2 =>
      rw [hs] at hr
      cases hr
      exact StoreAccess.save_log _ _ _ _ _ _ _ _ hs
  unfold ClassTraits.save at h
  split at h
  · exact key _ h
  · split at h
    · split at h
      · exact key _ h
      · split at h
        · exact key _ h
        · cases h
    · cases h
      exact ⟨[], (List.append_nil _).symm, fun op hop => absurd hop (List.not_mem_nil _)⟩

theorem WriteTransaction.writeObjectLoop_log (t : ClassTraits O) (classId objectId : Nat)
    (obj : O) (p : Properties O) (shallow : Bool) (hi : p.Initialized) :
    ∀ (l : List (PropertyAccessBase O)) (px : Nat) (tr tr1 : WriteTransaction),
      p.all.drop px = l →
      WriteTransaction.writeObjectLoop t classId objectId obj p shallow l.length px tr
        = .ok tr1 →
      ∃ ops, tr1.log = tr.log ++ ops
        ∧ ∀ op ∈ ops, ∃ pa ∈ l, op = .put ⟨classId, objectId, pa.id⟩
  | [], px, tr, tr1, _, h => by
    simp only [List.length_nil, WriteTransaction.writeObjectLoop, Except.ok.injEq] at h
    subst h
    exact ⟨[], (List.append_nil _).symm, fun op hop => absurd hop (List.not_mem_nil _)⟩
  | pa :: rest, px, tr, tr1, hd, h => by
    obtain ⟨hget, hrest⟩ := p.get_of_drop hi px pa rest hd
    rw [List.length_cons, WriteTransaction.writeObjectLoop, hget] at h
    simp only at h
    by_cases he : pa.enabled = true
    · simp only [he, Bool.not_true, Bool.false_eq_true, if_false] at h
      cases hs : t.save tr classId objectId obj pa
          (if shallow then StoreMode.force_buffer else StoreMode.force_none) with
      | error e =>
        rw [hs] at h
        cases h
      | ok r =>
        obtain ⟨b, tr2⟩ := r
        rw [hs] at h
        obtain ⟨ops1, h1, h1m⟩ := ClassTraits.save_dispatch_log t tr tr2 classId objectId obj pa _ b hs
        obtain ⟨ops2, h2, h2m⟩ := WriteTransaction.writeObjectLoop_log t classId objectId obj p
          shallow hi rest (px + 1) tr2 tr1 hrest h
        refine ⟨ops1 ++ ops2, by rw [h2, h1, List.append_assoc], ?_⟩
        intro op hop
        rcases List.mem_append.mp hop with hm | hm
        · exact ⟨pa, List.mem_cons_self _ _, h1m op hm⟩
        · obtain ⟨q, hq, hq2⟩ := h2m op hm
          exact ⟨q, List.mem_cons_of_mem _ hq, hq2⟩
    · simp only [he, Bool.not_false, if_true] at h
      obtain ⟨ops2, h2, h2m⟩ := WriteTransaction.writeObjectLoop_log t classId objectId obj p
        shallow hi rest (px + 1) tr tr1 hrest h
      refine ⟨ops2, h2, ?_⟩
      intro op hop
      obtain ⟨q, hq, hq2⟩ := h2m op hop
      exact ⟨q, List.mem_cons_of_mem _ hq, hq2⟩

end commit

/-! ## Appending to a collection that does not exist -/

theorem WriteTransaction.getCollectionInfo_absent (tr : WriteTransaction)
    (decode : Nat → List byte_t → WriteTransaction → Except Err CollectionInfo)
    (collectionId : Nat)
    (hcache : tr.m_collectionInfos.find? (fun e => e.1 == collectionId) = none)
    (hstore : tr.getData COLLINFO_CLSID collectionId 0 = none
      ∨ tr.getData COLLINFO_CLSID collectionId 0 = some []) :
    tr.getCollectionInfo decode collectionId = .ok (none, tr) := by
  unfold WriteTransaction.getCollectionInfo
  rw [hcache]
  rcases hstore with h | h
  · rw [h]
  · rw [h]
    rfl

/-- C21: when no `CollectionInfo` with the collection id is in the cache of the transaction
and the store holds no record (or an empty one) under (COLLINFO_CLSID, id, 0),
`appendCollection`, `appendValueCollection` and `appendDataCollection` throw
`persistence_error("collection not found")`, for every vector or array, and at the throw the
transaction is the one the call was made on: nothing has been added to its log of backend
calls (no chunk allocation, no put), and store, cache and write buffer are as they were. -/
theorem append_to_missing_collection {O : Type} (tr : WriteTransaction) (t : ClassTraits O)
    (kv : KeyValueStore O)
    (decode : Nat → List byte_t → WriteTransaction → Except Err CollectionInfo)
    (collectionId byteSize dataSize sizeofT : Nat) (vect : List (Nat × O)) (values : List Int)
    (data : List byte_t)
    (hcache : tr.m_collectionInfos.find? (fun e => e.1 == collectionId) = none)
    (hstore : tr.getData COLLINFO_CLSID collectionId 0 = none
      ∨ tr.getData COLLINFO_CLSID collectionId 0 = some []) :
    tr.appendCollection t kv decode collectionId vect
        = .error ⟨.persistence_error "collection not found", some tr⟩
      ∧ tr.appendValueCollection decode byteSize collectionId values
          = .error ⟨.persistence_error "collection not found", some tr⟩
      ∧ tr.appendDataCollection decode collectionId data dataSize sizeofT
          = .error ⟨.persistence_error "collection not found", some tr⟩ := by
  have h := tr.getCollectionInfo_absent decode collectionId hcache hstore
  refine ⟨?_, ?_, ?_⟩
  · simp only [WriteTransaction.appendCollection, h]
  · simp only [WriteTransaction.appendValueCollection, h]
  · simp only [WriteTransaction.appendDataCollection, h]

/-- Witness for C21: the transaction `slackTransaction` knows the collection 1 only; the three
appends to the collection 9 throw and leave it as it is, with no backend call in its log. -/
theorem append_to_missing_collection_witness :
    WriteTransaction.appendCollection slackTransaction (Point.traits 10) {} noDecode 9
          [(10, { x := 1, y := 2 })]
        = .error ⟨.persistence_error "collection not found", some slackTransaction⟩
      ∧ WriteTransaction.appendValueCollection slackTransaction noDecode 4 9 [1, 2, 3]
          = .error ⟨.persistence_error "collection not found", some slackTransaction⟩
      ∧ WriteTransaction.appendDataCollection slackTransaction noDecode 9 [1, 0, 0, 0] 1 4
          = .error ⟨.persistence_error "collection not found", some slackTransaction⟩
      ∧ slackTransaction.log = [] :=
  have h := append_to_missing_collection slackTransaction (Point.traits 10) {} noDecode 9 4 1 4
    [(10, { x := 1, y := 2 })] [1, 2, 3] [1, 0, 0, 0] (by rfl) (Or.inl (by rfl))
  ⟨h.1, h.2.1, h.2.2, rfl⟩

/-! ## String values -/

theorem takeWhile_nonzero_append : ∀ (s tail : List byte_t), (∀ c ∈ s, c ≠ 0) →
    (s ++ 0 :: tail).takeWhile (fun c => c != 0) = s
  | [], tail, _ => by simp
  | c :: s, tail, h => by
    have hc : (c != 0) = true := by
      simpa using h c (List.mem_cons_self _ _)
    rw [List.cons_append, List.takeWhile_cons, hc]
    simp only [if_true]
    rw [takeWhile_nonzero_append s tail (fun d hd => h d (List.mem_cons_of_mem _ hd))]

theorem all_nonzero_append (s tail : List byte_t) :
    (s ++ 0 :: tail).all (fun c => c != 0) = false := by
  simp

theorem ValueTraits.string.getBytes_at (pre s tail : List byte_t) (hz : ∀ c ∈ s, c ≠ 0) :
    ValueTraits.string.getBytes { data := pre ++ (s ++ [0]) ++ tail, pos := pre.length }
      = .ok (s, { data := pre ++ (s ++ [0]) ++ tail, pos := pre.length + (s.length + 1) }) := by
  have h0 : pre.length + 0 ≤ (pre ++ (s ++ [0]) ++ tail).length := by
    simp only [List.length_append]
    omega
  have h1 : pre.length + 0 + (s.length + 1) ≤ (pre ++ (s ++ [0]) ++ tail).length := by
    simp only [List.length_append, List.length_singleton]
    omega
  have hrest : (pre ++ (s ++ [0]) ++ tail).drop (pre.length + 0) = s ++ 0 :: tail := by
    rw [Nat.add_zero, List.append_assoc, List.drop_left]
    simp
  simp only [ValueTraits.string.getBytes, ReadBuf.read, h0, if_true, hrest,
    all_nonzero_append, Bool.false_eq_true, if_false, takeWhile_nonzero_append s tail hz, h1]
  rfl

/-- C22, evaluated at the counterexample: for the string of the three bytes 97, 0, 98
`putBytes` writes the 4 bytes 97, 0, 98, 0, which is `size`, but `getBytes` on these bytes
returns the string of the one byte 97 and moves the cursor by 2. -/
theorem string_with_zero_byte :
    ValueTraits.string.size [97, 0, 98] = 4
    ∧ (match ValueTraits.string.putBytes (WriteBuf.start 8) [97, 0, 98] with
      | .ok b =>
        (b.pos, b.filled,
          (ValueTraits.string.getBytes { data := b.filled, pos := 0 }).toOption.map
            (fun r => (r.1, r.2.pos)))
      | .error _ => (0, [], none))
      = (4, [97, 0, 98, 0], some ([97], 2)) := by
  constructor <;> rfl

/-- C22, amended: for every string without a zero byte, `putBytes` on a buffer with room
appends the `size(s) = length(s) + 1` bytes of the string followed by a zero byte, and
`getBytes` on these bytes, alone or where they lie in the buffer, returns the string and
moves the cursor by `length(s) + 1`. -/
theorem string_roundtrip (buf : WriteBuf) (s : List byte_t) (hz : ∀ c ∈ s, c ≠ 0)
    (hroom : buf.pos + (s.length + 1) ≤ buf.data.length) :
    ValueTraits.string.size s = s.length + 1
      ∧ ∃ b, ValueTraits.string.putBytes buf s = .ok b
        ∧ b.pos = buf.pos + (s.length + 1)
        ∧ b.filled = buf.filled ++ (s ++ [0])
        ∧ ValueTraits.string.getBytes { data := s ++ [0], pos := 0 }
            = .ok (s, { data := s ++ [0], pos := s.length + 1 })
        ∧ ValueTraits.string.getBytes { data := b.data, pos := buf.pos }
            = .ok (s, { data := b.data, pos := buf.pos + (s.length + 1) }) := by
  have hlen : (s ++ [0] : List byte_t).length = s.length + 1 := by simp
  have hroom' : buf.pos + (s ++ [0] : List byte_t).length ≤ buf.data.length := by
    rw [hlen]
    exact hroom
  have hpl : (buf.data.take buf.pos).length = buf.pos := by
    rw [List.length_take]
    omega
  refine ⟨rfl, { buf with data := pokeAt buf.data buf.pos (s ++ [0])
                          pos := buf.pos + (s ++ [0] : List byte_t).length }, ?_, ?_, ?_, ?_, ?_⟩
  · exact WriteBuf.append_ok buf (s ++ [0]) hroom'
  · show buf.pos + (s ++ [0] : List byte_t).length = _
    rw [hlen]
  · exact WriteBuf.append_filled buf (s ++ [0]) hroom'
  · have := ValueTraits.string.getBytes_at [] s [] hz
    simpa using this
  · show ValueTraits.string.getBytes { data := pokeAt buf.data buf.pos (s ++ [0]), pos := _ } = _
    have hd : pokeAt buf.data buf.pos (s ++ [0])
        = buf.data.take buf.pos ++ (s ++ [0]) ++ buf.data.drop (buf.pos + (s.length + 1)) := by
      rw [pokeAt, hlen]
    rw [hd]
    have := ValueTraits.string.getBytes_at (buf.data.take buf.pos) s
      (buf.data.drop (buf.pos + (s.length + 1))) hz
    rw [hpl] at this
    exact this

theorem string_roundtrip_witness :
    ∃ b, ValueTraits.string.putBytes (WriteBuf.start 8) [104, 105] = .ok b
      ∧ b.pos = 3
      ∧ b.filled = [104, 105, 0]
      ∧ ValueTraits.string.getBytes { data := [104, 105, 0], pos := 0 }
          = .ok ([104, 105], { data := [104, 105, 0], pos := 3 }) := by
  obtain ⟨_, b, h1, h2, h3, h4, _⟩ := string_roundtrip (WriteBuf.start 8) [104, 105]
    (by
      intro c hc
      simp only [List.mem_cons, List.mem_singleton, List.not_mem_nil, or_false] at hc
      rcases hc with h | h <;> subst h <;> decide)
    (by decide)
  exact ⟨b, h1, h2, h3, h4⟩

/-! ## Storage strategies -/

/-- C23, evaluated at the failing input: the object 1 of a class with an `int` vector
property is saved with the vector 1, 2, 3, which the load gives back, and then saved with
the empty vector. The load after the second save yields 1, 2, 3 again and not the empty
vector: with nothing to write, `save` leaves the record of the property as it is. A second
save with a vector that is not empty, and an empty vector on a new object, are loaded as
saved. -/
theorem value_vector_empty_after_nonempty :
    saveTwiceThenLoad [1, 2, 3] [] = .ok ([1, 2, 3], [1, 2, 3])
    ∧ saveTwiceThenLoad [1, -2, 3] [4] = .ok ([1, -2, 3], [4])
    ∧ saveTwiceThenLoad [] [] = .ok ([], []) := by
  refine ⟨?_, ?_, ?_⟩ <;> rfl

/-- C24, evaluated at the failing input: a pointer property of the declared type `Shape`
(class 10) points to a new object (3, -5) of the subclass `Circle` (class 11). `save` stores
the object under (11, 1, 0) and writes the key (11, 1, 0) into the buffer; `load` reads the
key, but `loadObject<V>` asks the store for (10, 1, 0): the setter gets the null pointer.
When a `Shape` (7, 7) is stored under (10, 1, 0), the setter gets that object. A target of the
declared class itself is loaded as saved. -/
theorem object_ptr_load_of_subclass :
    ptrSaveThenLoad {} { classId := 11, objectId := 0, obj := { x := 3, y := -5 } }
      = .ok ((11, 1),
          [(⟨11, 1, 0⟩, [3, 0, 0, 0, 251, 255, 255, 255])],
          [11, 0, 0, 0, 1, 0, 0, 0, 0, 0, 0, 0, 0, 0],
          some (none, 1), 14)
    ∧ (match WriteTransaction.putObject {} shapeTraits ({ x := 7, y := 7 } : Point) with
        | .ok s =>
          (ptrSaveThenLoad s.tr
            { classId := 11, objectId := 0, obj := { x := 3, y := -5 } }).toOption.map
              (fun r => (r.1, r.2.2.2.1))
        | .error _ => none)
      = some ((11, 1), some (some { x := 7, y := 7 }, 1))
    ∧ (ptrSaveThenLoad {}
          { classId := 10, objectId := 0, obj := { x := 3, y := -5 } }).toOption.map
            (fun r => (r.1, r.2.2.2.1))
      = some ((10, 1), some (some { x := 3, y := -5 }, 1)) := by
  refine ⟨?_, ?_, ?_⟩ <;> rfl

/-- C25: for a lazy object pointer property and the store mode `force_none`, `load` on a
buffer with 14 bytes left moves the cursor by `StorageKey::byteSize` = 14 and does not call
the setter; the outcome is the same for every transaction and every `readObject`, so nothing
is read from the store. -/
theorem lazy_load_skips_key {V : Type} (tr : WriteTransaction) (t : ClassTraits V)
    (readObject : ReadBuf → Nat → Nat → Except Err V) (buf : ReadBuf)
    (hroom : buf.pos + 14 ≤ buf.data.length) :
    ObjectPtrPropertyStorage.load true tr t readObject buf StoreMode.force_none
        = .ok (none, { data := buf.data, pos := buf.pos + 14 })
      ∧ StorageKey.byteSize = 14
      ∧ ∀ (tr2 : WriteTransaction) (t2 : ClassTraits V)
          (readObject2 : ReadBuf → Nat → Nat → Except Err V),
          ObjectPtrPropertyStorage.load true tr2 t2 readObject2 buf StoreMode.force_none
            = ObjectPtrPropertyStorage.load true tr t readObject buf StoreMode.force_none := by
  have key : ∀ (tr2 : WriteTransaction) (t2 : ClassTraits V)
      (readObject2 : ReadBuf → Nat → Nat → Except Err V),
      ObjectPtrPropertyStorage.load true tr2 t2 readObject2 buf StoreMode.force_none
        = .ok (none, { data := buf.data, pos := buf.pos + 14 }) := by
    intro tr2 t2 readObject2
    have h : buf.pos + StorageKey.byteSize ≤ buf.data.length := hroom
    simp only [ObjectPtrPropertyStorage.load, Bool.true_and, beq_self_eq_true, if_true,
      ReadBuf.read, h]
    rfl
  exact ⟨key tr t readObject, rfl, fun tr2 t2 r2 => (key tr2 t2 r2).trans (key tr t readObject).symm⟩

theorem lazy_load_skips_key_witness :
    ObjectPtrPropertyStorage.load true {} shapeTraits Point.readObject
        { data := [11, 0, 0, 0, 1, 0, 0, 0, 0, 0, 0, 0, 0, 0, 9], pos := 0 }
        StoreMode.force_none
      = .ok (none, { data := [11, 0, 0, 0, 1, 0, 0, 0, 0, 0, 0, 0, 0, 0, 9], pos := 0 + 14 }) :=
  (lazy_load_skips_key {} shapeTraits Point.readObject
    { data := [11, 0, 0, 0, 1, 0, 0, 0, 0, 0, 0, 0, 0, 0, 9], pos := 0 } (by decide)).1

/-- C26, evaluated at the failing input: for a collection iterator property the size that
`calculateBuffer` adds is 0, but `save` appends the 8 bytes of the collection id to the write
buffer. On the buffer of 0 bytes that `saveObject` starts for an object with that property
alone the save fails. For an object with the two `int` members of `Point` before the iterator
the buffer has the 8 bytes `calculateBuffer` counts for them, `writeObject` fills them with
the two members, and the save of the iterator, which comes next, fails. On a buffer with room
it appends 8 bytes. -/
theorem collection_iter_size_and_save :
    ObjectIterPropertyStorage.size = 0
    ∧ ObjectIterPropertyStorage.save { writeBuf := WriteBuf.start ObjectIterPropertyStorage.size }
        (some 7) = .error .buffer_full
    ∧ (match calculateBuffer (Point.traits 10) ({ x := 3, y := -5 } : Point)
          (Point.traits 10).properties with
        | .ok size =>
          (match WriteTransaction.writeObject
              { writeBuf := WriteBuf.start (size + ObjectIterPropertyStorage.size) }
              (Point.traits 10) 10 1 ({ x := 3, y := -5 } : Point) (Point.traits 10).properties
              false with
            | .ok tr =>
              some (size, tr.writeBuf.filled, tr.writeBuf.avail,
                ObjectIterPropertyStorage.save tr (some 7))
            | .error _ => none)
        | .error _ => none)
      = some (8, [3, 0, 0, 0, 251, 255, 255, 255], 0, .error .buffer_full)
    ∧ (ObjectIterPropertyStorage.save { writeBuf := WriteBuf.start 8 } (some 7)).toOption.map
        (fun tr => tr.writeBuf.filled)
      = some [7, 0, 0, 0, 0, 0, 0, 0] := by
  refine ⟨?_, ?_, ?_, ?_⟩ <;> rfl

/-! ## Fixed size -/

section fixed
variable {O : Type}

end fixed

/-! ## Attached collections -/

section attached
variable {O : Type}

theorem WriteTransaction.append_bufStack (tr tr1 : WriteTransaction) (bytes : List byte_t)
    (h : tr.append bytes = .ok tr1) : tr1.bufStack = tr.bufStack := by
  unfold WriteTransaction.append at h
  split at h
  · cases h
    rfl
  · cases h

theorem StoreAccess.save_bufStack (s : StoreAccess O) (tr tr1 : WriteTransaction)
    (classId objectId : Nat) (obj : O) (pa : PropertyAccessBase O) (mode : StoreMode)
    (h : s.save tr classId objectId obj pa mode = .ok tr1) : tr1.bufStack = tr.bufStack := by
  cases s with
  | base byteSize get => exact WriteTransaction.append_bufStack _ _ _ h
  | string get => exact WriteTransaction.append_bufStack _ _ _ h
  | objectId =>
    cases h
    rfl
  | valueVector byteSize get =>
    simp only [StoreAccess.save] at h
    split at h
    · split at h
      · cases h
      · rename_i propBuf hb
        cases hp : tr.store.put ⟨classId, objectId, pa.id⟩ propBuf.filled with
        | none =>
          simp only [WriteTransaction.putData, hp] at h
          cases h
        | some st =>
          simp only [WriteTransaction.putData, hp, Except.ok.injEq] at h
          subst h
          rfl
    · cases h
      rfl

theorem ClassTraits.save_dispatch_bufStack (t : ClassTraits O) (tr tr1 : WriteTransaction)
    (classId objectId : Nat) (obj : O) (pa : PropertyAccessBase O) (mode : StoreMode) (b : Bool)
    (h : t.save tr classId objectId obj pa mode = .ok (b, tr1)) :
    tr1.bufStack = tr.bufStack := by
  have key : ∀ r, (pa.storage.save tr classId objectId obj pa mode).map
      (fun tr2 => (true, tr2)) = .ok r → r.2.bufStack = tr.bufStack := by
    intro r hr
    cases hs : pa.storage.save tr classId objectId obj pa mode with
    | error e =>
      rw [hs] at hr
      cases hr
    | ok tr2 =>
      rw [hs] at hr
      cases hr
      exact StoreAccess.save_bufStack _ _ _ _ _ _ _ _ hs
  unfold ClassTraits.save at h
  split at h
  · exact key _ h
  · split at h
    · split at h
      · exact key _ h
      · split at h
        · exact key _ h
        · cases h
    · cases h
      rfl

theorem WriteTransaction.writeObjectLoop_bufStack (t : ClassTraits O) (classId objectId : Nat)
    (obj : O) (p : Properties O) (shallow : Bool) :
    ∀ (n px : Nat) (tr tr1 : WriteTransaction),
      WriteTransaction.writeObjectLoop t classId objectId obj p shallow n px tr = .ok tr1 →
      tr1.bufStack = tr.bufStack
  | 0, px, tr, tr1, h => by
    simp only [WriteTransaction.writeObjectLoop, Except.ok.injEq] at h
    subst h
    rfl
  | n + 1, px, tr, tr1, h => by
    rw [WriteTransaction.writeObjectLoop] at h
    cases hg : p.get px with
    | error e =>
      rw [hg] at h
      cases h
    | ok pa =>
      rw [hg] at h
      simp only at h
      by_cases he : pa.enabled = true
      · simp only [he, Bool.not_true, Bool.false_eq_true, if_false] at h
        cases hs : t.save tr classId objectId obj pa
            (if shallow then StoreMode.force_buffer else StoreMode.force_none) with
        | error e =>
          rw [hs] at h
          cases h
        | ok r =>
          obtain ⟨b, tr2⟩ := r
          rw [hs] at h
          rw [WriteTransaction.writeObjectLoop_bufStack t classId objectId obj p shallow n
            (px + 1) tr2 tr1 h]
          exact ClassTraits.save_dispatch_bufStack t tr tr2 classId objectId obj pa _ b hs
      · simp only [he, Bool.not_false, if_true] at h
        exact WriteTransaction.writeObjectLoop_bufStack t classId objectId obj p shallow n
          (px + 1) tr tr1 h

theorem WriteTransaction.saveObject_bufStack (tr : WriteTransaction) (t : ClassTraits O)
    (id : Nat) (obj : O) (newObject : Bool) (r : Saved O)
    (h : tr.saveObject t id obj newObject none false = .ok r) :
    r.tr.bufStack = tr.bufStack := by
  unfold WriteTransaction.saveObject at h
  simp only at h
  split at h
  · cases h
  · rename_i size hc
    split at h
    · cases h
    · rename_i tr2 hw
      have h2 := WriteTransaction.writeObjectLoop_bufStack t _ _ obj t.properties false _ 0 _
        tr2 hw
      split at h
      · cases h
      · rename_i tr4 hp
        simp only [Except.ok.injEq] at h
        subst h
        unfold WriteTransaction.putData at hp
        split at hp
        · simp only [Prod.mk.injEq, true_and] at hp
          subst hp
          exact h2
        · simp only [Prod.mk.injEq, Bool.false_eq_true, false_and] at hp

end attached

theorem StorageKey.bytes_length (k : StorageKey) : (StorageKey.bytes k).length = 14 := by
  simp only [StorageKey.bytes, List.length_append, write_integer_length, ClassId_sz,
    ObjectId_sz, PropertyId_sz]

theorem WriteTransaction.append_on_region (tr : WriteTransaction) (bytes : List byte_t)
    (k : StorageKey) (hk : tr.writeBuf.key = some k)
    (hroom : tr.writeBuf.pos + bytes.length ≤ tr.writeBuf.data.length) :
    ∃ tr2, tr.append bytes = .ok tr2
      ∧ tr2.writeBuf.key = some k
      ∧ tr2.store.full = tr.store.full
      ∧ tr2.writeBuf.data.length = tr.writeBuf.data.length
      ∧ tr2.writeBuf.pos = tr.writeBuf.pos + bytes.length
      ∧ tr2.writeBuf.filled = tr.writeBuf.filled ++ bytes
      ∧ tr2.store.get k = some tr2.writeBuf.data := by
  refine ⟨tr.setBuf { tr.writeBuf with
      data := pokeAt tr.writeBuf.data tr.writeBuf.pos bytes
      pos := tr.writeBuf.pos + bytes.length }, ?_, hk, ?_, ?_, rfl, ?_, ?_⟩
  · simp only [WriteTransaction.append, WriteBuf.append_ok _ _ hroom]
  · exact WriteTransaction.setBuf_full _ _
  · exact pokeAt_length _ _ _ hroom
  · exact WriteBuf.append_filled _ _ hroom
  · simp only [WriteTransaction.setBuf, hk]
    exact Store.get_set _ _ _

theorem WriteTransaction.popWriteBuf_ok (tr : WriteTransaction) (b : WriteBuf)
    (st : List WriteBuf) (h : tr.bufStack = b :: st) :
    ∃ trp, tr.popWriteBuf = .ok trp ∧ trp.writeBuf = b ∧ trp.store = tr.store
      ∧ trp.bufStack = st := by
  refine ⟨{ tr with writeBuf := b, bufStack := st }, ?_, rfl, rfl, rfl⟩
  simp only [WriteTransaction.popWriteBuf, h]

/-- The key list of an attached collection record. -/
theorem WriteTransaction.putCollectionLoop_effect {V : Type} (t : ClassTraits V)
    (hi : t.properties.Initialized) (hreg : ∀ pa ∈ t.properties.all, Registered t pa)
    (k : StorageKey) :
    ∀ (vect : List (ObjectPtr V)) (info : AbstractClassInfo) (tr : WriteTransaction)
      (ids : List Nat),
      info.classId = t.info.classId →
      tr.writeBuf.key = some k → tr.store.full = false →
      tr.writeBuf.pos + 14 * vect.length ≤ tr.writeBuf.data.length →
      tr.store.get k = some tr.writeBuf.data →
      ∃ ids1 info1 tr1,
        WriteTransaction.putCollectionLoop t true vect info tr ids = .ok (ids ++ ids1, info1, tr1)
        ∧ ids1.length = vect.length
        ∧ tr1.writeBuf.filled = tr.writeBuf.filled
            ++ ((vect.zip ids1).map (fun e => StorageKey.bytes ⟨e.1.classId, e.2, 0⟩)).flatten
        ∧ tr1.writeBuf.data.length = tr.writeBuf.data.length
        ∧ tr1.writeBuf.pos = tr.writeBuf.pos + 14 * vect.length
        ∧ tr1.store.get k = some tr1.writeBuf.data
        ∧ ids1 = savedIds info.maxObjectId vect
        ∧ info1.maxObjectId = (info.maxObjectId :: savedCounts info.maxObjectId vect).getLast
            (List.cons_ne_nil _ _)
  | [], info, tr, ids, _, _, _, _, hget =>
    ⟨[], info, tr, by simp [WriteTransaction.putCollectionLoop], rfl, by simp, rfl, by simp,
      hget, rfl, rfl⟩
  | v :: rest, info, tr, ids, hcid, hk, hf, hroom, hget => by
    have hreg1 : ∀ pa ∈ ({ t with info := info } : ClassTraits V).properties.all,
        Registered ({ t with info := info } : ClassTraits V) pa := by
      intro pa hpa
      have := hreg pa hpa
      unfold Registered at this ⊢
      show pa.classId = info.classId ∨ _
      rw [hcid]
      exact this
    have hfp : (tr.pushWriteBuf).store.full = false := hf
    obtain ⟨s, hs, hsid, hsmax, hsinfo, hsf, hstack⟩ :
        ∃ s, (tr.pushWriteBuf).saveObjectPtr ({ t with info := info } : ClassTraits V) v = .ok s
          ∧ s.objectId = (if v.objectId != 0 then v.objectId else wrap64 (info.maxObjectId + 1))
          ∧ s.info.maxObjectId
              = (if v.objectId != 0 then info.maxObjectId else wrap64 (info.maxObjectId + 1))
          ∧ s.info.classId = t.info.classId
          ∧ s.tr.store.full = false ∧ s.tr.bufStack = tr.writeBuf :: tr.bufStack := by
      by_cases hv : v.objectId = 0
      · obtain ⟨r, hr, hid, hinfo, _, hfull⟩ := saveObject_effect (tr.pushWriteBuf)
          ({ t with info := info } : ClassTraits V) 0 v.obj true hi hreg1 hfp
        refine ⟨r, ?_, ?_, ?_, ?_, hfull, ?_⟩
        · simp only [WriteTransaction.saveObjectPtr, hv, bne_self_eq_false, Bool.false_eq_true,
            if_false, hr]
        · rw [hid]
          simp [hv]
        · rw [hinfo]
          simp [hv, AbstractClassInfo.maxObjectId_set]
        · rw [hinfo]
          simp only [if_true]
          rw [AbstractClassInfo.classId_set]
          exact hcid
        · rw [WriteTransaction.saveObject_bufStack _ _ _ _ _ _ hr]
          rfl
      · obtain ⟨r, hr, hid, hinfo, _, hfull⟩ := saveObject_effect (tr.pushWriteBuf)
          ({ t with info := info } : ClassTraits V) v.objectId v.obj false hi hreg1 hfp
        have hb : (v.objectId != 0) = true := by simpa using hv
        refine ⟨r, ?_, ?_, ?_, ?_, hfull, ?_⟩
        · simp only [WriteTransaction.saveObjectPtr, hb, if_true, hr]
        · rw [hid]
          simp [hb]
        · rw [hinfo]
          simp [hb]
        · rw [hinfo]
          simp only [Bool.false_eq_true, if_false]
          exact hcid
        · rw [WriteTransaction.saveObject_bufStack _ _ _ _ _ _ hr]
          rfl
    obtain ⟨trp, hpop, hpw, hps, _⟩ := WriteTransaction.popWriteBuf_ok s.tr _ _ hstack
    have hkl : (StorageKey.bytes ⟨v.classId, s.objectId, 0⟩).length = 14 :=
      StorageKey.bytes_length _
    have hlen0 : (v :: rest).length = rest.length + 1 := rfl
    rw [hlen0] at hroom
    obtain ⟨tr2, happ, hk2, hf2, hlen2, hpos2, hfill2, hget2⟩ :=
      WriteTransaction.append_on_region trp (StorageKey.bytes ⟨v.classId, s.objectId, 0⟩) k
        (by rw [hpw]; exact hk) (by rw [hpw, hkl]; omega)
    rw [hpw] at hlen2 hpos2 hfill2
    rw [hkl] at hpos2
    rw [hps, hsf] at hf2
    obtain ⟨ids1, info1, tr3, hl, hlen, hfill, hdl, hpos, hget3, hids, hmax⟩ :=
      WriteTransaction.putCollectionLoop_effect t hi hreg k rest s.info tr2
        (ids ++ [s.objectId]) hsinfo hk2 hf2 (by rw [hlen2, hpos2]; omega) hget2
    refine ⟨s.objectId :: ids1, info1, tr3, ?_, ?_, ?_, ?_, ?_, hget3, ?_, ?_⟩
    · rw [WriteTransaction.putCollectionLoop]
      simp only [if_true, hs, hpop, WriteTransaction.appendKey, happ, hl, List.append_assoc,
        List.singleton_append]
    · simp only [List.length_cons, hlen]
    · rw [hfill, hfill2]
      simp only [List.zip_cons_cons, List.map_cons, List.flatten_cons, List.append_assoc]
    · rw [hdl, hlen2]
    · rw [hpos, hpos2, hlen0]
      omega
    · rw [hids, hsid, hsmax]
      by_cases hv : v.objectId = 0 <;> simp [savedIds, hv]
    · rw [hmax, hsmax]
      by_cases hv : v.objectId = 0 <;> simp [savedCounts, hv]

/-- C28: for a class `V` whose property table is initialized and registered, on a store that
is not full, the attached `putCollection` (with `saveMembers`) returns and leaves under the key
(class id of the host, object id of the host, property id) a record of `4 + 14 * |vect|`
bytes: the element count as 4 little-endian bytes, then for every element of the vector, in
order, the 14 bytes of the key (class id of the element, object id, 0). The object id is the
one the pointer carries or, for a pointer without id, the next id of the class `V`, whose
`maxObjectId` counts up by one with every such element (`savedIds`); these are the ids the
call hands back. -/
theorem putCollection_attached_record {V : Type} (tr : WriteTransaction) (t : ClassTraits V)
    (classId objId propertyId : Nat) (vect : List (ObjectPtr V))
    (hi : t.properties.Initialized) (hreg : ∀ pa ∈ t.properties.all, Registered t pa)
    (hf : tr.store.full = false) :
    ∃ info tr1,
      tr.putCollectionAttached t classId objId propertyId vect true
          = .ok (savedIds t.info.maxObjectId vect, info, tr1)
      ∧ (savedIds t.info.maxObjectId vect).length = vect.length
      ∧ tr1.getData classId objId propertyId
          = some (write_integer vect.length 4
              ++ ((vect.zip (savedIds t.info.maxObjectId vect)).map
                  (fun e => StorageKey.bytes ⟨e.1.classId, e.2, 0⟩)).flatten)
      ∧ (write_integer vect.length 4
            ++ ((vect.zip (savedIds t.info.maxObjectId vect)).map
                (fun e => StorageKey.bytes ⟨e.1.classId, e.2, 0⟩)).flatten).length
          = 4 + 14 * vect.length
      ∧ (vect.length < 2 ^ 32 →
          read_integer (write_integer vect.length 4
            ++ ((vect.zip (savedIds t.info.maxObjectId vect)).map
                (fun e => StorageKey.bytes ⟨e.1.classId, e.2, 0⟩)).flatten) 4 = vect.length)
      ∧ info.maxObjectId
          = (t.info.maxObjectId :: savedCounts t.info.maxObjectId vect).getLast
              (List.cons_ne_nil _ _) := by
  obtain ⟨tr2, htr2⟩ : ∃ x, x = (({ tr with
        store := tr.store.set ⟨classId, objId, propertyId⟩
          (List.replicate (vect.length * StorageKey.byteSize + 4) 0)
        log := tr.log ++ [.allocate ⟨classId, objId, propertyId⟩
          (vect.length * StorageKey.byteSize + 4)] } : WriteTransaction).setBuf
      (WriteBuf.startOn ⟨classId, objId, propertyId⟩
        (List.replicate (vect.length * StorageKey.byteSize + 4) 0) 0)) := ⟨_, rfl⟩
  have hwb2 : tr2.writeBuf = WriteBuf.startOn ⟨classId, objId, propertyId⟩
      (List.replicate (vect.length * StorageKey.byteSize + 4) 0) 0 := by
    rw [htr2]
    rfl
  have hf2 : tr2.store.full = false := by
    rw [htr2, WriteTransaction.setBuf_full]
    exact hf
  have hbs : StorageKey.byteSize = 14 := rfl
  have hdl2 : tr2.writeBuf.data.length = vect.length * 14 + 4 := by
    rw [hwb2, ← hbs]
    simp only [WriteBuf.startOn, List.length_replicate]
  have hpos2 : tr2.writeBuf.pos = 0 := by rw [hwb2]; rfl
  have hfill2 : tr2.writeBuf.filled = [] := by
    rw [hwb2]
    rfl
  obtain ⟨tr3, happ, hk3, hf3, hlen3, hpos3, hfill3, hget3⟩ :=
    WriteTransaction.append_on_region tr2 (write_integer (vect.length : Int) 4)
      ⟨classId, objId, propertyId⟩ (by rw [hwb2]; rfl)
      (by rw [hpos2, hdl2, write_integer_length]; omega)
  rw [write_integer_length, hpos2] at hpos3
  rw [hfill2, List.nil_append] at hfill3
  rw [hf2] at hf3
  obtain ⟨ids1, info1, tr4, hl, hlen, hfill, hdl, hpos, hget4, hids, hmax⟩ :=
    WriteTransaction.putCollectionLoop_effect t hi hreg ⟨classId, objId, propertyId⟩ vect t.info
      tr3 [] rfl hk3 hf3 (by rw [hlen3, hdl2, hpos3]; omega) hget3
  subst hids
  have hfull : tr4.writeBuf.filled = tr4.writeBuf.data := by
    unfold WriteBuf.filled
    apply List.take_of_length_le
    rw [hdl, hlen3, hdl2, hpos, hpos3]
    omega
  have hrec : tr4.writeBuf.data = write_integer (vect.length : Int) 4
      ++ ((vect.zip (savedIds t.info.maxObjectId vect)).map
          (fun e => StorageKey.bytes ⟨e.1.classId, e.2, 0⟩)).flatten := by
    rw [← hfull, hfill, hfill3]
  refine ⟨info1, tr4, ?_, hlen, ?_, ?_, ?_, hmax⟩
  · simp only [WriteTransaction.putCollectionAttached, WriteTransaction.allocData,
      Store.allocate, hf, Bool.false_eq_true, if_false, ← htr2, happ]
    rw [List.nil_append] at hl
    exact hl
  · show tr4.store.get ⟨classId, objId, propertyId⟩ = _
    rw [hget4, hrec]
  · rw [← hrec, hdl, hlen3, hdl2]
    omega
  · intro hn
    have e : (256 : Nat) ^ 4 = 2 ^ 32 := by decide
    exact read_write_integer 4 vect.length _ (e ▸ hn)

/-- Witness for C28: a new point and the point with the object id 7, both of the class 10,
put as the collection under (20, 1, 5): the ids are 1 (the first id of the class) and 7, the
record is the count 2 followed by the keys (10, 1, 0) and (10, 7, 0), 32 bytes, and
`maxObjectId` of the class is 1. -/
theorem putCollection_attached_record_witness :
    ∃ info tr1,
      WriteTransaction.putCollectionAttached {} (Point.traits 10) 20 1 5
          [{ classId := 10, objectId := 0, obj := ({ x := 1, y := 2 } : Point) },
           { classId := 10, objectId := 7, obj := ({ x := 3, y := 4 } : Point) }] true
        = .ok ([1, 7], info, tr1)
      ∧ tr1.getData 20 1 5
        = some [2, 0, 0, 0,
                10, 0, 0, 0, 1, 0, 0, 0, 0, 0, 0, 0, 0, 0,
                10, 0, 0, 0, 7, 0, 0, 0, 0, 0, 0, 0, 0, 0]
      ∧ info.maxObjectId = 1 := by
  obtain ⟨info, tr1, h1, _, h3, _, _, h6⟩ := putCollection_attached_record
    ({} : WriteTransaction) (Point.traits 10) 20 1 5
    [{ classId := 10, objectId := 0, obj := ({ x := 1, y := 2 } : Point) },
     { classId := 10, objectId := 7, obj := ({ x := 3, y := 4 } : Point) }]
    rfl
    (by
      intro pa hpa
      simp only [Point.traits, Properties.all, Point.decl_props, List.mem_cons,
        List.mem_singleton, List.not_mem_nil, or_false] at hpa
      rcases hpa with h | h <;> subst h <;> exact Or.inl rfl)
    rfl
  exact ⟨info, tr1, h1, h3, h6⟩

/-! ## Updates of attached collections -/

/-- C29, evaluated at the failing input: the attached collection with the keys (10, 1, 0) and
(10, 2, 0) is updated with a new object (5, 6) of the class 10 that is not in it. The object
is saved under (10, 3, 0), which is the one backend call made; the write buffer then holds the
old record with the key (10, 3, 0) appended (and the count 2 unchanged), but it is not put:
the record stored is the one stored before, and control reaches the end of the function
without a value returned. With an object that has the id 7 already no backend call is made at
all. -/
theorem updateCollection_add_is_not_stored :
    updateAttached { classId := 10, objectId := 0, obj := { x := 5, y := 6 } } false
      = .ok (none, some attachedTwoRecord, some attachedTwoRecord,
          [.put ⟨10, 3, 0⟩],
          attachedTwoRecord ++ [10, 0, 0, 0, 3, 0, 0, 0, 0, 0, 0, 0, 0, 0])
    ∧ updateAttached { classId := 10, objectId := 7, obj := { x := 5, y := 6 } } false
      = .ok (none, some attachedTwoRecord, some attachedTwoRecord, [],
          attachedTwoRecord ++ [10, 0, 0, 0, 7, 0, 0, 0, 0, 0, 0, 0, 0, 0]) := by
  constructor <;> rfl

/-- C30, evaluated at the failing input: from the attached collection with the keys
(10, 1, 0) and (10, 2, 0) the removal of the element with the key (10, 1, 0), and likewise of
the one with the key (10, 2, 0), does not return true: the second `append` asks for
`buf.size() - StorageKey::byteSize` bytes in a buffer of that size which holds the bytes
before the slot already, and fails. The removal of an element that is not in the collection
returns false with no backend call and the record as it was. -/
theorem updateCollection_remove_fails :
    updateAttached { classId := 10, objectId := 1, obj := { x := 1, y := 2 } } true
      = .error .buffer_full
    ∧ updateAttached { classId := 10, objectId := 2, obj := { x := 3, y := 4 } } true
      = .error .buffer_full
    ∧ updateAttached { classId := 10, objectId := 9, obj := { x := 5, y := 6 } } true
      = .ok (some false, some attachedTwoRecord, some attachedTwoRecord, [],
          attachedTwoRecord) := by
  refine ⟨?_, ?_, ?_⟩ <;> rfl

/-! ## Removal of objects -/

theorem Store.get_remove (s : Store) (k : StorageKey) : (s.remove k).2.get k = none := by
  simp only [Store.remove, Store.get, Option.map_eq_none', List.find?_eq_none, List.mem_filter,
    decide_eq_true_eq, ne_eq, and_imp]
  intro e _ hne heq
  exact hne heq

theorem Store.get_remove_none (s : Store) (k k2 : StorageKey) (h : s.get k = none) :
    (s.remove k2).2.get k = none := by
  simp only [Store.get, Option.map_eq_none', List.find?_eq_none, decide_eq_true_eq] at h
  simp only [Store.remove, Store.get, Option.map_eq_none', List.find?_eq_none, List.mem_filter,
    decide_eq_true_eq, ne_eq, and_imp]
  intro e he _
  exact h e he

theorem WriteTransaction.removeObjectLoop_effect {O : Type} (classId objectId : Nat)
    (p : Properties O) (hi : p.Initialized) :
    ∀ (l : List (PropertyAccessBase O)) (px : Nat) (tr : WriteTransaction),
      p.all.drop px = l →
        ∃ tr', WriteTransaction.removeObjectLoop classId objectId p l.length px tr = .ok tr'
          ∧ tr'.log = tr.log ++ (l.filter (fun q => q.type.isVector)).map
              (fun q => BackendOp.remove ⟨classId, objectId, q.id⟩)
          ∧ (∀ k, tr.store.get k = none → tr'.store.get k = none)
          ∧ (∀ q ∈ l, q.type.isVector = true →
              tr'.store.get ⟨classId, objectId, q.id⟩ = none)
  | [], px, tr, _ =>
    ⟨tr, by simp [WriteTransaction.removeObjectLoop], by simp, fun _ h => h, by simp⟩
  | pa :: rest, px, tr, hd => by
    obtain ⟨hget, hrest⟩ := p.get_of_drop hi px pa rest hd
    rw [List.length_cons, WriteTransaction.removeObjectLoop, hget]
    by_cases hv : pa.type.isVector = true
    · obtain ⟨tr', hl, hlog, hnone, hkeys⟩ :=
        WriteTransaction.removeObjectLoop_effect classId objectId p hi rest (px + 1)
          (tr.remove classId objectId pa.id).2 hrest
      refine ⟨tr', by simp only [hv, if_true, hl], ?_, ?_, ?_⟩
      · rw [hlog, List.filter_cons_of_pos (by simpa using hv)]
        simp [WriteTransaction.remove]
      · intro k hk
        exact hnone k (Store.get_remove_none _ _ _ hk)
      · intro q hq hqv
        rcases List.mem_cons.1 hq with rfl | hq
        · exact hnone _ (Store.get_remove _ _)
        · exact hkeys q hq hqv
    · obtain ⟨tr', hl, hlog, hnone, hkeys⟩ :=
        WriteTransaction.removeObjectLoop_effect classId objectId p hi rest (px + 1) tr hrest
      refine ⟨tr', by simp only [hv, Bool.false_eq_true, if_false, hl], ?_, hnone, ?_⟩
      · rw [hlog, List.filter_cons_of_neg (by simpa using hv)]
      · intro q hq hqv
        rcases List.mem_cons.1 hq with rfl | hq
        · exact absurd hqv hv
        · exact hkeys q hq hqv

/-- C31: for a class whose separately keyed properties are vector typed (as the property
declarations of kvstore.h make them), `removeObject(classId, objectId, obj)` calls the backend
`remove` for the key `(classId, objectId, p.id)` of every vector typed property `p` (so of
every separately keyed one), in declared order, and after all of them, as its last call, for
the main record `(classId, objectId, 0)`; none of these keys is in the store afterwards. The
function returns no value. -/
theorem removeObject_removes_properties_first {O : Type} (tr : WriteTransaction)
    (t : ClassTraits O) (classId objectId : Nat) (obj : O)
    (hi : t.properties.Initialized)
    (hvec : ∀ p ∈ t.properties.all, p.storage.layout = .property → p.type.isVector = true) :
    ∃ r, tr.removeObject t classId objectId obj = .ok r
      ∧ r.result = none
      ∧ r.tr.log = tr.log
          ++ (t.properties.all.filter (fun p => p.type.isVector)).map
              (fun p => BackendOp.remove ⟨classId, objectId, p.id⟩)
          ++ [BackendOp.remove ⟨classId, objectId, 0⟩]
      ∧ (∀ p ∈ t.properties.all, p.storage.layout = .property →
          BackendOp.remove ⟨classId, objectId, p.id⟩
              ∈ (t.properties.all.filter (fun p => p.type.isVector)).map
                  (fun p => BackendOp.remove ⟨classId, objectId, p.id⟩)
            ∧ r.tr.getData classId objectId p.id = none)
      ∧ r.tr.getData classId objectId 0 = none := by
  obtain ⟨tr1, hl, hlog, hnone, hkeys⟩ :=
    WriteTransaction.removeObjectLoop_effect classId objectId t.properties hi
      t.properties.all 0 tr rfl
  rw [← Properties.full_size_eq_length] at hl
  refine ⟨{ result := none, tr := (tr1.remove classId objectId 0).2 }, ?_, rfl, ?_, ?_, ?_⟩
  · simp only [WriteTransaction.removeObject, hl]
  · simp [WriteTransaction.remove, hlog]
  · intro p hp hlay
    have hv := hvec p hp hlay
    refine ⟨List.mem_map.2 ⟨p, List.mem_filter.2 ⟨hp, by simpa using hv⟩, rfl⟩, ?_⟩
    exact Store.get_remove_none _ _ _ (hkeys p hp hv)
  · exact Store.get_remove _ _

/-- Witness for C31: the `Samples` object 1 with its vector stored under (10, 1, 2) is
removed: first the vector, then the main record. -/
theorem removeObject_removes_properties_first_witness :
    samplesSaved.store.entries
        = [(⟨10, 1, 0⟩, []), (⟨10, 1, 2⟩, [1, 0, 0, 0, 2, 0, 0, 0, 3, 0, 0, 0])]
      ∧ ∃ r, samplesSaved.removeObject samplesTraits 10 1 [1, 2, 3] = .ok r
        ∧ r.tr.log = samplesSaved.log
            ++ [BackendOp.remove ⟨10, 1, 2⟩, BackendOp.remove ⟨10, 1, 0⟩]
        ∧ r.tr.getData 10 1 2 = none ∧ r.tr.getData 10 1 0 = none :=
  have hv : ∀ p ∈ samplesTraits.properties.all,
      p.storage.layout = .property → p.type.isVector = true := by
    intro p hp _
    have : p = samplesProperty := by
      simpa [samplesTraits, Properties.all] using hp
    subst this
    rfl
  let ⟨r, h, _, hlog, hkeys, hmain⟩ :=
    removeObject_removes_properties_first samplesSaved samplesTraits 10 1 [1, 2, 3] rfl hv
  ⟨by decide, r, h, hlog,
    (hkeys samplesProperty (by simp [samplesTraits, Properties.all]) rfl).2, hmain⟩

/-! ## Class cursors -/

theorem filter_dropWhile_not {α : Type} (p : α → Bool) :
    ∀ l : List α, (l.dropWhile (fun a => !p a)).filter p = l.filter p
  | [] => rfl
  | a :: l => by
    by_cases h : p a = true
    · simp [List.dropWhile, h]
    · have h2 : p a = false := by simpa using h
      simp [List.dropWhile, h2, filter_dropWhile_not p l]

theorem dropWhile_not_head {α : Type} (p : α → Bool) :
    ∀ (l : List α) (a : α) (rest : List α),
      l.dropWhile (fun a => !p a) = a :: rest → p a = true
  | [], a, rest, h => by simp at h
  | b :: l, a, rest, h => by
    by_cases hb : p b = true
    · simp only [List.dropWhile, hb, Bool.not_true] at h
      obtain ⟨rfl, _⟩ := List.cons.inj h
      exact hb
    · have h2 : p b = false := by simpa using hb
      simp only [List.dropWhile, h2, Bool.not_false] at h
      exact dropWhile_not_head p l a rest h

theorem length_dropWhile_le {α : Type} (p : α → Bool) :
    ∀ l : List α, (l.dropWhile p).length ≤ l.length
  | [] => by simp
  | a :: l => by
    by_cases h : p a = true
    · simp only [List.dropWhile, h, List.length_cons]
      have := length_dropWhile_le p l
      omega
    · have h2 : p a = false := by simpa using h
      simp [List.dropWhile, h2]

/-- Where a class cursor stands, given the items that are left for it: at its end when there
is none, on the first of them otherwise. -/
theorem ClassCursor.skip_spec (info : AbstractClassInfo) (substitutes : Nat → Bool) :
    ∀ (rest : List (StorageKey × List byte_t)) (e : StorageKey × List byte_t) (fuel : Nat),
      rest.length + 1 ≤ fuel →
      ∃ c, ClassCursor.skip info substitutes fuel true
            ((info.resolve e.1.classId).isSome || substitutes info.classId)
            (CursorHelper.at e rest) (info.resolve e.1.classId) = some c
        ∧ (match (e :: rest).dropWhile
              (fun e => !((info.resolve e.1.classId).isSome || substitutes info.classId)) with
          | [] => c.m_hasData = false
          | e1 :: rest1 => c.m_hasData = true ∧ c.m_helper = CursorHelper.at e1 rest1
              ∧ c.m_classInfo = info.resolve e1.1.classId)
  | rest, e, fuel, hfuel => by
    by_cases hv : ((info.resolve e.1.classId).isSome || substitutes info.classId) = true
    · refine ⟨{ m_helper := CursorHelper.at e rest, m_hasData := true,
                m_classInfo := info.resolve e.1.classId }, ?_, ?_⟩
      · cases fuel <;> simp [ClassCursor.skip, hv]
      · simp [List.dropWhile, hv]
    · have hv2 : ((info.resolve e.1.classId).isSome || substitutes info.classId) = false := by
        simpa using hv
      cases rest with
      | nil =>
        refine ⟨{ m_helper := { CursorHelper.at e [] with ahead := [] }, m_hasData := false,
                  m_classInfo := info.resolve e.1.classId }, ?_, ?_⟩
        · obtain ⟨f, rfl⟩ : ∃ f, fuel = f + 1 := ⟨fuel - 1, by simp at hfuel; omega⟩
          cases f <;>
            simp [ClassCursor.skip, hv2, CursorHelper.next, CursorHelper.at]
        · simp [List.dropWhile, hv2]
      | cons e2 rest2 =>
        obtain ⟨f, rfl⟩ : ∃ f, fuel = f + 1 := ⟨fuel - 1, by simp at hfuel; omega⟩
        obtain ⟨c, hc, hspec⟩ := ClassCursor.skip_spec info substitutes rest2 e2 f
          (by simp at hfuel; omega)
        refine ⟨c, ?_, ?_⟩
        · rw [ClassCursor.skip]
          simp only [hv2, Bool.not_false, Bool.and_self, if_true, CursorHelper.next,
            CursorHelper.at, ClassCursor.validateClass, CursorHelper.currentClassId]
          exact hc
        · simp only [List.dropWhile, hv2, Bool.not_false]
          exact hspec

theorem ClassCursor.next_spec (info : AbstractClassInfo) (substitutes : Nat → Bool)
    (c : ClassCursor) (e : StorageKey × List byte_t) (rest : List (StorageKey × List byte_t))
    (hc : c.m_helper = CursorHelper.at e rest) :
    ∃ c1, ClassCursor.next info substitutes c = some (c1.m_hasData, c1)
      ∧ (match rest.dropWhile
            (fun e => !((info.resolve e.1.classId).isSome || substitutes info.classId)) with
        | [] => c1.m_hasData = false
        | e1 :: rest1 => c1.m_hasData = true ∧ c1.m_helper = CursorHelper.at e1 rest1
            ∧ c1.m_classInfo = info.resolve e1.1.classId) := by
  cases rest with
  | nil =>
    refine ⟨{ m_helper := { CursorHelper.at e [] with ahead := [] }, m_hasData := false,
              m_classInfo := c.m_classInfo }, ?_, ?_⟩
    · simp [ClassCursor.next, hc, CursorHelper.next, CursorHelper.at, ClassCursor.skip]
    · simp
  | cons e2 rest2 =>
    obtain ⟨c1, h1, hspec⟩ := ClassCursor.skip_spec info substitutes rest2 e2
      (rest2.length + 1) (le_refl _)
    refine ⟨c1, ?_, hspec⟩
    simp only [ClassCursor.next, hc, CursorHelper.next, CursorHelper.at,
      ClassCursor.validateClass, CursorHelper.currentClassId, List.length_cons]
    have h1' := h1
    simp only [CursorHelper.at] at h1'
    rw [h1']
    rfl

theorem ClassCursor.visit_spec (info : AbstractClassInfo) (substitutes : Nat → Bool) :
    ∀ (n : Nat) (l : List (StorageKey × List byte_t)) (c : ClassCursor) (fuel : Nat),
      l.length ≤ n → l.length ≤ fuel →
      (match l.dropWhile
            (fun e => !((info.resolve e.1.classId).isSome || substitutes info.classId)) with
        | [] => c.m_hasData = false
        | e1 :: rest1 => c.m_hasData = true ∧ c.m_helper = CursorHelper.at e1 rest1
            ∧ c.m_classInfo = info.resolve e1.1.classId) →
      ClassCursor.visit info substitutes fuel c
        = some (l.filter
            (fun e => (info.resolve e.1.classId).isSome || substitutes info.classId)) := by
  intro n
  induction n with
  | zero =>
    intro l c fuel hn hfuel hat
    have hl : l = [] := List.length_eq_zero.1 (by omega)
    subst hl
    simp only [List.dropWhile] at hat
    cases fuel <;> simp [ClassCursor.visit, ClassCursor.atEnd, hat]
  | succ n ih =>
    intro l c fuel hn hfuel hat
    rw [← filter_dropWhile_not]
    have hlen := length_dropWhile_le
      (fun e : StorageKey × List byte_t =>
        !((info.resolve e.1.classId).isSome || substitutes info.classId)) l
    cases hd : l.dropWhile
        (fun e => !((info.resolve e.1.classId).isSome || substitutes info.classId)) with
    | nil =>
      rw [hd] at hat
      simp only at hat
      cases fuel <;> simp [ClassCursor.visit, ClassCursor.atEnd, hat]
    | cons e rest =>
      rw [hd] at hat hlen
      obtain ⟨hdata, hhelper, _⟩ := hat
      have hve := dropWhile_not_head
        (fun e : StorageKey × List byte_t =>
          (info.resolve e.1.classId).isSome || substitutes info.classId) l e rest hd
      simp only [List.length_cons] at hlen
      obtain ⟨f, rfl⟩ : ∃ f, fuel = f + 1 := ⟨fuel - 1, by omega⟩
      obtain ⟨c1, hnext, hspec⟩ := ClassCursor.next_spec info substitutes c e rest hhelper
      have hrec := ih rest c1 f (by omega) (by omega) hspec
      rw [ClassCursor.visit]
      simp only [ClassCursor.atEnd, hdata, Bool.not_true, Bool.false_eq_true, if_false, hhelper,
        CursorHelper.at, hnext, hrec, Option.map_some']
      simp only [List.filter_cons]
      rw [if_pos hve]

/-- What a class cursor visits: a `ClassCursor<T>` opened on a backend cursor over the items
`items` comes to stand, one after the other, on exactly the items whose class id resolves in
the class tree of `T` or for which the class info of `T` itself has a substitute
(`validateClass`), in the order of the backend cursor, and is at its end afterwards; the
other items are passed over without an error. For every item the cursor stands on, the class
info was found or `getSubstitute` of `T` has an object to offer, which is what `get` needs. -/
theorem ClassCursor.visits_filtered (info : AbstractClassInfo) (substitutes : Nat → Bool)
    (items : List (StorageKey × List byte_t)) :
    ∃ c0, ClassCursor.new info substitutes { ahead := items } = some c0
      ∧ ClassCursor.visit info substitutes items.length c0
        = some (items.filter
            (fun e => (info.resolve e.1.classId).isSome || substitutes info.classId))
      ∧ (c0.atEnd = false →
          ∃ e rest, c0.m_helper.ahead = e :: rest
            ∧ ((info.resolve e.1.classId).isSome || substitutes info.classId) = true
            ∧ c0.m_classInfo = info.resolve e.1.classId)
      ∧ ∀ e ∈ items.filter
            (fun e => (info.resolve e.1.classId).isSome || substitutes info.classId),
          (info.resolve e.1.classId).isSome = true
            ∨ (getSubstitute substitutes info).isSome = true := by
  have hsub : ∀ e ∈ items.filter
      (fun e => (info.resolve e.1.classId).isSome || substitutes info.classId),
      (info.resolve e.1.classId).isSome = true
        ∨ (getSubstitute substitutes info).isSome = true := by
    intro e he
    have hv := (List.mem_filter.1 he).2
    simp only [Bool.or_eq_true] at hv
    rcases hv with h | h
    · exact Or.inl h
    · right
      cases info with
      | mk n cid m subs =>
        simp only [AbstractClassInfo.classId] at h
        simp [getSubstitute, h]
  cases items with
  | nil =>
    refine ⟨{ m_helper := { ahead := [] }, m_hasData := false,
              m_classInfo := info.resolve 0 }, ?_, ?_, ?_, hsub⟩
    · simp [ClassCursor.new, CursorHelper.start, ClassCursor.skip, ClassCursor.validateClass,
        CursorHelper.currentClassId]
    · simp [ClassCursor.visit, ClassCursor.atEnd]
    · simp [ClassCursor.atEnd]
  | cons e rest =>
    obtain ⟨c0, h0, hspec⟩ := ClassCursor.skip_spec info substitutes rest e
      (rest.length + 1) (le_refl _)
    refine ⟨c0, ?_, ?_, ?_, hsub⟩
    · simp only [ClassCursor.new, CursorHelper.start, ClassCursor.validateClass,
        CursorHelper.currentClassId, List.length_cons]
      simp only [CursorHelper.at] at h0
      exact h0
    · exact ClassCursor.visit_spec info substitutes (e :: rest).length (e :: rest) c0
        (e :: rest).length (le_refl _) (le_refl _) hspec
    · intro hne
      cases hd : (e :: rest).dropWhile
          (fun e => !((info.resolve e.1.classId).isSome || substitutes info.classId)) with
      | nil =>
        rw [hd] at hspec
        simp only at hspec
        simp [ClassCursor.atEnd, hspec] at hne
      | cons e1 rest1 =>
        rw [hd] at hspec
        obtain ⟨_, hh, hci⟩ := hspec
        refine ⟨e1, rest1, by rw [hh]; rfl, ?_, hci⟩
        exact dropWhile_not_head
          (fun e : StorageKey × List byte_t =>
            (info.resolve e.1.classId).isSome || substitutes info.classId) _ e1 rest1 hd

/-- C32, evaluated at the failing input: `Shape` (class 10) with the registered subclass
`Circle` (class 11), a substitute registered for `Circle` and none for `Shape`, and a backend
cursor over objects of the classes 10, 12 and 11. The class 12 does not resolve, and
`getSubstitute` of `Shape`, which `get` and the loads of the vector storages ask, offers the
substitute of `Circle`; yet the cursor passes over the object of the class 12, because
`validateClass` looks at the substitute of `Shape` only. With the substitute registered for
`Shape` the cursor stands on all three objects, and with no substitute at all on the first and
the third. -/
theorem class_cursor_skips_substitutable :
    (shapeTraits.info.resolve 12).isSome = false
      ∧ getSubstitute (fun c => c == 11) shapeTraits.info = some 11
      ∧ (∃ c0, ClassCursor.new shapeTraits.info (fun c => c == 11)
            { ahead := [(⟨10, 1, 0⟩, []), (⟨12, 1, 0⟩, []), (⟨11, 1, 0⟩, [])] } = some c0
          ∧ ClassCursor.visit shapeTraits.info (fun c => c == 11) 3 c0
            = some [(⟨10, 1, 0⟩, []), (⟨11, 1, 0⟩, [])])
      ∧ getSubstitute (fun c => c == 10) shapeTraits.info = some 10
      ∧ (∃ c0, ClassCursor.new shapeTraits.info (fun c => c == 10)
            { ahead := [(⟨10, 1, 0⟩, []), (⟨12, 1, 0⟩, []), (⟨11, 1, 0⟩, [])] } = some c0
          ∧ ClassCursor.visit shapeTraits.info (fun c => c == 10) 3 c0
            = some [(⟨10, 1, 0⟩, []), (⟨12, 1, 0⟩, []), (⟨11, 1, 0⟩, [])])
      ∧ getSubstitute (fun _ => false) shapeTraits.info = none
      ∧ (∃ c0, ClassCursor.new shapeTraits.info (fun _ => false)
            { ahead := [(⟨10, 1, 0⟩, []), (⟨12, 1, 0⟩, []), (⟨11, 1, 0⟩, [])] } = some c0
          ∧ ClassCursor.visit shapeTraits.info (fun _ => false) 3 c0
            = some [(⟨10, 1, 0⟩, []), (⟨11, 1, 0⟩, [])]) := by
  refine ⟨by decide, by decide, ?_, by decide, ?_, by decide, ?_⟩
  · obtain ⟨c0, h0, h1, _⟩ := ClassCursor.visits_filtered shapeTraits.info (fun c => c == 11)
      [(⟨10, 1, 0⟩, []), (⟨12, 1, 0⟩, []), (⟨11, 1, 0⟩, [])]
    exact ⟨c0, h0, h1.trans (by decide)⟩
  · obtain ⟨c0, h0, h1, _⟩ := ClassCursor.visits_filtered shapeTraits.info (fun c => c == 10)
      [(⟨10, 1, 0⟩, []), (⟨12, 1, 0⟩, []), (⟨11, 1, 0⟩, [])]
    exact ⟨c0, h0, h1.trans (by decide)⟩
  · obtain ⟨c0, h0, h1, _⟩ := ClassCursor.visits_filtered shapeTraits.info (fun _ => false)
      [(⟨10, 1, 0⟩, []), (⟨12, 1, 0⟩, []), (⟨11, 1, 0⟩, [])]
    exact ⟨c0, h0, h1.trans (by decide)⟩

/-! ## Kinds of transactions -/

theorem KeyValueStore.findSome_blocks_write :
    ∀ pre post : List TransactionKind,
      (pre ++ TransactionKind.ExclusiveRead :: post).findSome?
          (fun a => KeyValueStore.blocks a .Write) = some Blocked.WriteBlocked
  | [], post => rfl
  | a :: pre, post => by
    cases a
    · simpa [List.findSome?, KeyValueStore.blocks] using
        KeyValueStore.findSome_blocks_write pre post
    · rfl
    · rfl

theorem KeyValueStore.findSome_blocks_exclusive :
    ∀ pre post : List TransactionKind,
      (pre ++ TransactionKind.Write :: post).findSome?
          (fun a => KeyValueStore.blocks a .ExclusiveRead) = some Blocked.ReadBlocked
  | [], post => rfl
  | a :: pre, post => by
    cases a
    · simpa [List.findSome?, KeyValueStore.blocks] using
        KeyValueStore.findSome_blocks_exclusive pre post
    · simpa [List.findSome?, KeyValueStore.blocks] using
        KeyValueStore.findSome_blocks_exclusive pre post
    · rfl

theorem KeyValueStore.findSome_blocks_read :
    ∀ active : List TransactionKind,
      active.findSome? (fun a => KeyValueStore.blocks a .Read) = none
  | [] => rfl
  | a :: active => by
    cases a <;> simp [List.findSome?, KeyValueStore.blocks]

theorem KeyValueStore.findSome_reads_write :
    ∀ n : Nat, (List.replicate n TransactionKind.Read).findSome?
        (fun a => KeyValueStore.blocks a .Write) = none
  | 0 => rfl
  | n + 1 => by
    simp [List.replicate, List.findSome?, KeyValueStore.blocks]

/-- C33: with an ExclusiveRead among the active transactions the begin of a Write fails with
`WriteBlocked`; with a Write among them the begin of an ExclusiveRead fails with
`ReadBlocked`; the begin of a Read succeeds whatever is active, a Write included, and a Write
can be begun while any number of Reads is active. -/
theorem begin_blocked_by_kind (pre post active : List TransactionKind) (n : Nat) :
    KeyValueStore.begin (pre ++ TransactionKind.ExclusiveRead :: post) .Write
        = .error Blocked.WriteBlocked
      ∧ KeyValueStore.begin (pre ++ TransactionKind.Write :: post) .ExclusiveRead
        = .error Blocked.ReadBlocked
      ∧ KeyValueStore.begin active .Read = .ok (active ++ [TransactionKind.Read])
      ∧ KeyValueStore.begin (pre ++ TransactionKind.Write :: post) .Read
        = .ok (pre ++ TransactionKind.Write :: post ++ [TransactionKind.Read])
      ∧ KeyValueStore.begin (List.replicate n TransactionKind.Read) .Write
        = .ok (List.replicate n TransactionKind.Read ++ [TransactionKind.Write]) := by
  refine ⟨?_, ?_, ?_, ?_, ?_⟩
  · simp only [KeyValueStore.begin, KeyValueStore.findSome_blocks_write]
  · simp only [KeyValueStore.begin, KeyValueStore.findSome_blocks_exclusive]
  · simp only [KeyValueStore.begin, KeyValueStore.findSome_blocks_read]
  · simp only [KeyValueStore.begin, KeyValueStore.findSome_blocks_read, List.append_assoc,
      List.cons_append]
  · simp only [KeyValueStore.begin, KeyValueStore.findSome_reads_write]

/-! ## Chunk ids -/

theorem updateBack_chunkIds (f : ChunkInfo → ChunkInfo) (hf : ∀ c, (f c).chunkId = c.chunkId) :
    ∀ (l cis : List ChunkInfo), updateBack f l = some cis →
      cis.map (fun c => c.chunkId) = l.map (fun c => c.chunkId)
  | [], cis, h => by simp [updateBack] at h
  | [c], cis, h => by
    simp only [updateBack, Option.some.injEq] at h
    subst h
    simp [hf]
  | c :: d :: rest, cis, h => by
    simp only [updateBack, Option.map_eq_some'] at h
    obtain ⟨l, hl, rfl⟩ := h
    simp [updateBack_chunkIds f hf (d :: rest) l hl]

/-- What `startChunk` does to the chunk ids of a collection info, whatever the state of the
backend: with room in the store one chunk info with the id `nextChunkId` is appended and
`nextChunkId` is incremented (modulo 2^16), without room nothing of this changes. -/
theorem WriteTransaction.startChunk_chunkIds (tr : WriteTransaction) (ci : CollectionInfo)
    (chunkSize elementCount : Nat) (h12 : ChunkHeader_sz ≤ chunkSize)
    (hprev : elementCount = 0 ∨ (ci.chunkInfos ≠ [] ∧ 12 ≤ tr.writeBuf.data.length)) :
    ∃ ci1 tr1, tr.startChunk ci chunkSize elementCount = .ok (!tr.store.full, ci1, tr1)
      ∧ (tr.store.full = false →
          ci1.chunkInfos.map (fun c => c.chunkId)
              = ci.chunkInfos.map (fun c => c.chunkId) ++ [ci.nextChunkId]
            ∧ ci1.chunkInfos.getLast? = some { chunkId := ci.nextChunkId }
            ∧ ci1.nextChunkId = wrap16 (ci.nextChunkId + 1))
      ∧ (tr.store.full = true →
          ci1.chunkInfos.map (fun c => c.chunkId) = ci.chunkInfos.map (fun c => c.chunkId)
            ∧ ci1.nextChunkId = ci.nextChunkId) := by
  have hroom : (0 : Nat) + ChunkHeader_sz ≤ (List.replicate chunkSize (0 : byte_t)).length := by
    rw [List.length_replicate]
    omega
  have hzero : ∀ (tr0 : WriteTransaction) (ci0 : CollectionInfo),
      ∃ ci1 tr1, tr0.startChunk ci0 chunkSize 0 = .ok (!tr0.store.full, ci1, tr1)
        ∧ (tr0.store.full = false →
            ci1.chunkInfos.map (fun c => c.chunkId)
                = ci0.chunkInfos.map (fun c => c.chunkId) ++ [ci0.nextChunkId]
              ∧ ci1.chunkInfos.getLast? = some { chunkId := ci0.nextChunkId }
              ∧ ci1.nextChunkId = wrap16 (ci0.nextChunkId + 1))
        ∧ (tr0.store.full = true →
            ci1.chunkInfos.map (fun c => c.chunkId) = ci0.chunkInfos.map (fun c => c.chunkId)
              ∧ ci1.nextChunkId = ci0.nextChunkId) := by
    intro tr0 ci0
    cases hfull : tr0.store.full with
    | false =>
      simp only [WriteTransaction.startChunk, gt_iff_lt, Nat.lt_irrefl, if_false,
        WriteTransaction.allocData, Store.allocate, hfull, Bool.false_eq_true,
        WriteTransaction.setBuf, WriteBuf.startOn, WriteBuf.allocate, hroom, if_true,
        Bool.not_false]
      refine ⟨_, _, rfl, ?_, ?_⟩
      · simp
      · simp
    | true =>
      simp only [WriteTransaction.startChunk, gt_iff_lt, Nat.lt_irrefl, if_false,
        WriteTransaction.allocData, Store.allocate, hfull, if_true, Bool.not_true]
      refine ⟨_, _, rfl, ?_, ?_⟩
      · simp
      · simp
  by_cases hpos : elementCount > 0
  · rcases hprev with h0 | ⟨hne, hbuf⟩
    · omega
    · obtain ⟨cis, hu, hlen⟩ := updateBack_some (fun c => { c with
        startIndex := ci.nextStartIndex
        elementCount := elementCount
        dataSize := tr.writeBuf.size }) ci.chunkInfos hne
      have hids := updateBack_chunkIds (fun c => { c with
        startIndex := ci.nextStartIndex
        elementCount := elementCount
        dataSize := tr.writeBuf.size }) (fun _ => rfl) ci.chunkInfos cis hu
      have hnot : ¬ tr.writeBuf.data.length < 12 := by omega
      have hstep : tr.startChunk ci chunkSize elementCount
          = (tr.setBuf { tr.writeBuf with
              data := pokeAt (pokeAt (pokeAt tr.writeBuf.data 0
                (write_integer tr.writeBuf.size 4)) 4 (write_integer ci.nextStartIndex 4)) 8
                (write_integer elementCount 4) }).startChunk
              { ci with chunkInfos := cis } chunkSize 0 := by
        simp only [WriteTransaction.startChunk, hpos, if_true, hu,
          WriteTransaction.writeChunkHeader, hnot, if_false, gt_iff_lt, Nat.lt_irrefl]
      obtain ⟨ci1, tr1, e1, e2, e3⟩ := hzero (tr.setBuf { tr.writeBuf with
              data := pokeAt (pokeAt (pokeAt tr.writeBuf.data 0
                (write_integer tr.writeBuf.size 4)) 4 (write_integer ci.nextStartIndex 4)) 8
                (write_integer elementCount 4) }) { ci with chunkInfos := cis }
      rw [WriteTransaction.setBuf_full] at e1 e2 e3
      refine ⟨ci1, tr1, hstep.trans e1, ?_, ?_⟩
      · intro hf
        have := e2 hf
        simpa only [hids] using this
      · intro hf
        have := e3 hf
        simpa only [hids] using this
  · have h0 : elementCount = 0 := by omega
    subst h0
    exact hzero tr ci

theorem WriteTransaction.startChunk_at_last_chunk_id :
    ∀ ci : CollectionInfo,
      ci = { collectionId := 1, nextChunkId := 65534 + 1
             chunkInfos := (List.range' 1 65534).map (fun i => { chunkId := i }) } →
      (ci.chunkInfos.map (fun c => c.chunkId) = List.range' 1 65534
        ∧ ci.nextChunkId = 65534 + 1)
      ∧ ∃ ci1 tr1, ({} : WriteTransaction).startChunk ci 16 0 = .ok (true, ci1, tr1)
          ∧ ci1.chunkInfos.map (fun c => c.chunkId) = List.range' 1 65534 ++ [65535]
          ∧ ci1.nextChunkId = 0 ∧ ci1.nextChunkId ≠ 65534 + 2 := by
  intro ci hci
  have hids : ci.chunkInfos.map (fun c => c.chunkId) = List.range' 1 65534 := by
    subst hci
    simp only [List.map_map]
    exact List.map_id'' (fun _ => rfl) _
  have hnext : ci.nextChunkId = 65535 := by subst hci; rfl
  refine ⟨⟨hids, hnext⟩, ?_⟩
  obtain ⟨ci1, tr1, h1, h2, _⟩ := WriteTransaction.startChunk_chunkIds {} ci 16 0
    (by decide) (Or.inl rfl)
  obtain ⟨e1, _, e3⟩ := h2 rfl
  refine ⟨ci1, tr1, h1, ?_, ?_, ?_⟩
  · rw [e1, hids, hnext]
  · rw [e3, hnext]
    rfl
  · rw [e3, hnext]
    decide

/-- C34, the claim at the last chunk id: the collection info with the chunk ids 1 .. 65534
and `nextChunkId` = 65535 satisfies the invariant (k = 65534); a successful `startChunk`
appends the chunk info with the id 65535 and leaves `nextChunkId` = 0, not k + 2. -/
theorem startChunk_wraps_chunk_id :
    (({ collectionId := 1, nextChunkId := 65534 + 1
        chunkInfos := (List.range' 1 65534).map (fun i => { chunkId := i })
      } : CollectionInfo).chunkInfos.map (fun c => c.chunkId) = List.range' 1 65534
      ∧ ({ collectionId := 1, nextChunkId := 65534 + 1
           chunkInfos := (List.range' 1 65534).map (fun i => { chunkId := i })
         } : CollectionInfo).nextChunkId = 65534 + 1)
    ∧ ∃ ci1 tr1, ({} : WriteTransaction).startChunk
          { collectionId := 1, nextChunkId := 65534 + 1
            chunkInfos := (List.range' 1 65534).map (fun i => { chunkId := i }) } 16 0
          = .ok (true, ci1, tr1)
        ∧ ci1.chunkInfos.map (fun c => c.chunkId) = List.range' 1 65534 ++ [65535]
        ∧ ci1.nextChunkId = 0 ∧ ci1.nextChunkId ≠ 65534 + 2 :=
  WriteTransaction.startChunk_at_last_chunk_id _ rfl

/-- C34: for a collection info with the chunk ids 1, 2, .., k in this order and
`nextChunkId` = k + 1 below the last 16-bit id, a call of `startChunk` that is defined (no
elements to stamp, or a chunk list and a write buffer to stamp them on) with a chunk size that
holds a header returns true and leaves the ids 1, .., k + 1 with `nextChunkId` = k + 2 when
the backend grants the allocation: exactly one chunk info, with the id k + 1, is appended;
when the backend refuses, it returns false and the chunk ids and `nextChunkId` are as they
were. -/
theorem startChunk_keeps_chunk_ids (tr : WriteTransaction) (ci : CollectionInfo)
    (chunkSize elementCount k : Nat)
    (hids : ci.chunkInfos.map (fun c => c.chunkId) = List.range' 1 k)
    (hnext : ci.nextChunkId = k + 1) (hk : k + 1 < 65535)
    (h12 : ChunkHeader_sz ≤ chunkSize)
    (hprev : elementCount = 0 ∨ (ci.chunkInfos ≠ [] ∧ 12 ≤ tr.writeBuf.data.length)) :
    ∃ ci1 tr1, tr.startChunk ci chunkSize elementCount = .ok (!tr.store.full, ci1, tr1)
      ∧ (tr.store.full = false →
          ci1.chunkInfos.map (fun c => c.chunkId) = List.range' 1 (k + 1)
            ∧ ci1.nextChunkId = k + 2
            ∧ ci1.chunkInfos.length = ci.chunkInfos.length + 1
            ∧ ci1.chunkInfos.getLast? = some { chunkId := k + 1 })
      ∧ (tr.store.full = true →
          ci1.chunkInfos.map (fun c => c.chunkId) = List.range' 1 k
            ∧ ci1.nextChunkId = k + 1) := by
  obtain ⟨ci1, tr1, h1, h2, h3⟩ :=
    WriteTransaction.startChunk_chunkIds tr ci chunkSize elementCount h12 hprev
  refine ⟨ci1, tr1, h1, ?_, ?_⟩
  · intro hf
    obtain ⟨e1, e2, e3⟩ := h2 hf
    refine ⟨?_, ?_, ?_, ?_⟩
    · rw [e1, hids, hnext, List.range'_1_concat, Nat.add_comm 1 k]
    · rw [e3, hnext, wrap16, Nat.mod_eq_of_lt (by omega)]
    · have := congrArg List.length e1
      simpa using this
    · rw [e2, hnext]
  · intro hf
    obtain ⟨e1, e2⟩ := h3 hf
    exact ⟨e1.trans hids, e2.trans hnext⟩

/-- Witness for C34: the collection 1 with its one chunk (id 1, `nextChunkId` 2) gets the
chunk 2 on a store with room, and keeps its ids on a full store. -/
theorem startChunk_keeps_chunk_ids_witness :
    (∃ ci1 tr1, slackTransaction.startChunk slackInfo 32 0 = .ok (true, ci1, tr1)
        ∧ ci1.chunkInfos.map (fun c => c.chunkId) = [1, 2] ∧ ci1.nextChunkId = 3)
      ∧ ∃ ci1 tr1, ({ slackTransaction with store := { slackTransaction.store with
            full := true } } : WriteTransaction).startChunk slackInfo 32 0
          = .ok (false, ci1, tr1)
        ∧ ci1.chunkInfos.map (fun c => c.chunkId) = [1] ∧ ci1.nextChunkId = 2 := by
  constructor
  · obtain ⟨ci1, tr1, h1, h2, _⟩ := startChunk_keeps_chunk_ids slackTransaction slackInfo 32 0 1
      (by decide) (by decide) (by decide) (by decide) (Or.inl rfl)
    exact ⟨ci1, tr1, h1, (h2 rfl).1, (h2 rfl).2.1⟩
  · obtain ⟨ci1, tr1, h1, _, h3⟩ := startChunk_keeps_chunk_ids
      { slackTransaction with store := { slackTransaction.store with full := true } }
      slackInfo 32 0 1 (by decide) (by decide) (by decide) (by decide) (Or.inl rfl)
    exact ⟨ci1, tr1, h1, (h3 rfl).1, (h3 rfl).2⟩

/-! ## The cache of collection infos -/

theorem WriteTransaction.find_cacheCollectionInfo (tr : WriteTransaction)
    (ci : CollectionInfo) :
    (tr.cacheCollectionInfo ci).m_collectionInfos.find? (fun e => e.1 == ci.collectionId)
      = some (ci.collectionId, ci) := by
  simp [WriteTransaction.cacheCollectionInfo, List.find?]

theorem WriteTransaction.getCollectionInfo_cached (tr : WriteTransaction)
    (decode : Nat → List byte_t → WriteTransaction → Except Err CollectionInfo)
    (collectionId : Nat) (info : CollectionInfo)
    (h : tr.m_collectionInfos.find? (fun e => e.1 == collectionId) = some (collectionId, info)) :
    tr.getCollectionInfo decode collectionId = .ok (some info, tr) := by
  unfold WriteTransaction.getCollectionInfo
  rw [h]

/-- C35: on a cache miss, `getCollectionInfo(id)` returns null and the transaction as it was
when there is no record under (COLLINFO_CLSID, id, 0); when there is a non-empty record that
decodes to an info with this id, the call returns the decoded info and puts it into the cache
under the id, changing nothing else, and every later call on a transaction that has this
cache entry returns the same info and the transaction as it is, whatever the store holds and
whatever the decoder would do: the backend is not read again. -/
theorem getCollectionInfo_caches (tr : WriteTransaction)
    (decode : Nat → List byte_t → WriteTransaction → Except Err CollectionInfo)
    (collectionId : Nat)
    (hcache : tr.m_collectionInfos.find? (fun e => e.1 == collectionId) = none) :
    (tr.getData COLLINFO_CLSID collectionId 0 = none →
        tr.getCollectionInfo decode collectionId = .ok (none, tr))
      ∧ ∀ (bytes : List byte_t) (info : CollectionInfo),
          tr.getData COLLINFO_CLSID collectionId 0 = some bytes → bytes ≠ [] →
          decode collectionId bytes tr = .ok info → info.collectionId = collectionId →
            tr.getCollectionInfo decode collectionId
                = .ok (some info, tr.cacheCollectionInfo info)
              ∧ (tr.cacheCollectionInfo info).m_collectionInfos
                  = (collectionId, info) :: tr.m_collectionInfos
              ∧ (tr.cacheCollectionInfo info).store = tr.store
              ∧ (tr.cacheCollectionInfo info).log = tr.log
              ∧ (tr.cacheCollectionInfo info).getCollectionInfo decode collectionId
                  = .ok (some info, tr.cacheCollectionInfo info)
              ∧ ∀ (tr2 : WriteTransaction)
                  (decode2 : Nat → List byte_t → WriteTransaction → Except Err CollectionInfo),
                  tr2.m_collectionInfos.find? (fun e => e.1 == collectionId)
                      = some (collectionId, info) →
                    tr2.getCollectionInfo decode2 collectionId = .ok (some info, tr2) := by
  refine ⟨fun h => tr.getCollectionInfo_absent decode collectionId hcache (Or.inl h), ?_⟩
  intro bytes info hget hne hdec hid
  have hfind := tr.find_cacheCollectionInfo info
  rw [hid] at hfind
  refine ⟨?_, ?_, rfl, rfl, ?_, ?_⟩
  · unfold WriteTransaction.getCollectionInfo
    rw [hcache, hget]
    have : bytes.isEmpty = false := by
      cases bytes with
      | nil => exact absurd rfl hne
      | cons b l => rfl
    simp only [this, Bool.not_false, if_true, hdec]
  · have hall : ∀ e ∈ tr.m_collectionInfos, (e.1 != collectionId) = true := by
      intro e he
      have := List.find?_eq_none.1 hcache e he
      simpa [bne] using this
    simp only [WriteTransaction.cacheCollectionInfo, hid]
    rw [List.filter_eq_self.2 hall]
  · exact WriteTransaction.getCollectionInfo_cached _ decode collectionId info hfind
  · intro tr2 decode2 h2
    exact WriteTransaction.getCollectionInfo_cached tr2 decode2 collectionId info h2

/-- Witness for C35: the record of the collection 7 is decoded and cached by the first call;
a call on the transaction it leaves, with a decoder that always fails, returns the cached
info; for the collection 8, which has no record, null comes back. -/
theorem getCollectionInfo_caches_witness :
    storedInfoTransaction.getCollectionInfo decodeCollectionId 8
        = .ok (none, storedInfoTransaction)
      ∧ storedInfoTransaction.getCollectionInfo decodeCollectionId 7
        = .ok (some { collectionId := 7 },
            storedInfoTransaction.cacheCollectionInfo { collectionId := 7 })
      ∧ (storedInfoTransaction.cacheCollectionInfo { collectionId := 7 }).getCollectionInfo
            noDecode 7
        = .ok (some { collectionId := 7 },
            storedInfoTransaction.cacheCollectionInfo { collectionId := 7 }) :=
  ⟨(getCollectionInfo_caches storedInfoTransaction decodeCollectionId 8 rfl).1 rfl,
   ((getCollectionInfo_caches storedInfoTransaction decodeCollectionId 7 rfl).2
      [7, 0, 0, 0, 0, 0, 0, 0] { collectionId := 7 } rfl (by decide) rfl rfl).1,
   ((getCollectionInfo_caches storedInfoTransaction decodeCollectionId 7 rfl).2
      [7, 0, 0, 0, 0, 0, 0, 0] { collectionId := 7 } rfl (by decide) rfl rfl).2.2.2.2.2 _ noDecode
      (WriteTransaction.find_cacheCollectionInfo storedInfoTransaction { collectionId := 7 })⟩

/-! ## Vectors embedded in the record of their object -/

/-- C36, evaluated at the failing input: for the vector of the one point (3, -5), `save`
writes the 16 bytes that `size(obj, pa)` announces (count 1, size 8, payload), but
`size(buf)` on these bytes returns 9 when `Point` has no fixed size, and throws
"invalid object buffer" when its fixed size is 8; for two points `save` writes 28 bytes and
`size(buf)` returns 196622. For the empty vector all three agree on 4. -/
theorem embedded_vector_size_from_buffer :
    embeddedVectorSizes 0 [{ x := 3, y := -5 }]
        = .ok (16, [1, 0, 0, 0, 8, 0, 0, 0, 3, 0, 0, 0, 251, 255, 255, 255], .ok 9)
      ∧ embeddedVectorSizes 8 [{ x := 3, y := -5 }]
        = .ok (16, [1, 0, 0, 0, 8, 0, 0, 0, 3, 0, 0, 0, 251, 255, 255, 255],
            .error (.persistence_error "invalid object buffer"))
      ∧ embeddedVectorSizes 0 [{ x := 3, y := -5 }, { x := 1, y := 2 }]
        = .ok (28, [2, 0, 0, 0, 8, 0, 0, 0, 3, 0, 0, 0, 251, 255, 255, 255,
                    8, 0, 0, 0, 1, 0, 0, 0, 2, 0, 0, 0], .ok 196622)
      ∧ embeddedVectorSizes 0 [] = .ok (4, [0, 0, 0, 0], .ok 4) := by
  refine ⟨?_, ?_, ?_, ?_⟩ <;> rfl

/-! ## Embedded vectors of object pointers -/

section ptrvector
variable {V : Type}

end ptrvector

theorem cursorAt_empty_atEnd (id : Nat) (bytes : List byte_t) (rest : List (Nat × List byte_t))
    (j : Nat) (h0 : chunkElementCount bytes = 0) :
    ({ cursorAt id bytes rest 0 with m_curElement := j } : CollectionCursorBase).atEnd = true := by
  simp [CollectionCursorBase.atEnd, cursorAt, h0]

theorem cursorAt_empty_next (id : Nat) (bytes : List byte_t) (rest : List (Nat × List byte_t))
    (j : Nat) (h0 : chunkElementCount bytes = 0) (hj : j + 1 < 2 ^ 64) :
    ({ cursorAt id bytes rest 0 with m_curElement := j } : CollectionCursorBase).next
      = .ok (false, { cursorAt id bytes rest 0 with m_curElement := j + 1 }) := by
  have hw : wrap64 (j + 1) = j + 1 := by
    rw [wrap64, Nat.mod_eq_of_lt hj]
  simp [CollectionCursorBase.next, cursorAt, hw, h0]

theorem cursorAt_empty_nextTimes (id : Nat) (bytes : List byte_t)
    (rest : List (Nat × List byte_t)) (h0 : chunkElementCount bytes = 0) :
    ∀ (n j : Nat), j + n < 2 ^ 64 →
      CollectionCursorBase.nextTimes n
          ({ cursorAt id bytes rest 0 with m_curElement := j } : CollectionCursorBase)
        = .ok (List.replicate n false, { cursorAt id bytes rest 0 with m_curElement := j + n })
  | 0, j, _ => rfl
  | n + 1, j, h => by
    rw [CollectionCursorBase.nextTimes, cursorAt_empty_next id bytes rest j h0 (by omega)]
    simp only
    rw [cursorAt_empty_nextTimes id bytes rest h0 n (j + 1) (by omega)]
    simp only [List.replicate_succ, Nat.add_assoc, Nat.add_comm 1 n]

/-- The cursor driven from an element of a chunk with elements, over chunks with elements,
up to a chunk without elements: it stands on the elements before that chunk and stops
there. -/
theorem drive_to_empty_chunk (idE : Nat) (bE : List byte_t) (post : List (Nat × List byte_t))
    (hE12 : 12 ≤ bE.length) (hE0 : chunkElementCount bE = 0) :
    ∀ (rest : List (Nat × List byte_t)) (id : Nat) (bytes : List byte_t),
      (∀ c ∈ rest, 12 ≤ c.2.length) → (∀ c ∈ rest, 1 ≤ chunkElementCount c.2) →
      ∀ (k j fuel : Nat), j + (k + 1) = chunkElementCount bytes →
        (k + 1) + (rest.map (fun c => chunkElementCount c.2)).sum ≤ fuel →
        (cursorAt id bytes (rest ++ (idE, bE) :: post) j).drive fuel
          = .ok ((List.range' j (k + 1)).map (fun i => (id, i)) ++ cursorPositions rest,
              cursorAt idE bE post 0) := by
  have hend : ∀ f, (cursorAt idE bE post 0).drive f = .ok ([], cursorAt idE bE post 0) :=
    fun f => drive_at_end f _ (by simp [CollectionCursorBase.atEnd, cursorAt, hE0])
  intro rest
  induction rest with
  | nil =>
    intro id bytes _ _ k
    induction k with
    | zero =>
      intro j fuel hj hfuel
      obtain ⟨f, rfl⟩ : ∃ f, fuel = f + 1 := ⟨fuel - 1, by omega⟩
      obtain ⟨b, hb⟩ := cursorAt_next_chunk id bytes idE bE post j (by omega) hE12
      rw [List.nil_append, drive_step f _ _ _ (cursorAt_not_atEnd id bytes _ j (by omega)) hb,
        hend]
      simp [cursorPositions, cursorAt, ChunkCursor.chunkId]
    | succ k ih =>
      intro j fuel hj hfuel
      obtain ⟨f, rfl⟩ : ∃ f, fuel = f + 1 := ⟨fuel - 1, by omega⟩
      have hd := ih (j + 1) f (by omega) (by simp at hfuel ⊢; omega)
      rw [drive_step f _ _ _ (cursorAt_not_atEnd id bytes _ j (by omega))
        (cursorAt_next_within id bytes _ j (by omega)), hd]
      simp [cursorAt, ChunkCursor.chunkId, List.range'_succ]
  | cons d rest ihr =>
    intro id bytes hhdr hcnt k
    obtain ⟨id2, b2⟩ := d
    have hhdr2 : 12 ≤ b2.length := hhdr (id2, b2) (List.mem_cons_self _ _)
    have hcnt2 : 1 ≤ chunkElementCount b2 := hcnt (id2, b2) (List.mem_cons_self _ _)
    induction k with
    | zero =>
      intro j fuel hj hfuel
      obtain ⟨f, rfl⟩ : ∃ f, fuel = f + 1 := ⟨fuel - 1, by omega⟩
      obtain ⟨k2, hk2⟩ : ∃ k2, 0 + (k2 + 1) = chunkElementCount b2 :=
        ⟨chunkElementCount b2 - 1, by omega⟩
      have hd := ihr id2 b2
        (fun c hc => hhdr c (List.mem_cons_of_mem _ hc))
        (fun c hc => hcnt c (List.mem_cons_of_mem _ hc)) k2 0 f hk2
        (by simp at hfuel ⊢; omega)
      obtain ⟨b, hb⟩ := cursorAt_next_chunk id bytes id2 b2 (rest ++ (idE, bE) :: post) j
        (by omega) hhdr2
      rw [List.cons_append, drive_step f _ _ _ (cursorAt_not_atEnd id bytes _ j (by omega)) hb,
        hd]
      have : k2 + 1 = chunkElementCount b2 := by omega
      simp [cursorPositions, cursorAt, ChunkCursor.chunkId, this]
    | succ k ih =>
      intro j fuel hj hfuel
      obtain ⟨f, rfl⟩ : ∃ f, fuel = f + 1 := ⟨fuel - 1, by omega⟩
      have hd := ih (j + 1) f (by omega) (by simp at hfuel ⊢; omega)
      rw [drive_step f _ _ _ (cursorAt_not_atEnd id bytes _ j (by omega))
        (cursorAt_next_within id bytes _ j (by omega)), hd]
      simp [cursorAt, ChunkCursor.chunkId, List.range'_succ]

/-- C38, counterexample: a collection whose first and only chunk has the element count 0.
The cursor is at its end at once and the loop `while(!atEnd()) next()` stands on no element,
which is not strictly fewer than the sum of the element counts, 0. -/
theorem cursor_single_empty_chunk :
    (emptyChunkTransaction.store.chunks COLLECTION_CLSID 7).map (fun c => chunkElementCount c.2)
        = [0]
      ∧ ∃ c0, CollectionCursorBase.new
            (emptyChunkTransaction._openChunkCursor COLLECTION_CLSID 7 false) = .ok c0
          ∧ c0.atEnd = true
          ∧ c0.drive 1 = .ok ([], c0)
          ∧ ¬ (([] : List (Nat × Nat)).length
              < ((emptyChunkTransaction.store.chunks COLLECTION_CLSID 7).map
                  (fun c => chunkElementCount c.2)).sum) :=
  ⟨by decide, _, rfl, by decide, rfl, by decide⟩

/-- C38 (amended): for a collection whose chunks are `pre`, then a chunk with a header and
the element count 0, then `post`, every chunk of `pre` carrying a header and at least one
element: the loop `while(!atEnd()) next()` stands on exactly the elements of `pre`, as many
as their element counts add up to, and stops on the empty chunk, where `atEnd()` holds;
fewer than 2^64 further calls of `next()` all return false and leave the cursor at its end on
that chunk; and when some chunk of `post` has an element, the positions are strictly fewer
than the sum of the element counts of all chunks. -/
theorem cursor_stops_at_empty_chunk (tr : WriteTransaction) (collectionId fuel idE : Nat)
    (bE : List byte_t) (pre post : List (Nat × List byte_t))
    (hch : tr.store.chunks COLLECTION_CLSID collectionId = pre ++ (idE, bE) :: post)
    (hpre12 : ∀ c ∈ pre, 12 ≤ c.2.length)
    (hprecnt : ∀ c ∈ pre, 1 ≤ chunkElementCount c.2)
    (hE12 : 12 ≤ bE.length) (hE0 : chunkElementCount bE = 0)
    (hfuel : (pre.map (fun c => chunkElementCount c.2)).sum ≤ fuel) :
    ∃ c0, CollectionCursorBase.new (tr._openChunkCursor COLLECTION_CLSID collectionId false)
        = .ok c0
      ∧ c0.drive fuel = .ok (cursorPositions pre, cursorAt idE bE post 0)
      ∧ (cursorAt idE bE post 0).atEnd = true
      ∧ (∀ n, n < 2 ^ 64 →
          CollectionCursorBase.nextTimes n (cursorAt idE bE post 0)
            = .ok (List.replicate n false, { cursorAt idE bE post 0 with m_curElement := n })
          ∧ ({ cursorAt idE bE post 0 with m_curElement := n } : CollectionCursorBase).atEnd
            = true)
      ∧ (cursorPositions pre).length = (pre.map (fun c => chunkElementCount c.2)).sum
      ∧ ((∃ c ∈ post, 1 ≤ chunkElementCount c.2) →
          (cursorPositions pre).length
            < ((tr.store.chunks COLLECTION_CLSID collectionId).map
                (fun c => chunkElementCount c.2)).sum) := by
  have hopen : tr._openChunkCursor COLLECTION_CLSID collectionId false
      = { rest := tr.store.chunks COLLECTION_CLSID collectionId,
          m_atEnd := (tr.store.chunks COLLECTION_CLSID collectionId).isEmpty } := rfl
  rw [hopen, hch]
  have hEend : (cursorAt idE bE post 0).atEnd = true := by
    simp [CollectionCursorBase.atEnd, cursorAt, hE0]
  have htimes : ∀ n, n < 2 ^ 64 →
      CollectionCursorBase.nextTimes n (cursorAt idE bE post 0)
        = .ok (List.replicate n false, { cursorAt idE bE post 0 with m_curElement := n })
      ∧ ({ cursorAt idE bE post 0 with m_curElement := n } : CollectionCursorBase).atEnd
        = true := by
    intro n hn
    have h := cursorAt_empty_nextTimes idE bE post hE0 n 0 (by omega)
    rw [Nat.zero_add] at h
    exact ⟨h, cursorAt_empty_atEnd idE bE post n hE0⟩
  have hless : (∃ c ∈ post, 1 ≤ chunkElementCount c.2) →
      (cursorPositions pre).length
        < ((pre ++ (idE, bE) :: post).map (fun c => chunkElementCount c.2)).sum := by
    rintro ⟨c, hc, h1⟩
    have hle : chunkElementCount c.2 ≤ (post.map (fun c => chunkElementCount c.2)).sum :=
      List.single_le_sum (fun _ _ => Nat.zero_le _) _ (List.mem_map_of_mem _ hc)
    rw [cursorPositions_length]
    simp only [List.map_append, List.map_cons, List.sum_append, List.sum_cons, hE0]
    omega
  cases pre with
  | nil =>
    obtain ⟨ds, si, hrd⟩ := readChunkHeader_ok bE hE12
    refine ⟨cursorAt idE bE post 0, ?_, ?_, hEend, htimes, cursorPositions_length _, hless⟩
    · simp only [List.nil_append, CollectionCursorBase.new, ChunkCursor.atEnd,
        List.isEmpty_cons, Bool.not_false, if_true, ChunkCursor.get, hrd, cursorAt, hE0]
    · exact drive_at_end fuel _ hEend
  | cons d rest =>
    obtain ⟨id, bytes⟩ := d
    have h12 : 12 ≤ bytes.length := hpre12 (id, bytes) (List.mem_cons_self _ _)
    have h1 : 1 ≤ chunkElementCount bytes := hprecnt (id, bytes) (List.mem_cons_self _ _)
    obtain ⟨ds, si, hrd⟩ := readChunkHeader_ok bytes h12
    obtain ⟨k, hk⟩ : ∃ k, 0 + (k + 1) = chunkElementCount bytes :=
      ⟨chunkElementCount bytes - 1, by omega⟩
    have hd := drive_to_empty_chunk idE bE post hE12 hE0 rest id bytes
      (fun c hc => hpre12 c (List.mem_cons_of_mem _ hc))
      (fun c hc => hprecnt c (List.mem_cons_of_mem _ hc)) k 0 fuel hk
      (by simp at hfuel ⊢; omega)
    refine ⟨cursorAt id bytes (rest ++ (idE, bE) :: post) 0, ?_, ?_, hEend, htimes,
      cursorPositions_length _, hless⟩
    · simp only [List.cons_append, CollectionCursorBase.new, ChunkCursor.atEnd,
        List.isEmpty_cons, Bool.not_false, if_true, ChunkCursor.get, hrd, cursorAt]
    · rw [hd]
      have : k + 1 = chunkElementCount bytes := by omega
      simp [cursorPositions, this]

/-- Witness for C38: a collection of three chunks with 2, 0 and 1 elements: the cursor stands
on the elements 0 and 1 of chunk 1 and stops on chunk 2, three further calls of `next()`
return false, and the element of chunk 3 is never reached: 2 positions for 3 elements. -/
theorem cursor_stops_at_empty_chunk_witness :
    ∃ c0, CollectionCursorBase.new (gapTransaction._openChunkCursor COLLECTION_CLSID 7 false)
        = .ok c0
      ∧ c0.drive 2
        = .ok ([(1, 0), (1, 1)],
            cursorAt 2 [12, 0, 0, 0, 2, 0, 0, 0, 0, 0, 0, 0]
              [(3, [16, 0, 0, 0, 2, 0, 0, 0, 1, 0, 0, 0, 30, 0, 0, 0])] 0)
      ∧ CollectionCursorBase.nextTimes 3
          (cursorAt 2 [12, 0, 0, 0, 2, 0, 0, 0, 0, 0, 0, 0]
            [(3, [16, 0, 0, 0, 2, 0, 0, 0, 1, 0, 0, 0, 30, 0, 0, 0])] 0)
        = .ok ([false, false, false],
            { cursorAt 2 [12, 0, 0, 0, 2, 0, 0, 0, 0, 0, 0, 0]
                [(3, [16, 0, 0, 0, 2, 0, 0, 0, 1, 0, 0, 0, 30, 0, 0, 0])] 0
              with m_curElement := 3 })
      ∧ 2 < ((gapTransaction.store.chunks COLLECTION_CLSID 7).map
              (fun c => chunkElementCount c.2)).sum := by
  obtain ⟨c0, h0, h1, _, h3, _, h5⟩ := cursor_stops_at_empty_chunk gapTransaction 7 2 2
    [12, 0, 0, 0, 2, 0, 0, 0, 0, 0, 0, 0]
    [(1, [20, 0, 0, 0, 0, 0, 0, 0, 2, 0, 0, 0, 10, 0, 0, 0, 20, 0, 0, 0])]
    [(3, [16, 0, 0, 0, 2, 0, 0, 0, 1, 0, 0, 0, 30, 0, 0, 0])]
    (by decide) (by decide) (by decide) (by decide) (by decide) (by decide)
  have hp : cursorPositions
      [(1, ([20, 0, 0, 0, 0, 0, 0, 0, 2, 0, 0, 0, 10, 0, 0, 0, 20, 0, 0, 0] : List byte_t))]
      = [(1, 0), (1, 1)] := by decide
  rw [hp] at h1 h5
  exact ⟨c0, h0, h1, (h3 3 (by norm_num)).1, h5 ⟨_, List.mem_singleton_self _, by decide⟩⟩

/-! ## Elements of other classes in a top-level collection -/

/-- An element whose class is not an instance of `T` costs `loadElements` the object header
only: the loop goes on with the buffer as `readObjectHeader` left it, at the first byte of
the payload of that element. -/
theorem WriteTransaction.loadElements_not_instance {T : Type} (info : AbstractClassInfo)
    (readObject : ReadBuf → Nat → Nat → Except Err (Option T × ReadBuf))
    (n : Nat) (buf buf1 : ReadBuf) (result : List T) (cid oid sz : Nat)
    (hh : readObjectHeader buf = .ok ((cid, oid, sz), buf1))
    (hn : info.isInstance cid = false) :
    WriteTransaction.loadElements info readObject (n + 1) buf result
      = WriteTransaction.loadElements info readObject n buf1 result := by
  simp [WriteTransaction.loadElements, hh, hn]

/-- C39, evaluated at failing inputs: a chunk with a `Square` (3, -5) and then a `Circle`
(1, 2), read as a collection of `Circle`. The header of the square is read at offset 12 and
its payload starts at 28; the header of the circle starts at 36. `loadChunkedCollection`
returns no element: after the square it reads the next header at offset 28, from the payload
of the square, and finds the class id 3. With a square (11, -5) the payload passes for the
header of a circle, and the object returned is made of bytes of the header of the circle.
A chunk with the circle alone, and the two-element chunk read as a collection of `Shape`
with both subclasses known, are loaded as stored. -/
theorem loadChunkedCollection_reads_header_in_payload :
    objectChunkBytes [(12, 1, shapePayload 3 (-5)), (11, 1, shapePayload 1 2)]
        = [60, 0, 0, 0, 0, 0, 0, 0, 2, 0, 0, 0,
           12, 0, 0, 0, 1, 0, 0, 0, 0, 0, 0, 0, 24, 0, 0, 0, 3, 0, 0, 0, 251, 255, 255, 255,
           11, 0, 0, 0, 1, 0, 0, 0, 0, 0, 0, 0, 24, 0, 0, 0, 1, 0, 0, 0, 2, 0, 0, 0]
      ∧ (readObjectHeader
            { data := objectChunkBytes [(12, 1, shapePayload 3 (-5)), (11, 1, shapePayload 1 2)],
              pos := 12 }).map (fun r => (r.1, r.2.pos)) = .ok ((12, 1, 24), 28)
      ∧ (readObjectHeader
            { data := objectChunkBytes [(12, 1, shapePayload 3 (-5)), (11, 1, shapePayload 1 2)],
              pos := 36 }).map (fun r => (r.1, r.2.pos)) = .ok ((11, 1, 24), 52)
      ∧ (readObjectHeader
            { data := objectChunkBytes [(12, 1, shapePayload 3 (-5)), (11, 1, shapePayload 1 2)],
              pos := 28 }).map (fun r => (r.1, r.2.pos)) = .ok ((3, 51539607547, 1), 44)
      ∧ (shapesTransaction [(12, 1, shapePayload 3 (-5)), (11, 1, shapePayload 1 2)]).loadChunkedCollection
            (.mk "Circle" 11 0 []) shapeRead (some { collectionId := 7 })
          = .ok []
      ∧ (shapesTransaction [(12, 1, shapePayload 3 (-5)), (11, 1, shapePayload 1 2)]).loadChunkedCollection
            (.mk "Shape" 10 0 [.mk "Circle" 11 0 []]) shapeRead (some { collectionId := 7 })
          = .ok []
      ∧ (shapesTransaction [(12, 1, shapePayload 11 (-5)), (11, 1, shapePayload 1 2)]).loadChunkedCollection
            (.mk "Circle" 11 0 []) shapeRead (some { collectionId := 7 })
          = .ok [{ x := 0, y := 24 }]
      ∧ (shapesTransaction [(11, 1, shapePayload 1 2)]).loadChunkedCollection
            (.mk "Circle" 11 0 []) shapeRead (some { collectionId := 7 })
          = .ok [{ x := 1, y := 2 }]
      ∧ (shapesTransaction [(12, 1, shapePayload 3 (-5)), (11, 1, shapePayload 1 2)]).loadChunkedCollection
            drawingTraits.info shapeRead (some { collectionId := 7 })
          = .ok [{ x := 3, y := -5 }, { x := 1, y := 2 }] := by
  refine ⟨?_, ?_, ?_, ?_, ?_, ?_, ?_, ?_, ?_⟩ <;> rfl

/-! ## Appender for raw data collections -/

/-- A copy of bytes that do not all lie in the source array never succeeds. -/
theorem WriteTransaction.appendFrom_beyond (tr : WriteTransaction) (src : List byte_t)
    (off n : Nat) (h : src.length < off + n) : ∃ e, tr.appendFrom src off n = .error e := by
  unfold WriteTransaction.appendFrom
  cases tr.writeBuf.allocate n with
  | error e => exact ⟨e, rfl⟩
  | ok r =>
    have : ¬ off + n ≤ src.length := by omega
    simp [this]

/-- Whenever the data is shorter than the free space of the current chunk, and the free space
holds at least one element, `put` reads the free space's worth of bytes from the array: on an
array of `dataSize` bytes the copy leaves the array. -/
theorem DataCollectionAppender.put_short
    (startChunk : CollectionAppenderBase → WriteTransaction → Nat →
      Except Err (CollectionAppenderBase × WriteTransaction))
    (a : CollectionAppenderBase) (wtxn : WriteTransaction) (val : List byte_t)
    (dataSize sizeofT : Nat) (hT : sizeofT ≤ wtxn.writeBuf.avail)
    (hlen : val.length < wtxn.writeBuf.avail) :
    DataCollectionAppender.put startChunk a wtxn val dataSize sizeofT
      = .error (.undefined_behaviour "copy from beyond the end of the source buffer") := by
  have hal : wtxn.writeBuf.allocate wtxn.writeBuf.avail
      = .ok (wtxn.writeBuf.pos, { wtxn.writeBuf with pos := wtxn.writeBuf.pos + wtxn.writeBuf.avail }) := by
    have h := hlen
    simp only [WriteBuf.avail] at h
    simp only [WriteBuf.allocate, WriteBuf.avail]
    rw [if_pos (by omega)]
  have hno : ¬ 0 + wtxn.writeBuf.avail ≤ val.length := by omega
  simp only [DataCollectionAppender.put, if_pos hT, WriteTransaction.appendFrom, hal, if_neg hno]

/-- Whenever the data is shorter than the free space of the current chunk, and the free space
holds at least one element, `put` does not succeed, whatever the array and whatever
`startChunk` does: the remaining size wraps around to more than any array holds. -/
theorem DataCollectionAppender.put_underflow
    (startChunk : CollectionAppenderBase → WriteTransaction → Nat →
      Except Err (CollectionAppenderBase × WriteTransaction))
    (a : CollectionAppenderBase) (wtxn : WriteTransaction) (val : List byte_t)
    (dataSize sizeofT : Nat) (hT : sizeofT ≤ wtxn.writeBuf.avail)
    (hd : dataSize < wtxn.writeBuf.avail) (hav : wtxn.writeBuf.avail < 2 ^ 64)
    (hval : val.length < 2 ^ 64) :
    ∃ e, DataCollectionAppender.put startChunk a wtxn val dataSize sizeofT = .error e := by
  have hw : wrap64 (dataSize + 2 ^ 64 - wrap64 wtxn.writeBuf.avail)
      = dataSize + 2 ^ 64 - wtxn.writeBuf.avail := by
    simp only [wrap64]
    rw [Nat.mod_eq_of_lt hav, Nat.mod_eq_of_lt (by omega)]
  simp only [DataCollectionAppender.put, if_pos hT, hw]
  cases h1 : wtxn.appendFrom val 0 wtxn.writeBuf.avail with
  | error e => exact ⟨e, rfl⟩
  | ok tr1 =>
    have hne : (dataSize + 2 ^ 64 - wtxn.writeBuf.avail != 0) = true := by
      simp only [bne_iff_ne, ne_eq]
      omega
    simp only [hne, if_true]
    generalize startChunk _ tr1 _ = r
    cases r with
    | error e => exact ⟨e, rfl⟩
    | ok r =>
      obtain ⟨a2, tr2⟩ := r
      obtain ⟨e, he⟩ := WriteTransaction.appendFrom_beyond tr2 val wtxn.writeBuf.avail
        (dataSize + 2 ^ 64 - wtxn.writeBuf.avail) (by omega)
      exact ⟨e, by simp only [he]⟩

/-- C40, evaluated at failing inputs: an appender on a chunk with 8 free bytes, elements of
4 bytes, and a `put` of one element (`dataSize` = 4). On an array of just these 4 bytes the
copy of `avail` = 8 bytes leaves the array. On a longer array `put` appends 8 bytes, counts 2
elements, and asks `startChunk` for 2^64 - 4 bytes, the remaining size having wrapped
around; it does not succeed, whatever `startChunk` does. A `put` of 8 bytes, which fill the
free space exactly, appends these bytes and counts 2 elements without a new chunk. -/
theorem data_appender_put_short_data :
    ∃ a tr, dataAppender = .ok (a, tr)
      ∧ tr.writeBuf.avail = 8 ∧ a.m_elementCount = 0
      ∧ (∀ startChunk, DataCollectionAppender.put startChunk a tr [1, 0, 0, 0] 4 4
          = .error (.undefined_behaviour "copy from beyond the end of the source buffer"))
      ∧ (∃ tr1, tr.appendFrom [1, 0, 0, 0, 2, 0, 0, 0, 3, 0, 0, 0, 4, 0, 0, 0] 0 8 = .ok tr1
          ∧ tr1.writeBuf.filled = List.replicate 12 0 ++ [1, 0, 0, 0, 2, 0, 0, 0]
          ∧ ∀ startChunk,
              DataCollectionAppender.put startChunk a tr
                  [1, 0, 0, 0, 2, 0, 0, 0, 3, 0, 0, 0, 4, 0, 0, 0] 4 4
                = match startChunk { a with m_elementCount := 2 } tr1 18446744073709551612 with
                  | .error e => .error e
                  | .ok (a2, tr2) =>
                    match tr2.appendFrom [1, 0, 0, 0, 2, 0, 0, 0, 3, 0, 0, 0, 4, 0, 0, 0] 8
                        18446744073709551612 with
                    | .error e => .error e
                    | .ok tr3 =>
                      .ok ({ a2 with
                        m_elementCount := wrap64 (a2.m_elementCount + 18446744073709551612 / 4) },
                        tr3))
      ∧ (∀ startChunk, ∃ e,
          DataCollectionAppender.put startChunk a tr
              [1, 0, 0, 0, 2, 0, 0, 0, 3, 0, 0, 0, 4, 0, 0, 0] 4 4 = .error e)
      ∧ (∀ startChunk, ∃ tr1,
          DataCollectionAppender.put startChunk a tr [1, 0, 0, 0, 2, 0, 0, 0] 8 4
              = .ok ({ a with m_elementCount := 2 }, tr1)
            ∧ tr1.writeBuf.filled = List.replicate 12 0 ++ [1, 0, 0, 0, 2, 0, 0, 0]) := by
  refine ⟨_, _, rfl, by decide, rfl, ?_, ⟨_, rfl, by decide, fun sc => rfl⟩, ?_, ?_⟩
  · intro sc
    exact DataCollectionAppender.put_short sc _ _ _ 4 4 (by decide) (by decide)
  · intro sc
    exact DataCollectionAppender.put_underflow sc _ _ _ 4 4 (by decide) (by decide)
      (by decide) (by decide)
  · intro sc
    exact ⟨_, rfl, by decide⟩

/-! ## Object ids and objects that point to objects of their own class -/

/-- With the pointer property disabled, `saveObjectLinked` is the `saveObject` of the class
with the embedded properties alone. -/
theorem WriteTransaction.saveObjectLinked_disabled {O : Type} (t : ClassTraits O)
    (next : SelfPtrProperty O) (hd : next.enabled = false) (fuel : Nat)
    (tr : WriteTransaction) (id : Nat) (obj : O) (newObject : Bool) :
    WriteTransaction.saveObjectLinked t next (fuel + 1) t.info tr id obj newObject
      = some ((tr.saveObject t id obj newObject none false).map
          (fun r => (r.objectId, r.info, r.tr))) := by
  unfold WriteTransaction.saveObjectLinked WriteTransaction.saveObject
  have ht : ({ t with info := t.info } : ClassTraits O) = t := rfl
  simp only [ht, hd, Bool.false_eq_true, if_false]
  cases calculateBuffer t obj t.properties with
  | error e => rfl
  | ok n =>
    simp only
    cases (tr.setBuf (WriteBuf.start n)).writeObject t t.info.classId
        (if newObject = true then
          (if newObject = true then t.info.setMaxObjectId (wrap64 (t.info.maxObjectId + 1))
            else t.info).maxObjectId
        else id) obj t.properties false with
    | error e => rfl
    | ok tr2 =>
      simp only
      cases hp : tr2.putData t.info.classId
        (if newObject = true then
          (if newObject = true then t.info.setMaxObjectId (wrap64 (t.info.maxObjectId + 1))
            else t.info).maxObjectId
        else id) 0 tr2.writeBuf with
      | mk b tr4 =>
        cases b <;> rfl

namespace keyed

section fixed
variable {O : Type}

theorem Properties.full_size_keyed : ∀ p : Properties O, p.full_size = p.all.length
  | .mk d none _ _ => by simp [Properties.full_size, Properties.all]
  | .mk d (some s) _ _ => by
    simp [Properties.full_size, Properties.all, Properties.full_size_keyed s]

theorem Properties.get_keyed_initialized :
    ∀ (p : Properties O), p.Initialized → ∀ (px : Nat) (pa : PropertyAccessBase O),
      p.all.get? px = some pa → p.get px = .ok pa
  | .mk d none sp _, hi, px, pa, h => by
    simp only [Properties.Initialized] at hi
    subst hi
    simp only [Properties.all, List.get?_eq_getElem?] at h
    simp [Properties.get, h]
  | .mk d (some s) sp _, hi, px, pa, h => by
    simp only [Properties.Initialized] at hi
    obtain ⟨hsp, hs⟩ := hi
    subst hsp
    simp only [Properties.all] at h
    rw [Properties.get]
    by_cases hpx : px ≥ s.full_size
    · rw [Properties.full_size_keyed] at hpx
      rw [List.get?_eq_getElem?, List.getElem?_append_right hpx] at h
      rw [Properties.full_size_keyed]
      simp [hpx, h]
    · have hlt : px < s.all.length := by
        rw [Properties.full_size_keyed] at hpx
        omega
      rw [List.get?_eq_getElem?, List.getElem?_append_left hlt] at h
      simp only [hpx, if_false]
      exact Properties.get_keyed_initialized s hs px pa (by rw [List.get?_eq_getElem?]; exact h)

theorem Properties.get_keyed_drop (p : Properties O) (hi : p.Initialized) (px : Nat)
    (pa : PropertyAccessBase O) (rest : List (PropertyAccessBase O))
    (h : p.all.drop px = pa :: rest) :
    p.get px = .ok pa ∧ p.all.drop (px + 1) = rest := by
  constructor
  · apply Properties.get_keyed_initialized p hi
    rw [List.get?_eq_getElem?, ← List.head?_drop, h]
    rfl
  · rw [← List.tail_drop, h]
    rfl

theorem ClassTraitsBase.addSize_registered (t : ClassTraits O) (obj : O)
    (pa : PropertyAccessBase O) (size : Nat) (h : Registered t pa) :
    ClassTraitsBase.addSize t obj pa size = .ok (true, size + pa.storage.base.size obj) := by
  unfold ClassTraitsBase.addSize
  by_cases h1 : pa.classId = t.info.classId
  · simp [h1]
  · rcases h with h | ⟨h0, hs⟩
    · exact absurd h h1
    · simp [h1, h0, hs]

/-- The loop of `size` adds up the sizes of the enabled properties. -/
theorem ClassTraitsBase.sizeLoop_sum (t : ClassTraits O) (obj : O)
    (hi : t.properties.Initialized) :
    ∀ (l : List (PropertyAccessBase O)) (px size : Nat),
      t.properties.all.drop px = l → (∀ pa ∈ l, Registered t pa) →
        ClassTraitsBase.sizeLoop t obj l.length px size
          = .ok (size + ((l.filter (fun pa => pa.enabled)).map
              (fun pa => pa.storage.base.size obj)).sum)
  | [], px, size, _, _ => by simp [ClassTraitsBase.sizeLoop]
  | pa :: rest, px, size, hd, hreg => by
    obtain ⟨hget, hrest⟩ := t.properties.get_keyed_drop hi px pa rest hd
    have ih := fun sz => ClassTraitsBase.sizeLoop_sum t obj hi rest (px + 1) sz hrest
      (fun q hq => hreg q (List.mem_cons_of_mem _ hq))
    rw [List.length_cons, ClassTraitsBase.sizeLoop, hget]
    by_cases he : pa.enabled = true
    · simp only [he, Bool.not_true, Bool.false_eq_true, if_false,
        ClassTraitsBase.addSize_registered t obj pa size (hreg pa (List.mem_cons_self _ _)), ih,
        List.filter_cons_of_pos, List.map_cons, List.sum_cons, Nat.add_assoc]
    · simp only [he, Bool.not_false, if_true, ih]
      rw [List.filter_cons_of_neg (by simpa using he)]

/-- A fixed size that is not zero is the start value plus the sizes of the enabled
properties, none of which is embedded in the record with its value. -/
theorem PropertiesImpl.fixedSizeLoop_nz (obj : O) :
    ∀ (l : List (PropertyAccessBase O)) (acc : Nat),
      PropertiesImpl.fixedSizeLoop l acc ≠ 0 →
      PropertiesImpl.fixedSizeLoop l acc
          = acc + ((l.filter (fun pa => pa.enabled)).map
              (fun pa => pa.storage.base.size obj)).sum
        ∧ ∀ pa ∈ l, pa.enabled = true → pa.storage.base.layout ≠ StoreLayout.all_embedded
  | [], acc, _ => by simp [PropertiesImpl.fixedSizeLoop]
  | pa :: rest, acc, hnz => by
    rw [PropertiesImpl.fixedSizeLoop] at hnz ⊢
    by_cases he : pa.enabled = true
    · simp only [he, if_true] at hnz ⊢
      rw [List.filter_cons_of_pos (by simpa using he), List.map_cons, List.sum_cons]
      have key : (pa.storage.base.layout = StoreLayout.all_embedded
            ∧ pa.storage.base.initFixedSize = 0)
          ∨ (pa.storage.base.layout = StoreLayout.embedded_key
            ∧ pa.storage.base.size obj = ObjectKey_sz)
          ∨ (pa.storage.base.layout = StoreLayout.property
            ∧ pa.storage.base.size obj = 0) := by
        cases pa.storage <;> simp [StorageClass.base, StoreAccessBase.initFixedSize]
      rcases key with ⟨hl, hz⟩ | ⟨hl, hsz⟩ | ⟨hl, hsz⟩
      · simp [hl, hz] at hnz
      · simp only [hl] at hnz ⊢
        obtain ⟨h1, h2⟩ := PropertiesImpl.fixedSizeLoop_nz obj rest _ hnz
        refine ⟨by rw [h1, hsz]; omega, ?_⟩
        intro q hq hqe
        rcases List.mem_cons.mp hq with h | h
        · subst h
          rw [hl]
          decide
        · exact h2 q h hqe
      · simp only [hl] at hnz ⊢
        obtain ⟨h1, h2⟩ := PropertiesImpl.fixedSizeLoop_nz obj rest _ hnz
        refine ⟨by rw [h1, hsz]; omega, ?_⟩
        intro q hq hqe
        rcases List.mem_cons.mp hq with h | h
        · subst h
          rw [hl]
          decide
        · exact h2 q h hqe
    · simp only [he, Bool.false_eq_true, if_false] at hnz ⊢
      rw [List.filter_cons_of_neg (by simpa using he)]
      obtain ⟨h1, h2⟩ := PropertiesImpl.fixedSizeLoop_nz obj rest _ hnz
      refine ⟨h1, ?_⟩
      intro q hq hqe
      rcases List.mem_cons.mp hq with h | h
      · subst h
        exact absurd hqe he
      · exact h2 q h hqe

theorem PropertiesImpl.init_sound (obj : O) (d : List (PropertyAccessBase O))
    (sup : Option (Properties O)) (hsup : ∀ s, sup = some s → FixedSizeSound obj s) :
    FixedSizeSound obj (PropertiesImpl.init d sup) := by
  cases sup with
  | none =>
    refine ⟨rfl, ?_⟩
    intro hnz
    simp only [PropertiesImpl.init, Properties.fixedSize, Properties.all] at hnz ⊢
    obtain ⟨h1, h2⟩ := PropertiesImpl.fixedSizeLoop_nz obj d 0 hnz
    exact ⟨by rw [h1, Nat.zero_add], h2⟩
  | some s =>
    obtain ⟨hsi, hs⟩ := hsup s rfl
    by_cases hz : (s.fixedSize == 0) = true
    · have e1 : PropertiesImpl.init d (some s) = .mk d (some s) s.full_size 0 := by
        simp only [PropertiesImpl.init, hz, if_true]
      rw [e1]
      exact ⟨⟨rfl, hsi⟩, fun h => absurd rfl h⟩
    · have e2 : PropertiesImpl.init d (some s)
          = .mk d (some s) s.full_size (PropertiesImpl.fixedSizeLoop d s.fixedSize) := by
        simp only [PropertiesImpl.init, hz, Bool.false_eq_true, if_false]
      have hsnz : s.fixedSize ≠ 0 := by simpa using hz
      obtain ⟨hs1, hs2⟩ := hs hsnz
      rw [e2]
      refine ⟨⟨rfl, hsi⟩, ?_⟩
      intro hnz
      have hnz' : PropertiesImpl.fixedSizeLoop d s.fixedSize ≠ 0 := hnz
      obtain ⟨h1, h2⟩ := PropertiesImpl.fixedSizeLoop_nz obj d s.fixedSize hnz'
      constructor
      · show PropertiesImpl.fixedSizeLoop d s.fixedSize
          = (((s.all ++ d).filter (fun pa => pa.enabled)).map
              (fun pa => pa.storage.base.size obj)).sum
        rw [h1, hs1, List.filter_append, List.map_append, List.sum_append]
      · intro pa hpa he
        rcases List.mem_append.mp hpa with h | h
        · exact hs2 pa h he
        · exact h2 pa h he

theorem initChain_sound (obj : O) :
    ∀ (chain : List (List (PropertyAccessBase O))) (sup : Option (Properties O)),
      (∀ s, sup = some s → FixedSizeSound obj s) →
      ∀ s, initChain sup chain = some s → FixedSizeSound obj s
  | [], sup, hsup, s, h => hsup s h
  | d :: rest, sup, hsup, s, h =>
    initChain_sound obj rest (some (PropertiesImpl.init d sup))
      (fun s1 h1 => by
        cases h1
        exact PropertiesImpl.init_sound obj d sup hsup) s h

end fixed

end keyed

/-- C27: for a class whose table `PropertiesImpl::init` has set up, the tables of its mapped
superclasses (`chain`, topmost first) having been set up by `init` before it, with storages of
any storage class of kvstore.h: when the fixed size that `init` yields is not zero,
`ClassTraitsBase::size(obj)` is that fixed size for every object of the class, and this value
is the sum of the storage sizes of the enabled properties of the class, which is what the
loop that `size` skips computes. Such a class has no enabled property that is embedded in the
record with its value: its enabled properties are keys of mapped objects or live under
property keys. -/
theorem fixed_size_is_sum {O : Type} (chain : List (List (keyed.PropertyAccessBase O)))
    (decl_props : List (keyed.PropertyAccessBase O)) (t : keyed.ClassTraits O) (obj : O)
    (ht : t.properties = keyed.PropertiesImpl.init decl_props (keyed.initChain none chain))
    (hreg : ∀ pa ∈ t.properties.all, keyed.Registered t pa)
    (hnz : t.properties.fixedSize ≠ 0) :
    keyed.ClassTraitsBase.size t obj = .ok t.properties.fixedSize
      ∧ t.properties.fixedSize
          = ((t.properties.all.filter (fun pa => pa.enabled)).map
              (fun pa => pa.storage.base.size obj)).sum
      ∧ keyed.ClassTraitsBase.sizeLoop t obj t.properties.full_size 0 0
          = .ok (((t.properties.all.filter (fun pa => pa.enabled)).map
              (fun pa => pa.storage.base.size obj)).sum)
      ∧ ∀ pa ∈ t.properties.all, pa.enabled = true →
          pa.storage.base.layout ≠ StoreLayout.all_embedded := by
  have hsound : keyed.FixedSizeSound obj t.properties := by
    rw [ht]
    exact keyed.PropertiesImpl.init_sound obj decl_props _
      (keyed.initChain_sound obj chain none (fun s h => by cases h))
  obtain ⟨hi, hs⟩ := hsound
  obtain ⟨h1, h2⟩ := hs hnz
  have hloop : keyed.ClassTraitsBase.sizeLoop t obj t.properties.full_size 0 0
      = .ok (((t.properties.all.filter (fun pa => pa.enabled)).map
          (fun pa => pa.storage.base.size obj)).sum) := by
    rw [keyed.Properties.full_size_keyed]
    have := keyed.ClassTraitsBase.sizeLoop_sum t obj hi t.properties.all 0 0 rfl hreg
    rw [Nat.zero_add] at this
    exact this
  have hsize : keyed.ClassTraitsBase.size t obj = .ok t.properties.fixedSize := by
    have hb : (t.properties.fixedSize != 0) = true := by simpa using hnz
    simp only [keyed.ClassTraitsBase.size, hb, if_true]
  exact ⟨hsize, h1, hloop, h2⟩

/-- Witness for C27: `LabelledEdge` (a key of its own, two keys and a value vector from its
superclass `Edge`) gets the fixed size 3 * 14 = 42 from `init`, and `size` returns 42 for every
object; the class `Point` with its two `int` members gets the fixed size 0. -/
theorem fixed_size_is_sum_witness :
    LabelledEdge.traits.properties.fixedSize = 42
      ∧ keyed.ClassTraitsBase.size LabelledEdge.traits
          { source := 1, target := 2, weights := [5, 6, 7] } = .ok 42
      ∧ keyed.ClassTraitsBase.sizeLoop LabelledEdge.traits
          { source := 1, target := 2, weights := [5, 6, 7] } 4 0 0 = .ok 42
      ∧ (keyed.PropertiesImpl.init Point.storage_classes none).fixedSize = 0 :=
  have h := fixed_size_is_sum [Edge.decl_props] LabelledEdge.decl_props LabelledEdge.traits
    { source := 1, target := 2, weights := [5, 6, 7] } rfl
    (by
      intro pa hpa
      simp only [LabelledEdge.traits, keyed.PropertiesImpl.init, keyed.Properties.all,
        keyed.Properties.fixedSize, Edge.decl_props, LabelledEdge.decl_props,
        List.mem_append, List.mem_cons, List.mem_singleton, List.not_mem_nil, or_false] at hpa
      rcases hpa with (h | h | h) | h <;> subst h
      · exact Or.inr ⟨by decide, by decide⟩
      · exact Or.inr ⟨by decide, by decide⟩
      · exact Or.inr ⟨by decide, by decide⟩
      · exact Or.inl rfl)
    (by decide)
  ⟨rfl, h.1, h.2.2.1, rfl⟩

/-! ## Commit over the table of `CollectionInfo` -/

section objvec
variable {V : Type}

theorem WriteTransaction.setBuf_log (tr : WriteTransaction) (b : WriteBuf) :
    (tr.setBuf b).log = tr.log := rfl

theorem WriteTransaction.saveObject_log (tr : WriteTransaction) (t : ClassTraits V) (id : Nat)
    (obj : V) (newObject : Bool) (r : Saved V) (hi : t.properties.Initialized)
    (h : tr.saveObject t id obj newObject none false = .ok r) :
    ∃ ops, r.tr.log = tr.log ++ ops ∧ ∀ op ∈ ops, ∃ o p, op = .put ⟨t.info.classId, o, p⟩ := by
  unfold WriteTransaction.saveObject at h
  simp only at h
  split at h
  · cases h
  · rename_i size hc
    split at h
    · cases h
    · rename_i tr2 hw
      unfold WriteTransaction.writeObject at hw
      rw [Properties.full_size_eq_length] at hw
      obtain ⟨ops, ho, hm⟩ := WriteTransaction.writeObjectLoop_log t _ _ obj t.properties false
        hi t.properties.all 0 _ tr2 rfl hw
      split at h
      · cases h
      · rename_i tr4 hp
        simp only [Except.ok.injEq] at h
        subst h
        unfold WriteTransaction.putData at hp
        split at hp
        · simp only [Prod.mk.injEq, true_and] at hp
          subst hp
          exact ⟨ops ++ [.put ⟨t.info.classId, _, 0⟩], by
            show tr2.log ++ _ = _
            rw [ho, WriteTransaction.setBuf_log, List.append_assoc], by
            intro op hop
            rcases List.mem_append.mp hop with hm1 | hm1
            · obtain ⟨pa, _, hpa⟩ := hm op hm1
              exact ⟨_, _, hpa⟩
            · exact ⟨_, _, List.mem_singleton.mp hm1⟩⟩
        · simp only [Prod.mk.injEq, Bool.false_eq_true, false_and] at hp

theorem ObjectVectorPropertyStorage.saveLoop_effect (tc : ClassTraits V) (mode : StoreMode)
    (hi : tc.properties.Initialized) (hreg : ∀ pa ∈ tc.properties.all, Registered tc pa)
    (ida : KeyAccess V) (hk : tc.properties.objectIdAccess = some ida) :
    ∀ (val : List V) (info : AbstractClassInfo) (propBuf : WriteBuf) (tr : WriteTransaction),
      info.classId = tc.info.classId → tr.store.full = false →
      propBuf.pos + 14 * val.length ≤ propBuf.data.length →
      ∃ info1 propBuf1 tr1 ops,
        ObjectVectorPropertyStorage.saveLoop tc mode val info propBuf tr
          = .ok (info1, propBuf1, tr1)
        ∧ info1.classId = tc.info.classId ∧ tr1.store.full = false
        ∧ tr1.bufStack = tr.bufStack
        ∧ tr1.log = tr.log ++ ops
        ∧ ∀ op ∈ ops, ∃ o p, op = .put ⟨tc.info.classId, o, p⟩
  | [], info, propBuf, tr, hcls, hf, _ =>
    ⟨info, propBuf, tr, [], rfl, hcls, hf, rfl, (List.append_nil _).symm,
      fun op hop => absurd hop (List.not_mem_nil _)⟩
  | v :: rest, info, propBuf, tr, hcls, hf, hroom => by
    have hreg1 : ∀ pa ∈ ({ tc with info := info } : ClassTraits V).properties.all,
        Registered ({ tc with info := info } : ClassTraits V) pa := by
      intro pa hpa
      rcases hreg pa hpa with h1 | h1
      · exact Or.inl (h1.trans hcls.symm)
      · exact Or.inr h1
    have hstep : ∃ c info1 tr1 ops,
        (if mode != StoreMode.force_buffer then
          if ida.get v != 0 then
            (tr.updateObject { tc with info := info } (ida.get v) v).map
              (fun s => (ida.get v, s.info, s.tr))
          else
            (tr.putObject { tc with info := info } v).map
              (fun s => (s.objectId, s.info, s.tr))
        else (.ok (ida.get v, info, tr) : Except Err (Nat × AbstractClassInfo × WriteTransaction)))
          = .ok (c, info1, tr1)
        ∧ info1.classId = tc.info.classId ∧ tr1.store.full = false
        ∧ tr1.bufStack = tr.bufStack
        ∧ tr1.log = tr.log ++ ops
        ∧ ∀ op ∈ ops, ∃ o p, op = .put ⟨tc.info.classId, o, p⟩ := by
      have key : ∀ (id : Nat) (newObject : Bool),
          ∃ r, tr.saveObject { tc with info := info } id v newObject none false = .ok r
            ∧ r.info.classId = tc.info.classId ∧ r.tr.store.full = false
            ∧ r.tr.bufStack = tr.bufStack
            ∧ ∃ ops, r.tr.log = tr.log ++ ops
              ∧ ∀ op ∈ ops, ∃ o p, op = .put ⟨tc.info.classId, o, p⟩ := by
        intro id newObject
        obtain ⟨r, hr, _, hinfo, _, hfull⟩ :=
          saveObject_effect tr { tc with info := info } id v newObject hi hreg1 hf
        obtain ⟨ops, ho, hm⟩ := WriteTransaction.saveObject_log tr { tc with info := info } id v
          newObject r hi hr
        refine ⟨r, hr, ?_, hfull, WriteTransaction.saveObject_bufStack tr _ id v newObject r hr,
          ops, ho, ?_⟩
        · rw [hinfo]
          cases newObject
          · exact hcls
          · simp only [if_true]
            rw [AbstractClassInfo.classId_set]
            exact hcls
        · intro op hop
          obtain ⟨o, p, hop1⟩ := hm op hop
          exact ⟨o, p, by rw [hop1]; show _ = BackendOp.put ⟨tc.info.classId, o, p⟩; rw [← hcls]⟩
      by_cases hmode : (mode != StoreMode.force_buffer) = true
      · by_cases hc : (ida.get v != 0) = true
        · obtain ⟨r, hr, h1, h2, h3, ops, h4, h5⟩ := key (ida.get v) false
          refine ⟨ida.get v, r.info, r.tr, ops, ?_, h1, h2, h3, h4, h5⟩
          simp only [hmode, hc, if_true, WriteTransaction.updateObject, hr, Except.map]
        · obtain ⟨r, hr, h1, h2, h3, ops, h4, h5⟩ := key 0 true
          refine ⟨r.objectId, r.info, r.tr, ops, ?_, h1, h2, h3, h4, h5⟩
          simp only [hmode, hc, if_true, Bool.false_eq_true, if_false,
            WriteTransaction.putObject, hr, Except.map]
      · refine ⟨ida.get v, info, tr, [], ?_, hcls, hf, rfl, (List.append_nil _).symm,
          fun op hop => absurd hop (List.not_mem_nil _)⟩
        simp only [hmode, Bool.false_eq_true, if_false]
    obtain ⟨c, info1, tr1, ops1, hs, hc1, hf1, hb1, hl1, hm1⟩ := hstep
    have hlen : (StorageKey.bytes ⟨tc.info.classId, c, 0⟩).length = 14 :=
      StorageKey.bytes_length _
    have hroom1 : propBuf.pos + (StorageKey.bytes ⟨tc.info.classId, c, 0⟩).length
        ≤ propBuf.data.length := by
      rw [hlen]
      simp only [List.length_cons] at hroom
      omega
    obtain ⟨info2, propBuf2, tr2, ops2, hs2, hc2, hf2, hb2, hl2, hm2⟩ :=
      ObjectVectorPropertyStorage.saveLoop_effect tc mode hi hreg ida hk rest info1
        { propBuf with
          data := pokeAt propBuf.data propBuf.pos (StorageKey.bytes ⟨tc.info.classId, c, 0⟩)
          pos := propBuf.pos + (StorageKey.bytes ⟨tc.info.classId, c, 0⟩).length }
        tr1 hc1 hf1 (by
          show propBuf.pos + (StorageKey.bytes ⟨tc.info.classId, c, 0⟩).length + 14 * rest.length
            ≤ (pokeAt propBuf.data propBuf.pos (StorageKey.bytes ⟨tc.info.classId, c, 0⟩)).length
          rw [pokeAt_length _ _ _ hroom1, hlen]
          simp only [List.length_cons] at hroom
          omega)
    refine ⟨info2, propBuf2, tr2, ops1 ++ ops2, ?_, hc2, hf2, hb2.trans hb1, ?_, ?_⟩
    · rw [ObjectVectorPropertyStorage.saveLoop]
      simp only [hk, hs, WriteBuf.append_ok propBuf _ hroom1]
      exact hs2
    · rw [hl2, hl1, List.append_assoc]
    · intro op hop
      rcases List.mem_append.mp hop with h | h
      · exact hm1 op h
      · exact hm2 op h

theorem ObjectVectorPropertyStorage.save_vector_effect {T : Type} (m_lazy : Bool) (get : T → List V)
    (tc : ClassTraits V) (mode : StoreMode)
    (hi : tc.properties.Initialized) (hreg : ∀ pa ∈ tc.properties.all, Registered tc pa)
    (ida : KeyAccess V) (hk : tc.properties.objectIdAccess = some ida)
    (tr : WriteTransaction) (info : AbstractClassInfo) (classId objectId : Nat) (obj : T)
    (id : Nat) (hcls : info.classId = tc.info.classId) (hf : tr.store.full = false) :
    ∃ info1 tr1 ops,
      ObjectVectorPropertyStorage.save m_lazy get tc tr info classId objectId obj id mode
        = .ok (info1, tr1)
      ∧ info1.classId = tc.info.classId ∧ tr1.store.full = false
      ∧ tr1.writeBuf = tr.writeBuf
      ∧ tr1.log = tr.log ++ ops
      ∧ ∀ op ∈ ops, (∃ o p, op = .put ⟨tc.info.classId, o, p⟩)
          ∨ op = .put ⟨classId, objectId, id⟩ := by
  unfold ObjectVectorPropertyStorage.save
  by_cases hlazy : (m_lazy && mode == StoreMode.force_none) = true
  · refine ⟨info, tr, [], ?_, hcls, hf, rfl, (List.append_nil _).symm,
      fun op hop => absurd hop (List.not_mem_nil _)⟩
    simp only [hlazy, if_true]
  · obtain ⟨info1, propBuf1, tr1, ops, hs, hc1, hf1, hb1, hl1, hm1⟩ :=
      ObjectVectorPropertyStorage.saveLoop_effect tc mode hi hreg ida hk (get obj) info
        (WriteBuf.start (StorageKey.byteSize * (get obj).length)) tr.pushWriteBuf hcls hf (by
          simp only [WriteBuf.start, List.length_replicate, StorageKey.byteSize, ClassId_sz,
            ObjectId_sz, PropertyId_sz]
          omega)
    have hpop : tr1.popWriteBuf
        = .ok { tr1 with writeBuf := tr.writeBuf, bufStack := tr.bufStack } := by
      have hb : tr1.bufStack = tr.writeBuf :: tr.bufStack := hb1
      simp only [WriteTransaction.popWriteBuf, hb]
    refine ⟨info1, { tr1 with
        writeBuf := tr.writeBuf, bufStack := tr.bufStack
        store := tr1.store.set ⟨classId, objectId, id⟩ propBuf1.filled
        log := tr1.log ++ [.put ⟨classId, objectId, id⟩] },
      ops ++ [.put ⟨classId, objectId, id⟩], ?_, hc1, ?_, ?_, ?_, ?_⟩
    · simp only [hlazy, Bool.false_eq_true, if_false, hs, hpop, WriteTransaction.putData,
        Store.put, hf1]
    · exact hf1
    · rfl
    · show tr1.log ++ _ = _
      rw [hl1, List.append_assoc]
      rfl
    · intro op hop
      rcases List.mem_append.mp hop with h | h
      · exact Or.inl (hm1 op h)
      · exact Or.inr (List.mem_singleton.mp h)

end objvec

theorem writeObject_collectionInfo (registered : Bool) (tc : ClassTraits ChunkInfo)
    (hi : tc.properties.Initialized) (hreg : ∀ pa ∈ tc.properties.all, Registered tc pa)
    (ida : KeyAccess ChunkInfo) (hk : tc.properties.objectIdAccess = some ida)
    (ci : CollectionInfo) (info : AbstractClassInfo) (tr : WriteTransaction)
    (hcls : info.classId = tc.info.classId) (hf : tr.store.full = false) :
    ∃ sz info1 tr2 ops,
      mapped.calculateBuffer (CollectionInfo.traits registered) ci = .ok sz
      ∧ mapped.writeObject (tr.setBuf (WriteBuf.start sz)) (CollectionInfo.traits registered) tc
          info COLLINFO_CLSID ci.collectionId ci false = .ok (info1, tr2)
      ∧ info1.classId = tc.info.classId ∧ tr2.store.full = false
      ∧ tr2.log = tr.log ++ ops
      ∧ ∀ op ∈ ops, (∃ o p, op = .put ⟨tc.info.classId, o, p⟩)
          ∨ op = .put ⟨COLLINFO_CLSID, ci.collectionId, 3⟩ := by
  cases registered with
  | false =>
    exact ⟨0, info, tr.setBuf (WriteBuf.start 0), [], rfl, rfl, hcls,
      by rw [WriteTransaction.setBuf_full]; exact hf, (List.append_nil _).symm,
      fun op hop => absurd hop (List.not_mem_nil _)⟩
  | true =>
    obtain ⟨tr1, hs1, _, _, hf1, _, _⟩ :=
      StoreAccess.save_effect (StoreAccess.base 8 (fun c : CollectionInfo => (c.collectionId : Int)))
        (tr.setBuf (WriteBuf.start 8)) COLLINFO_CLSID ci.collectionId ci
        { name := "collectionId", storage := .objectId, type := { id := 6, byteSize := 8 } }
        StoreMode.force_none rfl (by rw [WriteTransaction.setBuf_full]; exact hf)
        (by simp [WriteTransaction.setBuf, WriteBuf.start, StoreAccess.size])
    have hs2 : ValueTraits.putBytes (tr.setBuf (WriteBuf.start 8)) 8 (ci.collectionId : Int)
        = .ok tr1 := hs1
    have hl1 : tr1.log = tr.log :=
      WriteTransaction.append_log (tr.setBuf (WriteBuf.start 8)) tr1 _ hs2
    obtain ⟨info1, tr2, ops, hsv, hc2, hf2, _, hl2, hm2⟩ :=
      ObjectVectorPropertyStorage.save_vector_effect false (fun c : CollectionInfo => c.chunkInfos) tc
        StoreMode.force_none hi hreg ida hk tr1 info COLLINFO_CLSID ci.collectionId ci 3 hcls hf1
    refine ⟨8, info1, tr2, ops, rfl, ?_, hc2, hf2, by rw [hl2, hl1], hm2⟩
    simp only [mapped.writeObject, CollectionInfo.traits, mapped.writeObjectLoop,
      mapped.ClassTraits.save, mapped.StoreAccess.save, StoreAccess.save,
      AbstractClassInfo.classId, if_true, beq_self_eq_true, Bool.not_true, Bool.false_eq_true,
      if_false, hs2, hsv, Except.map]

theorem WriteTransaction.commitLoop_log (registered : Bool) (tc : ClassTraits ChunkInfo)
    (hi : tc.properties.Initialized) (hreg : ∀ pa ∈ tc.properties.all, Registered tc pa)
    (ida : KeyAccess ChunkInfo) (hk : tc.properties.objectIdAccess = some ida)
    (hc : tc.info.classId ≠ COLLINFO_CLSID) :
    ∀ (cache : List (Nat × CollectionInfo)) (info : AbstractClassInfo) (tr : WriteTransaction),
      info.classId = tc.info.classId → tr.store.full = false →
      ∃ info1 tr1 ops,
        WriteTransaction.commitLoop (CollectionInfo.traits registered) tc cache info tr
          = .ok (info1, tr1)
        ∧ tr1.log = tr.log ++ ops
        ∧ (∀ op ∈ ops, ∃ key, op = .put key)
        ∧ (∀ k, ops.count (.put ⟨COLLINFO_CLSID, k, 0⟩)
            = (cache.map (fun e => e.2.collectionId)).count k)
  | [], info, tr, _, _ =>
    ⟨info, tr, [], rfl, (List.append_nil _).symm, fun op hop => absurd hop (List.not_mem_nil _),
      fun k => rfl⟩
  | (k0, ci) :: rest, info, tr, hcls, hf => by
    obtain ⟨sz, info1, tr2, ops1, hcalc, hw, hc1, hf2, hl2, hm2⟩ :=
      writeObject_collectionInfo registered tc hi hreg ida hk ci info tr hcls hf
    have hput : (tr2.putData COLLINFO_CLSID ci.collectionId 0 tr2.writeBuf).2
        = { tr2 with
            store := tr2.store.set ⟨COLLINFO_CLSID, ci.collectionId, 0⟩ tr2.writeBuf.filled
            log := tr2.log ++ [.put ⟨COLLINFO_CLSID, ci.collectionId, 0⟩] } := by
      simp only [WriteTransaction.putData, Store.put, hf2, Bool.false_eq_true, if_false]
    obtain ⟨info3, tr3, ops3, hc3, hl3, hm3, hn3⟩ :=
      WriteTransaction.commitLoop_log registered tc hi hreg ida hk hc rest info1
        ({ tr2 with
            store := tr2.store.set ⟨COLLINFO_CLSID, ci.collectionId, 0⟩ tr2.writeBuf.filled
            log := tr2.log ++ [.put ⟨COLLINFO_CLSID, ci.collectionId, 0⟩] })
        hc1 (by rw [Store.set_full]; exact hf2)
    refine ⟨info3, tr3, ops1 ++ [.put ⟨COLLINFO_CLSID, ci.collectionId, 0⟩] ++ ops3, ?_, ?_, ?_,
      ?_⟩
    · rw [WriteTransaction.commitLoop, hcalc]
      simp only [hw, hput]
      exact hc3
    · rw [hl3]
      show tr2.log ++ _ ++ ops3 = _
      rw [hl2]
      simp only [List.append_assoc]
    · intro op hop
      rcases List.mem_append.mp hop with hm | hm
      · rcases List.mem_append.mp hm with hm | hm
        · rcases hm2 op hm with ⟨o, p, h⟩ | h
          · exact ⟨_, h⟩
          · exact ⟨_, h⟩
        · exact ⟨_, List.mem_singleton.mp hm⟩
      · exact hm3 op hm
    · intro k
      have hz : ops1.count (.put ⟨COLLINFO_CLSID, k, 0⟩) = 0 := by
        rw [List.count_eq_zero]
        intro hmem
        rcases hm2 _ hmem with ⟨o, p, h⟩ | h
        · injection h with hkey
          injection hkey with h1 _ _
          exact hc h1.symm
        · injection h with hkey
          injection hkey with _ _ h3
          exact absurd h3 (by decide)
      rw [List.count_append, List.count_append, hz, hn3, List.map_cons, List.count_singleton,
        List.count_cons]
      by_cases hk1 : ci.collectionId = k
      · subst hk1
        simp
        omega
      · have hne : ¬ ((BackendOp.put ⟨COLLINFO_CLSID, ci.collectionId, 0⟩)
            = (BackendOp.put ⟨COLLINFO_CLSID, k, 0⟩)) := by
          intro heq
          injection heq with hkey
          injection hkey with _ h2 _
          exact hk1 h2
        simp [hk1, hne]

/-- C20: `WriteTransaction::commit` over the table `ClassTraits<CollectionInfo>` of
kvstore.cpp, whose property `chunkInfos` is an object vector of `ChunkInfo`, registered or
not. For a `ClassTraits<ChunkInfo>` that is initialized and registered, has a key property
and a class id other than `COLLINFO_CLSID`, and a backend that accepts the puts, `commit`
returns; what it adds to the log of backend calls is a list of puts followed by the one
`doCommit`; among the puts there are, for every collection id `k`, as many under the key
`(COLLINFO_CLSID, k, 0)` as there are collection infos with the id `k` in the cache, which
is exactly one for each cached collection info when the cached ids are distinct; and the
cache is empty afterwards. -/
theorem commit_puts_collection_infos (tr : WriteTransaction) (registered : Bool)
    (tc : ClassTraits ChunkInfo)
    (hi : tc.properties.Initialized)
    (hreg : ∀ pa ∈ tc.properties.all, Registered tc pa)
    (hk : tc.properties.objectIdAccess.isSome = true)
    (hc : tc.info.classId ≠ COLLINFO_CLSID)
    (hf : tr.store.full = false) :
    ∃ info1 tr1 ops, tr.commit (CollectionInfo.traits registered) tc = .ok (info1, tr1)
      ∧ tr1.m_collectionInfos = []
      ∧ tr1.log = tr.log ++ ops ++ [.commit]
      ∧ (∀ op ∈ ops, ∃ key, op = .put key)
      ∧ (∀ k, ops.count (.put ⟨COLLINFO_CLSID, k, 0⟩)
          = (tr.m_collectionInfos.map (fun e => e.2.collectionId)).count k)
      ∧ ((tr.m_collectionInfos.map (fun e => e.2.collectionId)).Nodup →
          ∀ e ∈ tr.m_collectionInfos,
            ops.count (.put ⟨COLLINFO_CLSID, e.2.collectionId, 0⟩) = 1) := by
  obtain ⟨ida, hida⟩ := Option.isSome_iff_exists.mp hk
  obtain ⟨info1, tr1, ops, hcm, ho, hm, hn⟩ :=
    WriteTransaction.commitLoop_log registered tc hi hreg ida hida hc tr.m_collectionInfos
      tc.info tr rfl hf
  refine ⟨info1, ({ tr1 with m_collectionInfos := [] } : WriteTransaction).doCommit, ops, ?_,
    rfl, ?_, hm, hn, ?_⟩
  · simp only [WriteTransaction.commit, hcm]
  · show tr1.log ++ [BackendOp.commit] = _
    rw [ho]
  · intro hnd e he
    rw [hn]
    exact List.count_eq_one_of_mem hnd (List.mem_map_of_mem (fun e => e.2.collectionId) he)

theorem commit_puts_collection_infos_witness :
    ∃ info1 tr1 ops,
      twoInfosTransaction.commit (CollectionInfo.traits true) ChunkInfo.traits = .ok (info1, tr1)
      ∧ tr1.m_collectionInfos = []
      ∧ tr1.log = [] ++ ops ++ [.commit]
      ∧ ops.count (.put ⟨COLLINFO_CLSID, 1, 0⟩) = 1
      ∧ ops.count (.put ⟨COLLINFO_CLSID, 2, 0⟩) = 1
      ∧ tr1.log = [.put ⟨3, 1, 0⟩, .put ⟨COLLINFO_CLSID, 1, 3⟩, .put ⟨COLLINFO_CLSID, 1, 0⟩,
          .put ⟨3, 2, 0⟩, .put ⟨3, 3, 0⟩, .put ⟨COLLINFO_CLSID, 2, 3⟩,
          .put ⟨COLLINFO_CLSID, 2, 0⟩, .commit]
      ∧ tr1.getData COLLINFO_CLSID 2 0 = some [2, 0, 0, 0, 0, 0, 0, 0]
      ∧ tr1.getData COLLINFO_CLSID 2 3
          = some [3, 0, 0, 0, 2, 0, 0, 0, 0, 0, 0, 0, 0, 0, 3, 0, 0, 0, 3, 0, 0, 0, 0, 0, 0, 0,
              0, 0] := by
  obtain ⟨info1, tr1, ops, h1, h2, h3, _, _, h6⟩ := commit_puts_collection_infos
    twoInfosTransaction true ChunkInfo.traits (by exact rfl)
    (by
      intro pa hpa
      simp only [ChunkInfo.traits, Properties.all, List.mem_cons, List.mem_singleton,
        List.not_mem_nil, or_false] at hpa
      rcases hpa with h | h | h | h <;> subst h <;> exact Or.inl rfl)
    rfl (by decide) rfl
  have e1 : (twoInfosTransaction.commit (CollectionInfo.traits true) ChunkInfo.traits).toOption.map
      (fun r => (r.2.log, r.2.getData COLLINFO_CLSID 2 0, r.2.getData COLLINFO_CLSID 2 3))
      = some ([.put ⟨3, 1, 0⟩, .put ⟨COLLINFO_CLSID, 1, 3⟩, .put ⟨COLLINFO_CLSID, 1, 0⟩,
          .put ⟨3, 2, 0⟩, .put ⟨3, 3, 0⟩, .put ⟨COLLINFO_CLSID, 2, 3⟩,
          .put ⟨COLLINFO_CLSID, 2, 0⟩, .commit],
        some [2, 0, 0, 0, 0, 0, 0, 0],
        some [3, 0, 0, 0, 2, 0, 0, 0, 0, 0, 0, 0, 0, 0, 3, 0, 0, 0, 3, 0, 0, 0, 0, 0, 0, 0,
          0, 0]) := rfl
  rw [h1] at e1
  have e2 := Option.some.inj e1
  exact ⟨info1, tr1, ops, h1, h2, h3, h6 (by decide) (1, slackInfo) (by decide),
    h6 (by decide) _ (List.mem_cons_of_mem _ (List.mem_cons_self _ _)),
    congrArg (fun x => x.1) e2, congrArg (fun x => x.2.1) e2, congrArg (fun x => x.2.2) e2⟩

end flexis
